import Mathlib

/-!
# ECMAScript Date arithmetic of `qv4dateobject.cpp`

A shallow embedding of the calendrical functions, the formatters, the
primary scan of the date parser, the timestamp storage and the setters and
constructor paths of `src/qml/jsruntime/qv4dateobject.cpp`.

## Number model

The C++ code computes on `double`.  The calendrical layer is embedded twice.

Over `Int` (this section): every value it handles is taken as an integer that
binary64 holds exactly, on which addition, subtraction, multiplication,
`::floor` and `::fmod` are exact.  This is what the source computes on
timestamps, which have magnitude at most `8.64e15 < 2^53`, and in `MakeDay` on
normalised years of magnitude up to 1,000,000 with a month of magnitude up to
`2^53`.  For integers `t`, `d` with `|t| < 2^53` and `d > 0`, a quotient
`t / d` that is not an integer lies at least `1 / d` from the nearest integer,
which is more than half an ulp of the quotient, so `::floor(t / d)` is the
floor of the exact quotient: it is embedded as `Int` division (which rounds
down for a positive divisor).  Inside `MakeDay`, for years of magnitude up to
1,000,000, the times are multiples of `43200000 = 2^9 * 84375` below `2^55`,
again exact, and their quotients by the mean year are multiples of
`1 / 146097`, so the same holds.  `::fmod` keeps the sign of the dividend:
`Int.tmod`.  A NaN result is `none` of `Option Int`.  The `int` variables
are unbounded integers; where the source casts to `int`, the theorems show
the value to fit.  Beyond these magnitudes the functions over `Int` are the
exact arithmetic, not the source: the source rounds, overflows, or converts
to `int` a value outside its range.

In binary64 (section "The calendrical functions in binary64"): `MakeTime`,
`DayFromYear`, `YearFromTime` and the other functions that `MakeDay` is built
from are embedded on the type `Dbl` with every operation rounded to the
nearest double, and a conversion to `int` that has a result only within the
range of `int`.  Theorems `fields_dbl_of_timestamp` (year, day, month and
date of every timestamp of the storage range), `DayFromYear_dbl`,
`YearFromTime_dbl` and `MakeDay_dbl` show that the two embeddings agree
within the magnitudes above; the theorems on arguments of arbitrary magnitude
are stated on the binary64 functions.

Values that cross the storage boundary (`TimeClip`, `Date::encode`), where
fractions, infinities, NaN and the sign of zero matter, are embedded over
the type `Dbl` below.  A `QString` is the list of its UTF-16 code units.
-/

namespace QV4

/-! ## Constants (lines 18-24) -/

def HoursPerDay : Int := 24
def MinutesPerHour : Int := 60
def SecondsPerMinute : Int := 60
def msPerSecond : Int := 1000
def msPerMinute : Int := 60000
def msPerHour : Int := 3600000
def msPerDay : Int := 86400000

/-- The divisor `msPerDay * 365.2425` of `YearFromTime`: the binary64 product
`86400000.0 * 365.2425` is exactly `31556952000.0`. -/
def msPerMeanYear : Int := 31556952000

/-- C `::fmod` on integer-valued doubles: the remainder has the sign of the
dividend. -/
def fmod (x y : Int) : Int := Int.tmod x y

/-- Conversion of a C++ `bool` to a number, as in `double l = InLeapYear(t)`. -/
def boolToNum (b : Bool) : Int := if b then 1 else 0

/-! ## Calendrical functions (lines 26-259) -/

def TimeWithinDay (t : Int) : Int :=
  let r := fmod t msPerDay
  if r ≥ 0 then r else r + msPerDay

def HourFromTime (t : Int) : Int :=
  let r := fmod (t / msPerHour) HoursPerDay
  if r ≥ 0 then r else r + HoursPerDay

def MinFromTime (t : Int) : Int :=
  let r := fmod (t / msPerMinute) MinutesPerHour
  if r ≥ 0 then r else r + MinutesPerHour

def SecFromTime (t : Int) : Int :=
  let r := fmod (t / msPerSecond) SecondsPerMinute
  if r ≥ 0 then r else r + SecondsPerMinute

def msFromTime (t : Int) : Int :=
  let r := fmod t msPerSecond
  if r ≥ 0 then r else r + msPerSecond

def Day (t : Int) : Int := t / msPerDay

def DaysInYear (y : Int) : Int :=
  if fmod y 4 ≠ 0 then 365
  else if fmod y 100 ≠ 0 then 366
  else if fmod y 400 ≠ 0 then 365
  else 366

/-- Source function `DayFromYear` in exact arithmetic: the binary64 sums and quotients of
the source give this value for years of magnitude up to `2 * 10^13` (theorem
`DayFromYear_dbl`) and round beyond (`Dbl.DayFromYear`). -/
def DayFromYear (y : Int) : Int :=
  365 * (y - 1970) + (y - 1969) / 4 - (y - 1901) / 100 + (y - 1601) / 400

def TimeFromYear (y : Int) : Int := msPerDay * DayFromYear y

/-- The first guess of `YearFromTime`: `y = 1970 + (int) ::floor(t / (msPerDay * 365.2425))`. -/
def yearEstimate (t : Int) : Int := 1970 + t / msPerMeanYear

/-- Source function `YearFromTime` with the `int` variable `y` as an unbounded integer:
the source's value wherever the year estimate is within the range of `int` and the
doubles are exact, as on the timestamps of the storage range (theorem
`fields_dbl_of_timestamp`) and on the multiples of half a day up to `4.32 * 10^16`
(theorem `YearFromTime_dbl`); beyond the range of `int` the source has no defined
result (`Dbl.YearFromTime`). -/
def YearFromTime (t : Int) : Int :=
  let y := yearEstimate t
  let t2 := TimeFromYear y
  if t2 > t then y - 1
  else if t2 + msPerDay * DaysInYear y ≤ t then y + 1
  else y

def InLeapYear (t : Int) : Bool :=
  let x := DaysInYear (YearFromTime t)
  if x = 365 then false else true

def DayWithinYear (t : Int) : Int := Day t - DayFromYear (YearFromTime t)

/-- Source function `MonthFromTime`; `none` is the NaN of the final `return qt_qnan()`. -/
def MonthFromTime (t : Int) : Option Int :=
  let d := DayWithinYear t
  let l := boolToNum (InLeapYear t)
  if d < 31 then some 0
  else if d < 59 + l then some 1
  else if d < 90 + l then some 2
  else if d < 120 + l then some 3
  else if d < 151 + l then some 4
  else if d < 181 + l then some 5
  else if d < 212 + l then some 6
  else if d < 243 + l then some 7
  else if d < 273 + l then some 8
  else if d < 304 + l then some 9
  else if d < 334 + l then some 10
  else if d < 365 + l then some 11
  else none

/-- Source function `DateFromTime`; `(int) Value::toInteger(MonthFromTime(t))` turns a NaN
month into `0`, and `none` is the NaN after the `switch`. -/
def DateFromTime (t : Int) : Option Int :=
  let m := (MonthFromTime t).getD 0
  let d := DayWithinYear t
  let l := boolToNum (InLeapYear t)
  if m = 0 then some (d + 1)
  else if m = 1 then some (d - 30)
  else if m = 2 then some (d - 58 - l)
  else if m = 3 then some (d - 89 - l)
  else if m = 4 then some (d - 119 - l)
  else if m = 5 then some (d - 150 - l)
  else if m = 6 then some (d - 180 - l)
  else if m = 7 then some (d - 211 - l)
  else if m = 8 then some (d - 242 - l)
  else if m = 9 then some (d - 272 - l)
  else if m = 10 then some (d - 303 - l)
  else if m = 11 then some (d - 333 - l)
  else none

def WeekDay (t : Int) : Int :=
  let r := fmod (Day t + 4) 7
  if r ≥ 0 then r else r + 7

/-- Source function `MakeTime` on finite integer arguments (`Value::toInteger` is the
identity on them). -/
def MakeTime (hour min sec ms : Int) : Int :=
  ((hour * MinutesPerHour + min) * SecondsPerMinute + sec) * msPerSecond + ms

/-- Source function `DayFromMonth`; `none` is the NaN after the `switch`. -/
def DayFromMonth (month : Int) (leap : Int) : Option Int :=
  if month = 0 then some 0
  else if month = 1 then some 31
  else if month = 2 then some (59 + leap)
  else if month = 3 then some (90 + leap)
  else if month = 4 then some (120 + leap)
  else if month = 5 then some (151 + leap)
  else if month = 6 then some (181 + leap)
  else if month = 7 then some (212 + leap)
  else if month = 8 then some (243 + leap)
  else if month = 9 then some (273 + leap)
  else if month = 10 then some (304 + leap)
  else if month = 11 then some (334 + leap)
  else none

/-- The body of `MakeDay` after the finiteness test, on integer arguments
(`Value::toInteger` is the identity on them), in exact arithmetic.  `none` is NaN.
It is the source's value for a month of magnitude up to `2^53`, a normalised year of
magnitude up to 1,000,000 and a day of magnitude up to `2^52` (theorem `MakeDay_dbl`);
beyond, the source's quotient `month / 12.0` rounds and its year estimate leaves the
range of `int` (`Dbl.MakeDay`). -/
def makeDayFinite (year month day : Int) : Option Int :=
  let year := year + month / 12
  let month := fmod month 12
  let month := if month < 0 then month + 12 else month
  let first := DayFromYear year
  let leap := InLeapYear ((first + 60) * msPerDay)
  match DayFromMonth month (boolToNum leap) with
  | none => none
  | some dm =>
    let first := first + dm
    let t := first * msPerDay + msPerDay / 2
    if YearFromTime t ≠ year ∨ MonthFromTime t ≠ some month ∨ DateFromTime t ≠ some 1 then
      none
    else
      some (first + day - 1)

/-- Source function `MakeDay`: a non-finite argument (`none`) gives NaN. -/
def MakeDay (year month day : Option Int) : Option Int :=
  match year, month, day with
  | some y, some m, some d => makeDayFinite y m d
  | _, _, _ => none

/-- Source function `MakeDate`: `day * msPerDay + time`, NaN when an operand is NaN. -/
def MakeDate (day time : Option Int) : Option Int :=
  match day, time with
  | some d, some t => some (d * msPerDay + t)
  | _, _ => none

/-- The constant `Date::MaxDateVal`, `8.64e15`. -/
def MaxDateVal : Int := 8640000000000000

/-! ## Doubles at the storage boundary -/

/-- A binary64 value: NaN, an infinity, negative zero, or a finite value other
than negative zero, given by its exact rational value (`fin 0` is `+0`).
Every finite double is such a rational; the operations below (comparison,
`fabs`, truncation, adding zero) are exact on doubles. -/
inductive Dbl where
  | nan
  | posInf
  | negInf
  | negZero
  | fin (q : ℚ)
  deriving DecidableEq

namespace Dbl

/-- The double of an integer-valued number of the calendrical layer, NaN for `none`. -/
def ofNum : Option Int → Dbl
  | none => nan
  | some n => fin (n : ℚ)

def isNaN : Dbl → Bool
  | nan => true
  | _ => false

def isFinite : Dbl → Bool
  | negZero => true
  | fin _ => true
  | _ => false

def fabs : Dbl → Dbl
  | nan => nan
  | posInf => posInf
  | negInf => posInf
  | negZero => fin 0
  | fin q => fin |q|

/-- The comparison `a > b` of doubles; false when an operand is NaN, and the
two zeros are equal. -/
def gt : Dbl → Dbl → Bool
  | nan, _ => false
  | _, nan => false
  | posInf, posInf => false
  | posInf, _ => true
  | _, posInf => false
  | negInf, _ => false
  | _, negInf => true
  | negZero, negZero => false
  | negZero, fin q => decide (0 > q)
  | fin p, negZero => decide (p > 0)
  | fin p, fin q => decide (p > q)

/-- The sum `x + 0` with the `int` constant `0` (that is `+0.0`): exact, and
`-0 + 0` is `+0` in the default rounding mode. -/
def addZero : Dbl → Dbl
  | negZero => fin 0
  | x => x

/-- The conversion `qint64(value)` of a finite double within the range of
`qint64`: truncation toward zero.  (The conversion of NaN or an infinity is
undefined in C++; `encode` does not reach it.) -/
def toQint64 : Dbl → Int
  | fin q => if 0 ≤ q then ⌊q⌋ else ⌈q⌉
  | _ => 0

end Dbl

/-- Modelled from the spec: `QV4::Value::toInteger(double)` is declared in
qv4value_p.h, which is not among the sources.  The spec (4.1) has each argument
"truncated toward zero (integer part)"; as ECMAScript ToInteger it sends NaN
to `+0` and keeps infinities and zeros, and a negative fraction above `-1`
truncates to negative zero. -/
def toInteger : Dbl → Dbl
  | Dbl.nan => Dbl.fin 0
  | Dbl.posInf => Dbl.posInf
  | Dbl.negInf => Dbl.negInf
  | Dbl.negZero => Dbl.negZero
  | Dbl.fin q =>
    if 0 ≤ q then Dbl.fin (⌊q⌋ : Int)
    else if ⌈q⌉ = 0 then Dbl.negZero
    else Dbl.fin (⌈q⌉ : Int)

def TimeClip (t : Dbl) : Dbl :=
  if !t.isFinite || (t.fabs).gt (Dbl.fin (MaxDateVal : Int)) then Dbl.nan
  else (toInteger t).addZero

/-- The constants `InvalidDateVal` and `Extra` of `Heap::Date`, declared in
qv4dateobject_p.h, which is not among the sources: parameters of the storage
functions. -/
structure StorageConsts where
  InvalidDateVal : Nat
  Extra : Nat

/-- Source function `Date::encode(double)`; `quint64` arithmetic is modulo `2^64`. -/
def encode (c : StorageConsts) (value : Dbl) : Nat :=
  if value.isNaN || (value.fabs).gt (Dbl.fin (MaxDateVal : Int)) then c.InvalidDateVal
  else
    let encoded : Nat := ((value.toQint64 + MaxDateVal) % 2 ^ 64).toNat
    (encoded + c.Extra) % 2 ^ 64

/-- Modelled from the spec: the decoding `Date::operator double()` is defined in
qv4dateobject_p.h, which is not among the sources.  The spec (3): "Decoding
reverses the arithmetic; an `InvalidDateVal` sentinel represents NaN." -/
def decode (c : StorageConsts) (encoded : Nat) : Dbl :=
  if encoded = c.InvalidDateVal then Dbl.nan
  else Dbl.fin (((encoded : Int) - c.Extra - MaxDateVal : Int) : ℚ)

/-! ## Arithmetic of doubles (binary64)

The sum, the product and the quotient below are those of IEEE 754 binary64
in the default rounding mode: the exact result rounded to the nearest
double, ties to the even significand, with the signs of zero, the infinities
and the overflow to an infinity.  On integers of magnitude up to `2^53` they
are exact. -/

/-- Rounding of a rational to the nearest integer, a tie to the even one. -/
def roundHalfEven (q : ℚ) : Int :=
  let f := ⌊q⌋
  if q - f < 1 / 2 then f
  else if 1 / 2 < q - f then f + 1
  else if f % 2 = 0 then f else f + 1

namespace Dbl

/-- The rational value of a finite double (`0` for both zeros; `0` also for
the values that are not finite). -/
def toRat : Dbl → ℚ
  | fin q => q
  | _ => 0

/-- The sign bit of a double that is not NaN. -/
def signBit : Dbl → Bool
  | negInf => true
  | negZero => true
  | fin q => decide (q < 0)
  | _ => false

/-- A zero of the given sign. -/
def zero (negative : Bool) : Dbl := if negative then negZero else fin 0

/-- An infinity of the given sign. -/
def infinity (negative : Bool) : Dbl := if negative then negInf else posInf

def isInf : Dbl → Bool
  | posInf => true
  | negInf => true
  | _ => false

def isZero : Dbl → Bool
  | negZero => true
  | fin q => decide (q = 0)
  | _ => false

/-- The double nearest to a rational `q` other than zero, a tie going to the even
significand: the significand has 53 bits, so the spacing at `q` is
`2^(e - 52)` with `e` the binary exponent of `q`, at least `-1022`; a magnitude
that rounds to `2^1024` or more is an infinity, and one that rounds to zero is
a zero of the sign of `q`. -/
def round (q : ℚ) : Dbl :=
  if q = 0 then fin 0
  else
    let e : Int := max (Int.log 2 |q|) (-1022)
    let ulp : ℚ := (2 : ℚ) ^ (e - 52)
    let r : ℚ := (roundHalfEven (q / ulp) : ℚ) * ulp
    if (2 : ℚ) ^ (1024 : Int) ≤ |r| then infinity (decide (q < 0))
    else if r = 0 then zero (decide (q < 0))
    else fin r

/-- The product `a * b`. -/
def mul (a b : Dbl) : Dbl :=
  if a.isNaN || b.isNaN then nan
  else if (a.isInf && b.isZero) || (a.isZero && b.isInf) then nan
  else if a.isInf || b.isInf then infinity (xor a.signBit b.signBit)
  else if a.toRat * b.toRat = 0 then zero (xor a.signBit b.signBit)
  else round (a.toRat * b.toRat)

/-- The sum `a + b`; a zero sum is `-0` only when both terms are `-0`. -/
def add (a b : Dbl) : Dbl :=
  if a.isNaN || b.isNaN then nan
  else if a.isInf && b.isInf then (if a.signBit = b.signBit then a else nan)
  else if a.isInf then a
  else if b.isInf then b
  else if a.toRat + b.toRat = 0 then zero (a.isZero && b.isZero && a.signBit && b.signBit)
  else round (a.toRat + b.toRat)

/-- The negation `-a`. -/
def neg : Dbl → Dbl
  | nan => nan
  | posInf => negInf
  | negInf => posInf
  | negZero => fin 0
  | fin q => if q = 0 then negZero else fin (-q)

/-- The difference `a - b`, the sum of `a` and `-b`. -/
def sub (a b : Dbl) : Dbl := add a (neg b)

/-- The quotient `a / b`. -/
def div (a b : Dbl) : Dbl :=
  if a.isNaN || b.isNaN then nan
  else if (a.isInf && b.isInf) || (a.isZero && b.isZero) then nan
  else if a.isInf || b.isZero then infinity (xor a.signBit b.signBit)
  else if b.isInf || a.isZero then zero (xor a.signBit b.signBit)
  else round (a.toRat / b.toRat)

/-- The function `::floor`: the largest integer not above, exact on every double. -/
def floor : Dbl → Dbl
  | fin q => fin ((⌊q⌋ : Int) : ℚ)
  | x => x

end Dbl

/-- Source function `MakeTime` on doubles: NaN when an argument is not finite, else
the arguments are truncated by `Value::toInteger` and combined. -/
def Dbl.MakeTime (hour min sec ms : Dbl) : Dbl :=
  if !hour.isFinite || !min.isFinite || !sec.isFinite || !ms.isFinite then Dbl.nan
  else
    let hour := toInteger hour
    let min := toInteger min
    let sec := toInteger sec
    let ms := toInteger ms
    Dbl.add (Dbl.mul (Dbl.add (Dbl.mul (Dbl.add (Dbl.mul hour (Dbl.fin 60)) min) (Dbl.fin 60)) sec)
      (Dbl.fin 1000)) ms

/-- The spec's truncation toward zero ("integer part") of a rational. -/
def truncToZero (q : ℚ) : Int := if 0 ≤ q then ⌊q⌋ else ⌈q⌉

/-! ## Strings, the ISO formatter (lines 1533-1586) -/

/-- A `QString`: the sequence of its `QChar`s, each a UTF-16 code unit given
by its number. -/
abbrev QString := List Nat

/-- The `QString` of a string literal (of characters of the basic plane). -/
def qstr (s : String) : QString := s.toList.map Char.toNat

/-- The errors a method raises. -/
inductive JsError where
  | typeError
  | rangeError
  deriving DecidableEq

/-- The character `QChar(num % 10 + '0')`; `%` on `int` truncates. -/
def digitQChar (num : Int) : Nat := ((Int.tmod num 10 + 48) % 65536).toNat

/-- The digits the loop of `addZeroPrefixedInt` writes, from the last
position backwards, into the `nDigits` places appended to the string. -/
def zeroPrefixedDigits : Int → Nat → QString
  | _, 0 => []
  | num, nDigits + 1 => zeroPrefixedDigits (Int.tdiv num 10) nDigits ++ [digitQChar num]

def addZeroPrefixedInt (str : QString) (num : Int) (nDigits : Nat) : QString :=
  str ++ zeroPrefixedDigits num nDigits

/-- The part of the ISO string after the year: the appends of
`method_toISOString` from the first `'-'` on.  Month and date are never NaN
(`month_date_of_time`); the embedding puts `0` for `(int)` of a NaN. -/
def isoTail (result : QString) (t : Int) : QString :=
  let result := result ++ ['-'.toNat]
  let result := addZeroPrefixedInt result ((MonthFromTime t).getD 0 + 1) 2
  let result := result ++ ['-'.toNat]
  let result := addZeroPrefixedInt result ((DateFromTime t).getD 0) 2
  let result := result ++ ['T'.toNat]
  let result := addZeroPrefixedInt result (HourFromTime t) 2
  let result := result ++ [':'.toNat]
  let result := addZeroPrefixedInt result (MinFromTime t) 2
  let result := result ++ [':'.toNat]
  let result := addZeroPrefixedInt result (SecFromTime t) 2
  let result := result ++ ['.'.toNat]
  let result := addZeroPrefixedInt result (msFromTime t) 3
  result ++ ['Z'.toNat]

/-- Source function `DatePrototype::method_toISOString` on the timestamp `t` of a Date receiver
(`none` is NaN). -/
def method_toISOString (t : Option Int) : Except JsError QString :=
  match t with
  | none => Except.error JsError.rangeError
  | some t =>
    let year := YearFromTime t
    if year < 0 ∨ year > 9999 then
      if year.natAbs ≥ 1000000 then Except.error JsError.rangeError
      else
        let result : QString := [if year < 0 then '-'.toNat else '+'.toNat]
        let result := addZeroPrefixedInt result (year.natAbs : Int) 6
        Except.ok (isoTail result t)
    else
      let result := addZeroPrefixedInt [] year 4
      Except.ok (isoTail result t)

/-- The spec's "zero-padded digits": the decimal digits of `n`, most
significant first, padded on the left with `'0'` to `width` characters. -/
def zeroPadded (n width : Nat) : QString :=
  let ds := (Nat.digits 10 n).reverse
  (List.replicate (width - ds.length) 0 ++ ds).map (fun d => d + '0'.toNat)

/-- The spec's year field of the ISO string: `YYYY` for a year in `[0, 9999]`,
otherwise a sign and six digits of the magnitude. -/
def isoYearField (year : Int) : QString :=
  if 0 ≤ year ∧ year ≤ 9999 then zeroPadded year.toNat 4
  else (if year < 0 then '-'.toNat else '+'.toNat) :: zeroPadded year.natAbs 6

/-- The spec's ISO string `YYYY-MM-DDTHH:mm:ss.sssZ` of calendar fields
(`month` counted from 0). -/
def isoFormat (year month day hour minute second ms : Int) : QString :=
  isoYearField year ++ ['-'.toNat] ++ zeroPadded (month + 1).toNat 2 ++ ['-'.toNat] ++
    zeroPadded day.toNat 2 ++ ['T'.toNat] ++ zeroPadded hour.toNat 2 ++ [':'.toNat] ++
    zeroPadded minute.toNat 2 ++ [':'.toNat] ++ zeroPadded second.toNat 2 ++ ['.'.toNat] ++
    zeroPadded ms.toNat 3 ++ ['Z'.toNat]

/-! ## Time zone adapter (lines 278-296) -/

/-- The host facilities the parser calls: `QLocalTime::getUtcOffset` (seconds
east of UTC at a UTC instant) and the `QDateTime::fromString` fallback chain
of `ParseString` (milliseconds since the epoch of the first valid result). -/
structure Host where
  getUtcOffset : Int → Int
  fromStringFallback : QString → Option Int

def DaylightSavingTA (host : Host) (t : Int) (localTZA : Int) : Int :=
  host.getUtcOffset t * 1000 - localTZA

def LocalTime (host : Host) (t : Int) (localTZA : Int) : Int :=
  t + localTZA + DaylightSavingTA host t localTZA

def UTC (host : Host) (t : Int) (localTZA : Int) : Int :=
  t - localTZA - DaylightSavingTA host (t - localTZA) localTZA

/-! ## The parser (lines 312-543) -/

/-- The values of `enum Format`. -/
def Format.Year : Nat := 0
def Format.Month : Nat := 1
def Format.Day : Nat := 2
def Format.Hour : Nat := 3
def Format.Minute : Nat := 4
def Format.Second : Nat := 5
def Format.MilliSecond : Nat := 6
def Format.TimezoneHour : Nat := 7
def Format.TimezoneMinute : Nat := 8
def Format.Done : Nat := 9

/-- The local variables of the primary scan of `ParseString`.  The `int`
variables are unbounded integers here. -/
structure ScanState where
  format : Nat
  current : Int
  currentSize : Int
  extendedYear : Bool
  yearSign : Int
  year : Int
  month : Int
  day : Int
  hour : Int
  minute : Int
  second : Int
  msec : Int
  offsetSign : Int
  offset : Int
  seenT : Bool
  seenZ : Bool
  error : Bool
  deriving DecidableEq

/-- The variables before the scan. -/
def ScanState.initial : ScanState :=
  { format := Format.Year, current := 0, currentSize := 0, extendedYear := false,
    yearSign := 1, year := 0, month := 0, day := 1, hour := 0, minute := 0, second := 0,
    msec := 0, offsetSign := 1, offset := 0, seenT := false, seenZ := false, error := false }

/-- The `switch (format)` of the scan: the pending number is stored in the
current field and its width and range are checked. -/
def storeField (s : ScanState) : ScanState :=
  if s.format = Format.Year then
    { s with year := s.current,
             error := if s.extendedYear then decide (s.currentSize ≠ 6)
                      else decide (s.currentSize ≠ 4) }
  else if s.format = Format.Month then
    { s with month := s.current - 1,
             error := decide (s.currentSize ≠ 2) || decide (s.current - 1 > 11) }
  else if s.format = Format.Day then
    { s with day := s.current,
             error := decide (s.currentSize ≠ 2) || decide (s.current > 31) }
  else if s.format = Format.Hour then
    { s with hour := s.current,
             error := decide (s.currentSize ≠ 2) || decide (s.current > 24) }
  else if s.format = Format.Minute then
    { s with minute := s.current,
             error := decide (s.currentSize ≠ 2) || decide (s.current ≥ 60) }
  else if s.format = Format.Second then
    { s with second := s.current,
             error := decide (s.currentSize ≠ 2) || decide (s.current > 60) }
  else if s.format = Format.MilliSecond then
    { s with msec := s.current,
             error := decide (s.currentSize ≠ 3) }
  else if s.format = Format.TimezoneHour then
    { s with offset := s.current * 60,
             error := decide (s.currentSize ≠ 2) || decide (s.current > 23),
             seenZ := true }
  else if s.format = Format.TimezoneMinute then
    { s with offset := s.offset + s.current,
             error := decide (s.currentSize ≠ 2) || decide (s.current ≥ 60) }
  else s

/-- The chain of tests on the delimiter `ch` that follows the `switch`. -/
def delimiter (s : ScanState) (ch : Nat) : ScanState :=
  if ch = 'T'.toNat then
    { s with error := s.error || decide (s.format ≥ Format.Hour),
             format := Format.Hour, seenT := true }
  else if ch = '-'.toNat then
    if s.format < Format.Day then { s with format := s.format + 1 }
    else if s.format < Format.Minute then { s with error := true }
    else if s.format ≥ Format.TimezoneHour then { s with error := true }
    else { s with offsetSign := -1, format := Format.TimezoneHour }
  else if ch = ':'.toNat then
    { s with error := s.error || (decide (s.format ≠ Format.Hour) &&
                decide (s.format ≠ Format.Minute) && decide (s.format ≠ Format.TimezoneHour)),
             format := s.format + 1 }
  else if ch = '.'.toNat then
    { s with error := s.error || decide (s.format ≠ Format.Second),
             format := s.format + 1 }
  else if ch = '+'.toNat then
    { s with error := s.error || (s.seenZ || decide (s.format < Format.Minute) ||
                decide (s.format ≥ Format.TimezoneHour)),
             format := Format.TimezoneHour }
  else if ch = 'Z'.toNat then
    { s with error := s.error || (s.seenZ || decide (s.format < Format.Minute) ||
                decide (s.format ≥ Format.TimezoneHour)),
             format := Format.Done, seenZ := true }
  else if ch = 0 then
    { s with format := Format.Done }
  else s

/-- The body of the scan loop for one character. -/
def scanStep (s : ScanState) (ch : Nat) : ScanState :=
  if '0'.toNat ≤ ch ∧ ch ≤ '9'.toNat then
    { s with current := s.current * 10 + ((ch : Int) - ('0'.toNat : Int)),
             currentSize := s.currentSize + 1 }
  else
    let s := delimiter (storeField s) ch
    { s with current := 0, currentSize := 0 }

/-- The loop `for (; ch <= end && !error && format != Done; ++ch)` over the
characters left. -/
def scanLoop : ScanState → QString → ScanState
  | s, [] => s
  | s, ch :: rest =>
    if s.error ∨ s.format = Format.Done then s else scanLoop (scanStep s ch) rest

/-- The primary scan of `ParseString`: the optional sign of an extended year,
then the loop over the characters up to and including the terminating
null of the string's data. -/
def primaryScan (str : QString) : ScanState :=
  let data := str ++ [0]
  match data with
  | [] => ScanState.initial
  | ch :: rest =>
    if ch = '+'.toNat ∨ ch = '-'.toNat then
      scanLoop { ScanState.initial with
                  extendedYear := true,
                  yearSign := if ch = '-'.toNat then -1 else 1 } rest
    else scanLoop ScanState.initial data

def ParseString (host : Host) (s : QString) (localTZA : Int) : Dbl :=
  let st := primaryScan s
  if !st.error then
    let t := MakeDate (MakeDay (some (st.year * st.yearSign)) (some st.month) (some st.day))
      (some (MakeTime st.hour st.minute st.second st.msec))
    let t := if st.seenZ then t.map (fun t => t - st.offset * st.offsetSign * 60 * 1000)
      else if st.seenT then t.map (fun t => UTC host t localTZA)
      else t
    TimeClip (Dbl.ofNum t)
  else
    match host.fromStringFallback s with
    | none => Dbl.nan
    | some ms => TimeClip (Dbl.fin (ms : ℚ))

/-! ## The other formatters (lines 551-608) -/

/-- The two zones the formatters pass to `ToDateTime`: `QTimeZone::LocalTime`
and `QTimeZone::UTC`. -/
inductive TimeZoneKind where
  | LocalTime
  | UTC
  deriving DecidableEq

/-- A `QDateTime`: its milliseconds since the epoch, `none` for an invalid
one, and its zone. -/
structure QDateTime where
  msecs : Option Int
  zone : TimeZoneKind
  deriving DecidableEq

/-- The conversions to text of Qt's `QDateTime`, `QDate`, `QTime` and `QLocale`
(QtCore, outside this repository), each on the `QDateTime` the formatter
takes the date or the time from. -/
structure QtText where
  /-- The text `dt.toString()`. -/
  dateTimeToString : QDateTime → QString
  /-- The text `dt.date().toString()`. -/
  dateToString : QDateTime → QString
  /-- The text `dt.time().toString()`. -/
  timeToString : QDateTime → QString
  /-- The text `QLocale().toString(dt, QLocale::ShortFormat)`. -/
  localeDateTime : QDateTime → QString
  /-- The text `QLocale().toString(dt.date(), QLocale::ShortFormat)`. -/
  localeDate : QDateTime → QString
  /-- The text `QLocale().toString(dt.time(), QLocale::ShortFormat)`. -/
  localeTime : QDateTime → QString

/-- A text conversion as Qt documents it for invalid values: the text of an
invalid date, time or date-time is the empty string (a valid one is left
as its number of milliseconds, never read here). -/
def qtInvalidEmpty : QtText :=
  { dateTimeToString := fun dt => match dt.msecs with
      | none => []
      | some _ => qstr "valid"
    dateToString := fun dt => match dt.msecs with
      | none => []
      | some _ => qstr "valid"
    timeToString := fun dt => match dt.msecs with
      | none => []
      | some _ => qstr "valid"
    localeDateTime := fun dt => match dt.msecs with
      | none => []
      | some _ => qstr "valid"
    localeDate := fun dt => match dt.msecs with
      | none => []
      | some _ => qstr "valid"
    localeTime := fun dt => match dt.msecs with
      | none => []
      | some _ => qstr "valid" }

/-- The decimal text `QString::number(n)` of an `int`. -/
def numberToQString (n : Int) : QString :=
  let digits : QString :=
    if n = 0 then ['0'.toNat] else (Nat.digits 10 n.natAbs).reverse.map (fun d => d + '0'.toNat)
  if n < 0 then '-'.toNat :: digits else digits

/-- Source function `ToDateTime`: an invalid `QDateTime` for NaN (`none`). -/
def ToDateTime (t : Option Int) (zone : TimeZoneKind) : QDateTime :=
  match t with
  | none => { msecs := none, zone := zone }
  | some t => { msecs := some t, zone := zone }

/-- Source function `ToString`.  The offset is a whole number of milliseconds; the
quotients `fabs(tzoffset) / 1000 / 60 / 60` are cast to `int`, that is rounded
down. -/
def ToString (qt : QtText) (host : Host) (t : Option Int) (localTZA : Int) : QString :=
  match t with
  | none => qstr "Invalid Date"
  | some t =>
    let str := qt.dateTimeToString (ToDateTime (some t) TimeZoneKind.LocalTime) ++ qstr " GMT"
    let tzoffset := localTZA + DaylightSavingTA host t localTZA
    if tzoffset ≠ 0 then
      let hours : Int := ((tzoffset.natAbs / 1000 / 60 / 60 : Nat) : Int)
      let mins : Int := Int.tmod ((tzoffset.natAbs / 1000 / 60 : Nat) : Int) 60
      let str := str ++ [if tzoffset > 0 then '+'.toNat else '-'.toNat]
      let str := if hours < 10 then str ++ ['0'.toNat] else str
      let str := str ++ numberToQString hours
      let str := if mins < 10 then str ++ ['0'.toNat] else str
      str ++ numberToQString mins
    else str

/-- Source function `ToUTCString`. -/
def ToUTCString (qt : QtText) (t : Option Int) : QString :=
  match t with
  | none => qstr "Invalid Date"
  | some t => qt.dateTimeToString (ToDateTime (some t) TimeZoneKind.UTC)

/-- Source function `ToDateString`. -/
def ToDateString (qt : QtText) (t : Option Int) : QString :=
  qt.dateToString (ToDateTime t TimeZoneKind.LocalTime)

/-- Source function `ToTimeString`. -/
def ToTimeString (qt : QtText) (t : Option Int) : QString :=
  qt.timeToString (ToDateTime t TimeZoneKind.LocalTime)

/-- Source function `ToLocaleString`. -/
def ToLocaleString (qt : QtText) (t : Option Int) : QString :=
  qt.localeDateTime (ToDateTime t TimeZoneKind.LocalTime)

/-- Source function `ToLocaleDateString`. -/
def ToLocaleDateString (qt : QtText) (t : Option Int) : QString :=
  qt.localeDate (ToDateTime t TimeZoneKind.LocalTime)

/-- Source function `ToLocaleTimeString`. -/
def ToLocaleTimeString (qt : QtText) (t : Option Int) : QString :=
  qt.localeTime (ToDateTime t TimeZoneKind.LocalTime)

/-! ## The Date Time String Format (spec 4.3)

The strings `[±YYYYYY|YYYY][-MM[-DD]][THH:mm[:ss[.sss]][Z|±HH:mm]]` of the
spec's primary grammar, by their parts, with the spec's range checks and the
spec's interpretation rule. -/

/-- The zone of a date-time string: `Z`, or a sign with `HH:mm`. -/
inductive ZoneDesignator where
  | Z
  | offset (negative : Bool) (hh mm : Nat)
  deriving DecidableEq

/-- The time part `THH:mm[:ss[.sss]][Z|±HH:mm]`. -/
structure TimePart where
  hour : Nat
  minute : Nat
  second : Option (Nat × Option Nat)
  zone : Option ZoneDesignator
  deriving DecidableEq

/-- A string of the format: the year (with `sign = none` four digits, else a
sign, negative for `some true`, and six digits), the optional `-MM` with its
optional `-DD`, and the optional time part. -/
structure DateTimeString where
  sign : Option Bool
  year : Nat
  monthDay : Option (Nat × Option Nat)
  time : Option TimePart
  deriving DecidableEq

/-- The characters of a zone. -/
def ZoneDesignator.render : ZoneDesignator → QString
  | ZoneDesignator.Z => ['Z'.toNat]
  | ZoneDesignator.offset negative hh mm =>
    (if negative then '-'.toNat else '+'.toNat) ::
      (zeroPadded hh 2 ++ ':'.toNat :: zeroPadded mm 2)

/-- The characters of the optional zone. -/
def renderZone : Option ZoneDesignator → QString
  | none => []
  | some z => z.render

/-- The characters `[:ss[.sss]]`. -/
def renderSecond : Option (Nat × Option Nat) → QString
  | none => []
  | some (ss, none) => ':'.toNat :: zeroPadded ss 2
  | some (ss, some sss) => ':'.toNat :: (zeroPadded ss 2 ++ '.'.toNat :: zeroPadded sss 3)

/-- The characters of a time part. -/
def TimePart.render (tp : TimePart) : QString :=
  'T'.toNat :: (zeroPadded tp.hour 2 ++ ':'.toNat ::
    (zeroPadded tp.minute 2 ++ (renderSecond tp.second ++ renderZone tp.zone)))

/-- The characters `[-MM[-DD]]`. -/
def renderMonthDay : Option (Nat × Option Nat) → QString
  | none => []
  | some (mm, none) => '-'.toNat :: zeroPadded mm 2
  | some (mm, some dd) => '-'.toNat :: (zeroPadded mm 2 ++ '-'.toNat :: zeroPadded dd 2)

/-- The characters of the year. -/
def renderYear (sign : Option Bool) (year : Nat) : QString :=
  match sign with
  | none => zeroPadded year 4
  | some negative => (if negative then '-'.toNat else '+'.toNat) :: zeroPadded year 6

/-- The characters of the optional time part. -/
def renderTime : Option TimePart → QString
  | none => []
  | some tp => tp.render

/-- The string. -/
def DateTimeString.render (x : DateTimeString) : QString :=
  renderYear x.sign x.year ++ (renderMonthDay x.monthDay ++ renderTime x.time)

/-- The spec's range checks on a zone: hour at most 23, minute below 60. -/
def zoneInRange : Option ZoneDesignator → Bool
  | some (ZoneDesignator.offset _ hh mm) => decide (hh ≤ 23) && decide (mm < 60)
  | _ => true

/-- The spec's range checks on `[:ss[.sss]]`: second at most 60, three digits
of milliseconds. -/
def secondInRange : Option (Nat × Option Nat) → Bool
  | none => true
  | some (ss, none) => decide (ss ≤ 60)
  | some (ss, some sss) => decide (ss ≤ 60) && decide (sss < 1000)

/-- The spec's range checks on a time part: hour at most 24, minute below 60. -/
def timeInRange : Option TimePart → Bool
  | none => true
  | some tp => decide (tp.hour ≤ 24) && decide (tp.minute < 60) && secondInRange tp.second &&
      zoneInRange tp.zone

/-- The spec's range checks on `[-MM[-DD]]`: month (from 0) at most 11, day at
most 31. -/
def monthDayInRange : Option (Nat × Option Nat) → Bool
  | none => true
  | some (mm, none) => decide ((mm : Int) - 1 ≤ 11)
  | some (mm, some dd) => decide ((mm : Int) - 1 ≤ 11) && decide (dd ≤ 31)

/-- The field widths and range checks of the spec on a date-time string. -/
def DateTimeString.inRange (x : DateTimeString) : Bool :=
  (match x.sign with
    | none => decide (x.year < 10 ^ 4)
    | some _ => decide (x.year < 10 ^ 6)) &&
  monthDayInRange x.monthDay && timeInRange x.time

/-- The month (from 0) a string gives to `MakeDay`, `0` when omitted. -/
def monthOf : Option (Nat × Option Nat) → Int
  | none => 0
  | some (mm, _) => (mm : Int) - 1

/-- The day a string gives to `MakeDay`, `1` when omitted. -/
def dayOf : Option (Nat × Option Nat) → Int
  | some (_, some dd) => (dd : Int)
  | _ => 1

/-- The second of a time part, `0` when omitted. -/
def secondOf : Option (Nat × Option Nat) → Int
  | none => 0
  | some (ss, _) => (ss : Int)

/-- The millisecond of a time part, `0` when omitted. -/
def msecOf : Option (Nat × Option Nat) → Int
  | some (_, some sss) => (sss : Int)
  | _ => 0

/-- The sign of a zone's offset. -/
def zoneSign : Option ZoneDesignator → Int
  | some (ZoneDesignator.offset true _ _) => -1
  | _ => 1

/-- The minutes of a zone's offset, `0` for `Z`. -/
def zoneMinutes : Option ZoneDesignator → Int
  | some (ZoneDesignator.offset _ hh mm) => (hh : Int) * 60 + (mm : Int)
  | _ => 0

/-- The time of day of the optional time part, zero when omitted. -/
def timeOf : Option TimePart → Int
  | none => 0
  | some tp => MakeTime tp.hour tp.minute (secondOf tp.second) (msecOf tp.second)

/-- The spec's interpretation rule: the date-time `d` of the fields, minus the
zone offset when a zone is given, converted by `UTC` when a time but no zone
is given, and `d` itself for a date alone. -/
def DateTimeString.value (host : Host) (localTZA : Int) (x : DateTimeString) : Option Int :=
  let year : Int := if x.sign = some true then -(x.year : Int) else (x.year : Int)
  let d := MakeDate (MakeDay (some year) (some (monthOf x.monthDay)) (some (dayOf x.monthDay)))
    (some (timeOf x.time))
  match x.time with
  | none => d
  | some tp =>
    match tp.zone with
    | none => d.map (fun d => UTC host d localTZA)
    | some z => d.map (fun d => d - zoneSign (some z) * zoneMinutes (some z) * 60000)

/-! ## The strings the primary scan reads

The format of the comment of `ParseString`, `yyyy-MM-ddTHH:mm:ss.zzzt` with "in
each part, the second and later components" optional, as sets of strings:
`[±YYYYYY|YYYY][-MM[-DD]][THH[:mm[:ss[.sss]][Z|±HH[:mm]]]]`. -/

/-- A decimal digit. -/
def isDigitChar (c : Nat) : Prop := '0'.toNat ≤ c ∧ c ≤ '9'.toNat

/-- A delimiter of the format: one of `-`, `T`, `:`, `.`, `+`, `Z`. -/
def isDelimiterChar (c : Nat) : Prop :=
  c = '-'.toNat ∨ c = 'T'.toNat ∨ c = ':'.toNat ∨ c = '.'.toNat ∨ c = '+'.toNat ∨ c = 'Z'.toNat

instance isDigitChar.decidable (c : Nat) : Decidable (isDigitChar c) := by
  unfold isDigitChar
  infer_instance

instance isDelimiterChar.decidable (c : Nat) : Decidable (isDelimiterChar c) := by
  unfold isDelimiterChar
  infer_instance

/-- A field of exactly `w` digits. -/
def IsField (w : Nat) (ds : QString) : Prop := ds.length = w ∧ ∀ c ∈ ds, isDigitChar c

/-- The zone hour and what may follow it: `HH[:mm]`. -/
def TzHourTail (t : QString) : Prop :=
  ∃ hh, IsField 2 hh ∧ (t = hh ∨ ∃ mm, IsField 2 mm ∧ t = hh ++ ':'.toNat :: mm)

/-- The optional zone: `[Z|±HH[:mm]]`. -/
def ZoneTail (t : QString) : Prop :=
  t = [] ∨ t = ['Z'.toNat] ∨ ∃ z, TzHourTail z ∧ (t = '+'.toNat :: z ∨ t = '-'.toNat :: z)

/-- The milliseconds and what may follow them: `sss[Z|±HH[:mm]]`. -/
def MsecTail (t : QString) : Prop :=
  ∃ sss z, IsField 3 sss ∧ ZoneTail z ∧ t = sss ++ z

/-- The seconds and what may follow them: `ss[.sss][Z|±HH[:mm]]`. -/
def SecondTail (t : QString) : Prop :=
  ∃ ss r, IsField 2 ss ∧ t = ss ++ r ∧ (ZoneTail r ∨ ∃ q, MsecTail q ∧ r = '.'.toNat :: q)

/-- The minutes and what may follow them: `mm[:ss[.sss]][Z|±HH[:mm]]`. -/
def MinuteTail (t : QString) : Prop :=
  ∃ mm r, IsField 2 mm ∧ t = mm ++ r ∧ (ZoneTail r ∨ ∃ q, SecondTail q ∧ r = ':'.toNat :: q)

/-- The hours and what may follow them: `HH[:mm[:ss[.sss]][Z|±HH[:mm]]]`. -/
def HourTail (t : QString) : Prop :=
  ∃ hh, IsField 2 hh ∧ (t = hh ∨ ∃ q, MinuteTail q ∧ t = hh ++ ':'.toNat :: q)

/-- The optional time part: `[THH...]`. -/
def TimeTail (t : QString) : Prop :=
  t = [] ∨ ∃ q, HourTail q ∧ t = 'T'.toNat :: q

/-- The day and what may follow it: `DD[T...]`. -/
def DayTail (t : QString) : Prop :=
  ∃ dd r, IsField 2 dd ∧ TimeTail r ∧ t = dd ++ r

/-- The month and what may follow it: `MM[-DD][T...]`. -/
def MonthTail (t : QString) : Prop :=
  ∃ mm r, IsField 2 mm ∧ t = mm ++ r ∧ (TimeTail r ∨ ∃ q, DayTail q ∧ r = '-'.toNat :: q)

/-- A year of `w` digits and what may follow it: `Y...Y[-MM[-DD]][T...]`. -/
def YearTail (w : Nat) (t : QString) : Prop :=
  ∃ yy r, IsField w yy ∧ t = yy ++ r ∧ (TimeTail r ∨ ∃ q, MonthTail q ∧ r = '-'.toNat :: q)

/-- The strings `[±YYYYYY|YYYY][-MM[-DD]][THH[:mm[:ss[.sss]][Z|±HH[:mm]]]]`. -/
def ScanFormat (s : QString) : Prop :=
  YearTail 4 s ∨ ∃ q, YearTail 6 q ∧ (s = '+'.toNat :: q ∨ s = '-'.toNat :: q)

/-- A string made of digits and delimiters of the format in which nothing
follows a `Z`. -/
def PlainString (s : QString) : Prop :=
  (∀ c ∈ s, isDigitChar c ∨ isDelimiterChar c) ∧
  (∀ pre post, s = pre ++ 'Z'.toNat :: post → post = [])


/-! ## The Calendar Field Tuple (spec 3) -/

/-- The number of days of a month (from `0`) of the Gregorian calendar, in a
leap year or a common year. -/
def DaysInMonth (month : Int) (leap : Bool) : Int :=
  if month = 1 then (if leap then 29 else 28)
  else if month = 3 ∨ month = 5 ∨ month = 8 ∨ month = 10 then 30
  else 31

/-- A host with daylight-saving time between the instants `0` and `10^10`: one
hour east of UTC then, and at UTC otherwise. -/
def dstHost : Host :=
  { getUtcOffset := fun t => if 0 ≤ t ∧ t < 10000000000 then 3600 else 0
    fromStringFallback := fun _ => none }

/-! ## The Date object protocol (lines 747-755, 953-986, 1335-1517)

The methods are embedded with explicit state: the storage word of the
receiver and the exception flag of the engine go in and come out.  The
receiver is a `DateObject` (the `throwTypeError` of another receiver is not
embedded).  The calendrical functions work on `Option Int` as before; a
double coerced from an argument enters them through `Dbl.toNum`. -/

namespace Dbl

/-- The comparison `a <= b` of doubles; false when an operand is NaN. -/
def le (a b : Dbl) : Bool := !a.isNaN && !b.isNaN && !a.gt b

/-- The comparison `a >= b` of doubles; false when an operand is NaN. -/
def ge (a b : Dbl) : Bool := le b a

/-- The number of the calendrical layer a double stands for.  `MakeDay` and
`MakeTime` return NaN (`none`) when an argument is not finite and truncate a
finite argument by `Value::toInteger`; a stored timestamp is NaN or an
integer already. -/
def toNum (d : Dbl) : Option Int := if d.isFinite then some (truncToZero d.toRat) else none

end Dbl

/-- Source function `MakeTime` on arguments that may be NaN (`none`). -/
def MakeTimeNum (hour min sec ms : Option Int) : Option Int :=
  match hour, min, sec, ms with
  | some h, some m, some s, some x => some (MakeTime h m s x)
  | _, _, _, _ => none

/-- An argument of a method as `Value::toNumber` sees it: the double the coercion
yields, and whether the coercion raises an exception (an object whose
`valueOf` throws). -/
structure Value where
  number : Dbl
  throws : Bool

/-- The `ExecutionEngine` as the Date methods see it: the standard offset
`localTZA` (a whole number of milliseconds), the flag `hasException`, and, as
a record for the theorems, the indices of the arguments coerced so far. -/
structure ExecutionEngine where
  localTZA : Int
  hasException : Bool
  coerced : List Nat

/-- Modelled from the spec: `Value::toNumber` is declared in qv4value_p.h, which is
not among the sources.  The spec (6): "generic value coercion, may raise a
host-level error".  The call `argv[i].toNumber()` yields the argument's number,
sets the exception flag when the coercion raises, and is recorded. -/
def toNumber (argv : List Value) (i : Nat) (v4 : ExecutionEngine) : Dbl × ExecutionEngine :=
  match argv[i]? with
  | some v => (v.number, { v4 with hasException := v4.hasException || v.throws,
                                   coerced := v4.coerced ++ [i] })
  | none => (Dbl.nan, v4)

/-- The receiver of a method: a `DateObject`, whose state is the storage word of
its `Date`. -/
structure DateObject where
  storage : Nat

/-- Modelled from the spec: `DateObject::date` is defined in qv4dateobject_p.h,
which is not among the sources; it is the decoded storage (spec 4.6:
`decode(storage)`). -/
def DateObject.date (c : StorageConsts) (self : DateObject) : Dbl := decode c self.storage

/-- Modelled from the spec: `DateObject::setDate` is defined in qv4dateobject_p.h,
which is not among the sources; it stores the value as `Date::init(double)` of
the source does, `storage = encode(value)`. -/
def DateObject.setDate (c : StorageConsts) (_self : DateObject) (value : Dbl) : DateObject :=
  { storage := encode c value }

/-- What a method leaves behind: the returned value (`none` for
`Encode::undefined()`), the receiver and the engine. -/
structure MethodResult where
  value : Option Dbl
  self : DateObject
  v4 : ExecutionEngine

/-- Source function `DateObject::componentsToTimestamp`. -/
def componentsToTimestamp (host : Host) (year month day hours mins secs ms : Dbl)
    (localTZA : Int) : Option Int :=
  let year := if year.ge (Dbl.fin 0) && year.le (Dbl.fin 99) then Dbl.add year (Dbl.fin 1900)
    else year
  let t := MakeDate (MakeDay year.toNum month.toNum day.toNum)
    (MakeTimeNum hours.toNum mins.toNum secs.toNum ms.toNum)
  t.map (fun t => UTC host t localTZA)

/-- Source function `DatePrototype::method_UTC`; the result is the returned value
(`none` for `Encode::undefined()`) and the engine. -/
def method_UTC (argv : List Value) (v4 : ExecutionEngine) : Option Dbl × ExecutionEngine :=
  let numArgs := argv.length
  if numArgs < 1 then (some Dbl.nan, v4)
  else
    let r := toNumber argv 0 v4
    let year := r.1
    let v4 := r.2
    if v4.hasException then (none, v4)
    else
      let r := if numArgs ≥ 2 then toNumber argv 1 v4 else (Dbl.fin 0, v4)
      let month := r.1
      let v4 := r.2
      if v4.hasException then (none, v4)
      else
        let r := if numArgs ≥ 3 then toNumber argv 2 v4 else (Dbl.fin 1, v4)
        let day := r.1
        let v4 := r.2
        if v4.hasException then (none, v4)
        else
          let r := if numArgs ≥ 4 then toNumber argv 3 v4 else (Dbl.fin 0, v4)
          let hours := r.1
          let v4 := r.2
          if v4.hasException then (none, v4)
          else
            let r := if numArgs ≥ 5 then toNumber argv 4 v4 else (Dbl.fin 0, v4)
            let mins := r.1
            let v4 := r.2
            if v4.hasException then (none, v4)
            else
              let r := if numArgs ≥ 6 then toNumber argv 5 v4 else (Dbl.fin 0, v4)
              let secs := r.1
              let v4 := r.2
              if v4.hasException then (none, v4)
              else
                let r := if numArgs ≥ 7 then toNumber argv 6 v4 else (Dbl.fin 0, v4)
                let ms := r.1
                let v4 := r.2
                if v4.hasException then (none, v4)
                else
                  let iyear := toInteger year
                  let year := if !year.isNaN && iyear.ge (Dbl.fin 0) && iyear.le (Dbl.fin 99)
                    then Dbl.add (Dbl.fin 1900) iyear else year
                  let t := MakeDate (MakeDay year.toNum month.toNum day.toNum)
                    (MakeTimeNum hours.toNum mins.toNum secs.toNum ms.toNum)
                  (some (TimeClip (Dbl.ofNum t)), v4)

/-- Source function `DatePrototype::method_setHours`.  For a NaN time the `int`
conversions inside `MinFromTime`, `SecFromTime` and `msFromTime` are undefined
in C++; they are taken as NaN, and the result is NaN whatever they yield, as
`Day(t)` is NaN. -/
def method_setHours (c : StorageConsts) (host : Host) (self : DateObject) (argv : List Value)
    (v4 : ExecutionEngine) : MethodResult :=
  let argc := argv.length
  let t := (self.date c).toNum.map (fun t => LocalTime host t v4.localTZA)
  if v4.hasException then ⟨none, self, v4⟩
  else
    let r := if argc ≠ 0 then toNumber argv 0 v4 else (Dbl.nan, v4)
    let hour := r.1.toNum
    let v4 := r.2
    if v4.hasException then ⟨none, self, v4⟩
    else
      let r := if argc < 2 then (t.map MinFromTime, v4)
        else ((toNumber argv 1 v4).1.toNum, (toNumber argv 1 v4).2)
      let min := r.1
      let v4 := r.2
      if v4.hasException then ⟨none, self, v4⟩
      else
        let r := if argc < 3 then (t.map SecFromTime, v4)
          else ((toNumber argv 2 v4).1.toNum, (toNumber argv 2 v4).2)
        let sec := r.1
        let v4 := r.2
        if v4.hasException then ⟨none, self, v4⟩
        else
          let r := if argc < 4 then (t.map msFromTime, v4)
            else ((toNumber argv 3 v4).1.toNum, (toNumber argv 3 v4).2)
          let ms := r.1
          let v4 := r.2
          if v4.hasException then ⟨none, self, v4⟩
          else
            let t := (MakeDate (t.map Day) (MakeTimeNum hour min sec ms)).map
              (fun t => UTC host t v4.localTZA)
            let self := self.setDate c (Dbl.ofNum t)
            ⟨some (self.date c), self, v4⟩

/-- Source function `DatePrototype::method_setUTCHours`: no test of `hasException`.  For
a NaN time the `int` conversions are taken as NaN, as in `method_setHours`. -/
def method_setUTCHours (c : StorageConsts) (self : DateObject) (argv : List Value)
    (v4 : ExecutionEngine) : MethodResult :=
  let argc := argv.length
  let t := (self.date c).toNum
  let r := if argc ≠ 0 then toNumber argv 0 v4 else (Dbl.nan, v4)
  let hour := r.1.toNum
  let v4 := r.2
  let r := if argc < 2 then (t.map MinFromTime, v4)
    else ((toNumber argv 1 v4).1.toNum, (toNumber argv 1 v4).2)
  let min := r.1
  let v4 := r.2
  let r := if argc < 3 then (t.map SecFromTime, v4)
    else ((toNumber argv 2 v4).1.toNum, (toNumber argv 2 v4).2)
  let sec := r.1
  let v4 := r.2
  let r := if argc < 4 then (t.map msFromTime, v4)
    else ((toNumber argv 3 v4).1.toNum, (toNumber argv 3 v4).2)
  let ms := r.1
  let v4 := r.2
  let t := MakeDate (t.map Day) (MakeTimeNum hour min sec ms)
  let self := self.setDate c (Dbl.ofNum t)
  ⟨some (self.date c), self, v4⟩

/-- Source function `DatePrototype::method_setMonth`.  For a NaN time the `int`
conversion inside `YearFromTime` is undefined in C++; the year is taken as NaN,
and the result is NaN whatever it yields, as `TimeWithinDay(t)` is NaN. -/
def method_setMonth (c : StorageConsts) (host : Host) (self : DateObject) (argv : List Value)
    (v4 : ExecutionEngine) : MethodResult :=
  let argc := argv.length
  let t := (self.date c).toNum.map (fun t => LocalTime host t v4.localTZA)
  if v4.hasException then ⟨none, self, v4⟩
  else
    let r := if argc ≠ 0 then toNumber argv 0 v4 else (Dbl.nan, v4)
    let month := r.1.toNum
    let v4 := r.2
    if v4.hasException then ⟨none, self, v4⟩
    else
      let r := if argc < 2 then (t.bind DateFromTime, v4)
        else ((toNumber argv 1 v4).1.toNum, (toNumber argv 1 v4).2)
      let date := r.1
      let v4 := r.2
      if v4.hasException then ⟨none, self, v4⟩
      else
        let t := (MakeDate (MakeDay (t.map YearFromTime) month date) (t.map TimeWithinDay)).map
          (fun t => UTC host t v4.localTZA)
        let self := self.setDate c (Dbl.ofNum t)
        ⟨some (self.date c), self, v4⟩

/-- Source function `DatePrototype::method_setUTCFullYear`: no test of `std::isnan(t)` and
none of `hasException`. -/
def method_setUTCFullYear (c : StorageConsts) (self : DateObject) (argv : List Value)
    (v4 : ExecutionEngine) : MethodResult :=
  let argc := argv.length
  let t := (self.date c).toNum
  let r := if argc ≠ 0 then toNumber argv 0 v4 else (Dbl.nan, v4)
  let year := r.1.toNum
  let v4 := r.2
  let r := if argc < 2 then (t.bind MonthFromTime, v4)
    else ((toNumber argv 1 v4).1.toNum, (toNumber argv 1 v4).2)
  let month := r.1
  let v4 := r.2
  let r := if argc < 3 then (t.bind DateFromTime, v4)
    else ((toNumber argv 2 v4).1.toNum, (toNumber argv 2 v4).2)
  let date := r.1
  let v4 := r.2
  let t := MakeDate (MakeDay year month date) (t.map TimeWithinDay)
  let self := self.setDate c (Dbl.ofNum t)
  ⟨some (self.date c), self, v4⟩

/-- Source function `DatePrototype::method_setFullYear`: a NaN local time is taken
as `0`. -/
def method_setFullYear (c : StorageConsts) (host : Host) (self : DateObject)
    (argv : List Value) (v4 : ExecutionEngine) : MethodResult :=
  let argc := argv.length
  let t := (self.date c).toNum.map (fun t => LocalTime host t v4.localTZA)
  if v4.hasException then ⟨none, self, v4⟩
  else
    let t : Int := t.getD 0
    let r := if argc ≠ 0 then toNumber argv 0 v4 else (Dbl.nan, v4)
    let year := r.1.toNum
    let v4 := r.2
    if v4.hasException then ⟨none, self, v4⟩
    else
      let r := if argc < 2 then (MonthFromTime t, v4)
        else ((toNumber argv 1 v4).1.toNum, (toNumber argv 1 v4).2)
      let month := r.1
      let v4 := r.2
      if v4.hasException then ⟨none, self, v4⟩
      else
        let r := if argc < 3 then (DateFromTime t, v4)
          else ((toNumber argv 2 v4).1.toNum, (toNumber argv 2 v4).2)
        let date := r.1
        let v4 := r.2
        if v4.hasException then ⟨none, self, v4⟩
        else
          let t := (MakeDate (MakeDay year month date) (some (TimeWithinDay t))).map
            (fun t => UTC host t v4.localTZA)
          let self := self.setDate c (Dbl.ofNum t)
          ⟨some (self.date c), self, v4⟩

/-! ## The local getters (lines 1049-1209)

Each takes the timestamp `t` of the receiver (`getThisDate`, `none` for NaN) and
the engine's `localTZA`, and returns NaN for a NaN timestamp. -/

/-- Source function `DatePrototype::method_getYear`. -/
def method_getYear (host : Host) (t : Option Int) (localTZA : Int) : Option Int :=
  t.map (fun t => YearFromTime (LocalTime host t localTZA) - 1900)

/-- Source function `DatePrototype::method_getFullYear`. -/
def method_getFullYear (host : Host) (t : Option Int) (localTZA : Int) : Option Int :=
  t.map (fun t => YearFromTime (LocalTime host t localTZA))

/-- Source function `DatePrototype::method_getMonth`. -/
def method_getMonth (host : Host) (t : Option Int) (localTZA : Int) : Option Int :=
  t.bind (fun t => MonthFromTime (LocalTime host t localTZA))

/-- Source function `DatePrototype::method_getDate`. -/
def method_getDate (host : Host) (t : Option Int) (localTZA : Int) : Option Int :=
  t.bind (fun t => DateFromTime (LocalTime host t localTZA))

/-- Source function `DatePrototype::method_getDay`. -/
def method_getDay (host : Host) (t : Option Int) (localTZA : Int) : Option Int :=
  t.map (fun t => WeekDay (LocalTime host t localTZA))

/-- Source function `DatePrototype::method_getHours`. -/
def method_getHours (host : Host) (t : Option Int) (localTZA : Int) : Option Int :=
  t.map (fun t => HourFromTime (LocalTime host t localTZA))

/-- Source function `DatePrototype::method_getMinutes`. -/
def method_getMinutes (host : Host) (t : Option Int) (localTZA : Int) : Option Int :=
  t.map (fun t => MinFromTime (LocalTime host t localTZA))

/-- Source function `DatePrototype::method_getSeconds`. -/
def method_getSeconds (host : Host) (t : Option Int) (localTZA : Int) : Option Int :=
  t.map (fun t => SecFromTime (LocalTime host t localTZA))

/-- Source function `DatePrototype::method_getMilliseconds`. -/
def method_getMilliseconds (host : Host) (t : Option Int) (localTZA : Int) : Option Int :=
  t.map (fun t => msFromTime (LocalTime host t localTZA))

/-- Source function `DatePrototype::method_getTimezoneOffset`: the difference in minutes, a
quotient of doubles. -/
def method_getTimezoneOffset (host : Host) (t : Option Int) (localTZA : Int) : Option ℚ :=
  t.map (fun t => ((t - LocalTime host t localTZA : Int) : ℚ) / (msPerMinute : Int))

/-! ## The assertions of the scan (lines 409, 435, 453) -/

/-- The `Q_ASSERT`s the loop body evaluates on the character `ch` in the state `s`, all
of them holding: `Q_ASSERT(offset == 0 && !seenZ)` in `case TimezoneHour` of the switch,
the same in the last branch of `'-'`, and `Q_ASSERT(offset == 0)` in the else branch
of `'Z'`, the last two on the variables as the switch leaves them.  A digit
evaluates none. -/
def assertionsHold (s : ScanState) (ch : Nat) : Bool :=
  if '0'.toNat ≤ ch ∧ ch ≤ '9'.toNat then true
  else
    let inSwitch : Bool :=
      if s.format = Format.TimezoneHour then decide (s.offset = 0) && !s.seenZ else true
    let s := storeField s
    let inChain : Bool :=
      if ch = 'T'.toNat then true
      else if ch = '-'.toNat then
        if s.format < Format.Day then true
        else if s.format < Format.Minute then true
        else if s.format ≥ Format.TimezoneHour then true
        else decide (s.offset = 0) && !s.seenZ
      else if ch = ':'.toNat then true
      else if ch = '.'.toNat then true
      else if ch = '+'.toNat then true
      else if ch = 'Z'.toNat then
        if s.seenZ || decide (s.format < Format.Minute) || decide (s.format ≥ Format.TimezoneHour)
        then true
        else decide (s.offset = 0)
      else true
    inSwitch && inChain

/-- Whether every `Q_ASSERT` evaluated by the loop over the characters left holds. -/
def scanAsserts : ScanState → QString → Bool
  | _, [] => true
  | s, ch :: rest =>
    if s.error ∨ s.format = Format.Done then true
    else assertionsHold s ch && scanAsserts (scanStep s ch) rest

/-- Whether every `Q_ASSERT` evaluated by the primary scan of a string holds. -/
def primaryScanAsserts (str : QString) : Bool :=
  let data := str ++ [0]
  match data with
  | [] => true
  | ch :: rest =>
    if ch = '+'.toNat ∨ ch = '-'.toNat then
      scanAsserts { ScanState.initial with
                    extendedYear := true,
                    yearSign := if ch = '-'.toNat then -1 else 1 } rest
    else scanAsserts ScanState.initial data

/-! ## The calendrical functions in binary64 (lines 55-254)

The functions that `MakeDay` is built from, on doubles as the source computes
them: every sum, product and quotient is rounded, and a conversion to `int`
has a result only within the range of `int`.  On the timestamps of the
storage range and on years of magnitude up to 1,000,000 they agree with the
functions over `Int` above (theorems `fields_dbl_of_timestamp`,
`DayFromYear_dbl`, `YearFromTime_dbl`, `MonthFromTime_dbl`,
`DateFromTime_dbl` and `MakeDay_dbl`); beyond those magnitudes they round,
overflow or have no defined result, where the functions over `Int` do not.

A result is an `Option`: `none` stands for a run without a defined result (a
conversion to `int` of a value outside its range, which is undefined in C++,
an overflow of `int` arithmetic, or a failed `Q_ASSERT`); NaN is the value
`Dbl.nan`. -/

namespace Dbl

/-- The comparison `a < b` of doubles; false when an operand is NaN. -/
def lt (a b : Dbl) : Bool := b.gt a

/-- The comparison `a != b` of doubles; true when an operand is NaN, and the two zeros
are equal. -/
def ne (a b : Dbl) : Bool := a.isNaN || b.isNaN || a.gt b || b.gt a

/-- The function `::fmod(x, y)`: the exact remainder `x - n * y` with `n` the quotient
truncated toward zero; it has the sign of `x`, also when it is zero. -/
def fmod (x y : Dbl) : Dbl :=
  if x.isNaN || y.isNaN || x.isInf || y.isZero then nan
  else if y.isInf || x.isZero then x
  else
    let r := x.toRat - (truncToZero (x.toRat / y.toRat) : ℚ) * y.toRat
    if r = 0 then zero x.signBit else fin r

/-- An `int` value: no result outside the range of `int`. -/
def checkInt (n : Int) : Option Int :=
  if -2147483648 ≤ n ∧ n ≤ 2147483647 then some n else none

/-- The conversion `(int) x`: truncation toward zero; undefined in C++ for NaN, for an
infinity and for a value whose integer part is outside the range of `int` (what a run
yields then depends on the platform). -/
def toInt : Dbl → Option Int
  | negZero => some 0
  | fin q => checkInt (truncToZero q)
  | _ => none

/-- Source function `Day`. -/
def Day (t : Dbl) : Dbl := floor (div t (fin (msPerDay : Int)))

/-- Source function `DaysInYear`; a remainder is taken as true when it is not zero. -/
def DaysInYear (y : Dbl) : Dbl :=
  if !(fmod y (fin 4)).isZero then fin 365
  else if !(fmod y (fin 100)).isZero then fin 366
  else if !(fmod y (fin 400)).isZero then fin 365
  else fin 366

/-- Source function `DayFromYear`. -/
def DayFromYear (y : Dbl) : Dbl :=
  add (sub (add (mul (fin 365) (sub y (fin 1970)))
      (floor (div (sub y (fin 1969)) (fin 4))))
    (floor (div (sub y (fin 1901)) (fin 100))))
    (floor (div (sub y (fin 1601)) (fin 400)))

/-- Source function `TimeFromYear`. -/
def TimeFromYear (y : Dbl) : Dbl := mul (fin (msPerDay : Int)) (DayFromYear y)

/-- The product `msPerDay * 365.2425` of `YearFromTime`; the literal `365.2425` is the
double nearest to it. -/
def meanYear : Dbl := mul (fin (msPerDay : Int)) (round (3652425 / 10000))

/-- Source function `YearFromTime`; the variable `y` is an `int`, and the result is that
`int` as a double. -/
def YearFromTime (t : Dbl) : Option Dbl :=
  match toInt (floor (div t meanYear)) with
  | none => none
  | some k =>
    match checkInt (1970 + k) with
    | none => none
    | some y =>
      let t2 := TimeFromYear (fin (y : ℚ))
      if t2.gt t then (checkInt (y - 1)).map (fun (r : Int) => fin (r : ℚ))
      else if (add t2 (mul (fin (msPerDay : Int)) (DaysInYear (fin (y : ℚ))))).le t then
        (checkInt (y + 1)).map (fun (r : Int) => fin (r : ℚ))
      else some (fin (y : ℚ))

/-- Source function `InLeapYear`; the `Q_ASSERT(x == 366)` is part of it. -/
def InLeapYear (t : Dbl) : Option Bool :=
  match YearFromTime t with
  | none => none
  | some y =>
    let x := DaysInYear y
    if !(x.ne (fin 365)) then some false
    else if x.ne (fin 366) then none
    else some true

/-- Source function `DayWithinYear`. -/
def DayWithinYear (t : Dbl) : Option Dbl :=
  match YearFromTime t with
  | none => none
  | some y => some (sub (Day t) (DayFromYear y))

/-- Source function `MonthFromTime`. -/
def MonthFromTime (t : Dbl) : Option Dbl :=
  match DayWithinYear t, InLeapYear t with
  | some d, some leap =>
    let l := fin (boolToNum leap : Int)
    if d.lt (fin 31) then some (fin 0)
    else if d.lt (add (fin 59) l) then some (fin 1)
    else if d.lt (add (fin 90) l) then some (fin 2)
    else if d.lt (add (fin 120) l) then some (fin 3)
    else if d.lt (add (fin 151) l) then some (fin 4)
    else if d.lt (add (fin 181) l) then some (fin 5)
    else if d.lt (add (fin 212) l) then some (fin 6)
    else if d.lt (add (fin 243) l) then some (fin 7)
    else if d.lt (add (fin 273) l) then some (fin 8)
    else if d.lt (add (fin 304) l) then some (fin 9)
    else if d.lt (add (fin 334) l) then some (fin 10)
    else if d.lt (add (fin 365) l) then some (fin 11)
    else some nan
  | _, _ => none

/-- Source function `DateFromTime`. -/
def DateFromTime (t : Dbl) : Option Dbl :=
  match MonthFromTime t, DayWithinYear t, InLeapYear t with
  | some month, some d, some leap =>
    match toInt (toInteger month) with
    | none => none
    | some m =>
      let l := fin (boolToNum leap : Int)
      if m = 0 then some (add d (fin 1))
      else if m = 1 then some (sub d (fin 30))
      else if m = 2 then some (sub (sub d (fin 58)) l)
      else if m = 3 then some (sub (sub d (fin 89)) l)
      else if m = 4 then some (sub (sub d (fin 119)) l)
      else if m = 5 then some (sub (sub d (fin 150)) l)
      else if m = 6 then some (sub (sub d (fin 180)) l)
      else if m = 7 then some (sub (sub d (fin 211)) l)
      else if m = 8 then some (sub (sub d (fin 242)) l)
      else if m = 9 then some (sub (sub d (fin 272)) l)
      else if m = 10 then some (sub (sub d (fin 303)) l)
      else if m = 11 then some (sub (sub d (fin 333)) l)
      else some nan
  | _, _, _ => none

/-- Source function `DayFromMonth`, the `switch` on `(int) month`. -/
def DayFromMonth (month leap : Dbl) : Option Dbl :=
  match toInt month with
  | none => none
  | some m =>
    if m = 0 then some (fin 0)
    else if m = 1 then some (fin 31)
    else if m = 2 then some (add (fin 59) leap)
    else if m = 3 then some (add (fin 90) leap)
    else if m = 4 then some (add (fin 120) leap)
    else if m = 5 then some (add (fin 151) leap)
    else if m = 6 then some (add (fin 181) leap)
    else if m = 7 then some (add (fin 212) leap)
    else if m = 8 then some (add (fin 243) leap)
    else if m = 9 then some (add (fin 273) leap)
    else if m = 10 then some (add (fin 304) leap)
    else if m = 11 then some (add (fin 334) leap)
    else some nan

/-- Source function `MakeDay`; the `Q_ASSERT(Day(t) == first)` is part of it, and the
three tests of the verification are made in turn. -/
def MakeDay (year month day : Dbl) : Option Dbl :=
  if !year.isFinite || !month.isFinite || !day.isFinite then some nan
  else
    let year := toInteger year
    let month := toInteger month
    let day := toInteger day
    let year := add year (floor (div month (fin 12)))
    let month := fmod month (fin 12)
    let month := if month.lt (fin 0) then add month (fin 12) else month
    let first := DayFromYear year
    match InLeapYear (mul (add first (fin 60)) (fin (msPerDay : Int))) with
    | none => none
    | some leap =>
      match DayFromMonth month (fin (boolToNum leap : Int)) with
      | none => none
      | some dm =>
        let first := add first dm
        let t := add (mul first (fin (msPerDay : Int)))
          (div (fin (msPerDay : Int)) (fin 2))
        if (Day t).ne first then none
        else
          match YearFromTime t with
          | none => none
          | some y =>
            if y.ne year then some nan
            else
              match MonthFromTime t with
              | none => none
              | some m =>
                if m.ne month then some nan
                else
                  match DateFromTime t with
                  | none => none
                  | some d =>
                    if d.ne (fin 1) then some nan
                    else some (sub (add first day) (fin 1))

end Dbl

/-- A double that holds the integer `n`: the double of `n`, or negative zero for `n = 0`. -/
def Dbl.IsInt (x : Dbl) (n : Int) : Prop := x = Dbl.fin (n : ℚ) ∨ (n = 0 ∧ x = Dbl.negZero)

/-- A time `t` whose binary64 quotients by the mean year and by the day floor to the
floors of the exact quotients, with `|t|` at most `4.32 * 10^16`. -/
def Dbl.TimeExact (t : Int) : Prop :=
  |t| ≤ 43200000000000000 ∧
  Dbl.floor (Dbl.div (Dbl.fin (t : ℚ)) (Dbl.fin ((msPerMeanYear : Int) : ℚ)))
    = Dbl.fin ((t / msPerMeanYear : Int) : ℚ) ∧
  Dbl.floor (Dbl.div (Dbl.fin (t : ℚ)) (Dbl.fin ((msPerDay : Int) : ℚ)))
    = Dbl.fin ((t / msPerDay : Int) : ℚ)
/-! ## Year arithmetic -/

theorem fmod_def (x y : Int) (hy : 0 < y) :
    fmod x y = if 0 ≤ x then x % y else -((-x) % y) := by
  unfold fmod
  split
  · next h => exact Int.tmod_eq_emod h hy.le
  · next h =>
    have h1 : (-x).tmod y = (-x) % y := Int.tmod_eq_emod (by omega) hy.le
    have h2 : (-x).tmod y = -(x.tmod y) := by
      rw [Int.tmod_def, Int.tmod_def, Int.neg_tdiv]
      rw [Int.mul_neg]
      omega
    omega

theorem fmod_eq_zero_iff (x y : Int) (hy : 0 < y) : fmod x y = 0 ↔ x % y = 0 := by
  rw [fmod_def x y hy]
  split
  · rfl
  · constructor
    · intro h
      have : (-x) % y = 0 := by omega
      have h3 : y ∣ -x := Int.dvd_of_emod_eq_zero this
      have h4 : y ∣ x := (Int.dvd_neg).mp h3
      exact Int.emod_eq_zero_of_dvd h4
    · intro h
      have h4 : y ∣ x := Int.dvd_of_emod_eq_zero h
      have h3 : y ∣ -x := (Int.dvd_neg).mpr h4
      have := Int.emod_eq_zero_of_dvd h3
      omega

theorem DaysInYear_eq (y : Int) :
    DaysInYear y = if y % 400 = 0 ∨ (y % 4 = 0 ∧ y % 100 ≠ 0) then 366 else 365 := by
  unfold DaysInYear
  simp only [ne_eq, fmod_eq_zero_iff _ 4 (by decide), fmod_eq_zero_iff _ 100 (by decide),
    fmod_eq_zero_iff _ 400 (by decide)]
  split_ifs <;> omega

theorem DayFromYear_succ (y : Int) : DayFromYear (y + 1) = DayFromYear y + DaysInYear y := by
  rw [DaysInYear_eq]
  unfold DayFromYear
  split_ifs <;> omega

theorem DayFromYear_mono {y z : Int} (h : y ≤ z) : DayFromYear y ≤ DayFromYear z := by
  unfold DayFromYear
  omega

theorem DayFromYear_strictMono {y z : Int} (h : y < z) : DayFromYear y < DayFromYear z := by
  unfold DayFromYear
  omega

theorem yearEstimate_lower (t : Int) : TimeFromYear (yearEstimate t - 1) ≤ t := by
  unfold TimeFromYear yearEstimate DayFromYear msPerDay msPerMeanYear
  omega

theorem yearEstimate_upper (t : Int) : t < TimeFromYear (yearEstimate t + 2) := by
  unfold TimeFromYear yearEstimate DayFromYear msPerDay msPerMeanYear
  omega


theorem TimeFromYear_succ (y : Int) :
    TimeFromYear (y + 1) = TimeFromYear y + msPerDay * DaysInYear y := by
  unfold TimeFromYear
  rw [DayFromYear_succ]
  unfold msPerDay
  omega

theorem DaysInYear_cases (y : Int) : DaysInYear y = 365 ∨ DaysInYear y = 366 := by
  rw [DaysInYear_eq]
  split_ifs <;> simp

theorem YearFromTime_bounds (t : Int) :
    TimeFromYear (YearFromTime t) ≤ t ∧ t < TimeFromYear (YearFromTime t + 1) := by
  have hl := yearEstimate_lower t
  have hu := yearEstimate_upper t
  have h1 := TimeFromYear_succ (yearEstimate t - 1)
  have h2 := TimeFromYear_succ (yearEstimate t)
  have h3 := TimeFromYear_succ (yearEstimate t + 1)
  have e1 : yearEstimate t - 1 + 1 = yearEstimate t := by omega
  have e2 : yearEstimate t + 1 + 1 = yearEstimate t + 2 := by omega
  rw [e1] at h1
  rw [e2] at h3
  unfold YearFromTime
  simp only
  split_ifs with c1 c2
  · rw [e1]
    constructor
    · exact hl
    · omega
  · rw [e2]
    constructor
    · omega
    · exact hu
  · constructor
    · omega
    · omega

theorem TimeFromYear_strictMono {y z : Int} (h : y < z) : TimeFromYear y < TimeFromYear z := by
  have := DayFromYear_strictMono h
  unfold TimeFromYear msPerDay
  omega

theorem TimeFromYear_mono {y z : Int} (h : y ≤ z) : TimeFromYear y ≤ TimeFromYear z := by
  have := DayFromYear_mono h
  unfold TimeFromYear msPerDay
  omega

theorem year_unique {t y z : Int} (hy1 : TimeFromYear y ≤ t) (hy2 : t < TimeFromYear (y + 1))
    (hz1 : TimeFromYear z ≤ t) (hz2 : t < TimeFromYear (z + 1)) : y = z := by
  rcases lt_trichotomy y z with h | h | h
  · have := TimeFromYear_mono (show y + 1 ≤ z by omega)
    omega
  · exact h
  · have := TimeFromYear_mono (show z + 1 ≤ y by omega)
    omega

theorem YearFromTime_eq_of_bounds {t y : Int} (h1 : TimeFromYear y ≤ t)
    (h2 : t < TimeFromYear (y + 1)) : YearFromTime t = y :=
  year_unique (YearFromTime_bounds t).1 (YearFromTime_bounds t).2 h1 h2

theorem yearEstimate_near (t : Int) :
    yearEstimate t - 1 ≤ YearFromTime t ∧ YearFromTime t ≤ yearEstimate t + 1 := by
  unfold YearFromTime
  simp only
  split_ifs <;> omega


/-! ## Days, months and dates -/

theorem Day_of_parts (D r : Int) (h0 : 0 ≤ r) (h1 : r < msPerDay) :
    Day (D * msPerDay + r) = D := by
  unfold Day
  unfold msPerDay at *
  omega

theorem Day_bounds (t : Int) : Day t * msPerDay ≤ t ∧ t < (Day t + 1) * msPerDay := by
  unfold Day msPerDay
  omega

theorem DayWithinYear_bounds (t : Int) :
    0 ≤ DayWithinYear t ∧ DayWithinYear t < DaysInYear (YearFromTime t) := by
  have hb := YearFromTime_bounds t
  have hd := Day_bounds t
  rw [TimeFromYear_succ] at hb
  unfold DayWithinYear
  unfold TimeFromYear at hb
  unfold msPerDay at *
  constructor <;> omega

theorem InLeapYear_eq (t : Int) :
    boolToNum (InLeapYear t) = DaysInYear (YearFromTime t) - 365 := by
  unfold InLeapYear boolToNum
  rcases DaysInYear_cases (YearFromTime t) with h | h <;> simp [h]

/-- The month and date chains on a day number `d` within a year of `365 + l` days. -/
theorem month_date_chain (d l : Int) (hd0 : 0 ≤ d) (hd1 : d < 365 + l) (hl : l = 0 ∨ l = 1) :
    ∃ m dt : Int,
      (if d < 31 then some (0 : Int)
        else if d < 59 + l then some 1
        else if d < 90 + l then some 2
        else if d < 120 + l then some 3
        else if d < 151 + l then some 4
        else if d < 181 + l then some 5
        else if d < 212 + l then some 6
        else if d < 243 + l then some 7
        else if d < 273 + l then some 8
        else if d < 304 + l then some 9
        else if d < 334 + l then some 10
        else if d < 365 + l then some 11
        else none) = some m ∧
      (if m = 0 then some (d + 1)
        else if m = 1 then some (d - 30)
        else if m = 2 then some (d - 58 - l)
        else if m = 3 then some (d - 89 - l)
        else if m = 4 then some (d - 119 - l)
        else if m = 5 then some (d - 150 - l)
        else if m = 6 then some (d - 180 - l)
        else if m = 7 then some (d - 211 - l)
        else if m = 8 then some (d - 242 - l)
        else if m = 9 then some (d - 272 - l)
        else if m = 10 then some (d - 303 - l)
        else if m = 11 then some (d - 333 - l)
        else none) = some dt ∧
      0 ≤ m ∧ m ≤ 11 ∧ 1 ≤ dt ∧ dt ≤ 31 ∧ DayFromMonth m l = some (d - dt + 1) := by
  have hc : (d < 31) ∨ (31 ≤ d ∧ d < 59 + l) ∨ (59 + l ≤ d ∧ d < 90 + l) ∨ (90 + l ≤ d ∧ d < 120 + l) ∨ (120 + l ≤ d ∧ d < 151 + l) ∨ (151 + l ≤ d ∧ d < 181 + l) ∨ (181 + l ≤ d ∧ d < 212 + l) ∨ (212 + l ≤ d ∧ d < 243 + l) ∨ (243 + l ≤ d ∧ d < 273 + l) ∨ (273 + l ≤ d ∧ d < 304 + l) ∨ (304 + l ≤ d ∧ d < 334 + l) ∨ (334 + l ≤ d) := by omega
  rcases hc with h | h | h | h | h | h | h | h | h | h | h | h
  · refine ⟨0, d + 1, ?_, ?_, by omega, by omega, by omega, by omega, ?_⟩
    · simp (disch := omega) only [if_pos, if_neg]
    · simp
    · unfold DayFromMonth
      simp
  · refine ⟨1, d - 30, ?_, ?_, by omega, by omega, by omega, by omega, ?_⟩
    · simp (disch := omega) only [if_pos, if_neg]
    · simp
    · unfold DayFromMonth
      simp
  · refine ⟨2, d - 58 - l, ?_, ?_, by omega, by omega, by omega, by omega, ?_⟩
    · simp (disch := omega) only [if_pos, if_neg]
    · simp
    · unfold DayFromMonth
      simp
      omega
  · refine ⟨3, d - 89 - l, ?_, ?_, by omega, by omega, by omega, by omega, ?_⟩
    · simp (disch := omega) only [if_pos, if_neg]
    · simp
    · unfold DayFromMonth
      simp
      omega
  · refine ⟨4, d - 119 - l, ?_, ?_, by omega, by omega, by omega, by omega, ?_⟩
    · simp (disch := omega) only [if_pos, if_neg]
    · simp
    · unfold DayFromMonth
      simp
      omega
  · refine ⟨5, d - 150 - l, ?_, ?_, by omega, by omega, by omega, by omega, ?_⟩
    · simp (disch := omega) only [if_pos, if_neg]
    · simp
    · unfold DayFromMonth
      simp
      omega
  · refine ⟨6, d - 180 - l, ?_, ?_, by omega, by omega, by omega, by omega, ?_⟩
    · simp (disch := omega) only [if_pos, if_neg]
    · simp
    · unfold DayFromMonth
      simp
      omega
  · refine ⟨7, d - 211 - l, ?_, ?_, by omega, by omega, by omega, by omega, ?_⟩
    · simp (disch := omega) only [if_pos, if_neg]
    · simp
    · unfold DayFromMonth
      simp
      omega
  · refine ⟨8, d - 242 - l, ?_, ?_, by omega, by omega, by omega, by omega, ?_⟩
    · simp (disch := omega) only [if_pos, if_neg]
    · simp
    · unfold DayFromMonth
      simp
      omega
  · refine ⟨9, d - 272 - l, ?_, ?_, by omega, by omega, by omega, by omega, ?_⟩
    · simp (disch := omega) only [if_pos, if_neg]
    · simp
    · unfold DayFromMonth
      simp
      omega
  · refine ⟨10, d - 303 - l, ?_, ?_, by omega, by omega, by omega, by omega, ?_⟩
    · simp (disch := omega) only [if_pos, if_neg]
    · simp
    · unfold DayFromMonth
      simp
      omega
  · refine ⟨11, d - 333 - l, ?_, ?_, by omega, by omega, by omega, by omega, ?_⟩
    · simp (disch := omega) only [if_pos, if_neg]
    · simp
    · unfold DayFromMonth
      simp
      omega

theorem boolToNum_cases (b : Bool) : boolToNum b = 0 ∨ boolToNum b = 1 := by
  cases b <;> simp [boolToNum]

/-- For every `t`, month and date are numbers in range and `DayFromMonth`
inverts them. -/
theorem month_date_of_time (t : Int) :
    ∃ m dt : Int, MonthFromTime t = some m ∧ DateFromTime t = some dt ∧
      0 ≤ m ∧ m ≤ 11 ∧ 1 ≤ dt ∧ dt ≤ 31 ∧
      DayFromMonth m (boolToNum (InLeapYear t)) = some (DayWithinYear t - dt + 1) := by
  have hb := DayWithinYear_bounds t
  have hl := InLeapYear_eq t
  obtain ⟨m, dt, h1, h2, h3⟩ := month_date_chain (DayWithinYear t) (boolToNum (InLeapYear t))
    hb.1 (by omega) (boolToNum_cases _)
  refine ⟨m, dt, ?_, ?_, h3⟩
  · unfold MonthFromTime
    exact h1
  · unfold DateFromTime
    have hm : MonthFromTime t = some m := by
      unfold MonthFromTime
      exact h1
    simp only [hm, Option.getD_some]
    exact h2

/-- The normalisation of the month in `MakeDay` is the non-negative remainder. -/
theorem month_normalise (month : Int) :
    (if fmod month 12 < 0 then fmod month 12 + 12 else fmod month 12) = month % 12 := by
  rw [fmod_def month 12 (by decide)]
  split_ifs <;> omega

/-- A time on day `d` (counted from the start of year `y`) lies in year `y`. -/
theorem YearFromTime_of_yearDay (y d r : Int) (hd0 : 0 ≤ d) (hd1 : d < DaysInYear y)
    (hr0 : 0 ≤ r) (hr1 : r < msPerDay) :
    YearFromTime ((DayFromYear y + d) * msPerDay + r) = y := by
  apply YearFromTime_eq_of_bounds
  · unfold TimeFromYear
    unfold msPerDay at *
    omega
  · rw [TimeFromYear_succ]
    unfold TimeFromYear
    unfold msPerDay at *
    omega

theorem DayWithinYear_of_yearDay (y d r : Int) (hd0 : 0 ≤ d) (hd1 : d < DaysInYear y)
    (hr0 : 0 ≤ r) (hr1 : r < msPerDay) :
    DayWithinYear ((DayFromYear y + d) * msPerDay + r) = d := by
  unfold DayWithinYear
  rw [YearFromTime_of_yearDay y d r hd0 hd1 hr0 hr1, Day_of_parts _ r hr0 hr1]
  omega

theorem InLeapYear_of_yearDay (y d r : Int) (hd0 : 0 ≤ d) (hd1 : d < DaysInYear y)
    (hr0 : 0 ≤ r) (hr1 : r < msPerDay) :
    boolToNum (InLeapYear ((DayFromYear y + d) * msPerDay + r)) = DaysInYear y - 365 := by
  rw [InLeapYear_eq, YearFromTime_of_yearDay y d r hd0 hd1 hr0 hr1]

/-- The number of days before month `m` in a year with `l` leap days. -/
theorem DayFromMonth_some (m l : Int) (hm0 : 0 ≤ m) (hm1 : m ≤ 11) (hl : l = 0 ∨ l = 1) :
    ∃ dm, DayFromMonth m l = some dm ∧ 0 ≤ dm ∧ dm < 335 + l ∧
      (if dm < 31 then some (0 : Int)
        else if dm < 59 + l then some 1
        else if dm < 90 + l then some 2
        else if dm < 120 + l then some 3
        else if dm < 151 + l then some 4
        else if dm < 181 + l then some 5
        else if dm < 212 + l then some 6
        else if dm < 243 + l then some 7
        else if dm < 273 + l then some 8
        else if dm < 304 + l then some 9
        else if dm < 334 + l then some 10
        else if dm < 365 + l then some 11
        else none) = some m ∧
      (if m = 0 then some (dm + 1)
        else if m = 1 then some (dm - 30)
        else if m = 2 then some (dm - 58 - l)
        else if m = 3 then some (dm - 89 - l)
        else if m = 4 then some (dm - 119 - l)
        else if m = 5 then some (dm - 150 - l)
        else if m = 6 then some (dm - 180 - l)
        else if m = 7 then some (dm - 211 - l)
        else if m = 8 then some (dm - 242 - l)
        else if m = 9 then some (dm - 272 - l)
        else if m = 10 then some (dm - 303 - l)
        else if m = 11 then some (dm - 333 - l)
        else none) = some 1 := by
  have hc : m = 0 ∨ m = 1 ∨ m = 2 ∨ m = 3 ∨ m = 4 ∨ m = 5 ∨ m = 6 ∨ m = 7 ∨ m = 8 ∨ m = 9 ∨
      m = 10 ∨ m = 11 := by omega
  rcases hc with h | h | h | h | h | h | h | h | h | h | h | h <;> subst h <;>
    rcases hl with h | h <;> subst h <;> simp [DayFromMonth]

/-- Year, month and date of a time on the first day of month `M` of year `Y`. -/
theorem fields_of_month_start (Y M r : Int) (hM0 : 0 ≤ M) (hM1 : M ≤ 11)
    (hr0 : 0 ≤ r) (hr1 : r < msPerDay) :
    ∃ dm, DayFromMonth M (DaysInYear Y - 365) = some dm ∧
      0 ≤ dm ∧ dm < DaysInYear Y - 30 ∧
      YearFromTime ((DayFromYear Y + dm) * msPerDay + r) = Y ∧
      MonthFromTime ((DayFromYear Y + dm) * msPerDay + r) = some M ∧
      DateFromTime ((DayFromYear Y + dm) * msPerDay + r) = some 1 := by
  have hY := DaysInYear_cases Y
  obtain ⟨dm, hdm, h0, h1, hmon, hdate⟩ := DayFromMonth_some M
    (DaysInYear Y - 365) hM0 hM1 (by omega)
  have hyear := YearFromTime_of_yearDay Y dm r h0 (by omega) hr0 hr1
  have hday := DayWithinYear_of_yearDay Y dm r h0 (by omega) hr0 hr1
  have hlp := InLeapYear_of_yearDay Y dm r h0 (by omega) hr0 hr1
  have hmonth : MonthFromTime ((DayFromYear Y + dm) * msPerDay + r) = some M := by
    unfold MonthFromTime
    simp only [hday, hlp]
    exact hmon
  have hdt : DateFromTime ((DayFromYear Y + dm) * msPerDay + r) = some 1 := by
    unfold DateFromTime
    simp only [hmonth, Option.getD_some, hday, hlp]
    exact hdate
  exact ⟨dm, hdm, h0, by omega, hyear, hmonth, hdt⟩

/-- The result of `MakeDay` on finite integers: the verification of the first
of the month never fails, and the result is the day number of that first
plus `day - 1`. -/
theorem makeDayFinite_eq (year month day : Int) :
    ∃ dm, DayFromMonth (month % 12) (DaysInYear (year + month / 12) - 365) = some dm ∧
      0 ≤ dm ∧ dm < DaysInYear (year + month / 12) - 30 ∧
      makeDayFinite year month day = some (DayFromYear (year + month / 12) + dm + day - 1) := by
  have hY := DaysInYear_cases (year + month / 12)
  have hleap : boolToNum (InLeapYear ((DayFromYear (year + month / 12) + 60) * msPerDay))
      = DaysInYear (year + month / 12) - 365 := by
    have h := InLeapYear_of_yearDay (year + month / 12) 60 0 (by omega) (by omega) (by omega)
      (by decide)
    simpa using h
  obtain ⟨dm, hdm, h0, h1, hyear, hmonth, hdt⟩ := fields_of_month_start (year + month / 12)
    (month % 12) (msPerDay / 2) (by omega) (by omega) (by decide) (by decide)
  refine ⟨dm, hdm, h0, h1, ?_⟩
  unfold makeDayFinite
  simp only [month_normalise, hleap, hdm, hyear, hmonth, hdt]
  simp

theorem TimeWithinDay_eq (t : Int) : TimeWithinDay t = t % msPerDay := by
  unfold TimeWithinDay
  simp only [fmod_def t msPerDay (by decide)]
  unfold msPerDay
  split_ifs <;> omega


/-! ## TimeClip and the storage encoding -/

theorem MaxDateVal_cast : ((MaxDateVal : Int) : ℚ) = 8640000000000000 := by
  unfold MaxDateVal
  norm_num

theorem fabs_gt_fin (q : ℚ) :
    ((Dbl.fin q).fabs).gt (Dbl.fin (MaxDateVal : Int)) = decide (|q| > (MaxDateVal : Int)) := by
  simp [Dbl.fabs, Dbl.gt]

theorem abs_floor_le_of_nonneg {q : ℚ} (h : 0 ≤ q) (hq : |q| ≤ (MaxDateVal : Int)) :
    0 ≤ ⌊q⌋ ∧ ⌊q⌋ ≤ MaxDateVal := by
  rw [abs_of_nonneg h] at hq
  constructor
  · exact Int.floor_nonneg.mpr h
  · have h1 : (⌊q⌋ : ℚ) ≤ q := Int.floor_le q
    have h2 : (⌊q⌋ : ℚ) ≤ (MaxDateVal : Int) := le_trans h1 hq
    exact_mod_cast h2

theorem abs_ceil_le_of_neg {q : ℚ} (h : q < 0) (hq : |q| ≤ (MaxDateVal : Int)) :
    -MaxDateVal ≤ ⌈q⌉ ∧ ⌈q⌉ ≤ 0 := by
  rw [abs_of_neg h] at hq
  constructor
  · have h1 : q ≤ (⌈q⌉ : ℚ) := Int.le_ceil q
    have h2 : ((-MaxDateVal : Int) : ℚ) ≤ (⌈q⌉ : ℚ) := by
      push_cast
      linarith
    exact_mod_cast h2
  · exact Int.ceil_le.mpr (by exact_mod_cast h.le)

/-- The value of `TimeClip` on a finite value within range. -/
theorem TimeClip_fin (q : ℚ) (hq : |q| ≤ (MaxDateVal : Int)) :
    TimeClip (Dbl.fin q) = Dbl.fin (((Dbl.fin q).toQint64 : Int) : ℚ) := by
  unfold TimeClip
  rw [fabs_gt_fin]
  have hng : ¬ (|q| > ((MaxDateVal : Int) : ℚ)) := not_lt.mpr hq
  simp only [Dbl.isFinite, Bool.not_true, Bool.false_or, hng, decide_False]
  simp only [toInteger, Dbl.toQint64]
  by_cases h : 0 ≤ q
  · simp [h, Dbl.addZero]
  · by_cases hc : ⌈q⌉ = 0
    · simp [h, hc, Dbl.addZero]
    · simp [h, hc, Dbl.addZero]

theorem TimeClip_int (t : Int) (hlo : -MaxDateVal ≤ t) (hhi : t ≤ MaxDateVal) :
    TimeClip (Dbl.fin (t : ℚ)) = Dbl.fin (t : ℚ) := by
  have hq : |(t : ℚ)| ≤ (MaxDateVal : Int) := by
    rw [abs_le]
    constructor
    · have : ((-MaxDateVal : Int) : ℚ) ≤ (t : ℚ) := by exact_mod_cast hlo
      simpa using this
    · exact_mod_cast hhi
  rw [TimeClip_fin _ hq]
  simp [Dbl.toQint64]

/-- The encoding of a finite value within range, when the arithmetic does
not wrap. -/
theorem encode_fin (c : StorageConsts) (q : ℚ) (hq : |q| ≤ (MaxDateVal : Int))
    (hw : (c.Extra : Int) + 2 * MaxDateVal < 2 ^ 64) :
    -MaxDateVal ≤ (Dbl.fin q).toQint64 ∧ (Dbl.fin q).toQint64 ≤ MaxDateVal ∧
    ((encode c (Dbl.fin q) : Nat) : Int) = (Dbl.fin q).toQint64 + MaxDateVal + c.Extra := by
  have hb : -MaxDateVal ≤ (Dbl.fin q).toQint64 ∧ (Dbl.fin q).toQint64 ≤ MaxDateVal := by
    simp only [Dbl.toQint64]
    by_cases h : 0 ≤ q
    · have := abs_floor_le_of_nonneg h hq
      simp only [h, if_true]
      unfold MaxDateVal at *
      omega
    · have := abs_ceil_le_of_neg (not_le.mp h) hq
      simp only [h, if_false]
      unfold MaxDateVal at *
      omega
  refine ⟨hb.1, hb.2, ?_⟩
  unfold encode
  rw [fabs_gt_fin]
  have hng : ¬ (|q| > ((MaxDateVal : Int) : ℚ)) := not_lt.mpr hq
  simp only [Dbl.isNaN, Bool.false_or, hng, decide_False]
  simp only [Bool.false_eq_true, if_false]
  generalize (Dbl.fin q).toQint64 = v at hb ⊢
  unfold MaxDateVal at *
  omega


/-! ## Rounding to binary64 -/

theorem roundHalfEven_of_floor (q : ℚ) (f : Int) (h0 : (f : ℚ) ≤ q) (h1 : q < f + 1) :
    roundHalfEven q = if q - f < 1 / 2 then f
      else if 1 / 2 < q - f then f + 1
      else if f % 2 = 0 then f else f + 1 := by
  have hf : ⌊q⌋ = f := by
    rw [Int.floor_eq_iff]
    exact ⟨h0, h1⟩
  unfold roundHalfEven
  simp only [hf]

theorem roundHalfEven_int (k : Int) : roundHalfEven (k : ℚ) = k := by
  rw [roundHalfEven_of_floor (k : ℚ) k le_rfl (by linarith)]
  simp

/-- Rounding to the nearest integer stays between the integers around. -/
theorem roundHalfEven_between (q : ℚ) (lo hi : Int) (h0 : (lo : ℚ) ≤ q) (h1 : q ≤ hi) :
    lo ≤ roundHalfEven q ∧ roundHalfEven q ≤ hi := by
  have f0 := Int.floor_le q
  have f1 := Int.lt_floor_add_one q
  have a : lo ≤ ⌊q⌋ := Int.le_floor.mpr h0
  rw [roundHalfEven_of_floor q ⌊q⌋ f0 f1]
  by_cases hq : q = (⌊q⌋ : ℚ)
  · have b : ⌊q⌋ ≤ hi := by
      have : ((⌊q⌋ : Int) : ℚ) ≤ hi := by rw [← hq]; exact h1
      exact_mod_cast this
    have : q - (⌊q⌋ : ℚ) = 0 := by linarith
    rw [this]
    norm_num
    exact ⟨a, b⟩
  · have b : ⌊q⌋ + 1 ≤ hi := by
      have : (⌊q⌋ : ℚ) < hi := lt_of_lt_of_le (lt_of_le_of_ne f0 (Ne.symm hq)) h1
      have : ⌊q⌋ < hi := by exact_mod_cast this
      omega
    split_ifs <;> constructor <;> omega

/-- Rounding to the nearest integer goes up only from the upper half. -/
theorem roundHalfEven_lt (q : ℚ) (hi : Int) (h : q < (hi : ℚ) - 1 / 2) :
    roundHalfEven q < hi := by
  have f0 := Int.floor_le q
  have f1 := Int.lt_floor_add_one q
  have a : (⌊q⌋ : ℚ) < (hi : ℚ) - 1 / 2 := lt_of_le_of_lt f0 h
  have a' : ⌊q⌋ < hi := by
    have : (⌊q⌋ : ℚ) < hi := by linarith
    exact_mod_cast this
  rw [roundHalfEven_of_floor q ⌊q⌋ f0 f1]
  by_cases hc : q - (⌊q⌋ : ℚ) < 1 / 2
  · rw [if_pos hc]
    exact a'
  · have hlt : ⌊q⌋ + 1 < hi := by
      have : ((⌊q⌋ + 1 : Int) : ℚ) < hi := by
        push_cast
        linarith [not_lt.mp hc]
      exact_mod_cast this
    split_ifs <;> omega

theorem log2_eq (r : ℚ) (e : Int) (h1 : (2 : ℚ) ^ e ≤ r) (h2 : r < (2 : ℚ) ^ (e + 1)) :
    Int.log 2 r = e := by
  have hpos : 0 < r := lt_of_lt_of_le (by positivity) h1
  have a : e ≤ Int.log 2 r := (Int.zpow_le_iff_le_log (by norm_num) hpos).mp (by exact_mod_cast h1)
  have b : Int.log 2 r < e + 1 :=
    (Int.lt_zpow_iff_log_lt (by norm_num) hpos).mp (by exact_mod_cast h2)
  omega

/-- The binary exponent of a rational other than zero. -/
theorem log2_spec (r : ℚ) (hr : 0 < r) :
    (2 : ℚ) ^ (Int.log 2 r) ≤ r ∧ r < (2 : ℚ) ^ (Int.log 2 r + 1) := by
  have a := Int.zpow_log_le_self (R := ℚ) (b := 2) (by norm_num) hr
  have b := Int.lt_zpow_succ_log_self (R := ℚ) (b := 2) (by norm_num) r
  exact ⟨by exact_mod_cast a, by exact_mod_cast b⟩

theorem Dbl.round_of_binade (q : ℚ) (e : Int) (hq : q ≠ 0) (h1 : (2 : ℚ) ^ e ≤ |q|)
    (h2 : |q| < (2 : ℚ) ^ (e + 1)) (he : -1022 ≤ e) :
    Dbl.round q
      = if (2 : ℚ) ^ (1024 : Int) ≤ |(roundHalfEven (q / (2 : ℚ) ^ (e - 52)) : ℚ) * (2 : ℚ) ^ (e - 52)|
          then Dbl.infinity (decide (q < 0))
        else if (roundHalfEven (q / (2 : ℚ) ^ (e - 52)) : ℚ) * (2 : ℚ) ^ (e - 52) = 0
          then Dbl.zero (decide (q < 0))
        else Dbl.fin ((roundHalfEven (q / (2 : ℚ) ^ (e - 52)) : ℚ) * (2 : ℚ) ^ (e - 52)) := by
  unfold Dbl.round
  rw [if_neg hq, log2_eq |q| e h1 h2, max_eq_left he]

/-- A rational that is a whole multiple of the spacing of its binade is a double. -/
theorem Dbl.round_exact (q : ℚ) (e k : Int) (hq : q ≠ 0) (h1 : (2 : ℚ) ^ e ≤ |q|)
    (h2 : |q| < (2 : ℚ) ^ (e + 1)) (he : -1022 ≤ e) (he' : e ≤ 1023)
    (hk : q = (k : ℚ) * (2 : ℚ) ^ (e - 52)) : Dbl.round q = Dbl.fin q := by
  have hu : (2 : ℚ) ^ (e - 52) ≠ 0 := by positivity
  have hdiv : q / (2 : ℚ) ^ (e - 52) = (k : ℚ) := by
    rw [hk]
    field_simp
  rw [Dbl.round_of_binade q e hq h1 h2 he, hdiv, roundHalfEven_int, ← hk]
  have hlt : |q| < (2 : ℚ) ^ (1024 : Int) := by
    refine lt_of_lt_of_le h2 ?_
    exact zpow_le_zpow_right₀ (by norm_num) (by omega)
  rw [if_neg (not_le.mpr hlt), if_neg hq]

/-- An integer of at most 53 bits, scaled by a power of two, is a double. -/
theorem Dbl.round_shift (m j : Int) (hm : m ≠ 0) (hb : |m| ≤ 2 ^ 53) (hj : -1022 ≤ j)
    (hj' : j ≤ 970) : Dbl.round ((m : ℚ) * (2 : ℚ) ^ j) = Dbl.fin ((m : ℚ) * (2 : ℚ) ^ j) := by
  have h2j : (0 : ℚ) < (2 : ℚ) ^ j := by positivity
  have hmq : (m : ℚ) ≠ 0 := by exact_mod_cast hm
  have hq : (m : ℚ) * (2 : ℚ) ^ j ≠ 0 := mul_ne_zero hmq (ne_of_gt h2j)
  have habs : |(m : ℚ) * (2 : ℚ) ^ j| = |(m : ℚ)| * (2 : ℚ) ^ j := by
    rw [abs_mul, abs_of_pos h2j]
  have hm1 : (1 : ℚ) ≤ |(m : ℚ)| := by
    have : (1 : Int) ≤ |m| := Int.one_le_abs hm
    exact_mod_cast this
  have hm53 : |(m : ℚ)| ≤ (2 : ℚ) ^ (53 : Int) := by
    have : ((|m| : Int) : ℚ) ≤ ((2 ^ 53 : Int) : ℚ) := by exact_mod_cast hb
    rw [Int.cast_abs] at this
    norm_num at this ⊢
    exact this
  obtain ⟨s1, s2⟩ := log2_spec _ (abs_pos.mpr hq)
  generalize Int.log 2 |(m : ℚ) * (2 : ℚ) ^ j| = e at s1 s2
  have hje : j ≤ e := by
    by_contra hc
    have hc' : e + 1 ≤ j := by omega
    have : (2 : ℚ) ^ (e + 1) ≤ (2 : ℚ) ^ j := zpow_le_zpow_right₀ (by norm_num) hc'
    rw [habs] at s2
    nlinarith
  have hej : e ≤ j + 53 := by
    by_contra hc
    have hc' : j + 54 ≤ e := by omega
    have h1 : (2 : ℚ) ^ (j + 54) ≤ (2 : ℚ) ^ e := zpow_le_zpow_right₀ (by norm_num) hc'
    have h2 : (2 : ℚ) ^ (j + 54) = (2 : ℚ) ^ (54 : Int) * (2 : ℚ) ^ j := by
      rw [← zpow_add₀ (by norm_num : (2 : ℚ) ≠ 0)]
      congr 1
      omega
    rw [habs] at s1
    have h3 : (2 : ℚ) ^ (53 : Int) < (2 : ℚ) ^ (54 : Int) := by norm_num
    nlinarith
  by_cases hcase : e ≤ j + 52
  · refine Dbl.round_exact _ e (m * 2 ^ (j + 52 - e).toNat) hq s1 s2 (by omega) (by omega) ?_
    have ht : (((j + 52 - e).toNat : Int)) = j + 52 - e := Int.toNat_of_nonneg (by omega)
    have hp : (((2 : Int) ^ (j + 52 - e).toNat : Int) : ℚ) = (2 : ℚ) ^ (j + 52 - e) := by
      rw [← ht]
      push_cast
      rw [zpow_natCast, ht]
    rw [Int.cast_mul, hp, mul_assoc, ← zpow_add₀ (by norm_num : (2 : ℚ) ≠ 0)]
    congr 2
    omega
  · have he : e = j + 53 := by omega
    subst he
    have hge : (2 : ℚ) ^ (53 : Int) ≤ |(m : ℚ)| := by
      have h2 : (2 : ℚ) ^ (j + 53) = (2 : ℚ) ^ (53 : Int) * (2 : ℚ) ^ j := by
        rw [← zpow_add₀ (by norm_num : (2 : ℚ) ≠ 0)]
        congr 1
        omega
      rw [habs, h2] at s1
      exact le_of_mul_le_mul_right s1 h2j
    have habs53 : |m| = 2 ^ 53 := by
      have : ((2 ^ 53 : Int) : ℚ) ≤ ((|m| : Int) : ℚ) := by
        rw [Int.cast_abs]
        norm_num at hge ⊢
        exact hge
      have : (2 ^ 53 : Int) ≤ |m| := by exact_mod_cast this
      omega
    refine Dbl.round_exact _ (j + 53) (m / 2) hq s1 s2 (by omega) (by omega) ?_
    have hdiv : m = 2 * (m / 2) := by
      rcases abs_eq (by norm_num : (0 : Int) ≤ 2 ^ 53) |>.mp habs53 with h | h <;> omega
    have h2 : (2 : ℚ) ^ (j + 53 - 52) = 2 * (2 : ℚ) ^ j := by
      have : j + 53 - 52 = 1 + j := by omega
      rw [this, zpow_add₀ (by norm_num : (2 : ℚ) ≠ 0)]
      norm_num
    rw [h2]
    have : (m : ℚ) = 2 * ((m / 2 : Int) : ℚ) := by
      have := congrArg (fun z : Int => (z : ℚ)) hdiv
      simpa using this
    rw [this]
    ring

/-- An integer of magnitude at most `2^53` is a double. -/
theorem Dbl.round_int (n : Int) (hn : n ≠ 0) (hb : |n| ≤ 2 ^ 53) :
    Dbl.round (n : ℚ) = Dbl.fin (n : ℚ) := by
  have := Dbl.round_shift n 0 hn hb (by decide) (by decide)
  simpa using this

/-- The floor of a quotient of integers by a positive integer. -/
theorem floor_int_div (n d : Int) (hd : 0 < d) : ⌊(n : ℚ) / (d : ℚ)⌋ = n / d := by
  have h := Rat.floor_intCast_div_natCast n d.toNat
  have hc : ((d.toNat : Int)) = d := Int.toNat_of_nonneg hd.le
  have hq : ((d.toNat : ℕ) : ℚ) = (d : ℚ) := by
    have h1 : (((d.toNat : Int)) : ℚ) = (d : ℚ) := by rw [hc]
    rw [← h1]
    norm_cast
  rw [hq, hc] at h
  exact h

/-- The floor of a rounded quotient is the floor of the quotient: a fraction
`a / b` below `2^E` in magnitude lies at least `1 / b` below the next integer,
more than half the spacing `2^(E - 53)` of the doubles there when
`b < 2^(54 - E)`, so that rounding does not reach that integer. -/
theorem Dbl.floor_round (q : ℚ) (a b : Int) (E : Nat) (hb : 0 < b) (hq : q = (a : ℚ) / (b : ℚ))
    (hne : q ≠ 0) (hE : E ≤ 52) (hlt : |q| < (2 : ℚ) ^ (E : Int))
    (hbE : b < 2 ^ (54 - E)) :
    Dbl.floor (Dbl.round q) = Dbl.fin ((⌊q⌋ : Int) : ℚ) := by
  have hbq : (0 : ℚ) < (b : ℚ) := by exact_mod_cast hb
  have he : Int.log 2 |q| < (E : Int) :=
    (Int.lt_zpow_iff_log_lt (by norm_num) (abs_pos.mpr hne)).mp (by exact_mod_cast hlt)
  unfold Dbl.round
  rw [if_neg hne]
  simp only
  generalize hL : max (Int.log 2 |q|) (-1022) - 52 = L
  have hLle : L ≤ (E : Int) - 53 := by
    have : max (Int.log 2 |q|) (-1022) ≤ (E : Int) - 1 := max_le (by omega) (by omega)
    omega
  have hu : (0 : ℚ) < (2 : ℚ) ^ L := by positivity
  -- the reciprocal of the spacing is an integer
  have ht : (((-L).toNat : Int)) = -L := Int.toNat_of_nonneg (by omega)
  have hP : (((2 : Int) ^ (-L).toNat : Int) : ℚ) = ((2 : ℚ) ^ L)⁻¹ := by
    rw [← zpow_neg, ← ht]
    push_cast
    rw [zpow_natCast, ht]
  generalize (2 : Int) ^ (-L).toNat = P at hP
  have hPpos : (0 : ℚ) < (P : ℚ) := by
    rw [hP]
    positivity
  have hx : q / (2 : ℚ) ^ L = q * (P : ℚ) := by
    rw [hP, div_eq_mul_inv]
  -- twice the reciprocal of the spacing exceeds the denominator
  have hb2 : (b : ℚ) < 2 * (P : ℚ) := by
    have h1 : ((b : Int) : ℚ) < (((2 : Int) ^ (54 - E) : Int) : ℚ) := by exact_mod_cast hbE
    have h2 : ((((2 : Int) ^ (54 - E) : Int)) : ℚ) = (2 : ℚ) ^ ((54 : Int) - E) := by
      have : (((54 - E : Nat)) : Int) = (54 : Int) - E := by omega
      rw [← this]
      push_cast
      rw [zpow_natCast]
    have h3 : (2 : ℚ) ^ ((54 : Int) - E) ≤ (2 : ℚ) ^ (1 - L) :=
      zpow_le_zpow_right₀ (by norm_num) (by omega)
    have h4 : (2 : ℚ) ^ (1 - L) = 2 * (P : ℚ) := by
      rw [hP, ← zpow_neg, sub_eq_add_neg, zpow_add₀ (by norm_num : (2 : ℚ) ≠ 0)]
      norm_num
    rw [h2] at h1
    linarith
  have f0 := Int.floor_le q
  have f1 := Int.lt_floor_add_one q
  generalize hk : ⌊q⌋ = k at f0 f1
  -- the quotient is at most `k + 1 - 1 / b`
  have hq1 : q ≤ (k : ℚ) + 1 - 1 / (b : ℚ) := by
    have h1 : (a : ℚ) < ((k : ℚ) + 1) * (b : ℚ) := by
      rw [hq, div_lt_iff₀ hbq] at f1
      exact f1
    have h2 : a < (k + 1) * b := by exact_mod_cast h1
    have h3 : a + 1 ≤ (k + 1) * b := by omega
    have h4 : (a : ℚ) + 1 ≤ ((k : ℚ) + 1) * (b : ℚ) := by exact_mod_cast h3
    rw [hq, div_le_iff₀ hbq]
    have : ((k : ℚ) + 1 - 1 / (b : ℚ)) * (b : ℚ) = ((k : ℚ) + 1) * (b : ℚ) - 1 := by
      field_simp
    rw [this]
    linarith
  have hhalf : (1 : ℚ) / 2 < (P : ℚ) / (b : ℚ) := by
    rw [lt_div_iff₀ hbq]
    linarith
  have lo : k * P ≤ roundHalfEven (q * (P : ℚ)) := by
    refine (roundHalfEven_between (q * (P : ℚ)) (k * P) ⌈q * (P : ℚ)⌉ ?_ (Int.le_ceil _)).1
    push_cast
    exact mul_le_mul_of_nonneg_right f0 hPpos.le
  have hi : roundHalfEven (q * (P : ℚ)) < (k + 1) * P := by
    apply roundHalfEven_lt
    push_cast
    have h1 : q * (P : ℚ) ≤ ((k : ℚ) + 1 - 1 / (b : ℚ)) * (P : ℚ) :=
      mul_le_mul_of_nonneg_right hq1 hPpos.le
    have h2 : ((k : ℚ) + 1 - 1 / (b : ℚ)) * (P : ℚ)
        = ((k : ℚ) + 1) * (P : ℚ) - (P : ℚ) / (b : ℚ) := by
      field_simp
      ring
    rw [h2] at h1
    linarith
  rw [hx]
  generalize roundHalfEven (q * (P : ℚ)) = R at lo hi
  have hinv : (2 : ℚ) ^ L = ((P : ℚ))⁻¹ := by
    rw [hP, inv_inv]
  rw [hinv]
  have r0 : (k : ℚ) ≤ (R : ℚ) * ((P : ℚ))⁻¹ := by
    have : ((k * P : Int) : ℚ) ≤ (R : ℚ) := by exact_mod_cast lo
    rw [le_mul_inv_iff₀ hPpos]
    push_cast at this
    exact this
  have r1 : (R : ℚ) * ((P : ℚ))⁻¹ < (k : ℚ) + 1 := by
    have : (R : ℚ) < (((k + 1) * P : Int) : ℚ) := by exact_mod_cast hi
    rw [mul_inv_lt_iff₀ hPpos]
    push_cast at this
    exact this
  generalize (R : ℚ) * ((P : ℚ))⁻¹ = r at r0 r1
  have hq52 : |q| < (2 : ℚ) ^ (52 : Int) := by
    refine lt_of_lt_of_le hlt ?_
    exact zpow_le_zpow_right₀ (by norm_num) (by omega)
  have hrabs : |r| < (2 : ℚ) ^ (1024 : Int) := by
    have h1 := abs_lt.mp hq52
    have h2 : (2 : ℚ) ^ (52 : Int) + 1 < (2 : ℚ) ^ (1024 : Int) := by norm_num
    rw [abs_lt]
    constructor <;> linarith [h1.1, h1.2]
  rw [if_neg (not_le.mpr hrabs)]
  have hfl : ⌊r⌋ = k := by
    rw [Int.floor_eq_iff]
    exact ⟨r0, r1⟩
  by_cases hr : r = 0
  · rw [if_pos hr]
    have hk0 : k = 0 := by
      rw [hr] at hfl
      simpa using hfl.symm
    have hqpos : ¬ q < 0 := by
      rw [hk0] at f0
      push_cast at f0
      exact not_lt.mpr f0
    simp [hqpos, Dbl.zero, Dbl.floor, hk0]
  · rw [if_neg hr]
    simp only [Dbl.floor, hfl]

/-- The code's `::floor(n / d)` on integers `n` and a positive integer `d`. -/
theorem Dbl.floor_div_int (n d : Int) (E : Nat) (hd : 0 < d) (hE : E ≤ 52)
    (hlt : |n| < 2 ^ E * d) (hdE : d < 2 ^ (54 - E)) :
    Dbl.floor (Dbl.div (Dbl.fin (n : ℚ)) (Dbl.fin (d : ℚ))) = Dbl.fin ((n / d : Int) : ℚ) := by
  have hdq : (0 : ℚ) < (d : ℚ) := by exact_mod_cast hd
  have hd0 : ¬ (d : ℚ) = 0 := ne_of_gt hdq
  by_cases hn : n = 0
  · subst hn
    simp [Dbl.div, Dbl.isNaN, Dbl.isInf, Dbl.isZero, Dbl.signBit, Dbl.zero, Dbl.floor, hd0,
      not_lt.mpr hdq.le]
  · have hnq : ¬ (n : ℚ) = 0 := by exact_mod_cast hn
    have hdiv : Dbl.div (Dbl.fin (n : ℚ)) (Dbl.fin (d : ℚ)) = Dbl.round ((n : ℚ) / (d : ℚ)) := by
      simp [Dbl.div, Dbl.isNaN, Dbl.isInf, Dbl.isZero, Dbl.toRat, hd0, hnq]
    rw [hdiv, Dbl.floor_round ((n : ℚ) / (d : ℚ)) n d E hd rfl (div_ne_zero hnq hd0) hE ?_ hdE,
      floor_int_div n d hd]
    rw [abs_div, abs_of_pos hdq, div_lt_iff₀ hdq]
    have : ((|n| : Int) : ℚ) < (((2 : Int) ^ E * d : Int) : ℚ) := by exact_mod_cast hlt
    rw [Int.cast_abs] at this
    push_cast at this
    rw [zpow_natCast]
    exact this

/-- An integer of magnitude at most `2^53`, zero included, is a double. -/
theorem Dbl.round_intCast (n : Int) (hb : |n| ≤ 2 ^ 53) : Dbl.round (n : ℚ) = Dbl.fin (n : ℚ) := by
  by_cases hn : n = 0
  · subst hn
    simp [Dbl.round]
  · exact Dbl.round_int n hn hb

/-- The result of rounding is never NaN. -/
theorem Dbl.round_isNaN (q : ℚ) : (Dbl.round q).isNaN = false := by
  unfold Dbl.round Dbl.infinity Dbl.zero
  simp only
  split_ifs <;> rfl

/-- A sum of finite doubles that is an integer of at most 53 bits scaled by a power of
two is exact. -/
theorem Dbl.add_exact (p q : ℚ) (m j : Int) (h : p + q = (m : ℚ) * (2 : ℚ) ^ j)
    (hb : |m| ≤ 2 ^ 53) (hj : -1022 ≤ j) (hj' : j ≤ 970) :
    Dbl.add (Dbl.fin p) (Dbl.fin q) = Dbl.fin (p + q) := by
  unfold Dbl.add
  simp only [Dbl.isNaN, Dbl.isInf, Dbl.toRat, Dbl.isZero, Dbl.signBit, Dbl.zero]
  by_cases h0 : p + q = 0
  · have hc : (decide (p = 0) && decide (q = 0) && decide (p < 0) && decide (q < 0)) = false := by
      by_cases hp : p = 0 <;> simp [hp]
    simp [h0, hc]
  · have hm : m ≠ 0 := by
      rintro rfl
      apply h0
      rw [h]
      simp
    simp only [Bool.false_or, Bool.false_and, Bool.false_eq_true, if_false, h0]
    rw [h, Dbl.round_shift m j hm hb hj hj']

/-- The sum of two integer-valued doubles, of magnitude at most `2^53`. -/
theorem Dbl.add_int (a b : Int) (h : |a + b| ≤ 2 ^ 53) :
    Dbl.add (Dbl.fin (a : ℚ)) (Dbl.fin (b : ℚ)) = Dbl.fin ((a + b : Int) : ℚ) := by
  rw [Dbl.add_exact (a : ℚ) (b : ℚ) (a + b) 0 (by push_cast; ring) h (by decide) (by decide)]
  push_cast
  rfl

/-- The negation of an integer-valued double other than zero. -/
theorem Dbl.neg_int (b : Int) (hb : b ≠ 0) : Dbl.neg (Dbl.fin (b : ℚ)) = Dbl.fin ((-b : Int) : ℚ) := by
  have : ¬ (b : ℚ) = 0 := by exact_mod_cast hb
  simp [Dbl.neg, this]

/-- The difference of two integer-valued doubles, of magnitude at most `2^53`. -/
theorem Dbl.sub_int (a b : Int) (h : |a - b| ≤ 2 ^ 53) :
    Dbl.sub (Dbl.fin (a : ℚ)) (Dbl.fin (b : ℚ)) = Dbl.fin ((a - b : Int) : ℚ) := by
  unfold Dbl.sub
  by_cases hb : b = 0
  · subst hb
    have hn : Dbl.neg (Dbl.fin ((0 : Int) : ℚ)) = Dbl.negZero := by simp [Dbl.neg]
    rw [hn]
    unfold Dbl.add
    simp only [Dbl.isNaN, Dbl.isInf, Dbl.toRat, Dbl.isZero, Dbl.signBit, Dbl.zero]
    by_cases ha : a = 0
    · subst ha
      simp
    · have : ¬ (a : ℚ) = 0 := by exact_mod_cast ha
      simp only [Bool.false_or, Bool.false_and, Bool.false_eq_true, if_false, add_zero, this]
      rw [Dbl.round_int a ha (by simpa using h)]
      simp
  · rw [Dbl.neg_int b hb, Dbl.add_int a (-b) (by simpa [sub_eq_add_neg] using h)]
    congr 2

/-- A product of a finite double and a positive one that is an integer of at most 53 bits
scaled by a power of two is exact. -/
theorem Dbl.mul_exact (p q : ℚ) (m j : Int) (hq : 0 < q) (h : p * q = (m : ℚ) * (2 : ℚ) ^ j)
    (hb : |m| ≤ 2 ^ 53) (hj : -1022 ≤ j) (hj' : j ≤ 970) :
    Dbl.mul (Dbl.fin p) (Dbl.fin q) = Dbl.fin (p * q) := by
  unfold Dbl.mul
  simp only [Dbl.isNaN, Dbl.isInf, Dbl.toRat, Dbl.isZero, Dbl.signBit, Dbl.zero]
  by_cases h0 : p * q = 0
  · have hp : p = 0 := by
      rcases mul_eq_zero.mp h0 with h1 | h1
      · exact h1
      · exact absurd h1 (ne_of_gt hq)
    simp [hp, not_lt.mpr hq.le]
  · have hm : m ≠ 0 := by
      rintro rfl
      apply h0
      rw [h]
      simp
    simp only [Bool.false_or, Bool.false_and, Bool.and_false, Bool.false_eq_true, if_false, h0]
    rw [h, Dbl.round_shift m j hm hb hj hj']

/-- The product of an integer-valued double and a positive one, of magnitude at most
`2^53`. -/
theorem Dbl.mul_int (a b : Int) (hb : 0 < b) (h : |a * b| ≤ 2 ^ 53) :
    Dbl.mul (Dbl.fin (a : ℚ)) (Dbl.fin (b : ℚ)) = Dbl.fin ((a * b : Int) : ℚ) := by
  rw [Dbl.mul_exact (a : ℚ) (b : ℚ) (a * b) 0 (by exact_mod_cast hb) (by push_cast; ring) h
    (by decide) (by decide)]
  push_cast
  rfl

/-- The product is commutative. -/
theorem Dbl.mul_comm (a b : Dbl) : Dbl.mul a b = Dbl.mul b a := by
  unfold Dbl.mul
  rw [Bool.or_comm a.isNaN, Bool.or_comm (a.isInf && b.isZero), Bool.and_comm a.isInf,
    Bool.and_comm a.isZero, Bool.or_comm a.isInf, Bool.xor_comm a.signBit, Rat.mul_comm a.toRat]

/-- The rounding of a positive rational from its binary exponent `e` and the rounded
multiple `R` of the spacing `2^(e - 52)`, short of the overflow. -/
theorem Dbl.round_pos (q : ℚ) (e R : Int) (hq : 0 < q) (h1 : (2 : ℚ) ^ e ≤ q)
    (h2 : q < (2 : ℚ) ^ (e + 1)) (he : -1022 ≤ e)
    (hR : roundHalfEven (q / (2 : ℚ) ^ (e - 52)) = R) (hR0 : 0 < R)
    (hlt : (R : ℚ) * (2 : ℚ) ^ (e - 52) < (2 : ℚ) ^ (1024 : Int)) :
    Dbl.round q = Dbl.fin ((R : ℚ) * (2 : ℚ) ^ (e - 52)) := by
  have hRq : (0 : ℚ) < (R : ℚ) := by exact_mod_cast hR0
  have hpos : (0 : ℚ) < (R : ℚ) * (2 : ℚ) ^ (e - 52) := mul_pos hRq (by positivity)
  rw [Dbl.round_of_binade q e (ne_of_gt hq) (by rw [abs_of_pos hq]; exact h1)
    (by rw [abs_of_pos hq]; exact h2) he, hR, abs_of_pos hpos, if_neg (not_le.mpr hlt),
    if_neg (ne_of_gt hpos)]

/-- The product of two finite doubles, neither of them zero, is the rounded product. -/
theorem Dbl.mul_fin (p q : ℚ) (h : p * q ≠ 0) :
    Dbl.mul (Dbl.fin p) (Dbl.fin q) = Dbl.round (p * q) := by
  unfold Dbl.mul
  simp only [Dbl.isNaN, Dbl.isInf, Dbl.isZero, Dbl.toRat, Bool.or_self, Bool.false_and,
    Bool.and_false, Bool.false_eq_true, if_false, h]

/-- The sum of two finite doubles, when it is not zero, is the rounded sum. -/
theorem Dbl.add_fin (p q : ℚ) (h : p + q ≠ 0) :
    Dbl.add (Dbl.fin p) (Dbl.fin q) = Dbl.round (p + q) := by
  unfold Dbl.add
  simp only [Dbl.isNaN, Dbl.isInf, Dbl.toRat, Bool.or_self, Bool.false_and,
    Bool.and_false, Bool.false_eq_true, if_false, h]

/-- The quotient of two finite doubles, neither of them zero, is the rounded quotient. -/
theorem Dbl.div_fin (p q : ℚ) (hp : p ≠ 0) (hq : q ≠ 0) :
    Dbl.div (Dbl.fin p) (Dbl.fin q) = Dbl.round (p / q) := by
  unfold Dbl.div
  simp only [Dbl.isNaN, Dbl.isInf, Dbl.isZero, Dbl.toRat, Bool.or_self, Bool.false_and,
    Bool.and_false, Bool.false_eq_true, if_false, hp, hq, decide_False]

/-! ## Digits and the ISO formatter -/

theorem digitQChar_natCast (n : Nat) : digitQChar (n : Int) = n % 10 + '0'.toNat := by
  unfold digitQChar
  have h : Int.tmod (n : Int) 10 = ((n % 10 : Nat) : Int) := by
    rw [Int.tmod_eq_emod (by omega) (by decide)]
    omega
  rw [h]
  have e : '0'.toNat = 48 := by decide
  rw [e]
  have h10 : n % 10 < 10 := Nat.mod_lt n (by decide)
  generalize n % 10 = r at h10 ⊢
  omega

theorem tdiv_natCast (n : Nat) : Int.tdiv (n : Int) 10 = ((n / 10 : Nat) : Int) := by
  rw [Int.tdiv_eq_ediv (by omega) (by decide)]
  omega

theorem zeroPadded_succ (n w : Nat) :
    zeroPadded n (w + 1) = zeroPadded (n / 10) w ++ [n % 10 + '0'.toNat] := by
  unfold zeroPadded
  rcases Nat.eq_zero_or_pos n with h | h
  · subst h
    simp [List.replicate_succ']
  · rw [Nat.digits_def' (by decide) h]
    simp

/-- The digit loop of `addZeroPrefixedInt` writes the zero-padded decimal of
a number that fits the width. -/
theorem zeroPrefixedDigits_eq_zeroPadded (w n : Nat) (h : n < 10 ^ w) :
    zeroPrefixedDigits (n : Int) w = zeroPadded n w := by
  induction w generalizing n with
  | zero =>
    have h0 : n = 0 := by simpa using h
    subst h0
    simp [zeroPrefixedDigits, zeroPadded]
  | succ w ih =>
    have hd : n / 10 < 10 ^ w := by
      rw [Nat.div_lt_iff_lt_mul (by decide)]
      rw [pow_succ] at h
      exact h
    rw [zeroPrefixedDigits, tdiv_natCast, ih _ hd, digitQChar_natCast, zeroPadded_succ]

theorem addZeroPrefixedInt_eq (str : QString) (num : Int) (w : Nat) (h0 : 0 ≤ num)
    (h1 : num < 10 ^ w) :
    addZeroPrefixedInt str num w = str ++ zeroPadded num.toNat w := by
  unfold addZeroPrefixedInt
  obtain ⟨k, rfl⟩ := Int.eq_ofNat_of_zero_le h0
  have hk : k < 10 ^ w := by exact_mod_cast h1
  rw [zeroPrefixedDigits_eq_zeroPadded w k hk]
  simp

theorem HourFromTime_eq (t : Int) : HourFromTime t = t / 3600000 % 24 := by
  unfold HourFromTime
  simp only [fmod_def _ HoursPerDay (by decide)]
  unfold HoursPerDay msPerHour
  split_ifs <;> omega

theorem MinFromTime_eq (t : Int) : MinFromTime t = t / 60000 % 60 := by
  unfold MinFromTime
  simp only [fmod_def _ MinutesPerHour (by decide)]
  unfold MinutesPerHour msPerMinute
  split_ifs <;> omega

theorem SecFromTime_eq (t : Int) : SecFromTime t = t / 1000 % 60 := by
  unfold SecFromTime
  simp only [fmod_def _ SecondsPerMinute (by decide)]
  unfold SecondsPerMinute msPerSecond
  split_ifs <;> omega

theorem msFromTime_eq (t : Int) : msFromTime t = t % 1000 := by
  unfold msFromTime
  simp only [fmod_def _ msPerSecond (by decide)]
  unfold msPerSecond
  split_ifs <;> omega

/-- The years of the timestamps a Date can hold. -/
theorem YearFromTime_range (t : Int) (hlo : -MaxDateVal ≤ t) (hhi : t ≤ MaxDateVal) :
    -271821 ≤ YearFromTime t ∧ YearFromTime t ≤ 275760 := by
  have hb := YearFromTime_bounds t
  have h1 : TimeFromYear (-271821) ≤ -MaxDateVal := by decide
  have h2 : MaxDateVal < TimeFromYear 275761 := by decide
  constructor
  · by_contra hc
    have := TimeFromYear_mono (show YearFromTime t + 1 ≤ -271821 by omega)
    omega
  · by_contra hc
    have := TimeFromYear_mono (show 275761 ≤ YearFromTime t by omega)
    omega

/-- Day and time of day, made from the fields of `t`, recombine to `t`. -/
theorem MakeDate_fields (t : Int) :
    MakeDate (MakeDay (some (YearFromTime t)) (MonthFromTime t) (DateFromTime t))
      (some (TimeWithinDay t)) = some t := by
  obtain ⟨m, dt, hm, hdt, hm0, hm1, _, _, hdfm⟩ := month_date_of_time t
  obtain ⟨dm, hdm, _, _, hmk⟩ := makeDayFinite_eq (YearFromTime t) m dt
  have e1 : m / 12 = 0 := by omega
  have e2 : m % 12 = m := by omega
  rw [e1, e2, Int.add_zero] at hdm
  rw [e1, Int.add_zero] at hmk
  rw [InLeapYear_eq, hdm] at hdfm
  have hdm' : dm = DayWithinYear t - dt + 1 := Option.some.inj hdfm
  have hD := Day_bounds t
  rw [hm, hdt]
  simp only [MakeDay, hmk, MakeDate, TimeWithinDay_eq]
  congr 1
  rw [hdm']
  unfold DayWithinYear Day msPerDay
  omega

/-- The time of day is `MakeTime` of the four time fields. -/
theorem MakeTime_fields (t : Int) :
    MakeTime (HourFromTime t) (MinFromTime t) (SecFromTime t) (msFromTime t)
      = TimeWithinDay t := by
  rw [HourFromTime_eq, MinFromTime_eq, SecFromTime_eq, msFromTime_eq, TimeWithinDay_eq]
  unfold MakeTime MinutesPerHour SecondsPerMinute msPerSecond msPerDay
  omega

/-- The appends after the year write the spec's fields. -/
theorem isoTail_eq (result : QString) (t m d : Int) (hm : MonthFromTime t = some m)
    (hd : DateFromTime t = some d) (hm0 : 0 ≤ m) (hm1 : m ≤ 11) (hd0 : 1 ≤ d) (hd1 : d ≤ 31) :
    isoTail result t = result ++ ['-'.toNat] ++ zeroPadded (m + 1).toNat 2 ++ ['-'.toNat] ++
      zeroPadded d.toNat 2 ++ ['T'.toNat] ++ zeroPadded (HourFromTime t).toNat 2 ++
      [':'.toNat] ++ zeroPadded (MinFromTime t).toNat 2 ++ [':'.toNat] ++
      zeroPadded (SecFromTime t).toNat 2 ++ ['.'.toNat] ++ zeroPadded (msFromTime t).toNat 3 ++
      ['Z'.toNat] := by
  have hh := HourFromTime_eq t
  have hmi := MinFromTime_eq t
  have hs := SecFromTime_eq t
  have hms := msFromTime_eq t
  unfold isoTail
  simp only [hm, hd, Option.getD_some]
  rw [addZeroPrefixedInt_eq _ (m + 1) 2 (by omega) (by norm_num; omega),
    addZeroPrefixedInt_eq _ d 2 (by omega) (by norm_num; omega),
    addZeroPrefixedInt_eq _ (HourFromTime t) 2 (by omega) (by norm_num; omega),
    addZeroPrefixedInt_eq _ (MinFromTime t) 2 (by omega) (by norm_num; omega),
    addZeroPrefixedInt_eq _ (SecFromTime t) 2 (by omega) (by norm_num; omega),
    addZeroPrefixedInt_eq _ (msFromTime t) 3 (by omega) (by norm_num; omega)]

/-- The ISO formatter writes the spec's format on every valid timestamp. -/
theorem toISOString_eq (t : Int) (hlo : -MaxDateVal ≤ t) (hhi : t ≤ MaxDateVal) :
    ∃ m d : Int, MonthFromTime t = some m ∧ DateFromTime t = some d ∧
      0 ≤ m ∧ m ≤ 11 ∧ 1 ≤ d ∧ d ≤ 31 ∧
      method_toISOString (some t) = Except.ok (isoFormat (YearFromTime t) m d
        (HourFromTime t) (MinFromTime t) (SecFromTime t) (msFromTime t)) := by
  obtain ⟨m, d, hm, hd, hm0, hm1, hd0, hd1, _⟩ := month_date_of_time t
  have hy := YearFromTime_range t hlo hhi
  refine ⟨m, d, hm, hd, hm0, hm1, hd0, hd1, ?_⟩
  unfold method_toISOString isoFormat isoYearField
  simp only
  by_cases hc : YearFromTime t < 0 ∨ YearFromTime t > 9999
  · have hn : ¬ (YearFromTime t).natAbs ≥ 1000000 := by omega
    have hc' : ¬ (0 ≤ YearFromTime t ∧ YearFromTime t ≤ 9999) := by omega
    have e6 : (10 : Int) ^ 6 = 1000000 := by norm_num
    rw [if_pos hc, if_neg hn, if_neg hc']
    rw [addZeroPrefixedInt_eq _ _ 6 (by omega) (by rw [e6]; omega),
      isoTail_eq _ t m d hm hd hm0 hm1 hd0 hd1, Int.toNat_ofNat]
    simp
  · have hc' : 0 ≤ YearFromTime t ∧ YearFromTime t ≤ 9999 := by omega
    rw [if_neg hc, if_pos hc']
    rw [addZeroPrefixedInt_eq _ _ 4 hc'.1 (by norm_num; omega),
      isoTail_eq _ t m d hm hd hm0 hm1 hd0 hd1]
    simp


/-! ## The primary scan on the formatter's strings -/

theorem scanLoop_cons (s : ScanState) (ch : Nat) (rest : QString) (he : s.error = false)
    (hf : s.format ≠ Format.Done) :
    scanLoop s (ch :: rest) = scanLoop (scanStep s ch) rest := by
  simp [scanLoop, he, hf]

theorem scanStep_digit (s : ScanState) (r : Nat) (hr : r < 10) :
    scanStep s (r + '0'.toNat) =
      { s with current := s.current * 10 + r, currentSize := s.currentSize + 1 } := by
  have e : '0'.toNat = 48 := by decide
  have e9 : '9'.toNat = 57 := by decide
  unfold scanStep
  rw [e, e9, if_pos (by omega)]
  simp

/-- The scan over a zero-padded number accumulates its value and width. -/
theorem scanLoop_zeroPadded (w n : Nat) (hn : n < 10 ^ w) (s : ScanState) (rest : QString)
    (he : s.error = false) (hf : s.format ≠ Format.Done) :
    scanLoop s (zeroPadded n w ++ rest) =
      scanLoop { s with current := s.current * 10 ^ w + n,
                        currentSize := s.currentSize + w } rest := by
  induction w generalizing n rest with
  | zero =>
    have h0 : n = 0 := by simpa using hn
    subst h0
    simp [zeroPadded]
  | succ w ih =>
    have hd : n / 10 < 10 ^ w := by
      rw [Nat.div_lt_iff_lt_mul (by decide)]
      rw [pow_succ] at hn
      exact hn
    rw [zeroPadded_succ, List.append_assoc, List.singleton_append, ih _ hd,
      scanLoop_cons _ _ _ (by exact he) (by exact hf),
      scanStep_digit _ _ (Nat.mod_lt n (by decide))]
    congr 1
    simp only [ScanState.mk.injEq, and_true, true_and]
    constructor
    · rw [pow_succ]
      have := Nat.div_add_mod n 10
      push_cast
      have h2 : (n : Int) = 10 * ((n / 10 : Nat) : Int) + ((n % 10 : Nat) : Int) := by
        exact_mod_cast this.symm
      push_cast at h2
      linarith
    · push_cast
      ring


theorem scanLoop_done (s : ScanState) (rest : QString) (h : s.format = Format.Done) :
    scanLoop s rest = s := by
  cases rest with
  | nil => rfl
  | cons ch rest => simp [scanLoop, h]

/-- The year field and the `'-'` after it. -/
theorem scan_year (w : Nat) (n : Nat) (hn : n < 10 ^ w) (rest : QString) (e : Bool)
    (ys y mo d h mi s ms os off : Int) (sT sZ : Bool)
    (hw : if e = true then w = 6 else w = 4) :
    scanLoop ⟨0, 0, 0, e, ys, y, mo, d, h, mi, s, ms, os, off, sT, sZ, false⟩
      (zeroPadded n w ++ '-'.toNat :: rest)
    = scanLoop ⟨1, 0, 0, e, ys, n, mo, d, h, mi, s, ms, os, off, sT, sZ, false⟩
      rest := by
  rw [scanLoop_zeroPadded w n hn _ _ rfl (by simp [Format.Done]),
    scanLoop_cons _ _ _ rfl (by simp [Format.Done])]
  congr 1
  cases e <;> simp at hw <;> subst hw <;>
  simp [scanStep, storeField, delimiter, Format.Year, Format.Month, Format.Day, Format.Hour,
      Format.Minute, Format.Second, Format.MilliSecond, Format.TimezoneHour,
      Format.TimezoneMinute, Format.Done]

/-- The month field and the `'-'` after it. -/
theorem scan_month (n : Nat) (hn : n ≤ 12) (rest : QString) (e : Bool)
    (ys y mo d h mi s ms os off : Int) (sT sZ : Bool) :
    scanLoop ⟨1, 0, 0, e, ys, y, mo, d, h, mi, s, ms, os, off, sT, sZ, false⟩
      (zeroPadded n 2 ++ '-'.toNat :: rest)
    = scanLoop ⟨2, 0, 0, e, ys, y, (n : Int) - 1, d, h, mi, s, ms, os, off, sT, sZ, false⟩
      rest := by
  rw [scanLoop_zeroPadded 2 n (by omega) _ _ rfl (by simp [Format.Done]),
    scanLoop_cons _ _ _ rfl (by simp [Format.Done])]
  congr 1
  simp [scanStep, storeField, delimiter, Format.Year, Format.Month, Format.Day, Format.Hour,
    Format.Minute, Format.Second, Format.MilliSecond, Format.TimezoneHour,
    Format.TimezoneMinute, Format.Done]
  omega

/-- The day field and the `'T'` after it. -/
theorem scan_day (n : Nat) (hn : n ≤ 31) (rest : QString) (e : Bool)
    (ys y mo d h mi s ms os off : Int) (sT sZ : Bool) :
    scanLoop ⟨2, 0, 0, e, ys, y, mo, d, h, mi, s, ms, os, off, sT, sZ, false⟩
      (zeroPadded n 2 ++ 'T'.toNat :: rest)
    = scanLoop ⟨3, 0, 0, e, ys, y, mo, n, h, mi, s, ms, os, off, true, sZ, false⟩
      rest := by
  rw [scanLoop_zeroPadded 2 n (by omega) _ _ rfl (by simp [Format.Done]),
    scanLoop_cons _ _ _ rfl (by simp [Format.Done])]
  congr 1
  simp [scanStep, storeField, delimiter, Format.Year, Format.Month, Format.Day, Format.Hour,
    Format.Minute, Format.Second, Format.MilliSecond, Format.TimezoneHour,
    Format.TimezoneMinute, Format.Done]
  omega

/-- The hour field and the `':'` after it. -/
theorem scan_hour (n : Nat) (hn : n ≤ 24) (rest : QString) (e : Bool)
    (ys y mo d h mi s ms os off : Int) (sT sZ : Bool) :
    scanLoop ⟨3, 0, 0, e, ys, y, mo, d, h, mi, s, ms, os, off, sT, sZ, false⟩
      (zeroPadded n 2 ++ ':'.toNat :: rest)
    = scanLoop ⟨4, 0, 0, e, ys, y, mo, d, n, mi, s, ms, os, off, sT, sZ, false⟩
      rest := by
  rw [scanLoop_zeroPadded 2 n (by omega) _ _ rfl (by simp [Format.Done]),
    scanLoop_cons _ _ _ rfl (by simp [Format.Done])]
  congr 1
  simp [scanStep, storeField, delimiter, Format.Year, Format.Month, Format.Day, Format.Hour,
    Format.Minute, Format.Second, Format.MilliSecond, Format.TimezoneHour,
    Format.TimezoneMinute, Format.Done]
  omega

/-- The minute field and the `':'` after it. -/
theorem scan_minute (n : Nat) (hn : n < 60) (rest : QString) (e : Bool)
    (ys y mo d h mi s ms os off : Int) (sT sZ : Bool) :
    scanLoop ⟨4, 0, 0, e, ys, y, mo, d, h, mi, s, ms, os, off, sT, sZ, false⟩
      (zeroPadded n 2 ++ ':'.toNat :: rest)
    = scanLoop ⟨5, 0, 0, e, ys, y, mo, d, h, n, s, ms, os, off, sT, sZ, false⟩
      rest := by
  rw [scanLoop_zeroPadded 2 n (by omega) _ _ rfl (by simp [Format.Done]),
    scanLoop_cons _ _ _ rfl (by simp [Format.Done])]
  congr 1
  simp [scanStep, storeField, delimiter, Format.Year, Format.Month, Format.Day, Format.Hour,
    Format.Minute, Format.Second, Format.MilliSecond, Format.TimezoneHour,
    Format.TimezoneMinute, Format.Done]
  omega

/-- The second field and the `'.'` after it. -/
theorem scan_second (n : Nat) (hn : n ≤ 60) (rest : QString) (e : Bool)
    (ys y mo d h mi s ms os off : Int) (sT sZ : Bool) :
    scanLoop ⟨5, 0, 0, e, ys, y, mo, d, h, mi, s, ms, os, off, sT, sZ, false⟩
      (zeroPadded n 2 ++ '.'.toNat :: rest)
    = scanLoop ⟨6, 0, 0, e, ys, y, mo, d, h, mi, n, ms, os, off, sT, sZ, false⟩
      rest := by
  rw [scanLoop_zeroPadded 2 n (by omega) _ _ rfl (by simp [Format.Done]),
    scanLoop_cons _ _ _ rfl (by simp [Format.Done])]
  congr 1
  simp [scanStep, storeField, delimiter, Format.Year, Format.Month, Format.Day, Format.Hour,
    Format.Minute, Format.Second, Format.MilliSecond, Format.TimezoneHour,
    Format.TimezoneMinute, Format.Done]
  omega

/-- The millisecond field and the `'Z'` after it, where the scan stops. -/
theorem scan_msec (n : Nat) (hn : n < 1000) (rest : QString) (e : Bool)
    (ys y mo d h mi s ms os off : Int) (sT : Bool) :
    scanLoop ⟨6, 0, 0, e, ys, y, mo, d, h, mi, s, ms, os, off, sT, false, false⟩
      (zeroPadded n 3 ++ 'Z'.toNat :: rest)
    = ⟨9, 0, 0, e, ys, y, mo, d, h, mi, s, n, os, off, sT, true, false⟩ := by
  rw [scanLoop_zeroPadded 3 n (by omega) _ _ rfl (by simp [Format.Done]),
    scanLoop_cons _ _ _ rfl (by simp [Format.Done]), scanLoop_done _ _ (by
      simp [scanStep, storeField, delimiter, Format.Year, Format.Month, Format.Day, Format.Hour,
        Format.Minute, Format.Second, Format.MilliSecond, Format.TimezoneHour,
        Format.TimezoneMinute, Format.Done])]
  simp [scanStep, storeField, delimiter, Format.Year, Format.Month, Format.Day, Format.Hour,
    Format.Minute, Format.Second, Format.MilliSecond, Format.TimezoneHour,
    Format.TimezoneMinute, Format.Done]

/-- A zero-padded number of at least one place starts with a digit. -/
theorem head_zeroPadded (w n : Nat) :
    ∃ c tl, zeroPadded n (w + 1) = c :: tl ∧ '0'.toNat ≤ c ∧ c ≤ '9'.toNat := by
  have e0 : '0'.toNat = 48 := by decide
  have e9 : '9'.toNat = 57 := by decide
  induction w generalizing n with
  | zero =>
    rw [zeroPadded_succ]
    have h10 : n % 10 < 10 := Nat.mod_lt n (by decide)
    rcases hz : zeroPadded (n / 10) 0 with _ | ⟨c, tl⟩
    · exact ⟨n % 10 + '0'.toNat, [], by simp, by omega, by omega⟩
    · have hmem : c ∈ zeroPadded (n / 10) 0 := by simp [hz]
      unfold zeroPadded at hmem
      simp only [List.mem_map, List.mem_append, List.mem_replicate, List.mem_reverse] at hmem
      obtain ⟨a, ha, rfl⟩ := hmem
      have ha10 : a < 10 := by
        rcases ha with ha | ha
        · omega
        · exact Nat.digits_lt_base (by decide) ha
      exact ⟨a + '0'.toNat, tl ++ [n % 10 + '0'.toNat], by simp, by omega, by omega⟩
  | succ w ih =>
    obtain ⟨c, tl, h, h0, h9⟩ := ih (n / 10)
    rw [zeroPadded_succ, h]
    exact ⟨c, tl ++ [n % 10 + '0'.toNat], by simp, h0, h9⟩

/-- The scan of a string that does not start with a sign. -/
theorem primaryScan_unsigned (c : Nat) (tl : QString) (hp : c ≠ '+'.toNat)
    (hm : c ≠ '-'.toNat) :
    primaryScan (c :: tl) = scanLoop ScanState.initial (c :: tl ++ [0]) := by
  show (if c = '+'.toNat ∨ c = '-'.toNat then _ else _) = _
  rw [if_neg (not_or.mpr ⟨hp, hm⟩)]

/-- The scan of a string that starts with a sign. -/
theorem primaryScan_signed (c : Nat) (tl : QString) (h : c = '+'.toNat ∨ c = '-'.toNat) :
    primaryScan (c :: tl) = scanLoop { ScanState.initial with
      extendedYear := true, yearSign := if c = '-'.toNat then -1 else 1 } (tl ++ [0]) := by
  show (if c = '+'.toNat ∨ c = '-'.toNat then _ else _) = _
  rw [if_pos h]
  rfl

/-- The primary scan reads the fields of an ISO string back. -/
theorem primaryScan_isoFormat (Y m d h mi s ms : Int) (hY0 : -999999 ≤ Y) (hY1 : Y ≤ 999999)
    (hm0 : 0 ≤ m) (hm1 : m ≤ 11) (hd0 : 0 ≤ d) (hd1 : d ≤ 31) (hh0 : 0 ≤ h) (hh1 : h ≤ 24)
    (hmi0 : 0 ≤ mi) (hmi1 : mi < 60) (hs0 : 0 ≤ s) (hs1 : s ≤ 60) (hms0 : 0 ≤ ms)
    (hms1 : ms < 1000) :
    primaryScan (isoFormat Y m d h mi s ms) =
      ⟨Format.Done, 0, 0, decide (¬ (0 ≤ Y ∧ Y ≤ 9999)), if Y < 0 then -1 else 1, Y.natAbs,
        m, d, h, mi, s, ms, 1, 0, true, true, false⟩ := by
  unfold isoFormat isoYearField
  by_cases hc : 0 ≤ Y ∧ Y ≤ 9999
  · obtain ⟨c, tl, hhead, hc0, hc9⟩ := head_zeroPadded 3 Y.toNat
    have e0 : '0'.toNat = 48 := by decide
    have e9 : '9'.toNat = 57 := by decide
    have ep : '+'.toNat = 43 := by decide
    have em : '-'.toNat = 45 := by decide
    rw [if_pos hc]
    simp only [List.append_assoc, List.singleton_append]
    have hstart : ∀ rest : QString, primaryScan (zeroPadded Y.toNat 4 ++ rest)
        = scanLoop ScanState.initial (zeroPadded Y.toNat 4 ++ (rest ++ [0])) := by
      intro rest
      rw [hhead, List.cons_append, primaryScan_unsigned _ _ (by omega) (by omega)]
      simp
    rw [hstart]
    simp only [List.append_assoc, List.cons_append, List.singleton_append, List.nil_append]
    unfold ScanState.initial
    simp only [Format.Year, Format.Done]
    rw [scan_year 4 _ (by omega) _ _ _ _ _ _ _ _ _ _ _ _ _ _ (by simp),
      scan_month _ (by omega), scan_day _ (by omega), scan_hour _ (by omega),
      scan_minute _ (by omega), scan_second _ (by omega), scan_msec _ (by omega)]
    simp only [ScanState.mk.injEq, true_and, and_true]
    refine ⟨by simp [hc], by omega, by omega, by omega, by omega, by omega, by omega, by omega,
      by omega⟩
  · have hsign : (if Y < 0 then '-'.toNat else '+'.toNat) = '+'.toNat ∨
        (if Y < 0 then '-'.toNat else '+'.toNat) = '-'.toNat := by
      by_cases hneg : Y < 0
      · right
        rw [if_pos hneg]
      · left
        rw [if_neg hneg]
    have hys : (if (if Y < 0 then '-'.toNat else '+'.toNat) = '-'.toNat then (-1 : Int) else 1)
        = if Y < 0 then -1 else 1 := by
      by_cases hneg : Y < 0
      · rw [if_pos hneg, if_pos hneg, if_pos rfl]
      · rw [if_neg hneg, if_neg hneg, if_neg (by decide)]
    rw [if_neg hc]
    simp only [List.append_assoc, List.singleton_append, List.cons_append]
    rw [primaryScan_signed _ _ hsign, hys]
    simp only [List.append_assoc, List.cons_append, List.singleton_append, List.nil_append]
    unfold ScanState.initial
    simp only [Format.Year, Format.Done]
    rw [scan_year 6 _ (by omega) _ _ _ _ _ _ _ _ _ _ _ _ _ _ (by simp),
      scan_month _ (by omega), scan_day _ (by omega), scan_hour _ (by omega),
      scan_minute _ (by omega), scan_second _ (by omega), scan_msec _ (by omega)]
    simp only [ScanState.mk.injEq, true_and, and_true]
    exact ⟨by simp [hc], by omega, by omega, by omega, by omega, by omega, by omega⟩

/-- Parsing the ISO string of a valid timestamp gives the timestamp back. -/
theorem ParseString_isoFormat (host : Host) (localTZA t : Int) (hlo : -MaxDateVal ≤ t)
    (hhi : t ≤ MaxDateVal) (str : QString) (hstr : method_toISOString (some t) = Except.ok str) :
    ParseString host str localTZA = Dbl.fin (t : ℚ) := by
  obtain ⟨m, d, hm, hd, hm0, hm1, hd0, hd1, hiso⟩ := toISOString_eq t hlo hhi
  have hy := YearFromTime_range t hlo hhi
  have hh := HourFromTime_eq t
  have hmi := MinFromTime_eq t
  have hs := SecFromTime_eq t
  have hms := msFromTime_eq t
  rw [hiso] at hstr
  have hstr' := Except.ok.inj hstr
  subst hstr'
  have hscan := primaryScan_isoFormat (YearFromTime t) m d (HourFromTime t) (MinFromTime t)
    (SecFromTime t) (msFromTime t) (by omega) (by omega) hm0 hm1 (by omega) hd1 (by omega)
    (by omega) (by omega) (by omega) (by omega) (by omega) (by omega) (by omega)
  have hyear : ((YearFromTime t).natAbs : Int) * (if YearFromTime t < 0 then -1 else 1)
      = YearFromTime t := by
    split_ifs <;> omega
  unfold ParseString
  simp only [hscan, hyear, MakeTime_fields]
  rw [← hm, ← hd, MakeDate_fields]
  simp only [Bool.not_false, if_true, Option.map_some', Dbl.ofNum]
  have e : t - 0 * 1 * 60 * 1000 = t := by omega
  rw [e]
  exact TimeClip_int t hlo hhi


/-! ## The scan of each field before each delimiter -/

/-- The year field before `'T'`. -/
theorem scan_year_T (w : Nat) (n : Nat) (hn : n < 10 ^ w) (rest : QString) (e : Bool)
    (ys y mo d h mi s ms os off : Int) (sT sZ : Bool)
    (hw : if e = true then w = 6 else w = 4) :
    scanLoop ⟨0, 0, 0, e, ys, y, mo, d, h, mi, s, ms, os, off, sT, sZ, false⟩
      (zeroPadded n w ++ 'T'.toNat :: rest)
    = scanLoop ⟨3, 0, 0, e, ys, n, mo, d, h, mi, s, ms, os, off, true, sZ, false⟩
      rest := by
  rw [scanLoop_zeroPadded w n hn _ _ rfl (by simp [Format.Done]),
    scanLoop_cons _ _ _ rfl (by simp [Format.Done])]
  congr 1
  cases e <;> simp at hw <;> subst hw <;>
  simp [scanStep, storeField, delimiter, Format.Year, Format.Month, Format.Day, Format.Hour,
      Format.Minute, Format.Second, Format.MilliSecond, Format.TimezoneHour,
      Format.TimezoneMinute, Format.Done]

/-- The year field before the end of the string. -/
theorem scan_year_end (w : Nat) (n : Nat) (hn : n < 10 ^ w) (rest : QString) (e : Bool)
    (ys y mo d h mi s ms os off : Int) (sT sZ : Bool)
    (hw : if e = true then w = 6 else w = 4) :
    scanLoop ⟨0, 0, 0, e, ys, y, mo, d, h, mi, s, ms, os, off, sT, sZ, false⟩
      (zeroPadded n w ++ 0 :: rest)
    = ⟨9, 0, 0, e, ys, n, mo, d, h, mi, s, ms, os, off, sT, sZ, false⟩ := by
  rw [scanLoop_zeroPadded w n hn _ _ rfl (by simp [Format.Done]),
    scanLoop_cons _ _ _ rfl (by simp [Format.Done]), scanLoop_done _ _ (by
      simp [scanStep, storeField, delimiter, Format.Year, Format.Month, Format.Day, Format.Hour,
        Format.Minute, Format.Second, Format.MilliSecond, Format.TimezoneHour,
        Format.TimezoneMinute, Format.Done])]
  cases e <;> simp at hw <;> subst hw <;>
  simp [scanStep, storeField, delimiter, Format.Year, Format.Month, Format.Day, Format.Hour,
      Format.Minute, Format.Second, Format.MilliSecond, Format.TimezoneHour,
      Format.TimezoneMinute, Format.Done]

/-- The month field before `'T'`. -/
theorem scan_month_T (n : Nat) (hn : n ≤ 12) (rest : QString) (e : Bool)
    (ys y mo d h mi s ms os off : Int) (sT sZ : Bool) :
    scanLoop ⟨1, 0, 0, e, ys, y, mo, d, h, mi, s, ms, os, off, sT, sZ, false⟩
      (zeroPadded n 2 ++ 'T'.toNat :: rest)
    = scanLoop ⟨3, 0, 0, e, ys, y, (n : Int) - 1, d, h, mi, s, ms, os, off, true, sZ, false⟩
      rest := by
  rw [scanLoop_zeroPadded 2 n (by omega) _ _ rfl (by simp [Format.Done]),
    scanLoop_cons _ _ _ rfl (by simp [Format.Done])]
  congr 1
  simp [scanStep, storeField, delimiter, Format.Year, Format.Month, Format.Day, Format.Hour,
    Format.Minute, Format.Second, Format.MilliSecond, Format.TimezoneHour,
    Format.TimezoneMinute, Format.Done]
  omega

/-- The month field before the end of the string. -/
theorem scan_month_end (n : Nat) (hn : n ≤ 12) (rest : QString) (e : Bool)
    (ys y mo d h mi s ms os off : Int) (sT sZ : Bool) :
    scanLoop ⟨1, 0, 0, e, ys, y, mo, d, h, mi, s, ms, os, off, sT, sZ, false⟩
      (zeroPadded n 2 ++ 0 :: rest)
    = ⟨9, 0, 0, e, ys, y, (n : Int) - 1, d, h, mi, s, ms, os, off, sT, sZ, false⟩ := by
  rw [scanLoop_zeroPadded 2 n (by omega) _ _ rfl (by simp [Format.Done]),
    scanLoop_cons _ _ _ rfl (by simp [Format.Done]), scanLoop_done _ _ (by
      simp [scanStep, storeField, delimiter, Format.Year, Format.Month, Format.Day, Format.Hour,
        Format.Minute, Format.Second, Format.MilliSecond, Format.TimezoneHour,
        Format.TimezoneMinute, Format.Done])]
  simp [scanStep, storeField, delimiter, Format.Year, Format.Month, Format.Day, Format.Hour,
    Format.Minute, Format.Second, Format.MilliSecond, Format.TimezoneHour,
    Format.TimezoneMinute, Format.Done]
  omega

/-- The day field before the end of the string. -/
theorem scan_day_end (n : Nat) (hn : n ≤ 31) (rest : QString) (e : Bool)
    (ys y mo d h mi s ms os off : Int) (sT sZ : Bool) :
    scanLoop ⟨2, 0, 0, e, ys, y, mo, d, h, mi, s, ms, os, off, sT, sZ, false⟩
      (zeroPadded n 2 ++ 0 :: rest)
    = ⟨9, 0, 0, e, ys, y, mo, n, h, mi, s, ms, os, off, sT, sZ, false⟩ := by
  rw [scanLoop_zeroPadded 2 n (by omega) _ _ rfl (by simp [Format.Done]),
    scanLoop_cons _ _ _ rfl (by simp [Format.Done]), scanLoop_done _ _ (by
      simp [scanStep, storeField, delimiter, Format.Year, Format.Month, Format.Day, Format.Hour,
        Format.Minute, Format.Second, Format.MilliSecond, Format.TimezoneHour,
        Format.TimezoneMinute, Format.Done])]
  simp [scanStep, storeField, delimiter, Format.Year, Format.Month, Format.Day, Format.Hour,
    Format.Minute, Format.Second, Format.MilliSecond, Format.TimezoneHour,
    Format.TimezoneMinute, Format.Done]
  omega

/-- The minute field before `'Z'`. -/
theorem scan_minute_Z (n : Nat) (hn : n < 60) (rest : QString) (e : Bool)
    (ys y mo d h mi s ms os off : Int) (sT : Bool) :
    scanLoop ⟨4, 0, 0, e, ys, y, mo, d, h, mi, s, ms, os, off, sT, false, false⟩
      (zeroPadded n 2 ++ 'Z'.toNat :: rest)
    = ⟨9, 0, 0, e, ys, y, mo, d, h, n, s, ms, os, off, sT, true, false⟩ := by
  rw [scanLoop_zeroPadded 2 n (by omega) _ _ rfl (by simp [Format.Done]),
    scanLoop_cons _ _ _ rfl (by simp [Format.Done]), scanLoop_done _ _ (by
      simp [scanStep, storeField, delimiter, Format.Year, Format.Month, Format.Day, Format.Hour,
        Format.Minute, Format.Second, Format.MilliSecond, Format.TimezoneHour,
        Format.TimezoneMinute, Format.Done])]
  simp [scanStep, storeField, delimiter, Format.Year, Format.Month, Format.Day, Format.Hour,
    Format.Minute, Format.Second, Format.MilliSecond, Format.TimezoneHour,
    Format.TimezoneMinute, Format.Done]
  omega

/-- The minute field before `'+'`. -/
theorem scan_minute_plus (n : Nat) (hn : n < 60) (rest : QString) (e : Bool)
    (ys y mo d h mi s ms os off : Int) (sT : Bool) :
    scanLoop ⟨4, 0, 0, e, ys, y, mo, d, h, mi, s, ms, os, off, sT, false, false⟩
      (zeroPadded n 2 ++ '+'.toNat :: rest)
    = scanLoop ⟨7, 0, 0, e, ys, y, mo, d, h, n, s, ms, os, off, sT, false, false⟩
      rest := by
  rw [scanLoop_zeroPadded 2 n (by omega) _ _ rfl (by simp [Format.Done]),
    scanLoop_cons _ _ _ rfl (by simp [Format.Done])]
  congr 1
  simp [scanStep, storeField, delimiter, Format.Year, Format.Month, Format.Day, Format.Hour,
    Format.Minute, Format.Second, Format.MilliSecond, Format.TimezoneHour,
    Format.TimezoneMinute, Format.Done]
  omega

/-- The minute field before `'-'`. -/
theorem scan_minute_minus (n : Nat) (hn : n < 60) (rest : QString) (e : Bool)
    (ys y mo d h mi s ms os off : Int) (sT : Bool) :
    scanLoop ⟨4, 0, 0, e, ys, y, mo, d, h, mi, s, ms, os, off, sT, false, false⟩
      (zeroPadded n 2 ++ '-'.toNat :: rest)
    = scanLoop ⟨7, 0, 0, e, ys, y, mo, d, h, n, s, ms, -1, off, sT, false, false⟩
      rest := by
  rw [scanLoop_zeroPadded 2 n (by omega) _ _ rfl (by simp [Format.Done]),
    scanLoop_cons _ _ _ rfl (by simp [Format.Done])]
  congr 1
  simp [scanStep, storeField, delimiter, Format.Year, Format.Month, Format.Day, Format.Hour,
    Format.Minute, Format.Second, Format.MilliSecond, Format.TimezoneHour,
    Format.TimezoneMinute, Format.Done]
  omega

/-- The minute field before the end of the string. -/
theorem scan_minute_end (n : Nat) (hn : n < 60) (rest : QString) (e : Bool)
    (ys y mo d h mi s ms os off : Int) (sT sZ : Bool) :
    scanLoop ⟨4, 0, 0, e, ys, y, mo, d, h, mi, s, ms, os, off, sT, sZ, false⟩
      (zeroPadded n 2 ++ 0 :: rest)
    = ⟨9, 0, 0, e, ys, y, mo, d, h, n, s, ms, os, off, sT, sZ, false⟩ := by
  rw [scanLoop_zeroPadded 2 n (by omega) _ _ rfl (by simp [Format.Done]),
    scanLoop_cons _ _ _ rfl (by simp [Format.Done]), scanLoop_done _ _ (by
      simp [scanStep, storeField, delimiter, Format.Year, Format.Month, Format.Day, Format.Hour,
        Format.Minute, Format.Second, Format.MilliSecond, Format.TimezoneHour,
        Format.TimezoneMinute, Format.Done])]
  simp [scanStep, storeField, delimiter, Format.Year, Format.Month, Format.Day, Format.Hour,
    Format.Minute, Format.Second, Format.MilliSecond, Format.TimezoneHour,
    Format.TimezoneMinute, Format.Done]
  omega

/-- The second field before `'Z'`. -/
theorem scan_second_Z (n : Nat) (hn : n ≤ 60) (rest : QString) (e : Bool)
    (ys y mo d h mi s ms os off : Int) (sT : Bool) :
    scanLoop ⟨5, 0, 0, e, ys, y, mo, d, h, mi, s, ms, os, off, sT, false, false⟩
      (zeroPadded n 2 ++ 'Z'.toNat :: rest)
    = ⟨9, 0, 0, e, ys, y, mo, d, h, mi, n, ms, os, off, sT, true, false⟩ := by
  rw [scanLoop_zeroPadded 2 n (by omega) _ _ rfl (by simp [Format.Done]),
    scanLoop_cons _ _ _ rfl (by simp [Format.Done]), scanLoop_done _ _ (by
      simp [scanStep, storeField, delimiter, Format.Year, Format.Month, Format.Day, Format.Hour,
        Format.Minute, Format.Second, Format.MilliSecond, Format.TimezoneHour,
        Format.TimezoneMinute, Format.Done])]
  simp [scanStep, storeField, delimiter, Format.Year, Format.Month, Format.Day, Format.Hour,
    Format.Minute, Format.Second, Format.MilliSecond, Format.TimezoneHour,
    Format.TimezoneMinute, Format.Done]
  omega

/-- The second field before `'+'`. -/
theorem scan_second_plus (n : Nat) (hn : n ≤ 60) (rest : QString) (e : Bool)
    (ys y mo d h mi s ms os off : Int) (sT : Bool) :
    scanLoop ⟨5, 0, 0, e, ys, y, mo, d, h, mi, s, ms, os, off, sT, false, false⟩
      (zeroPadded n 2 ++ '+'.toNat :: rest)
    = scanLoop ⟨7, 0, 0, e, ys, y, mo, d, h, mi, n, ms, os, off, sT, false, false⟩
      rest := by
  rw [scanLoop_zeroPadded 2 n (by omega) _ _ rfl (by simp [Format.Done]),
    scanLoop_cons _ _ _ rfl (by simp [Format.Done])]
  congr 1
  simp [scanStep, storeField, delimiter, Format.Year, Format.Month, Format.Day, Format.Hour,
    Format.Minute, Format.Second, Format.MilliSecond, Format.TimezoneHour,
    Format.TimezoneMinute, Format.Done]
  omega

/-- The second field before `'-'`. -/
theorem scan_second_minus (n : Nat) (hn : n ≤ 60) (rest : QString) (e : Bool)
    (ys y mo d h mi s ms os off : Int) (sT : Bool) :
    scanLoop ⟨5, 0, 0, e, ys, y, mo, d, h, mi, s, ms, os, off, sT, false, false⟩
      (zeroPadded n 2 ++ '-'.toNat :: rest)
    = scanLoop ⟨7, 0, 0, e, ys, y, mo, d, h, mi, n, ms, -1, off, sT, false, false⟩
      rest := by
  rw [scanLoop_zeroPadded 2 n (by omega) _ _ rfl (by simp [Format.Done]),
    scanLoop_cons _ _ _ rfl (by simp [Format.Done])]
  congr 1
  simp [scanStep, storeField, delimiter, Format.Year, Format.Month, Format.Day, Format.Hour,
    Format.Minute, Format.Second, Format.MilliSecond, Format.TimezoneHour,
    Format.TimezoneMinute, Format.Done]
  omega

/-- The second field before the end of the string. -/
theorem scan_second_end (n : Nat) (hn : n ≤ 60) (rest : QString) (e : Bool)
    (ys y mo d h mi s ms os off : Int) (sT sZ : Bool) :
    scanLoop ⟨5, 0, 0, e, ys, y, mo, d, h, mi, s, ms, os, off, sT, sZ, false⟩
      (zeroPadded n 2 ++ 0 :: rest)
    = ⟨9, 0, 0, e, ys, y, mo, d, h, mi, n, ms, os, off, sT, sZ, false⟩ := by
  rw [scanLoop_zeroPadded 2 n (by omega) _ _ rfl (by simp [Format.Done]),
    scanLoop_cons _ _ _ rfl (by simp [Format.Done]), scanLoop_done _ _ (by
      simp [scanStep, storeField, delimiter, Format.Year, Format.Month, Format.Day, Format.Hour,
        Format.Minute, Format.Second, Format.MilliSecond, Format.TimezoneHour,
        Format.TimezoneMinute, Format.Done])]
  simp [scanStep, storeField, delimiter, Format.Year, Format.Month, Format.Day, Format.Hour,
    Format.Minute, Format.Second, Format.MilliSecond, Format.TimezoneHour,
    Format.TimezoneMinute, Format.Done]
  omega

/-- The msec field before `'+'`. -/
theorem scan_msec_plus (n : Nat) (hn : n < 1000) (rest : QString) (e : Bool)
    (ys y mo d h mi s ms os off : Int) (sT : Bool) :
    scanLoop ⟨6, 0, 0, e, ys, y, mo, d, h, mi, s, ms, os, off, sT, false, false⟩
      (zeroPadded n 3 ++ '+'.toNat :: rest)
    = scanLoop ⟨7, 0, 0, e, ys, y, mo, d, h, mi, s, n, os, off, sT, false, false⟩
      rest := by
  rw [scanLoop_zeroPadded 3 n (by omega) _ _ rfl (by simp [Format.Done]),
    scanLoop_cons _ _ _ rfl (by simp [Format.Done])]
  congr 1
  simp [scanStep, storeField, delimiter, Format.Year, Format.Month, Format.Day, Format.Hour,
    Format.Minute, Format.Second, Format.MilliSecond, Format.TimezoneHour,
    Format.TimezoneMinute, Format.Done]

/-- The msec field before `'-'`. -/
theorem scan_msec_minus (n : Nat) (hn : n < 1000) (rest : QString) (e : Bool)
    (ys y mo d h mi s ms os off : Int) (sT : Bool) :
    scanLoop ⟨6, 0, 0, e, ys, y, mo, d, h, mi, s, ms, os, off, sT, false, false⟩
      (zeroPadded n 3 ++ '-'.toNat :: rest)
    = scanLoop ⟨7, 0, 0, e, ys, y, mo, d, h, mi, s, n, -1, off, sT, false, false⟩
      rest := by
  rw [scanLoop_zeroPadded 3 n (by omega) _ _ rfl (by simp [Format.Done]),
    scanLoop_cons _ _ _ rfl (by simp [Format.Done])]
  congr 1
  simp [scanStep, storeField, delimiter, Format.Year, Format.Month, Format.Day, Format.Hour,
    Format.Minute, Format.Second, Format.MilliSecond, Format.TimezoneHour,
    Format.TimezoneMinute, Format.Done]

/-- The msec field before the end of the string. -/
theorem scan_msec_end (n : Nat) (hn : n < 1000) (rest : QString) (e : Bool)
    (ys y mo d h mi s ms os off : Int) (sT sZ : Bool) :
    scanLoop ⟨6, 0, 0, e, ys, y, mo, d, h, mi, s, ms, os, off, sT, sZ, false⟩
      (zeroPadded n 3 ++ 0 :: rest)
    = ⟨9, 0, 0, e, ys, y, mo, d, h, mi, s, n, os, off, sT, sZ, false⟩ := by
  rw [scanLoop_zeroPadded 3 n (by omega) _ _ rfl (by simp [Format.Done]),
    scanLoop_cons _ _ _ rfl (by simp [Format.Done]), scanLoop_done _ _ (by
      simp [scanStep, storeField, delimiter, Format.Year, Format.Month, Format.Day, Format.Hour,
        Format.Minute, Format.Second, Format.MilliSecond, Format.TimezoneHour,
        Format.TimezoneMinute, Format.Done])]
  simp [scanStep, storeField, delimiter, Format.Year, Format.Month, Format.Day, Format.Hour,
    Format.Minute, Format.Second, Format.MilliSecond, Format.TimezoneHour,
    Format.TimezoneMinute, Format.Done]

/-- The tzhour field before `':'`. -/
theorem scan_tzhour_colon (n : Nat) (hn : n ≤ 23) (rest : QString) (e : Bool)
    (ys y mo d h mi s ms os off : Int) (sT sZ : Bool) :
    scanLoop ⟨7, 0, 0, e, ys, y, mo, d, h, mi, s, ms, os, off, sT, sZ, false⟩
      (zeroPadded n 2 ++ ':'.toNat :: rest)
    = scanLoop ⟨8, 0, 0, e, ys, y, mo, d, h, mi, s, ms, os, (n : Int) * 60, sT, true, false⟩
      rest := by
  rw [scanLoop_zeroPadded 2 n (by omega) _ _ rfl (by simp [Format.Done]),
    scanLoop_cons _ _ _ rfl (by simp [Format.Done])]
  congr 1
  simp [scanStep, storeField, delimiter, Format.Year, Format.Month, Format.Day, Format.Hour,
    Format.Minute, Format.Second, Format.MilliSecond, Format.TimezoneHour,
    Format.TimezoneMinute, Format.Done]
  omega

/-- The tzminute field before the end of the string. -/
theorem scan_tzminute_end (n : Nat) (hn : n < 60) (rest : QString) (e : Bool)
    (ys y mo d h mi s ms os off : Int) (sT sZ : Bool) :
    scanLoop ⟨8, 0, 0, e, ys, y, mo, d, h, mi, s, ms, os, off, sT, sZ, false⟩
      (zeroPadded n 2 ++ 0 :: rest)
    = ⟨9, 0, 0, e, ys, y, mo, d, h, mi, s, ms, os, off + (n : Int), sT, sZ, false⟩ := by
  rw [scanLoop_zeroPadded 2 n (by omega) _ _ rfl (by simp [Format.Done]),
    scanLoop_cons _ _ _ rfl (by simp [Format.Done]), scanLoop_done _ _ (by
      simp [scanStep, storeField, delimiter, Format.Year, Format.Month, Format.Day, Format.Hour,
        Format.Minute, Format.Second, Format.MilliSecond, Format.TimezoneHour,
        Format.TimezoneMinute, Format.Done])]
  simp [scanStep, storeField, delimiter, Format.Year, Format.Month, Format.Day, Format.Hour,
    Format.Minute, Format.Second, Format.MilliSecond, Format.TimezoneHour,
    Format.TimezoneMinute, Format.Done]
  omega


/-! ## The scan of the parts of a date-time string -/

/-- The zone offset `HH:mm` up to the end of the string. -/
theorem scan_zone_offset (hh mm : Nat) (h1 : hh ≤ 23) (h2 : mm < 60) (rest : QString)
    (e : Bool) (ys y mo d h mi s ms os off : Int) (sT sZ : Bool) :
    scanLoop ⟨7, 0, 0, e, ys, y, mo, d, h, mi, s, ms, os, off, sT, sZ, false⟩
      (zeroPadded hh 2 ++ ':'.toNat :: (zeroPadded mm 2 ++ 0 :: rest))
    = ⟨9, 0, 0, e, ys, y, mo, d, h, mi, s, ms, os, (hh : Int) * 60 + (mm : Int), sT, true,
        false⟩ := by
  rw [scan_tzhour_colon _ h1, scan_tzminute_end _ h2]

/-- The minute field and the optional zone after it, up to the end of the
string. -/
theorem scan_minute_zone (n : Nat) (hn : n < 60) (z : Option ZoneDesignator)
    (hz : zoneInRange z = true) (rest : QString) (e : Bool)
    (ys y mo d h mi s ms : Int) (sT : Bool) :
    scanLoop ⟨4, 0, 0, e, ys, y, mo, d, h, mi, s, ms, 1, 0, sT, false, false⟩
      (zeroPadded n 2 ++ (renderZone z ++ 0 :: rest))
    = ⟨9, 0, 0, e, ys, y, mo, d, h, n, s, ms, zoneSign z, zoneMinutes z, sT, z.isSome, false⟩ := by
  cases z with
  | none =>
    simp only [renderZone, List.nil_append, zoneSign, zoneMinutes, Option.isSome]
    exact scan_minute_end n hn rest e ys y mo d h mi s ms 1 0 sT false
  | some z =>
    cases z with
    | Z =>
      simp only [renderZone, ZoneDesignator.render, List.singleton_append, zoneSign,
        zoneMinutes, Option.isSome]
      exact scan_minute_Z n hn (0 :: rest) e ys y mo d h mi s ms 1 0 sT
    | offset negative hh mm =>
      simp only [zoneInRange, Bool.and_eq_true, decide_eq_true_eq] at hz
      cases negative with
      | false =>
        simp only [renderZone, ZoneDesignator.render, List.cons_append, List.append_assoc,
          zoneSign, zoneMinutes, Option.isSome, Bool.false_eq_true, if_false]
        rw [scan_minute_plus n hn, scan_zone_offset hh mm hz.1 hz.2]
      | true =>
        simp only [renderZone, ZoneDesignator.render, List.cons_append, List.append_assoc,
          zoneSign, zoneMinutes, Option.isSome, if_true]
        rw [scan_minute_minus n hn, scan_zone_offset hh mm hz.1 hz.2]

/-- The second field and the optional zone after it, up to the end of the
string. -/
theorem scan_second_zone (n : Nat) (hn : n ≤ 60) (z : Option ZoneDesignator)
    (hz : zoneInRange z = true) (rest : QString) (e : Bool)
    (ys y mo d h mi s ms : Int) (sT : Bool) :
    scanLoop ⟨5, 0, 0, e, ys, y, mo, d, h, mi, s, ms, 1, 0, sT, false, false⟩
      (zeroPadded n 2 ++ (renderZone z ++ 0 :: rest))
    = ⟨9, 0, 0, e, ys, y, mo, d, h, mi, n, ms, zoneSign z, zoneMinutes z, sT, z.isSome, false⟩ := by
  cases z with
  | none =>
    simp only [renderZone, List.nil_append, zoneSign, zoneMinutes, Option.isSome]
    exact scan_second_end n hn rest e ys y mo d h mi s ms 1 0 sT false
  | some z =>
    cases z with
    | Z =>
      simp only [renderZone, ZoneDesignator.render, List.singleton_append, zoneSign,
        zoneMinutes, Option.isSome]
      exact scan_second_Z n hn (0 :: rest) e ys y mo d h mi s ms 1 0 sT
    | offset negative hh mm =>
      simp only [zoneInRange, Bool.and_eq_true, decide_eq_true_eq] at hz
      cases negative with
      | false =>
        simp only [renderZone, ZoneDesignator.render, List.cons_append, List.append_assoc,
          zoneSign, zoneMinutes, Option.isSome, Bool.false_eq_true, if_false]
        rw [scan_second_plus n hn, scan_zone_offset hh mm hz.1 hz.2]
      | true =>
        simp only [renderZone, ZoneDesignator.render, List.cons_append, List.append_assoc,
          zoneSign, zoneMinutes, Option.isSome, if_true]
        rw [scan_second_minus n hn, scan_zone_offset hh mm hz.1 hz.2]

/-- The msec field and the optional zone after it, up to the end of the
string. -/
theorem scan_msec_zone (n : Nat) (hn : n < 1000) (z : Option ZoneDesignator)
    (hz : zoneInRange z = true) (rest : QString) (e : Bool)
    (ys y mo d h mi s ms : Int) (sT : Bool) :
    scanLoop ⟨6, 0, 0, e, ys, y, mo, d, h, mi, s, ms, 1, 0, sT, false, false⟩
      (zeroPadded n 3 ++ (renderZone z ++ 0 :: rest))
    = ⟨9, 0, 0, e, ys, y, mo, d, h, mi, s, n, zoneSign z, zoneMinutes z, sT, z.isSome, false⟩ := by
  cases z with
  | none =>
    simp only [renderZone, List.nil_append, zoneSign, zoneMinutes, Option.isSome]
    exact scan_msec_end n hn rest e ys y mo d h mi s ms 1 0 sT false
  | some z =>
    cases z with
    | Z =>
      simp only [renderZone, ZoneDesignator.render, List.singleton_append, zoneSign,
        zoneMinutes, Option.isSome]
      exact scan_msec n hn (0 :: rest) e ys y mo d h mi s ms 1 0 sT
    | offset negative hh mm =>
      simp only [zoneInRange, Bool.and_eq_true, decide_eq_true_eq] at hz
      cases negative with
      | false =>
        simp only [renderZone, ZoneDesignator.render, List.cons_append, List.append_assoc,
          zoneSign, zoneMinutes, Option.isSome, Bool.false_eq_true, if_false]
        rw [scan_msec_plus n hn, scan_zone_offset hh mm hz.1 hz.2]
      | true =>
        simp only [renderZone, ZoneDesignator.render, List.cons_append, List.append_assoc,
          zoneSign, zoneMinutes, Option.isSome, if_true]
        rw [scan_msec_minus n hn, scan_zone_offset hh mm hz.1 hz.2]

/-- The time part after its `'T'`, up to the end of the string. -/
theorem scan_time (tp : TimePart) (htp : timeInRange (some tp) = true) (rest : QString)
    (e : Bool) (ys y mo d : Int) :
    scanLoop ⟨3, 0, 0, e, ys, y, mo, d, 0, 0, 0, 0, 1, 0, true, false, false⟩
      (zeroPadded tp.hour 2 ++ ':'.toNat :: (zeroPadded tp.minute 2 ++
        (renderSecond tp.second ++ (renderZone tp.zone ++ 0 :: rest))))
    = ⟨9, 0, 0, e, ys, y, mo, d, tp.hour, tp.minute, secondOf tp.second, msecOf tp.second,
        zoneSign tp.zone, zoneMinutes tp.zone, true, tp.zone.isSome, false⟩ := by
  obtain ⟨hour, minute, second, zone⟩ := tp
  simp only [timeInRange, Bool.and_eq_true, decide_eq_true_eq] at htp
  obtain ⟨⟨⟨hh, hmi⟩, hsec⟩, hz⟩ := htp
  simp only
  rw [scan_hour hour hh]
  rcases second with _ | ⟨ss, _ | sss⟩
  · simp only [renderSecond, List.nil_append, secondOf, msecOf]
    exact scan_minute_zone minute hmi zone hz rest e ys y mo d hour 0 0 0 true
  · simp only [secondInRange, decide_eq_true_eq] at hsec
    simp only [renderSecond, List.cons_append, secondOf, msecOf]
    rw [scan_minute minute hmi]
    exact scan_second_zone ss hsec zone hz rest e ys y mo d hour minute 0 0 true
  · simp only [secondInRange, Bool.and_eq_true, decide_eq_true_eq] at hsec
    simp only [renderSecond, List.cons_append, List.append_assoc, secondOf, msecOf]
    rw [scan_minute minute hmi, scan_second ss hsec.1]
    exact scan_msec_zone sss hsec.2 zone hz rest e ys y mo d hour minute ss 0 true

/-- The date part up to the `'T'` of a time part. -/
theorem scan_date_T (w Y : Nat) (hY : Y < 10 ^ w) (md : Option (Nat × Option Nat))
    (hmd : monthDayInRange md = true) (rest : QString) (e : Bool) (ys : Int)
    (hw : if e = true then w = 6 else w = 4) :
    scanLoop ⟨0, 0, 0, e, ys, 0, 0, 1, 0, 0, 0, 0, 1, 0, false, false, false⟩
      (zeroPadded Y w ++ (renderMonthDay md ++ 'T'.toNat :: rest))
    = scanLoop ⟨3, 0, 0, e, ys, Y, monthOf md, dayOf md, 0, 0, 0, 0, 1, 0, true, false, false⟩
      rest := by
  rcases md with _ | ⟨mm, _ | dd⟩
  · simp only [renderMonthDay, List.nil_append, monthOf, dayOf]
    rw [scan_year_T w Y hY _ _ _ _ _ _ _ _ _ _ _ _ _ _ hw]
  · simp only [monthDayInRange, decide_eq_true_eq] at hmd
    simp only [renderMonthDay, List.cons_append, monthOf, dayOf]
    rw [scan_year w Y hY _ _ _ _ _ _ _ _ _ _ _ _ _ _ hw, scan_month_T mm (by omega)]
  · simp only [monthDayInRange, Bool.and_eq_true, decide_eq_true_eq] at hmd
    simp only [renderMonthDay, List.cons_append, List.append_assoc, monthOf, dayOf]
    rw [scan_year w Y hY _ _ _ _ _ _ _ _ _ _ _ _ _ _ hw, scan_month mm (by omega),
      scan_day dd hmd.2]

/-- The date part up to the end of the string. -/
theorem scan_date_end (w Y : Nat) (hY : Y < 10 ^ w) (md : Option (Nat × Option Nat))
    (hmd : monthDayInRange md = true) (rest : QString) (e : Bool) (ys : Int)
    (hw : if e = true then w = 6 else w = 4) :
    scanLoop ⟨0, 0, 0, e, ys, 0, 0, 1, 0, 0, 0, 0, 1, 0, false, false, false⟩
      (zeroPadded Y w ++ (renderMonthDay md ++ 0 :: rest))
    = ⟨9, 0, 0, e, ys, Y, monthOf md, dayOf md, 0, 0, 0, 0, 1, 0, false, false, false⟩ := by
  rcases md with _ | ⟨mm, _ | dd⟩
  · simp only [renderMonthDay, List.nil_append, monthOf, dayOf]
    rw [scan_year_end w Y hY _ _ _ _ _ _ _ _ _ _ _ _ _ _ hw]
  · simp only [monthDayInRange, decide_eq_true_eq] at hmd
    simp only [renderMonthDay, List.cons_append, monthOf, dayOf]
    rw [scan_year w Y hY _ _ _ _ _ _ _ _ _ _ _ _ _ _ hw, scan_month_end mm (by omega)]
  · simp only [monthDayInRange, Bool.and_eq_true, decide_eq_true_eq] at hmd
    simp only [renderMonthDay, List.cons_append, List.append_assoc, monthOf, dayOf]
    rw [scan_year w Y hY _ _ _ _ _ _ _ _ _ _ _ _ _ _ hw, scan_month mm (by omega),
      scan_day_end dd hmd.2]


/-! ## The parse of a date-time string -/

/-- The scan of a string that starts with a four-digit number. -/
theorem primaryScan_zeroPadded (Y : Nat) (rest : QString) :
    primaryScan (zeroPadded Y 4 ++ rest)
      = scanLoop ScanState.initial (zeroPadded Y 4 ++ (rest ++ [0])) := by
  obtain ⟨c, tl, hhead, hc0, hc9⟩ := head_zeroPadded 3 Y
  have e0 : '0'.toNat = 48 := by decide
  have e9 : '9'.toNat = 57 := by decide
  have ep : '+'.toNat = 43 := by decide
  have em : '-'.toNat = 45 := by decide
  rw [hhead, List.cons_append, primaryScan_unsigned _ _ (by omega) (by omega)]
  simp

/-- The scan of a string that starts with a sign. -/
theorem primaryScan_sign (negative : Bool) (rest : QString) :
    primaryScan ((if negative then '-'.toNat else '+'.toNat) :: rest)
      = scanLoop ⟨0, 0, 0, true, if negative then -1 else 1, 0, 0, 1, 0, 0, 0, 0, 1, 0, false,
          false, false⟩ (rest ++ [0]) := by
  cases negative with
  | false =>
    rw [primaryScan_signed _ _ (by simp)]
    simp [ScanState.initial, Format.Year]
  | true =>
    rw [primaryScan_signed _ _ (by simp)]
    simp [ScanState.initial, Format.Year]

/-- The variables after the scan of a date-time string without a time part. -/
theorem primaryScan_render_date (x : DateTimeString) (hx : x.inRange = true)
    (ht : x.time = none) :
    primaryScan x.render = ⟨9, 0, 0, x.sign.isSome, if x.sign = some true then -1 else 1,
      x.year, monthOf x.monthDay, dayOf x.monthDay, 0, 0, 0, 0, 1, 0, false, false, false⟩ := by
  obtain ⟨sign, year, md, time⟩ := x
  simp only at ht
  subst ht
  simp only [DateTimeString.inRange, Bool.and_eq_true, timeInRange, and_true] at hx
  obtain ⟨hy, hmd⟩ := hx
  cases sign with
  | none =>
    simp only [decide_eq_true_eq] at hy
    simp only [DateTimeString.render, renderYear, renderTime, List.append_nil]
    rw [primaryScan_zeroPadded]
    simp only [ScanState.initial, Format.Year]
    rw [scan_date_end 4 year hy md hmd [] false 1 (by simp)]
    simp
  | some negative =>
    simp only [decide_eq_true_eq] at hy
    simp only [DateTimeString.render, renderYear, renderTime, List.append_nil,
      List.cons_append]
    rw [primaryScan_sign]
    simp only [List.append_assoc]
    rw [scan_date_end 6 year hy md hmd [] true _ (by simp)]
    cases negative <;> simp

/-- The variables after the scan of a date-time string with a time part. -/
theorem primaryScan_render_time (x : DateTimeString) (hx : x.inRange = true) (tp : TimePart)
    (ht : x.time = some tp) :
    primaryScan x.render = ⟨9, 0, 0, x.sign.isSome, if x.sign = some true then -1 else 1,
      x.year, monthOf x.monthDay, dayOf x.monthDay, tp.hour, tp.minute, secondOf tp.second,
      msecOf tp.second, zoneSign tp.zone, zoneMinutes tp.zone, true, tp.zone.isSome,
      false⟩ := by
  obtain ⟨sign, year, md, time⟩ := x
  simp only at ht
  subst ht
  simp only [DateTimeString.inRange, Bool.and_eq_true] at hx
  obtain ⟨⟨hy, hmd⟩, htp⟩ := hx
  cases sign with
  | none =>
    simp only [decide_eq_true_eq] at hy
    simp only [DateTimeString.render, renderYear, renderTime, TimePart.render]
    rw [primaryScan_zeroPadded]
    simp only [ScanState.initial, Format.Year, List.append_assoc, List.cons_append]
    rw [scan_date_T 4 year hy md hmd _ false 1 (by simp)]
    have h := scan_time tp htp [] false 1 year (monthOf md) (dayOf md)
    simp only [List.append_assoc] at h
    rw [h]
    simp
  | some negative =>
    simp only [decide_eq_true_eq] at hy
    simp only [DateTimeString.render, renderYear, renderTime, TimePart.render,
      List.cons_append]
    rw [primaryScan_sign]
    simp only [List.append_assoc, List.cons_append]
    rw [scan_date_T 6 year hy md hmd _ true _ (by simp)]
    have h := scan_time tp htp [] true (if negative = true then -1 else 1) year (monthOf md)
      (dayOf md)
    simp only [List.append_assoc] at h
    rw [h]
    cases negative <;> simp

/-- The primary scan accepts every date-time string in range, and `ParseString`
returns the clipped value of the spec's interpretation rule. -/
theorem ParseString_render (host : Host) (localTZA : Int) (x : DateTimeString)
    (hx : x.inRange = true) :
    (primaryScan x.render).error = false ∧
    ParseString host x.render localTZA = TimeClip (Dbl.ofNum (x.value host localTZA)) := by
  have hyear : (x.year : Int) * (if x.sign = some true then -1 else 1)
      = if x.sign = some true then -(x.year : Int) else (x.year : Int) := by
    split_ifs <;> omega
  rcases ht : x.time with _ | tp
  · have hs := primaryScan_render_date x hx ht
    refine ⟨by rw [hs], ?_⟩
    unfold ParseString DateTimeString.value
    simp only [hs, ht, hyear, timeOf, Bool.not_false, if_true, Bool.false_eq_true, if_false]
    rfl
  · have hs := primaryScan_render_time x hx tp ht
    refine ⟨by rw [hs], ?_⟩
    unfold ParseString DateTimeString.value
    simp only [hs, ht, hyear, timeOf, Bool.not_false, if_true]
    rcases hz : tp.zone with _ | z
    · simp
    · have hf : (fun t : Int => t - zoneMinutes (some z) * zoneSign (some z) * 60 * 1000)
          = (fun d : Int => d - zoneSign (some z) * zoneMinutes (some z) * 60000) := by
        funext d
        ring
      simp only [Option.isSome_some, if_true, hf]

/-- The characters of a zero-padded number are digits. -/
theorem zeroPadded_digits (n w c : Nat) (hc : c ∈ zeroPadded n w) :
    '0'.toNat ≤ c ∧ c ≤ '9'.toNat := by
  have e0 : '0'.toNat = 48 := by decide
  have e9 : '9'.toNat = 57 := by decide
  unfold zeroPadded at hc
  simp only [List.mem_map, List.mem_append, List.mem_replicate, List.mem_reverse] at hc
  obtain ⟨a, ha, rfl⟩ := hc
  have ha10 : a < 10 := by
    rcases ha with ha | ha
    · omega
    · exact Nat.digits_lt_base (by decide) ha
  omega

/-- Every string of digits is the zero-padded text of a number that fits its
length. -/
theorem zeroPadded_surjective (ds : QString)
    (hds : ∀ c ∈ ds, '0'.toNat ≤ c ∧ c ≤ '9'.toNat) :
    ∃ n, n < 10 ^ ds.length ∧ zeroPadded n ds.length = ds := by
  have e0 : '0'.toNat = 48 := by decide
  have e9 : '9'.toNat = 57 := by decide
  induction ds using List.reverseRecOn with
  | nil => exact ⟨0, by simp, by simp [zeroPadded]⟩
  | append_singleton ds c ih =>
    obtain ⟨n, hn, hz⟩ := ih (fun a ha => hds a (List.mem_append_left _ ha))
    have hc := hds c (by simp)
    refine ⟨10 * n + (c - 48), ?_, ?_⟩
    · rw [List.length_append, List.length_singleton, pow_succ]
      omega
    · rw [List.length_append, List.length_singleton, zeroPadded_succ]
      have h1 : (10 * n + (c - 48)) / 10 = n := by omega
      have h2 : (10 * n + (c - 48)) % 10 + '0'.toNat = c := by omega
      rw [h1, h2, hz]

/-- The characters of a date-time string are digits and the delimiters of
the format. -/
theorem render_chars (x : DateTimeString) (c : Nat) (hc : c ∈ x.render) :
    ('0'.toNat ≤ c ∧ c ≤ '9'.toNat) ∨ c = '+'.toNat ∨ c = '-'.toNat ∨ c = '.'.toNat ∨
      c = ':'.toNat ∨ c = 'T'.toNat ∨ c = 'Z'.toNat := by
  have hzp := zeroPadded_digits
  obtain ⟨sign, year, md, time⟩ := x
  simp only [DateTimeString.render, List.mem_append] at hc
  rcases hc with hc | hc | hc
  · rcases sign with _ | negative
    · exact Or.inl (hzp _ _ _ hc)
    · simp only [renderYear, List.mem_cons] at hc
      rcases hc with hc | hc
      · cases negative <;> simp [hc]
      · exact Or.inl (hzp _ _ _ hc)
  · rcases md with _ | ⟨mm, _ | dd⟩
    · simp [renderMonthDay] at hc
    · simp only [renderMonthDay, List.mem_cons] at hc
      rcases hc with hc | hc
      · simp [hc]
      · exact Or.inl (hzp _ _ _ hc)
    · simp only [renderMonthDay, List.mem_cons, List.mem_append] at hc
      rcases hc with hc | hc | hc | hc
      · simp [hc]
      · exact Or.inl (hzp _ _ _ hc)
      · simp [hc]
      · exact Or.inl (hzp _ _ _ hc)
  · rcases time with _ | ⟨hour, minute, second, zone⟩
    · simp [renderTime] at hc
    · simp only [renderTime, TimePart.render, List.mem_cons, List.mem_append] at hc
      rcases hc with hc | hc | hc | hc | hc | hc
      · simp [hc]
      · exact Or.inl (hzp _ _ _ hc)
      · simp [hc]
      · exact Or.inl (hzp _ _ _ hc)
      · rcases second with _ | ⟨ss, _ | sss⟩
        · simp [renderSecond] at hc
        · simp only [renderSecond, List.mem_cons] at hc
          rcases hc with hc | hc
          · simp [hc]
          · exact Or.inl (hzp _ _ _ hc)
        · simp only [renderSecond, List.mem_cons, List.mem_append] at hc
          rcases hc with hc | hc | hc | hc
          · simp [hc]
          · exact Or.inl (hzp _ _ _ hc)
          · simp [hc]
          · exact Or.inl (hzp _ _ _ hc)
      · rcases zone with _ | z
        · simp [renderZone] at hc
        · cases z with
          | Z =>
            simp only [renderZone, ZoneDesignator.render, List.mem_singleton] at hc
            simp [hc]
          | offset negative hh mm =>
            simp only [renderZone, ZoneDesignator.render, List.mem_cons, List.mem_append] at hc
            rcases hc with hc | hc | hc | hc
            · cases negative <;> simp [hc]
            · exact Or.inl (hzp _ _ _ hc)
            · simp [hc]
            · exact Or.inl (hzp _ _ _ hc)


/-! ## TimeClip twice, days of the week, carried months -/

theorem toQint64_bounds (q : ℚ) (hq : |q| ≤ (MaxDateVal : Int)) :
    -MaxDateVal ≤ (Dbl.fin q).toQint64 ∧ (Dbl.fin q).toQint64 ≤ MaxDateVal := by
  simp only [Dbl.toQint64]
  by_cases h : 0 ≤ q
  · have := abs_floor_le_of_nonneg h hq
    simp only [h, if_true]
    unfold MaxDateVal at *
    omega
  · have := abs_ceil_le_of_neg (not_le.mp h) hq
    simp only [h, if_false]
    unfold MaxDateVal at *
    omega

theorem TimeClip_big (q : ℚ) (hq : ¬ |q| ≤ (MaxDateVal : Int)) :
    TimeClip (Dbl.fin q) = Dbl.nan := by
  unfold TimeClip
  rw [fabs_gt_fin]
  simp [not_le.mp hq]

theorem WeekDay_eq (t : Int) : WeekDay t = (t / 86400000 + 4) % 7 := by
  unfold WeekDay Day
  simp only [fmod_def _ 7 (by decide)]
  unfold msPerDay
  split_ifs <;> omega

/-- The result of `MakeDay` depends only on the normalised year and month. -/
theorem makeDayFinite_carry (year month day k : Int) :
    makeDayFinite year (month + 12 * k) day = makeDayFinite (year + k) month day := by
  obtain ⟨dm, hdm, _, _, h1⟩ := makeDayFinite_eq year (month + 12 * k) day
  obtain ⟨dm', hdm', _, _, h2⟩ := makeDayFinite_eq (year + k) month day
  have e1 : year + (month + 12 * k) / 12 = year + k + month / 12 := by omega
  have e2 : (month + 12 * k) % 12 = month % 12 := by omega
  rw [e1, e2] at hdm
  rw [e1] at h1
  rw [hdm] at hdm'
  have e3 : dm = dm' := Option.some.inj hdm'
  rw [h1, h2, e3]

/-! ## MakeTime on doubles -/

theorem Dbl.finite_cases (a : Dbl) (ha : a.isFinite = true) :
    a = Dbl.negZero ∨ ∃ q, a = Dbl.fin q := by
  cases a with
  | nan => simp [Dbl.isFinite] at ha
  | posInf => simp [Dbl.isFinite] at ha
  | negInf => simp [Dbl.isFinite] at ha
  | negZero => exact Or.inl rfl
  | fin q => exact Or.inr ⟨q, rfl⟩

theorem Dbl.zero_finite (b : Bool) : (Dbl.zero b).isFinite = true ∧ (Dbl.zero b).toRat = 0 := by
  cases b <;> simp [Dbl.zero, Dbl.isFinite, Dbl.toRat]

/-- A product of finite doubles that is an integer of magnitude at most `2^53` is exact. -/
theorem Dbl.mul_finite (a b : Dbl) (ha : a.isFinite = true) (hb : b.isFinite = true) (n : Int)
    (hn : a.toRat * b.toRat = (n : ℚ)) (hbound : |n| ≤ 2 ^ 53) :
    (a.mul b).isFinite = true ∧ (a.mul b).toRat = a.toRat * b.toRat := by
  have hz := Dbl.zero_finite (xor a.signBit b.signBit)
  have hinf : a.isInf = false ∧ b.isInf = false ∧ a.isNaN = false ∧ b.isNaN = false := by
    rcases Dbl.finite_cases a ha with rfl | ⟨p, rfl⟩ <;>
      rcases Dbl.finite_cases b hb with rfl | ⟨q, rfl⟩ <;>
      simp [Dbl.isInf, Dbl.isNaN]
  by_cases h0 : a.toRat * b.toRat = 0
  · have : a.mul b = Dbl.zero (xor a.signBit b.signBit) := by
      simp [Dbl.mul, hinf, h0]
    rw [this, h0]
    exact hz
  · have : a.mul b = Dbl.fin (a.toRat * b.toRat) := by
      simp only [Dbl.mul, hinf, h0, Bool.or_self, Bool.false_and, Bool.and_false,
        Bool.false_eq_true, if_false]
      rw [hn, Dbl.round_intCast n hbound]
    rw [this]
    simp [Dbl.isFinite, Dbl.toRat]

/-- A sum of finite doubles that is an integer of magnitude at most `2^53` is exact. -/
theorem Dbl.add_finite (a b : Dbl) (ha : a.isFinite = true) (hb : b.isFinite = true) (n : Int)
    (hn : a.toRat + b.toRat = (n : ℚ)) (hbound : |n| ≤ 2 ^ 53) :
    (a.add b).isFinite = true ∧ (a.add b).toRat = a.toRat + b.toRat := by
  have hz := Dbl.zero_finite (a.isZero && b.isZero && a.signBit && b.signBit)
  have hinf : a.isInf = false ∧ b.isInf = false ∧ a.isNaN = false ∧ b.isNaN = false := by
    rcases Dbl.finite_cases a ha with rfl | ⟨p, rfl⟩ <;>
      rcases Dbl.finite_cases b hb with rfl | ⟨q, rfl⟩ <;>
      simp [Dbl.isInf, Dbl.isNaN]
  by_cases h0 : a.toRat + b.toRat = 0
  · have : a.add b = Dbl.zero (a.isZero && b.isZero && a.signBit && b.signBit) := by
      simp [Dbl.add, hinf, h0]
    rw [this, h0]
    exact hz
  · have : a.add b = Dbl.fin (a.toRat + b.toRat) := by
      simp only [Dbl.add, hinf, h0, Bool.or_self, Bool.false_and, Bool.and_false,
        Bool.false_eq_true, if_false]
      rw [hn, Dbl.round_intCast n hbound]
    rw [this]
    simp [Dbl.isFinite, Dbl.toRat]

/-- A product by a finite constant other than zero is NaN only when the other factor is. -/
theorem Dbl.mul_const_isNaN (a : Dbl) (c : ℚ) (hc : c ≠ 0) (ha : a.isNaN = false) :
    (a.mul (Dbl.fin c)).isNaN = false := by
  have c1 : (Dbl.fin c).isNaN = false := rfl
  have c2 : (Dbl.fin c).isInf = false := rfl
  have c3 : (Dbl.fin c).isZero = false := by simp [Dbl.isZero, hc]
  unfold Dbl.mul
  simp only [ha, c1, c2, c3, Bool.and_false, Bool.or_false, Bool.false_or, Bool.or_self,
    Bool.false_eq_true, if_false]
  unfold Dbl.infinity Dbl.zero
  split_ifs <;> first | rfl | exact Dbl.round_isNaN _

/-- A sum with a finite double is NaN only when the other operand is. -/
theorem Dbl.add_finite_isNaN (a b : Dbl) (ha : a.isNaN = false) (hb : b.isFinite = true) :
    (a.add b).isNaN = false := by
  have hb' : b.isInf = false ∧ b.isNaN = false := by
    rcases Dbl.finite_cases b hb with rfl | ⟨q, rfl⟩ <;> simp [Dbl.isInf, Dbl.isNaN]
  unfold Dbl.add
  simp only [ha, hb', Bool.or_self, Bool.and_false, Bool.false_eq_true, if_false]
  unfold Dbl.zero
  split_ifs <;> first | exact ha | rfl | exact Dbl.round_isNaN _

theorem Dbl.isNaN_of_finite (a : Dbl) (ha : a.isFinite = true) : a.isNaN = false := by
  rcases Dbl.finite_cases a ha with rfl | ⟨q, rfl⟩ <;> rfl

theorem toInteger_finite (a : Dbl) (ha : a.isFinite = true) :
    (toInteger a).isFinite = true ∧ (toInteger a).toRat = (truncToZero a.toRat : ℚ) := by
  rcases Dbl.finite_cases a ha with rfl | ⟨q, rfl⟩
  · simp [toInteger, Dbl.isFinite, Dbl.toRat, truncToZero]
  · by_cases h : 0 ≤ q
    · simp [toInteger, Dbl.isFinite, Dbl.toRat, truncToZero, h]
    · by_cases hc : ⌈q⌉ = 0
      · simp [toInteger, Dbl.isFinite, Dbl.toRat, truncToZero, h, hc]
      · simp [toInteger, Dbl.isFinite, Dbl.toRat, truncToZero, h, hc]

theorem truncToZero_intCast (n : Int) : truncToZero (n : ℚ) = n := by
  unfold truncToZero
  split_ifs <;> simp

/-- On finite arguments `MakeTime` is never NaN: an overflow gives an infinity. -/
theorem MakeTime_isNaN (h m s ms : Dbl) (hh : h.isFinite = true) (hm : m.isFinite = true)
    (hs : s.isFinite = true) (hms : ms.isFinite = true) :
    (Dbl.MakeTime h m s ms).isNaN = false := by
  have t1 := (toInteger_finite h hh).1
  have t2 := (toInteger_finite m hm).1
  have t3 := (toInteger_finite s hs).1
  have t4 := (toInteger_finite ms hms).1
  unfold Dbl.MakeTime
  simp only [hh, hm, hs, hms, Bool.not_true, Bool.or_self, Bool.false_eq_true, if_false]
  apply Dbl.add_finite_isNaN _ _ _ t4
  apply Dbl.mul_const_isNaN _ _ (by norm_num)
  apply Dbl.add_finite_isNaN _ _ _ t3
  apply Dbl.mul_const_isNaN _ _ (by norm_num)
  apply Dbl.add_finite_isNaN _ _ _ t2
  apply Dbl.mul_const_isNaN _ _ (by norm_num)
  exact Dbl.isNaN_of_finite _ t1

/-- The value of `MakeTime` on finite doubles whose integer parts have magnitude at most
`2^31`: every intermediate result is an integer below `2^53`, so no operation rounds. -/
theorem MakeTime_finite (h m s ms : Dbl) (hh : h.isFinite = true) (hm : m.isFinite = true)
    (hs : s.isFinite = true) (hms : ms.isFinite = true)
    (bh : |truncToZero h.toRat| ≤ 2 ^ 31) (bm : |truncToZero m.toRat| ≤ 2 ^ 31)
    (bs : |truncToZero s.toRat| ≤ 2 ^ 31) (bms : |truncToZero ms.toRat| ≤ 2 ^ 31) :
    (Dbl.MakeTime h m s ms).isFinite = true ∧
    (Dbl.MakeTime h m s ms).toRat =
      (((truncToZero h.toRat : ℚ) * 60 + truncToZero m.toRat) * 60 + truncToZero s.toRat) * 1000
        + truncToZero ms.toRat := by
  have h60 : (Dbl.fin 60).isFinite = true := rfl
  have h1000 : (Dbl.fin 1000).isFinite = true := rfl
  have t1 := toInteger_finite h hh
  have t2 := toInteger_finite m hm
  have t3 := toInteger_finite s hs
  have t4 := toInteger_finite ms hms
  generalize truncToZero h.toRat = a at bh t1
  generalize truncToZero m.toRat = b at bm t2
  generalize truncToZero s.toRat = c at bs t3
  generalize truncToZero ms.toRat = d at bms t4
  rw [abs_le] at bh bm bs bms
  have a1 := Dbl.mul_finite _ _ t1.1 h60 (a * 60) (by rw [t1.2]; simp [Dbl.toRat])
    (abs_le.mpr ⟨by omega, by omega⟩)
  have a2 := Dbl.add_finite _ _ a1.1 t2.1 (a * 60 + b)
    (by rw [a1.2, t1.2, t2.2]; simp [Dbl.toRat]) (abs_le.mpr ⟨by omega, by omega⟩)
  have a3 := Dbl.mul_finite _ _ a2.1 h60 ((a * 60 + b) * 60)
    (by rw [a2.2, a1.2, t1.2, t2.2]; simp [Dbl.toRat]) (abs_le.mpr ⟨by omega, by omega⟩)
  have a4 := Dbl.add_finite _ _ a3.1 t3.1 ((a * 60 + b) * 60 + c)
    (by rw [a3.2, a2.2, a1.2, t1.2, t2.2, t3.2]; simp [Dbl.toRat])
    (abs_le.mpr ⟨by omega, by omega⟩)
  have a5 := Dbl.mul_finite _ _ a4.1 h1000 (((a * 60 + b) * 60 + c) * 1000)
    (by rw [a4.2, a3.2, a2.2, a1.2, t1.2, t2.2, t3.2]; simp [Dbl.toRat])
    (abs_le.mpr ⟨by omega, by omega⟩)
  have a6 := Dbl.add_finite _ _ a5.1 t4.1 (((a * 60 + b) * 60 + c) * 1000 + d)
    (by rw [a5.2, a4.2, a3.2, a2.2, a1.2, t1.2, t2.2, t3.2, t4.2]; simp [Dbl.toRat])
    (abs_le.mpr ⟨by omega, by omega⟩)
  unfold Dbl.MakeTime
  simp only [hh, hm, hs, hms, Bool.not_true, Bool.or_self, Bool.false_eq_true, if_false]
  refine ⟨a6.1, ?_⟩
  rw [a6.2, a5.2, a4.2, a3.2, a2.2, a1.2, t1.2, t2.2, t3.2, t4.2]
  simp [Dbl.toRat]

/-! ## What the primary scan accepts -/

theorem scanLoop_of_error (s : ScanState) (l : QString) (h : s.error = true) :
    scanLoop s l = s := by
  cases l with
  | nil => rfl
  | cons ch rest => simp [scanLoop, h]

theorem error_false_of_scanLoop (s : ScanState) (l : QString)
    (h : (scanLoop s l).error = false) : s.error = false := by
  by_contra hc
  have ht : s.error = true := by simpa using hc
  rw [scanLoop_of_error s l ht, ht] at h
  exact absurd h (by decide)

/-- The scan over a run of digits changes the pending number and its width only. -/
theorem scanLoop_digitRun (ds : QString) (hds : ∀ c ∈ ds, isDigitChar c) (s : ScanState)
    (rest : QString) (he : s.error = false) (hf : s.format ≠ Format.Done) :
    ∃ v : Int, scanLoop s (ds ++ rest) =
      scanLoop { s with current := v, currentSize := s.currentSize + ds.length } rest := by
  induction ds generalizing s with
  | nil => exact ⟨s.current, by simp⟩
  | cons c ds ih =>
    have hc := hds c (by simp)
    obtain ⟨v, hv⟩ := ih (fun a ha => hds a (List.mem_cons_of_mem _ ha))
      { s with current := s.current * 10 + ((c : Int) - ('0'.toNat : Int)),
               currentSize := s.currentSize + 1 } he hf
    refine ⟨v, ?_⟩
    rw [List.cons_append, scanLoop_cons _ _ _ he hf]
    have hstep : scanStep s c =
        { s with current := s.current * 10 + ((c : Int) - ('0'.toNat : Int)),
                 currentSize := s.currentSize + 1 } := by
      unfold scanStep
      rw [if_pos (show '0'.toNat ≤ c ∧ c ≤ '9'.toNat from hc)]
    rw [hstep, hv]
    congr 1
    simp only [ScanState.mk.injEq, true_and, and_true, List.length_cons]
    push_cast
    ring

/-- A plain string is a run of digits, alone or before a delimiter and a
plain string; after a `Z` comes nothing. -/
theorem plain_split (t : QString) (ht : PlainString t) :
    ∃ ds, (∀ c ∈ ds, isDigitChar c) ∧
      (t = ds ∨ ∃ c t', t = ds ++ c :: t' ∧ isDelimiterChar c ∧ PlainString t' ∧
        (c = 'Z'.toNat → t' = [])) := by
  induction t with
  | nil => exact ⟨[], by simp, Or.inl rfl⟩
  | cons a t ih =>
    have htail : PlainString t := by
      refine ⟨fun c hc => ht.1 c (List.mem_cons_of_mem _ hc), ?_⟩
      intro pre post h
      exact ht.2 (a :: pre) post (by rw [h]; rfl)
    by_cases ha : isDigitChar a
    · obtain ⟨ds, hds, h⟩ := ih htail
      refine ⟨a :: ds, ?_, ?_⟩
      · intro c hc
        rcases List.mem_cons.mp hc with rfl | hc
        · exact ha
        · exact hds c hc
      · rcases h with h | ⟨c, t', h, hc, hp, hz⟩
        · exact Or.inl (by rw [h])
        · exact Or.inr ⟨c, t', by rw [h]; rfl, hc, hp, hz⟩
    · have hd : isDelimiterChar a := by
        rcases ht.1 a (by simp) with h | h
        · exact absurd h ha
        · exact h
      refine ⟨[], by simp, Or.inr ⟨a, t, rfl, hd, htail, ?_⟩⟩
      intro hz
      exact ht.2 [] t (by rw [hz]; rfl)

/-- One round of the scan on a plain string: a run of digits, then the end
of the string or a delimiter; the scan goes on without error. -/
theorem phase_split (s : ScanState) (hs : s.error = false) (hf : s.format ≠ Format.Done)
    (hsz : s.currentSize = 0) (t : QString) (ht : PlainString t)
    (h : (scanLoop s (t ++ [0])).error = false) :
    ∃ ds v, (∀ c ∈ ds, isDigitChar c) ∧
      ((t = ds ∧
          (scanStep { s with current := v, currentSize := (ds.length : Int) } 0).error = false) ∨
        ∃ c t', t = ds ++ c :: t' ∧ isDelimiterChar c ∧ PlainString t' ∧
          (c = 'Z'.toNat → t' = []) ∧
          (scanLoop (scanStep { s with current := v, currentSize := (ds.length : Int) } c)
            (t' ++ [0])).error = false) := by
  obtain ⟨ds, hds, hcase⟩ := plain_split t ht
  rcases hcase with rfl | ⟨c, t', rfl, hc, hp, hz⟩
  · obtain ⟨v, hv⟩ := scanLoop_digitRun t hds s [0] hs hf
    rw [hv, hsz, Int.zero_add, scanLoop_cons _ _ _ (by exact hs) (by exact hf)] at h
    exact ⟨t, v, hds, Or.inl ⟨rfl, h⟩⟩
  · obtain ⟨v, hv⟩ := scanLoop_digitRun ds hds s (c :: t' ++ [0]) hs hf
    rw [List.append_assoc, hv, hsz, Int.zero_add, List.cons_append,
      scanLoop_cons _ _ _ (by exact hs) (by exact hf)] at h
    exact ⟨ds, v, hds, Or.inr ⟨c, t', rfl, hc, hp, hz, h⟩⟩


/-- The strings the scan accepts from the tzminute field on. -/
theorem accept_tzminute (t : QString) (ht : PlainString t) {e : Bool}
    {ys y mo d h mi s ms os off : Int} {sT sZ : Bool}
    (hacc : (scanLoop ⟨8, 0, 0, e, ys, y, mo, d, h, mi, s, ms, os, off, sT, sZ, false⟩
      (t ++ [0])).error = false) :
    IsField 2 t := by
  obtain ⟨ds, v, hds, hcase⟩ := phase_split _ rfl (by simp [Format.Done]) rfl t ht hacc
  rcases hcase with ⟨rfl, herr⟩ | ⟨c, t', rfl, hc, hp, hz, hnext⟩
  · simp [scanStep, storeField, delimiter, Format.Year, Format.Month, Format.Day, Format.Hour,
      Format.Minute, Format.Second, Format.MilliSecond, Format.TimezoneHour,
      Format.TimezoneMinute, Format.Done] at herr
    exact ⟨by omega, hds⟩
  · have herr := error_false_of_scanLoop _ _ hnext
    rcases hc with rfl | rfl | rfl | rfl | rfl | rfl
    · simp [scanStep, storeField, delimiter, Format.Year, Format.Month, Format.Day, Format.Hour,
        Format.Minute, Format.Second, Format.MilliSecond, Format.TimezoneHour,
        Format.TimezoneMinute, Format.Done] at herr
    · simp [scanStep, storeField, delimiter, Format.Year, Format.Month, Format.Day, Format.Hour,
        Format.Minute, Format.Second, Format.MilliSecond, Format.TimezoneHour,
        Format.TimezoneMinute, Format.Done] at herr
    · simp [scanStep, storeField, delimiter, Format.Year, Format.Month, Format.Day, Format.Hour,
        Format.Minute, Format.Second, Format.MilliSecond, Format.TimezoneHour,
        Format.TimezoneMinute, Format.Done] at herr
    · simp [scanStep, storeField, delimiter, Format.Year, Format.Month, Format.Day, Format.Hour,
        Format.Minute, Format.Second, Format.MilliSecond, Format.TimezoneHour,
        Format.TimezoneMinute, Format.Done] at herr
    · simp [scanStep, storeField, delimiter, Format.Year, Format.Month, Format.Day, Format.Hour,
        Format.Minute, Format.Second, Format.MilliSecond, Format.TimezoneHour,
        Format.TimezoneMinute, Format.Done] at herr
    · simp [scanStep, storeField, delimiter, Format.Year, Format.Month, Format.Day, Format.Hour,
        Format.Minute, Format.Second, Format.MilliSecond, Format.TimezoneHour,
        Format.TimezoneMinute, Format.Done] at herr

/-- The strings the scan accepts from the tzhour field on. -/
theorem accept_tzhour (t : QString) (ht : PlainString t) {e : Bool}
    {ys y mo d h mi s ms os off : Int} {sT sZ : Bool}
    (hacc : (scanLoop ⟨7, 0, 0, e, ys, y, mo, d, h, mi, s, ms, os, off, sT, sZ, false⟩
      (t ++ [0])).error = false) :
    TzHourTail t := by
  obtain ⟨ds, v, hds, hcase⟩ := phase_split _ rfl (by simp [Format.Done]) rfl t ht hacc
  rcases hcase with ⟨rfl, herr⟩ | ⟨c, t', rfl, hc, hp, hz, hnext⟩
  · simp [scanStep, storeField, delimiter, Format.Year, Format.Month, Format.Day, Format.Hour,
      Format.Minute, Format.Second, Format.MilliSecond, Format.TimezoneHour,
      Format.TimezoneMinute, Format.Done] at herr
    exact ⟨t, ⟨by omega, hds⟩, Or.inl rfl⟩
  · have herr := error_false_of_scanLoop _ _ hnext
    rcases hc with rfl | rfl | rfl | rfl | rfl | rfl
    · simp [scanStep, storeField, delimiter, Format.Year, Format.Month, Format.Day, Format.Hour,
        Format.Minute, Format.Second, Format.MilliSecond, Format.TimezoneHour,
        Format.TimezoneMinute, Format.Done] at herr
    · simp [scanStep, storeField, delimiter, Format.Year, Format.Month, Format.Day, Format.Hour,
        Format.Minute, Format.Second, Format.MilliSecond, Format.TimezoneHour,
        Format.TimezoneMinute, Format.Done] at herr
    · simp [scanStep, storeField, delimiter, Format.Year, Format.Month, Format.Day, Format.Hour,
        Format.Minute, Format.Second, Format.MilliSecond, Format.TimezoneHour,
        Format.TimezoneMinute, Format.Done] at herr
      have hstep : scanStep ⟨7, v, (ds.length : Int), e, ys, y, mo, d, h, mi, s, ms, os, off, sT, sZ, false⟩ ':'.toNat
          = ⟨8, 0, 0, e, ys, y, mo, d, h, mi, s, ms, os, v * 60, sT, true, false⟩ := by
        simp [scanStep, storeField, delimiter, Format.Year, Format.Month, Format.Day, Format.Hour,
          Format.Minute, Format.Second, Format.MilliSecond, Format.TimezoneHour,
          Format.TimezoneMinute, Format.Done]
        omega
      rw [hstep] at hnext
      have hn := accept_tzminute t' hp hnext
      exact ⟨ds, ⟨by omega, hds⟩, Or.inr ⟨t', hn, rfl⟩⟩
    · simp [scanStep, storeField, delimiter, Format.Year, Format.Month, Format.Day, Format.Hour,
        Format.Minute, Format.Second, Format.MilliSecond, Format.TimezoneHour,
        Format.TimezoneMinute, Format.Done] at herr
    · simp [scanStep, storeField, delimiter, Format.Year, Format.Month, Format.Day, Format.Hour,
        Format.Minute, Format.Second, Format.MilliSecond, Format.TimezoneHour,
        Format.TimezoneMinute, Format.Done] at herr
    · simp [scanStep, storeField, delimiter, Format.Year, Format.Month, Format.Day, Format.Hour,
        Format.Minute, Format.Second, Format.MilliSecond, Format.TimezoneHour,
        Format.TimezoneMinute, Format.Done] at herr

/-- The strings the scan accepts from the msec field on. -/
theorem accept_msec (t : QString) (ht : PlainString t) {e : Bool}
    {ys y mo d h mi s ms os off : Int} {sT : Bool}
    (hacc : (scanLoop ⟨6, 0, 0, e, ys, y, mo, d, h, mi, s, ms, os, off, sT, false, false⟩
      (t ++ [0])).error = false) :
    MsecTail t := by
  obtain ⟨ds, v, hds, hcase⟩ := phase_split _ rfl (by simp [Format.Done]) rfl t ht hacc
  rcases hcase with ⟨rfl, herr⟩ | ⟨c, t', rfl, hc, hp, hz, hnext⟩
  · simp [scanStep, storeField, delimiter, Format.Year, Format.Month, Format.Day, Format.Hour,
      Format.Minute, Format.Second, Format.MilliSecond, Format.TimezoneHour,
      Format.TimezoneMinute, Format.Done] at herr
    exact ⟨t, [], ⟨by omega, hds⟩, Or.inl rfl, by simp⟩
  · have herr := error_false_of_scanLoop _ _ hnext
    rcases hc with rfl | rfl | rfl | rfl | rfl | rfl
    · simp [scanStep, storeField, delimiter, Format.Year, Format.Month, Format.Day, Format.Hour,
        Format.Minute, Format.Second, Format.MilliSecond, Format.TimezoneHour,
        Format.TimezoneMinute, Format.Done] at herr
      have hstep : scanStep ⟨6, v, (ds.length : Int), e, ys, y, mo, d, h, mi, s, ms, os, off, sT, false, false⟩ '-'.toNat
          = ⟨7, 0, 0, e, ys, y, mo, d, h, mi, s, v, -1, off, sT, false, false⟩ := by
        simp [scanStep, storeField, delimiter, Format.Year, Format.Month, Format.Day, Format.Hour,
          Format.Minute, Format.Second, Format.MilliSecond, Format.TimezoneHour,
          Format.TimezoneMinute, Format.Done]
        omega
      rw [hstep] at hnext
      have hn := accept_tzhour t' hp hnext
      exact ⟨ds, '-'.toNat :: t', ⟨by omega, hds⟩, Or.inr (Or.inr ⟨t', hn, Or.inr rfl⟩), rfl⟩
    · simp [scanStep, storeField, delimiter, Format.Year, Format.Month, Format.Day, Format.Hour,
        Format.Minute, Format.Second, Format.MilliSecond, Format.TimezoneHour,
        Format.TimezoneMinute, Format.Done] at herr
    · simp [scanStep, storeField, delimiter, Format.Year, Format.Month, Format.Day, Format.Hour,
        Format.Minute, Format.Second, Format.MilliSecond, Format.TimezoneHour,
        Format.TimezoneMinute, Format.Done] at herr
    · simp [scanStep, storeField, delimiter, Format.Year, Format.Month, Format.Day, Format.Hour,
        Format.Minute, Format.Second, Format.MilliSecond, Format.TimezoneHour,
        Format.TimezoneMinute, Format.Done] at herr
    · simp [scanStep, storeField, delimiter, Format.Year, Format.Month, Format.Day, Format.Hour,
        Format.Minute, Format.Second, Format.MilliSecond, Format.TimezoneHour,
        Format.TimezoneMinute, Format.Done] at herr
      have hstep : scanStep ⟨6, v, (ds.length : Int), e, ys, y, mo, d, h, mi, s, ms, os, off, sT, false, false⟩ '+'.toNat
          = ⟨7, 0, 0, e, ys, y, mo, d, h, mi, s, v, os, off, sT, false, false⟩ := by
        simp [scanStep, storeField, delimiter, Format.Year, Format.Month, Format.Day, Format.Hour,
          Format.Minute, Format.Second, Format.MilliSecond, Format.TimezoneHour,
          Format.TimezoneMinute, Format.Done]
        omega
      rw [hstep] at hnext
      have hn := accept_tzhour t' hp hnext
      exact ⟨ds, '+'.toNat :: t', ⟨by omega, hds⟩, Or.inr (Or.inr ⟨t', hn, Or.inl rfl⟩), rfl⟩
    · simp [scanStep, storeField, delimiter, Format.Year, Format.Month, Format.Day, Format.Hour,
        Format.Minute, Format.Second, Format.MilliSecond, Format.TimezoneHour,
        Format.TimezoneMinute, Format.Done] at herr
      have ht' := hz rfl
      subst ht'
      exact ⟨ds, ['Z'.toNat], ⟨by omega, hds⟩, Or.inr (Or.inl rfl), rfl⟩

/-- The strings the scan accepts from the second field on. -/
theorem accept_second (t : QString) (ht : PlainString t) {e : Bool}
    {ys y mo d h mi s ms os off : Int} {sT : Bool}
    (hacc : (scanLoop ⟨5, 0, 0, e, ys, y, mo, d, h, mi, s, ms, os, off, sT, false, false⟩
      (t ++ [0])).error = false) :
    SecondTail t := by
  obtain ⟨ds, v, hds, hcase⟩ := phase_split _ rfl (by simp [Format.Done]) rfl t ht hacc
  rcases hcase with ⟨rfl, herr⟩ | ⟨c, t', rfl, hc, hp, hz, hnext⟩
  · simp [scanStep, storeField, delimiter, Format.Year, Format.Month, Format.Day, Format.Hour,
      Format.Minute, Format.Second, Format.MilliSecond, Format.TimezoneHour,
      Format.TimezoneMinute, Format.Done] at herr
    exact ⟨t, [], ⟨by omega, hds⟩, by simp, Or.inl (Or.inl rfl)⟩
  · have herr := error_false_of_scanLoop _ _ hnext
    rcases hc with rfl | rfl | rfl | rfl | rfl | rfl
    · simp [scanStep, storeField, delimiter, Format.Year, Format.Month, Format.Day, Format.Hour,
        Format.Minute, Format.Second, Format.MilliSecond, Format.TimezoneHour,
        Format.TimezoneMinute, Format.Done] at herr
      have hstep : scanStep ⟨5, v, (ds.length : Int), e, ys, y, mo, d, h, mi, s, ms, os, off, sT, false, false⟩ '-'.toNat
          = ⟨7, 0, 0, e, ys, y, mo, d, h, mi, v, ms, -1, off, sT, false, false⟩ := by
        simp [scanStep, storeField, delimiter, Format.Year, Format.Month, Format.Day, Format.Hour,
          Format.Minute, Format.Second, Format.MilliSecond, Format.TimezoneHour,
          Format.TimezoneMinute, Format.Done]
        omega
      rw [hstep] at hnext
      have hn := accept_tzhour t' hp hnext
      exact ⟨ds, '-'.toNat :: t', ⟨by omega, hds⟩, rfl, Or.inl (Or.inr (Or.inr ⟨t', hn, Or.inr rfl⟩))⟩
    · simp [scanStep, storeField, delimiter, Format.Year, Format.Month, Format.Day, Format.Hour,
        Format.Minute, Format.Second, Format.MilliSecond, Format.TimezoneHour,
        Format.TimezoneMinute, Format.Done] at herr
    · simp [scanStep, storeField, delimiter, Format.Year, Format.Month, Format.Day, Format.Hour,
        Format.Minute, Format.Second, Format.MilliSecond, Format.TimezoneHour,
        Format.TimezoneMinute, Format.Done] at herr
    · simp [scanStep, storeField, delimiter, Format.Year, Format.Month, Format.Day, Format.Hour,
        Format.Minute, Format.Second, Format.MilliSecond, Format.TimezoneHour,
        Format.TimezoneMinute, Format.Done] at herr
      have hstep : scanStep ⟨5, v, (ds.length : Int), e, ys, y, mo, d, h, mi, s, ms, os, off, sT, false, false⟩ '.'.toNat
          = ⟨6, 0, 0, e, ys, y, mo, d, h, mi, v, ms, os, off, sT, false, false⟩ := by
        simp [scanStep, storeField, delimiter, Format.Year, Format.Month, Format.Day, Format.Hour,
          Format.Minute, Format.Second, Format.MilliSecond, Format.TimezoneHour,
          Format.TimezoneMinute, Format.Done]
        omega
      rw [hstep] at hnext
      have hn := accept_msec t' hp hnext
      exact ⟨ds, '.'.toNat :: t', ⟨by omega, hds⟩, rfl, Or.inr ⟨t', hn, rfl⟩⟩
    · simp [scanStep, storeField, delimiter, Format.Year, Format.Month, Format.Day, Format.Hour,
        Format.Minute, Format.Second, Format.MilliSecond, Format.TimezoneHour,
        Format.TimezoneMinute, Format.Done] at herr
      have hstep : scanStep ⟨5, v, (ds.length : Int), e, ys, y, mo, d, h, mi, s, ms, os, off, sT, false, false⟩ '+'.toNat
          = ⟨7, 0, 0, e, ys, y, mo, d, h, mi, v, ms, os, off, sT, false, false⟩ := by
        simp [scanStep, storeField, delimiter, Format.Year, Format.Month, Format.Day, Format.Hour,
          Format.Minute, Format.Second, Format.MilliSecond, Format.TimezoneHour,
          Format.TimezoneMinute, Format.Done]
        omega
      rw [hstep] at hnext
      have hn := accept_tzhour t' hp hnext
      exact ⟨ds, '+'.toNat :: t', ⟨by omega, hds⟩, rfl, Or.inl (Or.inr (Or.inr ⟨t', hn, Or.inl rfl⟩))⟩
    · simp [scanStep, storeField, delimiter, Format.Year, Format.Month, Format.Day, Format.Hour,
        Format.Minute, Format.Second, Format.MilliSecond, Format.TimezoneHour,
        Format.TimezoneMinute, Format.Done] at herr
      have ht' := hz rfl
      subst ht'
      exact ⟨ds, ['Z'.toNat], ⟨by omega, hds⟩, rfl, Or.inl (Or.inr (Or.inl rfl))⟩

/-- The strings the scan accepts from the minute field on. -/
theorem accept_minute (t : QString) (ht : PlainString t) {e : Bool}
    {ys y mo d h mi s ms os off : Int} {sT : Bool}
    (hacc : (scanLoop ⟨4, 0, 0, e, ys, y, mo, d, h, mi, s, ms, os, off, sT, false, false⟩
      (t ++ [0])).error = false) :
    MinuteTail t := by
  obtain ⟨ds, v, hds, hcase⟩ := phase_split _ rfl (by simp [Format.Done]) rfl t ht hacc
  rcases hcase with ⟨rfl, herr⟩ | ⟨c, t', rfl, hc, hp, hz, hnext⟩
  · simp [scanStep, storeField, delimiter, Format.Year, Format.Month, Format.Day, Format.Hour,
      Format.Minute, Format.Second, Format.MilliSecond, Format.TimezoneHour,
      Format.TimezoneMinute, Format.Done] at herr
    exact ⟨t, [], ⟨by omega, hds⟩, by simp, Or.inl (Or.inl rfl)⟩
  · have herr := error_false_of_scanLoop _ _ hnext
    rcases hc with rfl | rfl | rfl | rfl | rfl | rfl
    · simp [scanStep, storeField, delimiter, Format.Year, Format.Month, Format.Day, Format.Hour,
        Format.Minute, Format.Second, Format.MilliSecond, Format.TimezoneHour,
        Format.TimezoneMinute, Format.Done] at herr
      have hstep : scanStep ⟨4, v, (ds.length : Int), e, ys, y, mo, d, h, mi, s, ms, os, off, sT, false, false⟩ '-'.toNat
          = ⟨7, 0, 0, e, ys, y, mo, d, h, v, s, ms, -1, off, sT, false, false⟩ := by
        simp [scanStep, storeField, delimiter, Format.Year, Format.Month, Format.Day, Format.Hour,
          Format.Minute, Format.Second, Format.MilliSecond, Format.TimezoneHour,
          Format.TimezoneMinute, Format.Done]
        omega
      rw [hstep] at hnext
      have hn := accept_tzhour t' hp hnext
      exact ⟨ds, '-'.toNat :: t', ⟨by omega, hds⟩, rfl, Or.inl (Or.inr (Or.inr ⟨t', hn, Or.inr rfl⟩))⟩
    · simp [scanStep, storeField, delimiter, Format.Year, Format.Month, Format.Day, Format.Hour,
        Format.Minute, Format.Second, Format.MilliSecond, Format.TimezoneHour,
        Format.TimezoneMinute, Format.Done] at herr
    · simp [scanStep, storeField, delimiter, Format.Year, Format.Month, Format.Day, Format.Hour,
        Format.Minute, Format.Second, Format.MilliSecond, Format.TimezoneHour,
        Format.TimezoneMinute, Format.Done] at herr
      have hstep : scanStep ⟨4, v, (ds.length : Int), e, ys, y, mo, d, h, mi, s, ms, os, off, sT, false, false⟩ ':'.toNat
          = ⟨5, 0, 0, e, ys, y, mo, d, h, v, s, ms, os, off, sT, false, false⟩ := by
        simp [scanStep, storeField, delimiter, Format.Year, Format.Month, Format.Day, Format.Hour,
          Format.Minute, Format.Second, Format.MilliSecond, Format.TimezoneHour,
          Format.TimezoneMinute, Format.Done]
        omega
      rw [hstep] at hnext
      have hn := accept_second t' hp hnext
      exact ⟨ds, ':'.toNat :: t', ⟨by omega, hds⟩, rfl, Or.inr ⟨t', hn, rfl⟩⟩
    · simp [scanStep, storeField, delimiter, Format.Year, Format.Month, Format.Day, Format.Hour,
        Format.Minute, Format.Second, Format.MilliSecond, Format.TimezoneHour,
        Format.TimezoneMinute, Format.Done] at herr
    · simp [scanStep, storeField, delimiter, Format.Year, Format.Month, Format.Day, Format.Hour,
        Format.Minute, Format.Second, Format.MilliSecond, Format.TimezoneHour,
        Format.TimezoneMinute, Format.Done] at herr
      have hstep : scanStep ⟨4, v, (ds.length : Int), e, ys, y, mo, d, h, mi, s, ms, os, off, sT, false, false⟩ '+'.toNat
          = ⟨7, 0, 0, e, ys, y, mo, d, h, v, s, ms, os, off, sT, false, false⟩ := by
        simp [scanStep, storeField, delimiter, Format.Year, Format.Month, Format.Day, Format.Hour,
          Format.Minute, Format.Second, Format.MilliSecond, Format.TimezoneHour,
          Format.TimezoneMinute, Format.Done]
        omega
      rw [hstep] at hnext
      have hn := accept_tzhour t' hp hnext
      exact ⟨ds, '+'.toNat :: t', ⟨by omega, hds⟩, rfl, Or.inl (Or.inr (Or.inr ⟨t', hn, Or.inl rfl⟩))⟩
    · simp [scanStep, storeField, delimiter, Format.Year, Format.Month, Format.Day, Format.Hour,
        Format.Minute, Format.Second, Format.MilliSecond, Format.TimezoneHour,
        Format.TimezoneMinute, Format.Done] at herr
      have ht' := hz rfl
      subst ht'
      exact ⟨ds, ['Z'.toNat], ⟨by omega, hds⟩, rfl, Or.inl (Or.inr (Or.inl rfl))⟩

/-- The strings the scan accepts from the hour field on. -/
theorem accept_hour (t : QString) (ht : PlainString t) {e : Bool}
    {ys y mo d h mi s ms os off : Int} {sT : Bool}
    (hacc : (scanLoop ⟨3, 0, 0, e, ys, y, mo, d, h, mi, s, ms, os, off, sT, false, false⟩
      (t ++ [0])).error = false) :
    HourTail t := by
  obtain ⟨ds, v, hds, hcase⟩ := phase_split _ rfl (by simp [Format.Done]) rfl t ht hacc
  rcases hcase with ⟨rfl, herr⟩ | ⟨c, t', rfl, hc, hp, hz, hnext⟩
  · simp [scanStep, storeField, delimiter, Format.Year, Format.Month, Format.Day, Format.Hour,
      Format.Minute, Format.Second, Format.MilliSecond, Format.TimezoneHour,
      Format.TimezoneMinute, Format.Done] at herr
    exact ⟨t, ⟨by omega, hds⟩, Or.inl rfl⟩
  · have herr := error_false_of_scanLoop _ _ hnext
    rcases hc with rfl | rfl | rfl | rfl | rfl | rfl
    · simp [scanStep, storeField, delimiter, Format.Year, Format.Month, Format.Day, Format.Hour,
        Format.Minute, Format.Second, Format.MilliSecond, Format.TimezoneHour,
        Format.TimezoneMinute, Format.Done] at herr
    · simp [scanStep, storeField, delimiter, Format.Year, Format.Month, Format.Day, Format.Hour,
        Format.Minute, Format.Second, Format.MilliSecond, Format.TimezoneHour,
        Format.TimezoneMinute, Format.Done] at herr
    · simp [scanStep, storeField, delimiter, Format.Year, Format.Month, Format.Day, Format.Hour,
        Format.Minute, Format.Second, Format.MilliSecond, Format.TimezoneHour,
        Format.TimezoneMinute, Format.Done] at herr
      have hstep : scanStep ⟨3, v, (ds.length : Int), e, ys, y, mo, d, h, mi, s, ms, os, off, sT, false, false⟩ ':'.toNat
          = ⟨4, 0, 0, e, ys, y, mo, d, v, mi, s, ms, os, off, sT, false, false⟩ := by
        simp [scanStep, storeField, delimiter, Format.Year, Format.Month, Format.Day, Format.Hour,
          Format.Minute, Format.Second, Format.MilliSecond, Format.TimezoneHour,
          Format.TimezoneMinute, Format.Done]
        omega
      rw [hstep] at hnext
      have hn := accept_minute t' hp hnext
      exact ⟨ds, ⟨by omega, hds⟩, Or.inr ⟨t', hn, rfl⟩⟩
    · simp [scanStep, storeField, delimiter, Format.Year, Format.Month, Format.Day, Format.Hour,
        Format.Minute, Format.Second, Format.MilliSecond, Format.TimezoneHour,
        Format.TimezoneMinute, Format.Done] at herr
    · simp [scanStep, storeField, delimiter, Format.Year, Format.Month, Format.Day, Format.Hour,
        Format.Minute, Format.Second, Format.MilliSecond, Format.TimezoneHour,
        Format.TimezoneMinute, Format.Done] at herr
    · simp [scanStep, storeField, delimiter, Format.Year, Format.Month, Format.Day, Format.Hour,
        Format.Minute, Format.Second, Format.MilliSecond, Format.TimezoneHour,
        Format.TimezoneMinute, Format.Done] at herr

/-- The strings the scan accepts from the day field on. -/
theorem accept_day (t : QString) (ht : PlainString t) {e : Bool}
    {ys y mo d h mi s ms os off : Int} {sT : Bool}
    (hacc : (scanLoop ⟨2, 0, 0, e, ys, y, mo, d, h, mi, s, ms, os, off, sT, false, false⟩
      (t ++ [0])).error = false) :
    DayTail t := by
  obtain ⟨ds, v, hds, hcase⟩ := phase_split _ rfl (by simp [Format.Done]) rfl t ht hacc
  rcases hcase with ⟨rfl, herr⟩ | ⟨c, t', rfl, hc, hp, hz, hnext⟩
  · simp [scanStep, storeField, delimiter, Format.Year, Format.Month, Format.Day, Format.Hour,
      Format.Minute, Format.Second, Format.MilliSecond, Format.TimezoneHour,
      Format.TimezoneMinute, Format.Done] at herr
    exact ⟨t, [], ⟨by omega, hds⟩, Or.inl rfl, by simp⟩
  · have herr := error_false_of_scanLoop _ _ hnext
    rcases hc with rfl | rfl | rfl | rfl | rfl | rfl
    · simp [scanStep, storeField, delimiter, Format.Year, Format.Month, Format.Day, Format.Hour,
        Format.Minute, Format.Second, Format.MilliSecond, Format.TimezoneHour,
        Format.TimezoneMinute, Format.Done] at herr
    · simp [scanStep, storeField, delimiter, Format.Year, Format.Month, Format.Day, Format.Hour,
        Format.Minute, Format.Second, Format.MilliSecond, Format.TimezoneHour,
        Format.TimezoneMinute, Format.Done] at herr
      have hstep : scanStep ⟨2, v, (ds.length : Int), e, ys, y, mo, d, h, mi, s, ms, os, off, sT, false, false⟩ 'T'.toNat
          = ⟨3, 0, 0, e, ys, y, mo, v, h, mi, s, ms, os, off, true, false, false⟩ := by
        simp [scanStep, storeField, delimiter, Format.Year, Format.Month, Format.Day, Format.Hour,
          Format.Minute, Format.Second, Format.MilliSecond, Format.TimezoneHour,
          Format.TimezoneMinute, Format.Done]
        omega
      rw [hstep] at hnext
      have hn := accept_hour t' hp hnext
      exact ⟨ds, 'T'.toNat :: t', ⟨by omega, hds⟩, Or.inr ⟨t', hn, rfl⟩, rfl⟩
    · simp [scanStep, storeField, delimiter, Format.Year, Format.Month, Format.Day, Format.Hour,
        Format.Minute, Format.Second, Format.MilliSecond, Format.TimezoneHour,
        Format.TimezoneMinute, Format.Done] at herr
    · simp [scanStep, storeField, delimiter, Format.Year, Format.Month, Format.Day, Format.Hour,
        Format.Minute, Format.Second, Format.MilliSecond, Format.TimezoneHour,
        Format.TimezoneMinute, Format.Done] at herr
    · simp [scanStep, storeField, delimiter, Format.Year, Format.Month, Format.Day, Format.Hour,
        Format.Minute, Format.Second, Format.MilliSecond, Format.TimezoneHour,
        Format.TimezoneMinute, Format.Done] at herr
    · simp [scanStep, storeField, delimiter, Format.Year, Format.Month, Format.Day, Format.Hour,
        Format.Minute, Format.Second, Format.MilliSecond, Format.TimezoneHour,
        Format.TimezoneMinute, Format.Done] at herr

/-- The strings the scan accepts from the month field on. -/
theorem accept_month (t : QString) (ht : PlainString t) {e : Bool}
    {ys y mo d h mi s ms os off : Int} {sT : Bool}
    (hacc : (scanLoop ⟨1, 0, 0, e, ys, y, mo, d, h, mi, s, ms, os, off, sT, false, false⟩
      (t ++ [0])).error = false) :
    MonthTail t := by
  obtain ⟨ds, v, hds, hcase⟩ := phase_split _ rfl (by simp [Format.Done]) rfl t ht hacc
  rcases hcase with ⟨rfl, herr⟩ | ⟨c, t', rfl, hc, hp, hz, hnext⟩
  · simp [scanStep, storeField, delimiter, Format.Year, Format.Month, Format.Day, Format.Hour,
      Format.Minute, Format.Second, Format.MilliSecond, Format.TimezoneHour,
      Format.TimezoneMinute, Format.Done] at herr
    exact ⟨t, [], ⟨by omega, hds⟩, by simp, Or.inl (Or.inl rfl)⟩
  · have herr := error_false_of_scanLoop _ _ hnext
    rcases hc with rfl | rfl | rfl | rfl | rfl | rfl
    · simp [scanStep, storeField, delimiter, Format.Year, Format.Month, Format.Day, Format.Hour,
        Format.Minute, Format.Second, Format.MilliSecond, Format.TimezoneHour,
        Format.TimezoneMinute, Format.Done] at herr
      have hstep : scanStep ⟨1, v, (ds.length : Int), e, ys, y, mo, d, h, mi, s, ms, os, off, sT, false, false⟩ '-'.toNat
          = ⟨2, 0, 0, e, ys, y, v - 1, d, h, mi, s, ms, os, off, sT, false, false⟩ := by
        simp [scanStep, storeField, delimiter, Format.Year, Format.Month, Format.Day, Format.Hour,
          Format.Minute, Format.Second, Format.MilliSecond, Format.TimezoneHour,
          Format.TimezoneMinute, Format.Done]
        omega
      rw [hstep] at hnext
      have hn := accept_day t' hp hnext
      exact ⟨ds, '-'.toNat :: t', ⟨by omega, hds⟩, rfl, Or.inr ⟨t', hn, rfl⟩⟩
    · simp [scanStep, storeField, delimiter, Format.Year, Format.Month, Format.Day, Format.Hour,
        Format.Minute, Format.Second, Format.MilliSecond, Format.TimezoneHour,
        Format.TimezoneMinute, Format.Done] at herr
      have hstep : scanStep ⟨1, v, (ds.length : Int), e, ys, y, mo, d, h, mi, s, ms, os, off, sT, false, false⟩ 'T'.toNat
          = ⟨3, 0, 0, e, ys, y, v - 1, d, h, mi, s, ms, os, off, true, false, false⟩ := by
        simp [scanStep, storeField, delimiter, Format.Year, Format.Month, Format.Day, Format.Hour,
          Format.Minute, Format.Second, Format.MilliSecond, Format.TimezoneHour,
          Format.TimezoneMinute, Format.Done]
        omega
      rw [hstep] at hnext
      have hn := accept_hour t' hp hnext
      exact ⟨ds, 'T'.toNat :: t', ⟨by omega, hds⟩, rfl, Or.inl (Or.inr ⟨t', hn, rfl⟩)⟩
    · simp [scanStep, storeField, delimiter, Format.Year, Format.Month, Format.Day, Format.Hour,
        Format.Minute, Format.Second, Format.MilliSecond, Format.TimezoneHour,
        Format.TimezoneMinute, Format.Done] at herr
    · simp [scanStep, storeField, delimiter, Format.Year, Format.Month, Format.Day, Format.Hour,
        Format.Minute, Format.Second, Format.MilliSecond, Format.TimezoneHour,
        Format.TimezoneMinute, Format.Done] at herr
    · simp [scanStep, storeField, delimiter, Format.Year, Format.Month, Format.Day, Format.Hour,
        Format.Minute, Format.Second, Format.MilliSecond, Format.TimezoneHour,
        Format.TimezoneMinute, Format.Done] at herr
    · simp [scanStep, storeField, delimiter, Format.Year, Format.Month, Format.Day, Format.Hour,
        Format.Minute, Format.Second, Format.MilliSecond, Format.TimezoneHour,
        Format.TimezoneMinute, Format.Done] at herr

/-- The strings the scan accepts from the year field on. -/
theorem accept_year (w : Nat) (t : QString) (ht : PlainString t) {e : Bool}
    {ys y mo d h mi s ms os off : Int} {sT : Bool}
    (hw : if e = true then w = 6 else w = 4)
    (hacc : (scanLoop ⟨0, 0, 0, e, ys, y, mo, d, h, mi, s, ms, os, off, sT, false, false⟩
      (t ++ [0])).error = false) :
    YearTail w t := by
  obtain ⟨ds, v, hds, hcase⟩ := phase_split _ rfl (by simp [Format.Done]) rfl t ht hacc
  cases e <;> simp at hw <;> subst hw <;>
  rcases hcase with ⟨rfl, herr⟩ | ⟨c, t', rfl, hc, hp, hz, hnext⟩
  · simp [scanStep, storeField, delimiter, Format.Year, Format.Month, Format.Day, Format.Hour,
      Format.Minute, Format.Second, Format.MilliSecond, Format.TimezoneHour,
      Format.TimezoneMinute, Format.Done] at herr
    exact ⟨t, [], ⟨by omega, hds⟩, by simp, Or.inl (Or.inl rfl)⟩
  · have herr := error_false_of_scanLoop _ _ hnext
    rcases hc with rfl | rfl | rfl | rfl | rfl | rfl
    · simp [scanStep, storeField, delimiter, Format.Year, Format.Month, Format.Day, Format.Hour,
        Format.Minute, Format.Second, Format.MilliSecond, Format.TimezoneHour,
        Format.TimezoneMinute, Format.Done] at herr
      have hstep : scanStep ⟨0, v, (ds.length : Int), false, ys, y, mo, d, h, mi, s, ms, os, off, sT, false, false⟩ '-'.toNat
          = ⟨1, 0, 0, false, ys, v, mo, d, h, mi, s, ms, os, off, sT, false, false⟩ := by
        simp [scanStep, storeField, delimiter, Format.Year, Format.Month, Format.Day, Format.Hour,
          Format.Minute, Format.Second, Format.MilliSecond, Format.TimezoneHour,
          Format.TimezoneMinute, Format.Done]
        omega
      rw [hstep] at hnext
      have hn := accept_month t' hp hnext
      exact ⟨ds, '-'.toNat :: t', ⟨by omega, hds⟩, rfl, Or.inr ⟨t', hn, rfl⟩⟩
    · simp [scanStep, storeField, delimiter, Format.Year, Format.Month, Format.Day, Format.Hour,
        Format.Minute, Format.Second, Format.MilliSecond, Format.TimezoneHour,
        Format.TimezoneMinute, Format.Done] at herr
      have hstep : scanStep ⟨0, v, (ds.length : Int), false, ys, y, mo, d, h, mi, s, ms, os, off, sT, false, false⟩ 'T'.toNat
          = ⟨3, 0, 0, false, ys, v, mo, d, h, mi, s, ms, os, off, true, false, false⟩ := by
        simp [scanStep, storeField, delimiter, Format.Year, Format.Month, Format.Day, Format.Hour,
          Format.Minute, Format.Second, Format.MilliSecond, Format.TimezoneHour,
          Format.TimezoneMinute, Format.Done]
        omega
      rw [hstep] at hnext
      have hn := accept_hour t' hp hnext
      exact ⟨ds, 'T'.toNat :: t', ⟨by omega, hds⟩, rfl, Or.inl (Or.inr ⟨t', hn, rfl⟩)⟩
    · simp [scanStep, storeField, delimiter, Format.Year, Format.Month, Format.Day, Format.Hour,
        Format.Minute, Format.Second, Format.MilliSecond, Format.TimezoneHour,
        Format.TimezoneMinute, Format.Done] at herr
    · simp [scanStep, storeField, delimiter, Format.Year, Format.Month, Format.Day, Format.Hour,
        Format.Minute, Format.Second, Format.MilliSecond, Format.TimezoneHour,
        Format.TimezoneMinute, Format.Done] at herr
    · simp [scanStep, storeField, delimiter, Format.Year, Format.Month, Format.Day, Format.Hour,
        Format.Minute, Format.Second, Format.MilliSecond, Format.TimezoneHour,
        Format.TimezoneMinute, Format.Done] at herr
    · simp [scanStep, storeField, delimiter, Format.Year, Format.Month, Format.Day, Format.Hour,
        Format.Minute, Format.Second, Format.MilliSecond, Format.TimezoneHour,
        Format.TimezoneMinute, Format.Done] at herr
  · simp [scanStep, storeField, delimiter, Format.Year, Format.Month, Format.Day, Format.Hour,
      Format.Minute, Format.Second, Format.MilliSecond, Format.TimezoneHour,
      Format.TimezoneMinute, Format.Done] at herr
    exact ⟨t, [], ⟨by omega, hds⟩, by simp, Or.inl (Or.inl rfl)⟩
  · have herr := error_false_of_scanLoop _ _ hnext
    rcases hc with rfl | rfl | rfl | rfl | rfl | rfl
    · simp [scanStep, storeField, delimiter, Format.Year, Format.Month, Format.Day, Format.Hour,
        Format.Minute, Format.Second, Format.MilliSecond, Format.TimezoneHour,
        Format.TimezoneMinute, Format.Done] at herr
      have hstep : scanStep ⟨0, v, (ds.length : Int), true, ys, y, mo, d, h, mi, s, ms, os, off, sT, false, false⟩ '-'.toNat
          = ⟨1, 0, 0, true, ys, v, mo, d, h, mi, s, ms, os, off, sT, false, false⟩ := by
        simp [scanStep, storeField, delimiter, Format.Year, Format.Month, Format.Day, Format.Hour,
          Format.Minute, Format.Second, Format.MilliSecond, Format.TimezoneHour,
          Format.TimezoneMinute, Format.Done]
        omega
      rw [hstep] at hnext
      have hn := accept_month t' hp hnext
      exact ⟨ds, '-'.toNat :: t', ⟨by omega, hds⟩, rfl, Or.inr ⟨t', hn, rfl⟩⟩
    · simp [scanStep, storeField, delimiter, Format.Year, Format.Month, Format.Day, Format.Hour,
        Format.Minute, Format.Second, Format.MilliSecond, Format.TimezoneHour,
        Format.TimezoneMinute, Format.Done] at herr
      have hstep : scanStep ⟨0, v, (ds.length : Int), true, ys, y, mo, d, h, mi, s, ms, os, off, sT, false, false⟩ 'T'.toNat
          = ⟨3, 0, 0, true, ys, v, mo, d, h, mi, s, ms, os, off, true, false, false⟩ := by
        simp [scanStep, storeField, delimiter, Format.Year, Format.Month, Format.Day, Format.Hour,
          Format.Minute, Format.Second, Format.MilliSecond, Format.TimezoneHour,
          Format.TimezoneMinute, Format.Done]
        omega
      rw [hstep] at hnext
      have hn := accept_hour t' hp hnext
      exact ⟨ds, 'T'.toNat :: t', ⟨by omega, hds⟩, rfl, Or.inl (Or.inr ⟨t', hn, rfl⟩)⟩
    · simp [scanStep, storeField, delimiter, Format.Year, Format.Month, Format.Day, Format.Hour,
        Format.Minute, Format.Second, Format.MilliSecond, Format.TimezoneHour,
        Format.TimezoneMinute, Format.Done] at herr
    · simp [scanStep, storeField, delimiter, Format.Year, Format.Month, Format.Day, Format.Hour,
        Format.Minute, Format.Second, Format.MilliSecond, Format.TimezoneHour,
        Format.TimezoneMinute, Format.Done] at herr
    · simp [scanStep, storeField, delimiter, Format.Year, Format.Month, Format.Day, Format.Hour,
        Format.Minute, Format.Second, Format.MilliSecond, Format.TimezoneHour,
        Format.TimezoneMinute, Format.Done] at herr
    · simp [scanStep, storeField, delimiter, Format.Year, Format.Month, Format.Day, Format.Hour,
        Format.Minute, Format.Second, Format.MilliSecond, Format.TimezoneHour,
        Format.TimezoneMinute, Format.Done] at herr

/-- Without error, the primary scan of a plain string has read a string of
the format. -/
theorem ScanFormat_of_accepted (s : QString) (hs : PlainString s)
    (h : (primaryScan s).error = false) : ScanFormat s := by
  cases s with
  | nil =>
    have h' : (scanLoop ⟨0, 0, 0, false, 1, 0, 0, 1, 0, 0, 0, 0, 1, 0, false, false, false⟩
        ([] ++ [0])).error = false := h
    exact Or.inl (accept_year 4 [] hs (by simp) h')
  | cons c tl =>
    by_cases hsign : c = '+'.toNat ∨ c = '-'.toNat
    · have htl : PlainString tl := by
        refine ⟨fun a ha => hs.1 a (List.mem_cons_of_mem _ ha), ?_⟩
        intro pre post hp
        exact hs.2 (c :: pre) post (by rw [hp]; rfl)
      rw [primaryScan_signed c tl hsign] at h
      have h' : (scanLoop ⟨0, 0, 0, true, if c = '-'.toNat then -1 else 1, 0, 0, 1, 0, 0, 0, 0,
          1, 0, false, false, false⟩ (tl ++ [0])).error = false := h
      have h6 := accept_year 6 tl htl (by simp) h'
      rcases hsign with rfl | rfl
      · exact Or.inr ⟨tl, h6, Or.inl rfl⟩
      · exact Or.inr ⟨tl, h6, Or.inr rfl⟩
    · rw [primaryScan_unsigned c tl (fun hp => hsign (Or.inl hp))
        (fun hm => hsign (Or.inr hm))] at h
      have h' : (scanLoop ⟨0, 0, 0, false, 1, 0, 0, 1, 0, 0, 0, 0, 1, 0, false, false, false⟩
          ((c :: tl) ++ [0])).error = false := h
      exact Or.inl (accept_year 4 (c :: tl) hs (by simp) h')

/-- A string of digits and delimiters without a `Z` is plain. -/
theorem plainString_of_no_Z (s : QString) (h1 : ∀ c ∈ s, isDigitChar c ∨ isDelimiterChar c)
    (h2 : 'Z'.toNat ∉ s) : PlainString s := by
  refine ⟨h1, ?_⟩
  intro pre post h
  exact absurd (by rw [h]; simp) h2

/-- A date-time string with a `T` has a `:` (its time part has minutes). -/
theorem render_colon_of_T (x : DateTimeString) (h : 'T'.toNat ∈ x.render) :
    ':'.toNat ∈ x.render := by
  have hzp := zeroPadded_digits
  obtain ⟨sign, year, md, time⟩ := x
  rcases time with _ | tp
  · exfalso
    simp only [DateTimeString.render, renderTime, List.append_nil, List.mem_append] at h
    rcases h with h | h
    · rcases sign with _ | negative
      · have := hzp _ _ _ h
        revert this
        decide
      · simp only [renderYear, List.mem_cons] at h
        rcases h with h | h
        · cases negative <;> simp at h
        · have := hzp _ _ _ h
          revert this
          decide
    · rcases md with _ | ⟨mm, _ | dd⟩
      · simp [renderMonthDay] at h
      · simp only [renderMonthDay, List.mem_cons] at h
        rcases h with h | h
        · simp at h
        · have := hzp _ _ _ h
          revert this
          decide
      · simp only [renderMonthDay, List.mem_cons, List.mem_append] at h
        rcases h with h | h | h | h
        · simp at h
        · have := hzp _ _ _ h
          revert this
          decide
        · simp at h
        · have := hzp _ _ _ h
          revert this
          decide
  · simp [DateTimeString.render, renderTime, TimePart.render]

/-- The delimiter chain has no final else: a character that is neither a digit
nor a delimiter stores the pending field and leaves the format unchanged.  So
the primary scan accepts `"2023x2023"`, which is no string of the Date Time
String Format (no such string holds an `x`): the scan ends without error and
`ParseString` returns the first instant of 2023 without trying a fallback. -/
theorem primaryScan_accepts_unknown_delimiter (host : Host) (localTZA : Int) :
    (primaryScan (qstr "2023x2023")).error = false ∧
    ParseString host (qstr "2023x2023") localTZA = Dbl.fin ((1672531200000 : Int) : ℚ) ∧
    (∀ x : DateTimeString, x.render ≠ qstr "2023x2023") := by
  have hscan : primaryScan (qstr "2023x2023")
      = ⟨9, 0, 0, false, 1, 2023, 0, 1, 0, 0, 0, 0, 1, 0, false, false, false⟩ := by decide
  have hd : MakeDate (MakeDay (some (2023 * 1)) (some 0) (some 1)) (some (MakeTime 0 0 0 0))
      = some 1672531200000 := by decide
  refine ⟨by rw [hscan], ?_, ?_⟩
  · unfold ParseString
    simp only [hscan, hd, Bool.not_false, if_true, Bool.false_eq_true, if_false, Dbl.ofNum]
    exact TimeClip_int 1672531200000 (by decide) (by decide)
  · intro x hx
    have hmem : 'x'.toNat ∈ x.render := by
      rw [hx]
      decide
    have := render_chars x _ hmem
    revert this
    decide


/-- The date within the month is at most the number of days of the month. -/
theorem month_date_length (d : Int) (leap : Bool) (hd0 : 0 ≤ d)
    (hd1 : d < 365 + boolToNum leap) :
    ∃ m dt : Int,
      (if d < 31 then some (0 : Int)
        else if d < 59 + boolToNum leap then some 1
        else if d < 90 + boolToNum leap then some 2
        else if d < 120 + boolToNum leap then some 3
        else if d < 151 + boolToNum leap then some 4
        else if d < 181 + boolToNum leap then some 5
        else if d < 212 + boolToNum leap then some 6
        else if d < 243 + boolToNum leap then some 7
        else if d < 273 + boolToNum leap then some 8
        else if d < 304 + boolToNum leap then some 9
        else if d < 334 + boolToNum leap then some 10
        else if d < 365 + boolToNum leap then some 11
        else none) = some m ∧
      (if m = 0 then some (d + 1)
        else if m = 1 then some (d - 30)
        else if m = 2 then some (d - 58 - boolToNum leap)
        else if m = 3 then some (d - 89 - boolToNum leap)
        else if m = 4 then some (d - 119 - boolToNum leap)
        else if m = 5 then some (d - 150 - boolToNum leap)
        else if m = 6 then some (d - 180 - boolToNum leap)
        else if m = 7 then some (d - 211 - boolToNum leap)
        else if m = 8 then some (d - 242 - boolToNum leap)
        else if m = 9 then some (d - 272 - boolToNum leap)
        else if m = 10 then some (d - 303 - boolToNum leap)
        else if m = 11 then some (d - 333 - boolToNum leap)
        else none) = some dt ∧
      0 ≤ m ∧ m ≤ 11 ∧ 1 ≤ dt ∧ dt ≤ DaysInMonth m leap ∧ DaysInMonth m leap ≤ 31 := by
  have hl : boolToNum leap = if leap = true then 1 else 0 := by
    cases leap <;> rfl
  generalize hlg : boolToNum leap = l at *
  have hc : (d < 31) ∨ (31 ≤ d ∧ d < 59 + l) ∨ (59 + l ≤ d ∧ d < 90 + l) ∨ (90 + l ≤ d ∧ d < 120 + l) ∨ (120 + l ≤ d ∧ d < 151 + l) ∨ (151 + l ≤ d ∧ d < 181 + l) ∨ (181 + l ≤ d ∧ d < 212 + l) ∨ (212 + l ≤ d ∧ d < 243 + l) ∨ (243 + l ≤ d ∧ d < 273 + l) ∨ (273 + l ≤ d ∧ d < 304 + l) ∨ (304 + l ≤ d ∧ d < 334 + l) ∨ (334 + l ≤ d) := by omega
  rcases hc with h | h | h | h | h | h | h | h | h | h | h | h
  · refine ⟨0, d + 1, ?_, ?_, by omega, by omega, ?_, ?_, ?_⟩
    · cases leap <;> simp only [if_true, if_false, Bool.false_eq_true] at hl <;> subst hl <;>
        simp (disch := omega) only [if_pos, if_neg]
    · simp
    · cases leap <;> simp only [if_true, if_false, Bool.false_eq_true] at hl <;> subst hl <;> omega
    · cases leap <;> simp only [if_true, if_false, Bool.false_eq_true] at hl <;> subst hl <;>
        simp [DaysInMonth] <;> omega
    · cases leap <;> simp [DaysInMonth]
  · refine ⟨1, d - 30, ?_, ?_, by omega, by omega, ?_, ?_, ?_⟩
    · cases leap <;> simp only [if_true, if_false, Bool.false_eq_true] at hl <;> subst hl <;>
        simp (disch := omega) only [if_pos, if_neg]
    · simp
    · cases leap <;> simp only [if_true, if_false, Bool.false_eq_true] at hl <;> subst hl <;> omega
    · cases leap <;> simp only [if_true, if_false, Bool.false_eq_true] at hl <;> subst hl <;>
        simp [DaysInMonth] <;> omega
    · cases leap <;> simp [DaysInMonth]
  · refine ⟨2, d - 58 - l, ?_, ?_, by omega, by omega, ?_, ?_, ?_⟩
    · cases leap <;> simp only [if_true, if_false, Bool.false_eq_true] at hl <;> subst hl <;>
        simp (disch := omega) only [if_pos, if_neg]
    · simp
    · cases leap <;> simp only [if_true, if_false, Bool.false_eq_true] at hl <;> subst hl <;> omega
    · cases leap <;> simp only [if_true, if_false, Bool.false_eq_true] at hl <;> subst hl <;>
        simp [DaysInMonth] <;> omega
    · cases leap <;> simp [DaysInMonth]
  · refine ⟨3, d - 89 - l, ?_, ?_, by omega, by omega, ?_, ?_, ?_⟩
    · cases leap <;> simp only [if_true, if_false, Bool.false_eq_true] at hl <;> subst hl <;>
        simp (disch := omega) only [if_pos, if_neg]
    · simp
    · cases leap <;> simp only [if_true, if_false, Bool.false_eq_true] at hl <;> subst hl <;> omega
    · cases leap <;> simp only [if_true, if_false, Bool.false_eq_true] at hl <;> subst hl <;>
        simp [DaysInMonth] <;> omega
    · cases leap <;> simp [DaysInMonth]
  · refine ⟨4, d - 119 - l, ?_, ?_, by omega, by omega, ?_, ?_, ?_⟩
    · cases leap <;> simp only [if_true, if_false, Bool.false_eq_true] at hl <;> subst hl <;>
        simp (disch := omega) only [if_pos, if_neg]
    · simp
    · cases leap <;> simp only [if_true, if_false, Bool.false_eq_true] at hl <;> subst hl <;> omega
    · cases leap <;> simp only [if_true, if_false, Bool.false_eq_true] at hl <;> subst hl <;>
        simp [DaysInMonth] <;> omega
    · cases leap <;> simp [DaysInMonth]
  · refine ⟨5, d - 150 - l, ?_, ?_, by omega, by omega, ?_, ?_, ?_⟩
    · cases leap <;> simp only [if_true, if_false, Bool.false_eq_true] at hl <;> subst hl <;>
        simp (disch := omega) only [if_pos, if_neg]
    · simp
    · cases leap <;> simp only [if_true, if_false, Bool.false_eq_true] at hl <;> subst hl <;> omega
    · cases leap <;> simp only [if_true, if_false, Bool.false_eq_true] at hl <;> subst hl <;>
        simp [DaysInMonth] <;> omega
    · cases leap <;> simp [DaysInMonth]
  · refine ⟨6, d - 180 - l, ?_, ?_, by omega, by omega, ?_, ?_, ?_⟩
    · cases leap <;> simp only [if_true, if_false, Bool.false_eq_true] at hl <;> subst hl <;>
        simp (disch := omega) only [if_pos, if_neg]
    · simp
    · cases leap <;> simp only [if_true, if_false, Bool.false_eq_true] at hl <;> subst hl <;> omega
    · cases leap <;> simp only [if_true, if_false, Bool.false_eq_true] at hl <;> subst hl <;>
        simp [DaysInMonth] <;> omega
    · cases leap <;> simp [DaysInMonth]
  · refine ⟨7, d - 211 - l, ?_, ?_, by omega, by omega, ?_, ?_, ?_⟩
    · cases leap <;> simp only [if_true, if_false, Bool.false_eq_true] at hl <;> subst hl <;>
        simp (disch := omega) only [if_pos, if_neg]
    · simp
    · cases leap <;> simp only [if_true, if_false, Bool.false_eq_true] at hl <;> subst hl <;> omega
    · cases leap <;> simp only [if_true, if_false, Bool.false_eq_true] at hl <;> subst hl <;>
        simp [DaysInMonth] <;> omega
    · cases leap <;> simp [DaysInMonth]
  · refine ⟨8, d - 242 - l, ?_, ?_, by omega, by omega, ?_, ?_, ?_⟩
    · cases leap <;> simp only [if_true, if_false, Bool.false_eq_true] at hl <;> subst hl <;>
        simp (disch := omega) only [if_pos, if_neg]
    · simp
    · cases leap <;> simp only [if_true, if_false, Bool.false_eq_true] at hl <;> subst hl <;> omega
    · cases leap <;> simp only [if_true, if_false, Bool.false_eq_true] at hl <;> subst hl <;>
        simp [DaysInMonth] <;> omega
    · cases leap <;> simp [DaysInMonth]
  · refine ⟨9, d - 272 - l, ?_, ?_, by omega, by omega, ?_, ?_, ?_⟩
    · cases leap <;> simp only [if_true, if_false, Bool.false_eq_true] at hl <;> subst hl <;>
        simp (disch := omega) only [if_pos, if_neg]
    · simp
    · cases leap <;> simp only [if_true, if_false, Bool.false_eq_true] at hl <;> subst hl <;> omega
    · cases leap <;> simp only [if_true, if_false, Bool.false_eq_true] at hl <;> subst hl <;>
        simp [DaysInMonth] <;> omega
    · cases leap <;> simp [DaysInMonth]
  · refine ⟨10, d - 303 - l, ?_, ?_, by omega, by omega, ?_, ?_, ?_⟩
    · cases leap <;> simp only [if_true, if_false, Bool.false_eq_true] at hl <;> subst hl <;>
        simp (disch := omega) only [if_pos, if_neg]
    · simp
    · cases leap <;> simp only [if_true, if_false, Bool.false_eq_true] at hl <;> subst hl <;> omega
    · cases leap <;> simp only [if_true, if_false, Bool.false_eq_true] at hl <;> subst hl <;>
        simp [DaysInMonth] <;> omega
    · cases leap <;> simp [DaysInMonth]
  · refine ⟨11, d - 333 - l, ?_, ?_, by omega, by omega, ?_, ?_, ?_⟩
    · cases leap <;> simp only [if_true, if_false, Bool.false_eq_true] at hl <;> subst hl <;>
        simp (disch := omega) only [if_pos, if_neg]
    · simp
    · cases leap <;> simp only [if_true, if_false, Bool.false_eq_true] at hl <;> subst hl <;> omega
    · cases leap <;> simp only [if_true, if_false, Bool.false_eq_true] at hl <;> subst hl <;>
        simp [DaysInMonth] <;> omega
    · cases leap <;> simp [DaysInMonth]

/-- The month and the date of a time, with the date within the month's length. -/
theorem month_date_in_month (t : Int) :
    ∃ m dt : Int, MonthFromTime t = some m ∧ DateFromTime t = some dt ∧
      0 ≤ m ∧ m ≤ 11 ∧ 1 ≤ dt ∧ dt ≤ DaysInMonth m (InLeapYear t) ∧
      DaysInMonth m (InLeapYear t) ≤ 31 := by
  have hb := DayWithinYear_bounds t
  have hl := InLeapYear_eq t
  obtain ⟨m, dt, h1, h2, h3⟩ := month_date_length (DayWithinYear t) (InLeapYear t)
    hb.1 (by omega)
  refine ⟨m, dt, ?_, ?_, h3⟩
  · unfold MonthFromTime
    exact h1
  · unfold DateFromTime
    have hm : MonthFromTime t = some m := by
      unfold MonthFromTime
      exact h1
    simp only [hm, Option.getD_some]
    exact h2

/-- Two zero-padded digits of a number below `100`. -/
theorem zeroPadded_two (n : Nat) (h : n < 100) :
    zeroPadded n 2 = [n / 10 + '0'.toNat, n % 10 + '0'.toNat] := by
  rw [zeroPadded_succ, zeroPadded_succ]
  have h0 : n / 10 / 10 = 0 := by omega
  have h1 : n / 10 % 10 = n / 10 := by omega
  rw [h0, h1]
  simp [zeroPadded]

/-- The text `ToString` appends for a number below `100`: a `0` when it is below
`10`, then `QString::number`. -/
theorem number_two_digits (str : QString) (n : Nat) (h : n < 100) :
    (if (n : Int) < 10 then str ++ ['0'.toNat] else str) ++ numberToQString (n : Int)
      = str ++ zeroPadded n 2 := by
  have e0 : '0'.toNat = 48 := by decide
  rw [zeroPadded_two n h]
  unfold numberToQString
  have hneg : ¬ ((n : Int) < 0) := by omega
  simp only [hneg, if_false, Int.natAbs_ofNat]
  by_cases hz : n = 0
  · subst hz
    simp
  · have hz' : ¬ ((n : Int) = 0) := by omega
    simp only [hz', if_false]
    by_cases h10 : n < 10
    · have h10' : (n : Int) < 10 := by omega
      rw [Nat.digits_of_lt 10 n hz h10]
      have hd : n / 10 = 0 := by omega
      have hm : n % 10 = n := by omega
      simp [h10', hd, hm]
    · have h10' : ¬ ((n : Int) < 10) := by omega
      rw [Nat.digits_def' (by norm_num) (by omega),
        Nat.digits_of_lt 10 (n / 10) (by omega) (by omega)]
      simp [h10']

/-- The string `ToString` builds for a valid timestamp, for an offset below `100`
hours. -/
theorem ToString_eq (qt : QtText) (host : Host) (t localTZA : Int)
    (ho : (localTZA + DaylightSavingTA host t localTZA).natAbs < 360000000) :
    ToString qt host (some t) localTZA
      = qt.dateTimeToString ⟨some t, TimeZoneKind.LocalTime⟩ ++ qstr " GMT" ++
        (if localTZA + DaylightSavingTA host t localTZA = 0 then []
          else (if localTZA + DaylightSavingTA host t localTZA > 0 then '+'.toNat else '-'.toNat) ::
            (zeroPadded ((localTZA + DaylightSavingTA host t localTZA).natAbs / 3600000) 2 ++
              zeroPadded ((localTZA + DaylightSavingTA host t localTZA).natAbs / 60000 % 60)
                2)) := by
  unfold ToString ToDateTime
  dsimp only
  generalize localTZA + DaylightSavingTA host t localTZA = o at *
  generalize qt.dateTimeToString ⟨some t, TimeZoneKind.LocalTime⟩ ++ qstr " GMT" = base
  by_cases hz : o = 0
  · simp [hz]
  · have hh : o.natAbs / 1000 / 60 / 60 = o.natAbs / 3600000 := by
      rw [Nat.div_div_eq_div_mul, Nat.div_div_eq_div_mul]
    have hm : Int.tmod ((o.natAbs / 1000 / 60 : Nat) : Int) 60
        = ((o.natAbs / 60000 % 60 : Nat) : Int) := by
      rw [Nat.div_div_eq_div_mul]
      rw [Int.tmod_eq_emod (by omega) (by omega)]
      norm_cast
    simp only [ne_eq, hz, not_false_eq_true, if_true, if_false, hh, hm]
    rw [number_two_digits _ _ (by omega), number_two_digits _ _ (by omega)]
    simp [List.append_assoc]

/-- Clipping an integer: the integer itself within the range, NaN outside. -/
theorem TimeClip_ofInt (v : Int) :
    TimeClip (Dbl.fin (v : ℚ))
      = if -MaxDateVal ≤ v ∧ v ≤ MaxDateVal then Dbl.fin (v : ℚ) else Dbl.nan := by
  by_cases h : -MaxDateVal ≤ v ∧ v ≤ MaxDateVal
  · rw [if_pos h]
    exact TimeClip_int v h.1 h.2
  · rw [if_neg h]
    apply TimeClip_big
    intro hq
    apply h
    have hq' : |v| ≤ MaxDateVal := by exact_mod_cast hq
    exact abs_le.mp hq'

/-- A date of the format followed by a time with the zone `Z`: the scan succeeds
and `ParseString` returns the clipped sum of the date's value and the time of
day. -/
theorem ParseString_date_Z (host : Host) (localTZA : Int) (D : DateTimeString)
    (hD : D.time = none) (hr : D.inRange = true) (tp : TimePart)
    (htp : timeInRange (some tp) = true) (hz : tp.zone = some ZoneDesignator.Z) :
    (primaryScan (D.render ++ tp.render)).error = false ∧
    ParseString host (D.render ++ tp.render) localTZA
      = TimeClip (Dbl.ofNum ((MakeDay
          (some (if D.sign = some true then -(D.year : Int) else (D.year : Int)))
          (some (monthOf D.monthDay)) (some (dayOf D.monthDay))).map
            (fun d => d * msPerDay + timeOf (some tp)))) := by
  have hrender : D.render ++ tp.render
      = DateTimeString.render ⟨D.sign, D.year, D.monthDay, some tp⟩ := by
    simp [DateTimeString.render, hD, renderTime]
  have hin : DateTimeString.inRange ⟨D.sign, D.year, D.monthDay, some tp⟩ = true := by
    unfold DateTimeString.inRange at hr ⊢
    simp only [hD, timeInRange, Bool.and_true] at hr
    simp only [hr, htp, Bool.and_true]
  obtain ⟨h1, h2⟩ := ParseString_render host localTZA _ hin
  rw [hrender]
  refine ⟨h1, ?_⟩
  rw [h2]
  unfold DateTimeString.value
  simp only [hz, zoneSign, zoneMinutes]
  rcases MakeDay (some (if D.sign = some true then -(D.year : Int) else (D.year : Int)))
    (some (monthOf D.monthDay)) (some (dayOf D.monthDay)) with _ | d
  · rfl
  · simp [MakeDate]

/-- The four time suffixes of the looseness of the parser, as time parts. -/
theorem loose_suffixes :
    qstr "T00:00:00Z" = TimePart.render ⟨0, 0, some (0, none), some ZoneDesignator.Z⟩ ∧
    qstr "T24:00:00Z" = TimePart.render ⟨24, 0, some (0, none), some ZoneDesignator.Z⟩ ∧
    qstr "T23:59:59Z" = TimePart.render ⟨23, 59, some (59, none), some ZoneDesignator.Z⟩ ∧
    qstr "T23:59:60Z" = TimePart.render ⟨23, 59, some (60, none), some ZoneDesignator.Z⟩ := by
  simp only [TimePart.render, renderSecond, renderZone, ZoneDesignator.render,
    zeroPadded_two _ (show 0 < 100 by decide), zeroPadded_two _ (show 24 < 100 by decide),
    zeroPadded_two _ (show 23 < 100 by decide), zeroPadded_two _ (show 59 < 100 by decide),
    zeroPadded_two _ (show 60 < 100 by decide)]
  decide

/-- Two times of day a difference apart, after the same date and with the zone
`Z`: when both results are in range, they are the difference apart. -/
theorem ParseString_shift (host : Host) (localTZA : Int) (D : DateTimeString)
    (hD : D.time = none) (hr : D.inRange = true) (tp tq : TimePart)
    (htp : timeInRange (some tp) = true) (hzp : tp.zone = some ZoneDesignator.Z)
    (htq : timeInRange (some tq) = true) (hzq : tq.zone = some ZoneDesignator.Z)
    (k : Int) (hk : timeOf (some tq) = timeOf (some tp) + k)
    (h0 : ParseString host (D.render ++ tp.render) localTZA ≠ Dbl.nan)
    (h1 : ParseString host (D.render ++ tq.render) localTZA ≠ Dbl.nan) :
    ParseString host (D.render ++ tq.render) localTZA
      = Dbl.add (ParseString host (D.render ++ tp.render) localTZA) (Dbl.fin (k : ℚ)) := by
  rw [(ParseString_date_Z host localTZA D hD hr tp htp hzp).2] at h0 ⊢
  rw [(ParseString_date_Z host localTZA D hD hr tq htq hzq).2] at h1 ⊢
  generalize MakeDay (some (if D.sign = some true then -(D.year : Int) else (D.year : Int)))
    (some (monthOf D.monthDay)) (some (dayOf D.monthDay)) = md at h0 h1 ⊢
  rcases md with _ | d
  · exact (h0 rfl).elim
  · simp only [Option.map_some', Dbl.ofNum, TimeClip_ofInt] at h0 h1 ⊢
    split_ifs at h0 h1 ⊢
    · rw [Dbl.add_int, hk]
      · congr 2
        ring
      · have hq : -MaxDateVal ≤ d * msPerDay + timeOf (some tq) ∧
            d * msPerDay + timeOf (some tq) ≤ MaxDateVal := by assumption
        rw [hk] at hq
        unfold MaxDateVal at hq
        exact abs_le.mpr ⟨by omega, by omega⟩
    all_goals first | exact (h0 rfl).elim | exact (h1 rfl).elim

/-- The looseness at work: `"2023-03-05T24:00:00Z"` is the start of 6 March 2023, one
day after `"2023-03-05T00:00:00Z"`. -/
theorem ParseString_hour24_example (host : Host) (localTZA : Int) :
    ParseString host (qstr "2023-03-05T24:00:00Z") localTZA
      = Dbl.fin ((1678060800000 : Int) : ℚ) ∧
    ParseString host (qstr "2023-03-05T00:00:00Z") localTZA
      = Dbl.fin ((1677974400000 : Int) : ℚ) := by
  have hscan24 : primaryScan (qstr "2023-03-05T24:00:00Z")
      = ⟨9, 0, 0, false, 1, 2023, 2, 5, 24, 0, 0, 0, 1, 0, true, true, false⟩ := by decide
  have hscan00 : primaryScan (qstr "2023-03-05T00:00:00Z")
      = ⟨9, 0, 0, false, 1, 2023, 2, 5, 0, 0, 0, 0, 1, 0, true, true, false⟩ := by decide
  have hd24 : MakeDate (MakeDay (some (2023 * 1)) (some 2) (some 5)) (some (MakeTime 24 0 0 0))
      = some 1678060800000 := by decide
  have hd00 : MakeDate (MakeDay (some (2023 * 1)) (some 2) (some 5)) (some (MakeTime 0 0 0 0))
      = some 1677974400000 := by decide
  constructor
  · unfold ParseString
    simp only [hscan24, hd24, Bool.not_false, if_true, Option.map_some', Dbl.ofNum]
    exact TimeClip_int 1678060800000 (by decide) (by decide)
  · unfold ParseString
    simp only [hscan00, hd00, Bool.not_false, if_true, Option.map_some', Dbl.ofNum]
    exact TimeClip_int 1677974400000 (by decide) (by decide)

/-- An integer-valued double stands for its integer. -/
theorem Dbl.toNum_int (n : Int) : (Dbl.fin (n : ℚ)).toNum = some n := by
  simp [Dbl.toNum, Dbl.isFinite, Dbl.toRat, truncToZero_intCast]

/-- A finite double stands for its integer part. -/
theorem Dbl.toNum_finite (a : Dbl) (ha : a.isFinite = true) :
    a.toNum = some (truncToZero a.toRat) := by
  simp [Dbl.toNum, ha]

/-- NaN stands for NaN. -/
theorem Dbl.toNum_nan : Dbl.nan.toNum = none := rfl

/-- Reading back a stored number of the calendrical layer: the storage clips it. -/
theorem decode_encode_ofNum (c : StorageConsts)
    (hw : (c.Extra : Int) + 2 * MaxDateVal < 2 ^ 64)
    (hs : c.InvalidDateVal < c.Extra ∨ (c.Extra : Int) + 2 * MaxDateVal < c.InvalidDateVal)
    (v : Option Int) :
    decode c (encode c (Dbl.ofNum v)) = TimeClip (Dbl.ofNum v) := by
  rcases v with _ | n
  · simp [Dbl.ofNum, encode, decode, TimeClip, Dbl.isNaN, Dbl.isFinite]
  · simp only [Dbl.ofNum]
    by_cases hq : |(n : ℚ)| ≤ (MaxDateVal : Int)
    · obtain ⟨h1, h2, he⟩ := encode_fin c (n : ℚ) hq hw
      have hne : encode c (Dbl.fin (n : ℚ)) ≠ c.InvalidDateVal := by
        intro h
        rw [h] at he
        unfold MaxDateVal at *
        omega
      rw [TimeClip_fin _ hq]
      unfold decode
      rw [if_neg hne, he]
      congr 1
      push_cast
      ring
    · have hq' : |(n : ℚ)| > ((MaxDateVal : Int) : ℚ) := not_le.mp hq
      rw [TimeClip_big _ hq]
      unfold encode decode
      rw [fabs_gt_fin]
      simp [hq']

/-- The receiver holds NaN exactly when its storage is the sentinel. -/
theorem date_nan_iff (c : StorageConsts) (self : DateObject) :
    self.date c = Dbl.nan ↔ self.storage = c.InvalidDateVal := by
  unfold DateObject.date decode
  by_cases h : self.storage = c.InvalidDateVal
  · simp [h]
  · simp [h]

/-- From a NaN timestamp, `setFullYear` with three arguments whose coercion does not
raise works on the time `0`. -/
theorem setFullYear_of_NaN (c : StorageConsts) (host : Host) (self : DateObject)
    (v4 : ExecutionEngine) (y m d : Dbl) (hnan : self.date c = Dbl.nan)
    (hex : v4.hasException = false) :
    method_setFullYear c host self [⟨y, false⟩, ⟨m, false⟩, ⟨d, false⟩] v4
      = ⟨some (decode c (encode c (Dbl.ofNum ((MakeDate (MakeDay y.toNum m.toNum d.toNum)
            (some 0)).map (fun t => UTC host t v4.localTZA))))),
          ⟨encode c (Dbl.ofNum ((MakeDate (MakeDay y.toNum m.toNum d.toNum) (some 0)).map
            (fun t => UTC host t v4.localTZA)))⟩,
          ⟨v4.localTZA, false, v4.coerced ++ [0] ++ [1] ++ [2]⟩⟩ := by
  have htwd : TimeWithinDay 0 = 0 := by decide
  have hnan' : decode c self.storage = Dbl.nan := hnan
  unfold method_setFullYear
  simp [hnan', hex, toNumber, Dbl.toNum_nan, htwd, DateObject.setDate, DateObject.date]

/-- On integers `MakeDay` finds its day: the internal verification never fails. -/
theorem MakeDay_some (y m d : Int) : ∃ n, MakeDay (some y) (some m) (some d) = some n := by
  obtain ⟨dm, -, -, -, h⟩ := makeDayFinite_eq y m d
  exact ⟨_, h⟩

/-- A NaN time of day makes `MakeDate` NaN. -/
theorem MakeDate_none (day : Option Int) : MakeDate day none = none := by
  cases day <;> rfl

/-- The storage of NaN is the sentinel, which reads back as NaN. -/
theorem encode_nan (c : StorageConsts) :
    encode c Dbl.nan = c.InvalidDateVal ∧ decode c c.InvalidDateVal = Dbl.nan := by
  simp [encode, decode, Dbl.isNaN]

/-- From a NaN timestamp `setUTCFullYear` stores NaN, whatever the arguments. -/
theorem setUTCFullYear_of_NaN (c : StorageConsts) (argv : List Value) (v4 : ExecutionEngine) :
    (method_setUTCFullYear c ⟨c.InvalidDateVal⟩ argv v4).self.storage = c.InvalidDateVal ∧
    (method_setUTCFullYear c ⟨c.InvalidDateVal⟩ argv v4).value = some Dbl.nan := by
  unfold method_setUTCFullYear
  simp [DateObject.date, DateObject.setDate, (encode_nan c).1, (encode_nan c).2, Dbl.toNum_nan,
    MakeDate_none, Dbl.ofNum]

/-- From a NaN timestamp `setMonth` with two arguments whose coercion does not raise
stores NaN. -/
theorem setMonth_of_NaN (c : StorageConsts) (host : Host) (self : DateObject)
    (v4 : ExecutionEngine) (m d : Dbl) (hnan : self.date c = Dbl.nan)
    (hex : v4.hasException = false) :
    method_setMonth c host self [⟨m, false⟩, ⟨d, false⟩] v4
      = ⟨some Dbl.nan, ⟨c.InvalidDateVal⟩, ⟨v4.localTZA, false, v4.coerced ++ [0] ++ [1]⟩⟩ := by
  have hnan' : decode c self.storage = Dbl.nan := hnan
  unfold method_setMonth
  simp [hnan', hex, toNumber, Dbl.toNum_nan, DateObject.setDate, DateObject.date,
    MakeDate_none, Dbl.ofNum, (encode_nan c).1, (encode_nan c).2]

/-- From a valid timestamp `setMonth` with two arguments whose coercion does not raise
replaces month and date in the local time. -/
theorem setMonth_of_valid (c : StorageConsts) (host : Host) (self : DateObject)
    (v4 : ExecutionEngine) (m d : Dbl) (t : Int) (ht : self.date c = Dbl.fin (t : ℚ))
    (hex : v4.hasException = false) :
    method_setMonth c host self [⟨m, false⟩, ⟨d, false⟩] v4
      = ⟨some (decode c (encode c (Dbl.ofNum ((MakeDate
            (MakeDay (some (YearFromTime (LocalTime host t v4.localTZA))) m.toNum d.toNum)
            (some (TimeWithinDay (LocalTime host t v4.localTZA)))).map
              (fun u => UTC host u v4.localTZA))))),
          ⟨encode c (Dbl.ofNum ((MakeDate
            (MakeDay (some (YearFromTime (LocalTime host t v4.localTZA))) m.toNum d.toNum)
            (some (TimeWithinDay (LocalTime host t v4.localTZA)))).map
              (fun u => UTC host u v4.localTZA)))⟩,
          ⟨v4.localTZA, false, v4.coerced ++ [0] ++ [1]⟩⟩ := by
  have ht' : decode c self.storage = Dbl.fin (t : ℚ) := ht
  unfold method_setMonth
  simp [ht', hex, toNumber, Dbl.toNum_int, DateObject.setDate, DateObject.date]

/-- A NaN hour makes `MakeTime` NaN. -/
theorem MakeTimeNum_none (min sec ms : Option Int) : MakeTimeNum none min sec ms = none := rfl

/-- The comparisons of integer-valued doubles. -/
theorem Dbl.le_int (a b : Int) :
    (Dbl.fin (a : ℚ)).le (Dbl.fin (b : ℚ)) = decide (a ≤ b) := by
  by_cases h : a ≤ b
  · have hq : ¬ ((b : ℚ) < (a : ℚ)) := by
      push_neg
      exact_mod_cast h
    simp [Dbl.le, Dbl.isNaN, Dbl.gt, h, hq]
  · have hq : (b : ℚ) < (a : ℚ) := by
      push_neg at h
      exact_mod_cast h
    simp [Dbl.le, Dbl.isNaN, Dbl.gt, h, hq]

theorem Dbl.ge_int (a b : Int) :
    (Dbl.fin (a : ℚ)).ge (Dbl.fin (b : ℚ)) = decide (b ≤ a) := by
  simp [Dbl.ge, Dbl.le_int]

/-- The integer part of a non-negative integer-valued double. -/
theorem toInteger_int (n : Int) (h : 0 ≤ n) : toInteger (Dbl.fin (n : ℚ)) = Dbl.fin (n : ℚ) := by
  have h' : (0 : ℚ) ≤ (n : ℚ) := by exact_mod_cast h
  simp [toInteger, h']

/-- The year `componentsToTimestamp` works on, for a two-digit year and for the year
`1900` later. -/
theorem components_year (y : Int) (h0 : 0 ≤ y) (h1 : y ≤ 99) :
    (if (Dbl.fin (y : ℚ)).ge (Dbl.fin 0) && (Dbl.fin (y : ℚ)).le (Dbl.fin 99)
      then Dbl.add (Dbl.fin (y : ℚ)) (Dbl.fin 1900) else Dbl.fin (y : ℚ))
      = Dbl.fin ((1900 + y : Int) : ℚ) ∧
    (if (Dbl.fin ((1900 + y : Int) : ℚ)).ge (Dbl.fin 0) &&
        (Dbl.fin ((1900 + y : Int) : ℚ)).le (Dbl.fin 99)
      then Dbl.add (Dbl.fin ((1900 + y : Int) : ℚ)) (Dbl.fin 1900)
      else Dbl.fin ((1900 + y : Int) : ℚ))
      = Dbl.fin ((1900 + y : Int) : ℚ) := by
  have e0 : (Dbl.fin 0) = Dbl.fin ((0 : Int) : ℚ) := by norm_num
  have e99 : (Dbl.fin 99) = Dbl.fin ((99 : Int) : ℚ) := by norm_num
  have e1900 : (Dbl.fin 1900) = Dbl.fin ((1900 : Int) : ℚ) := by norm_num
  rw [e0, e99, e1900, Dbl.ge_int, Dbl.le_int, Dbl.ge_int, Dbl.le_int, Dbl.add_int]
  · have h2 : ¬ (1900 + y ≤ 99) := by omega
    have h3 : y + 1900 = 1900 + y := by omega
    simp only [h0, h1, h2, h3, decide_True, decide_False, Bool.and_true, Bool.and_false, if_true,
      if_false, Bool.false_eq_true, and_self]
  · exact abs_le.mpr ⟨by omega, by omega⟩

/-- The year `Date.UTC` works on, for a two-digit year and for the year `1900` later. -/
theorem UTC_year (y : Int) (h0 : 0 ≤ y) (h1 : y ≤ 99) :
    (if (!(Dbl.fin (y : ℚ)).isNaN && (toInteger (Dbl.fin (y : ℚ))).ge (Dbl.fin 0) &&
        (toInteger (Dbl.fin (y : ℚ))).le (Dbl.fin 99))
      then Dbl.add (Dbl.fin 1900) (toInteger (Dbl.fin (y : ℚ))) else Dbl.fin (y : ℚ))
      = Dbl.fin ((1900 + y : Int) : ℚ) ∧
    (if (!(Dbl.fin ((1900 + y : Int) : ℚ)).isNaN &&
        (toInteger (Dbl.fin ((1900 + y : Int) : ℚ))).ge (Dbl.fin 0) &&
        (toInteger (Dbl.fin ((1900 + y : Int) : ℚ))).le (Dbl.fin 99))
      then Dbl.add (Dbl.fin 1900) (toInteger (Dbl.fin ((1900 + y : Int) : ℚ)))
      else Dbl.fin ((1900 + y : Int) : ℚ))
      = Dbl.fin ((1900 + y : Int) : ℚ) := by
  have e0 : (Dbl.fin 0) = Dbl.fin ((0 : Int) : ℚ) := by norm_num
  have e99 : (Dbl.fin 99) = Dbl.fin ((99 : Int) : ℚ) := by norm_num
  have e1900 : (Dbl.fin 1900) = Dbl.fin ((1900 : Int) : ℚ) := by norm_num
  rw [toInteger_int y h0, toInteger_int (1900 + y) (by omega), e0, e99, e1900, Dbl.ge_int,
    Dbl.le_int, Dbl.ge_int, Dbl.le_int, Dbl.add_int]
  · have h2 : ¬ (1900 + y ≤ 99) := by omega
    simp [h0, h1, h2, Dbl.isNaN]
  · exact abs_le.mpr ⟨by omega, by omega⟩

/-- The two-digit year of `componentsToTimestamp`. -/
theorem componentsToTimestamp_twoDigit (host : Host) (y : Int) (h0 : 0 ≤ y) (h1 : y ≤ 99)
    (month day hours mins secs ms : Dbl) (localTZA : Int) :
    componentsToTimestamp host (Dbl.fin (y : ℚ)) month day hours mins secs ms localTZA
      = componentsToTimestamp host (Dbl.fin ((1900 + y : Int) : ℚ)) month day hours mins secs ms
          localTZA := by
  unfold componentsToTimestamp
  simp only [(components_year y h0 h1).1, (components_year y h0 h1).2]

/-- The two-digit year of `Date.UTC`. -/
theorem method_UTC_twoDigit (y : Int) (h0 : 0 ≤ y) (h1 : y ≤ 99) (throws : Bool)
    (rest : List Value) (v4 : ExecutionEngine) :
    method_UTC (⟨Dbl.fin (y : ℚ), throws⟩ :: rest) v4
      = method_UTC (⟨Dbl.fin ((1900 + y : Int) : ℚ), throws⟩ :: rest) v4 := by
  unfold method_UTC
  simp only [toNumber, List.getElem?_cons_zero, List.getElem?_cons_succ, List.length_cons,
    (UTC_year y h0 h1).1, (UTC_year y h0 h1).2]

/-- The local time `setFullYear` with the year alone builds: in the year given,
whatever the stored timestamp. -/
theorem setFullYear_year (c : StorageConsts) (host : Host) (self : DateObject)
    (v4 : ExecutionEngine) (y : Int) (hex : v4.hasException = false) :
    ∃ l : Int, YearFromTime l = y ∧
      method_setFullYear c host self [⟨Dbl.fin (y : ℚ), false⟩] v4
        = ⟨some (decode c (encode c (Dbl.fin ((UTC host l v4.localTZA : Int) : ℚ)))),
            ⟨encode c (Dbl.fin ((UTC host l v4.localTZA : Int) : ℚ))⟩,
            ⟨v4.localTZA, false, v4.coerced ++ [0]⟩⟩ := by
  generalize ht : ((self.date c).toNum.map (fun t => LocalTime host t v4.localTZA)).getD 0 = t
  obtain ⟨m, dt, hm, hdt, hm0, hm1, hd0, hd1, -⟩ := month_date_of_time t
  obtain ⟨dm, -, hdm0, hdm1, hmk⟩ := makeDayFinite_eq y m dt
  have hdiv : m / 12 = 0 := by omega
  rw [hdiv, add_zero] at hdm1 hmk
  have hr := TimeWithinDay_eq t
  have hr0 : 0 ≤ TimeWithinDay t := by
    rw [hr]
    unfold msPerDay
    omega
  have hr1 : TimeWithinDay t < msPerDay := by
    rw [hr]
    unfold msPerDay
    omega
  refine ⟨(DayFromYear y + (dm + dt - 1)) * msPerDay + TimeWithinDay t,
    YearFromTime_of_yearDay y (dm + dt - 1) _ (by omega) (by omega) hr0 hr1, ?_⟩
  have hmd : MakeDay (some y) (some m) (some dt) = some (DayFromYear y + dm + dt - 1) := hmk
  have hadd : DayFromYear y + dm + dt - 1 = DayFromYear y + (dm + dt - 1) := by ring
  have ht' : ((decode c self.storage).toNum.map (fun t => LocalTime host t v4.localTZA)).getD 0
      = t := ht
  unfold method_setFullYear
  simp [hex, toNumber, Dbl.toNum_int, ht', hm, hdt, hmd, hadd, MakeDate, DateObject.setDate,
    DateObject.date, Dbl.ofNum]

/-- The defaults `0` and `1` of omitted arguments. -/
theorem Dbl.toNum_zero_one : (Dbl.fin 0).toNum = some 0 ∧ (Dbl.fin 1).toNum = some 1 := by
  have h0 := Dbl.toNum_int 0
  have h1 := Dbl.toNum_int 1
  constructor
  · simpa using h0
  · simpa using h1

/-- `Date.UTC` with a year and a month whose coercion does not raise. -/
theorem method_UTC_two (a b : Dbl) (localTZA : Int) :
    method_UTC [⟨a, false⟩, ⟨b, false⟩] ⟨localTZA, false, []⟩
      = (some (TimeClip (Dbl.ofNum (MakeDate
          (MakeDay (if (!a.isNaN && (toInteger a).ge (Dbl.fin 0) && (toInteger a).le (Dbl.fin 99))
              then Dbl.add (Dbl.fin 1900) (toInteger a) else a).toNum b.toNum (some 1))
          (MakeTimeNum (some 0) (some 0) (some 0) (some 0))))),
        ⟨localTZA, false, [0, 1]⟩) := by
  unfold method_UTC
  simp [toNumber, Dbl.toNum_zero_one.1, Dbl.toNum_zero_one.2]

/-- The year `99.5`: finite, not an integer, of integer part `99`. -/
theorem year_99_5 :
    (Dbl.fin (199 / 2)).isFinite = true ∧
    (Dbl.fin (199 / 2)).toNum = some 99 ∧
    toInteger (Dbl.fin (199 / 2)) = Dbl.fin ((99 : Int) : ℚ) ∧
    (Dbl.fin (199 / 2)).ge (Dbl.fin 0) = true ∧
    (Dbl.fin (199 / 2)).le (Dbl.fin 99) = false := by
  have hfl : ⌊(199 / 2 : ℚ)⌋ = 99 := by
    rw [Int.floor_eq_iff]
    norm_num
  have h0 : (0 : ℚ) ≤ 199 / 2 := by norm_num
  refine ⟨rfl, ?_, ?_, ?_, ?_⟩
  · simp [Dbl.toNum, Dbl.isFinite, Dbl.toRat, truncToZero, h0, hfl]
  · simp [toInteger, h0, hfl]
  · simp [Dbl.ge, Dbl.le, Dbl.isNaN, Dbl.gt]
    norm_num
  · simp [Dbl.le, Dbl.isNaN, Dbl.gt]
    norm_num

/-- From a valid timestamp, `setUTCHours` with one argument keeps the day and the
minute, second and millisecond of the stored time. -/
theorem setUTCHours_one (c : StorageConsts) (self : DateObject) (localTZA : Int) (ex : Bool)
    (trace : List Nat) (h : Dbl) (t : Int) (ht : self.date c = Dbl.fin (t : ℚ)) :
    method_setUTCHours c self [⟨h, false⟩] ⟨localTZA, ex, trace⟩
      = ⟨some (decode c (encode c (Dbl.ofNum (MakeDate (some (Day t))
            (MakeTimeNum h.toNum (some (MinFromTime t)) (some (SecFromTime t))
              (some (msFromTime t))))))),
          ⟨encode c (Dbl.ofNum (MakeDate (some (Day t))
            (MakeTimeNum h.toNum (some (MinFromTime t)) (some (SecFromTime t))
              (some (msFromTime t)))))⟩,
          ⟨localTZA, ex, trace ++ [0]⟩⟩ := by
  have ht' : decode c self.storage = Dbl.fin (t : ℚ) := ht
  unfold method_setUTCHours
  simp [ht', toNumber, Dbl.toNum_int, DateObject.setDate, DateObject.date]

/-- The time `setUTCHours(h)` builds from `t`, for an hour `h` in `0..23`: its fields, and
when it is in range. -/
theorem hour_replaced (t h : Int) (hlo : -MaxDateVal ≤ t) (hhi : t ≤ MaxDateVal) (h0 : 0 ≤ h)
    (h1 : h ≤ 23) :
    HourFromTime (Day t * msPerDay + MakeTime h (MinFromTime t) (SecFromTime t) (msFromTime t))
      = h ∧
    Day (Day t * msPerDay + MakeTime h (MinFromTime t) (SecFromTime t) (msFromTime t))
      = Day t ∧
    MinFromTime (Day t * msPerDay + MakeTime h (MinFromTime t) (SecFromTime t) (msFromTime t))
      = MinFromTime t ∧
    SecFromTime (Day t * msPerDay + MakeTime h (MinFromTime t) (SecFromTime t) (msFromTime t))
      = SecFromTime t ∧
    msFromTime (Day t * msPerDay + MakeTime h (MinFromTime t) (SecFromTime t) (msFromTime t))
      = msFromTime t ∧
    -MaxDateVal ≤ Day t * msPerDay + MakeTime h (MinFromTime t) (SecFromTime t) (msFromTime t) ∧
    (Day t * msPerDay + MakeTime h (MinFromTime t) (SecFromTime t) (msFromTime t) ≤ MaxDateVal
      ↔ (t < MaxDateVal ∨ h = 0)) := by
  have hM := MinFromTime_eq t
  have hS := SecFromTime_eq t
  have hms := msFromTime_eq t
  generalize hu : Day t * msPerDay + MakeTime h (MinFromTime t) (SecFromTime t) (msFromTime t)
    = u
  have hH' := HourFromTime_eq u
  have hM' := MinFromTime_eq u
  have hS' := SecFromTime_eq u
  have hms' := msFromTime_eq u
  unfold MakeTime MinutesPerHour SecondsPerMinute msPerSecond at hu
  unfold Day msPerDay at *
  unfold MaxDateVal at *
  refine ⟨?_, ?_, ?_, ?_, ?_, ?_, ?_⟩ <;> omega

/-- An integer out of the range is stored as the sentinel. -/
theorem encode_out_of_range (c : StorageConsts) (n : Int)
    (h : ¬ (-MaxDateVal ≤ n ∧ n ≤ MaxDateVal)) :
    encode c (Dbl.fin (n : ℚ)) = c.InvalidDateVal := by
  have hq : |(n : ℚ)| > ((MaxDateVal : Int) : ℚ) := by
    by_contra hc
    apply h
    have hq' : |n| ≤ MaxDateVal := by exact_mod_cast not_lt.mp hc
    exact abs_le.mp hq'
  unfold encode
  rw [fabs_gt_fin]
  simp [hq]

/-- The standard offset cancels in `LocalTime`. -/
theorem LocalTime_eq (host : Host) (t localTZA : Int) :
    LocalTime host t localTZA = t + host.getUtcOffset t * 1000 := by
  unfold LocalTime DaylightSavingTA
  ring

/-- The total offset `ToString` prints is the host offset. -/
theorem tzoffset_eq (host : Host) (t localTZA : Int) :
    localTZA + DaylightSavingTA host t localTZA = host.getUtcOffset t * 1000 := by
  unfold DaylightSavingTA
  ring

/-- The standard offset stays in `UTC` only as the instant of the host query. -/
theorem UTC_eq (host : Host) (t localTZA : Int) :
    UTC host t localTZA = t - host.getUtcOffset (t - localTZA) * 1000 := by
  unfold UTC DaylightSavingTA
  ring

/-- The default string does not depend on the standard offset. -/
theorem ToString_localTZA (qt : QtText) (host : Host) (t : Option Int) (a b : Int) :
    ToString qt host t a = ToString qt host t b := by
  cases t with
  | none => rfl
  | some t =>
    unfold ToString
    simp only [tzoffset_eq]

/-- A scan that has stopped (on an error or on `Done`) reads no further. -/
theorem scanLoop_stopped (s : ScanState) (l : QString)
    (h : s.error = true ∨ s.format = Format.Done) : scanLoop s l = s := by
  rcases h with h | h
  · exact scanLoop_of_error s l h
  · exact scanLoop_done s l h

/-- Characters after the place where the scan stops are not read. -/
theorem scanLoop_append_stopped (a b : QString) (s : ScanState)
    (h : (scanLoop s a).error = true ∨ (scanLoop s a).format = Format.Done) :
    scanLoop s (a ++ b) = scanLoop s a := by
  induction a generalizing s with
  | nil => exact scanLoop_stopped s b h
  | cons ch rest ih =>
    by_cases hs : s.error = true ∨ s.format = Format.Done
    · rw [scanLoop_stopped s _ hs, scanLoop_stopped s _ hs]
    · have he : s.error = false := by
        cases hse : s.error with
        | false => rfl
        | true => exact absurd (Or.inl hse) hs
      have hf : s.format ≠ Format.Done := fun hf => hs (Or.inr hf)
      rw [scanLoop_cons s ch _ he hf] at h
      rw [List.cons_append, scanLoop_cons s ch (rest ++ b) he hf, scanLoop_cons s ch rest he hf]
      exact ih (scanStep s ch) h

/-- The character `Z` ends the scan. -/
theorem scanStep_Z (s : ScanState) : (scanStep s 'Z'.toNat).format = Format.Done := by
  simp [scanStep, delimiter]

/-- After a `Z` the scan has stopped. -/
theorem scanLoop_Z_stopped (a : QString) (s : ScanState) :
    (scanLoop s (a ++ ['Z'.toNat])).error = true ∨
      (scanLoop s (a ++ ['Z'.toNat])).format = Format.Done := by
  induction a generalizing s with
  | nil =>
    by_cases hs : s.error = true ∨ s.format = Format.Done
    · rw [scanLoop_stopped s _ hs]
      exact hs
    · have he : s.error = false := by
        cases hse : s.error with
        | false => rfl
        | true => exact absurd (Or.inl hse) hs
      have hf : s.format ≠ Format.Done := fun hf => hs (Or.inr hf)
      rw [List.nil_append, scanLoop_cons s _ _ he hf]
      exact Or.inr (scanStep_Z s)
  | cons ch rest ih =>
    by_cases hs : s.error = true ∨ s.format = Format.Done
    · rw [scanLoop_stopped s _ hs]
      exact hs
    · have he : s.error = false := by
        cases hse : s.error with
        | false => rfl
        | true => exact absurd (Or.inl hse) hs
      have hf : s.format ≠ Format.Done := fun hf => hs (Or.inr hf)
      rw [List.cons_append, scanLoop_cons s ch _ he hf]
      exact ih (scanStep s ch)

/-- What follows a `Z` that ends a string does not change the scan's variables. -/
theorem primaryScan_after_Z (p x : QString) :
    primaryScan (p ++ ['Z'.toNat] ++ x) = primaryScan (p ++ ['Z'.toNat]) := by
  have key : ∀ (s : ScanState) (q y : QString),
      scanLoop s (q ++ ['Z'.toNat] ++ y) = scanLoop s (q ++ ['Z'.toNat]) :=
    fun s q y => scanLoop_append_stopped _ y s (scanLoop_Z_stopped q s)
  cases p with
  | nil =>
    have hp : 'Z'.toNat ≠ '+'.toNat := by decide
    have hm : 'Z'.toNat ≠ '-'.toNat := by decide
    rw [List.nil_append, List.singleton_append, primaryScan_unsigned _ _ hp hm,
      primaryScan_unsigned _ _ hp hm]
    have h1 := key ScanState.initial [] (x ++ [0])
    have h2 := key ScanState.initial [] [0]
    simp only [List.nil_append, List.singleton_append, List.cons_append, List.append_assoc]
      at h1 h2 ⊢
    rw [h1, h2]
  | cons c p =>
    by_cases hsign : c = '+'.toNat ∨ c = '-'.toNat
    · simp only [List.cons_append]
      rw [primaryScan_signed _ _ hsign, primaryScan_signed _ _ hsign]
      have h1 := key { ScanState.initial with
        extendedYear := true, yearSign := if c = '-'.toNat then -1 else 1 } p (x ++ [0])
      have h2 := key { ScanState.initial with
        extendedYear := true, yearSign := if c = '-'.toNat then -1 else 1 } p [0]
      simp only [List.nil_append, List.singleton_append, List.cons_append, List.append_assoc]
        at h1 h2 ⊢
      rw [h1, h2]
    · simp only [List.cons_append]
      rw [primaryScan_unsigned _ _ (fun h => hsign (Or.inl h)) (fun h => hsign (Or.inr h)),
        primaryScan_unsigned _ _ (fun h => hsign (Or.inl h)) (fun h => hsign (Or.inr h))]
      have h1 := key ScanState.initial (c :: p) (x ++ [0])
      have h2 := key ScanState.initial (c :: p) [0]
      simp only [List.nil_append, List.singleton_append, List.cons_append, List.append_assoc]
        at h1 h2 ⊢
      rw [h1, h2]

/-! ## The calendrical functions in binary64 on integers -/

theorem Dbl.gt_int (a b : Int) : (Dbl.fin (a : ℚ)).gt (Dbl.fin (b : ℚ)) = decide (b < a) := by
  by_cases h : b < a
  · have hq : (b : ℚ) < (a : ℚ) := by exact_mod_cast h
    simp [Dbl.gt, h, hq]
  · have hq : ¬ ((b : ℚ) < (a : ℚ)) := by
      intro hc
      exact h (by exact_mod_cast hc)
    simp [Dbl.gt, h, hq]

theorem Dbl.lt_int (a b : Int) : (Dbl.fin (a : ℚ)).lt (Dbl.fin (b : ℚ)) = decide (a < b) := by
  unfold Dbl.lt
  exact Dbl.gt_int b a

theorem Dbl.ne_int (a b : Int) : (Dbl.fin (a : ℚ)).ne (Dbl.fin (b : ℚ)) = decide (a ≠ b) := by
  unfold Dbl.ne
  rw [Dbl.gt_int, Dbl.gt_int]
  by_cases h1 : a < b
  · have : a ≠ b := by omega
    simp [Dbl.isNaN, h1, this]
  · by_cases h2 : b < a
    · have : a ≠ b := by omega
      simp [Dbl.isNaN, h2, this]
    · have : a = b := by omega
      simp [Dbl.isNaN, this]

/-- The integer part of an integer-valued double. -/
theorem toInteger_intCast (n : Int) : toInteger (Dbl.fin (n : ℚ)) = Dbl.fin (n : ℚ) := by
  by_cases h : 0 ≤ n
  · have h' : (0 : ℚ) ≤ (n : ℚ) := by exact_mod_cast h
    simp [toInteger, h']
  · have h' : ¬ (0 : ℚ) ≤ (n : ℚ) := by
      intro hc
      exact h (by exact_mod_cast hc)
    have hn : ¬ n = 0 := by omega
    simp [toInteger, h', hn]

/-- The binary64 `DayFromYear` on years of magnitude up to `2 * 10^13` is the exact one. -/
theorem DayFromYear_dbl (y : Int) (h : |y| ≤ 20000000000000) :
    Dbl.DayFromYear (Dbl.fin (y : ℚ)) = Dbl.fin ((DayFromYear y : Int) : ℚ) := by
  have e : Dbl.DayFromYear (Dbl.fin (y : ℚ))
      = Dbl.add (Dbl.sub (Dbl.add (Dbl.mul (Dbl.fin ((365 : Int) : ℚ))
            (Dbl.sub (Dbl.fin (y : ℚ)) (Dbl.fin ((1970 : Int) : ℚ))))
          (Dbl.floor (Dbl.div (Dbl.sub (Dbl.fin (y : ℚ)) (Dbl.fin ((1969 : Int) : ℚ)))
            (Dbl.fin ((4 : Int) : ℚ)))))
          (Dbl.floor (Dbl.div (Dbl.sub (Dbl.fin (y : ℚ)) (Dbl.fin ((1901 : Int) : ℚ)))
            (Dbl.fin ((100 : Int) : ℚ)))))
          (Dbl.floor (Dbl.div (Dbl.sub (Dbl.fin (y : ℚ)) (Dbl.fin ((1601 : Int) : ℚ)))
            (Dbl.fin ((400 : Int) : ℚ)))) := by
    simp only [Dbl.DayFromYear, Int.cast_ofNat]
  rw [abs_le] at h
  rw [e, Dbl.sub_int y 1970 (abs_le.mpr ⟨by omega, by omega⟩),
    Dbl.sub_int y 1969 (abs_le.mpr ⟨by omega, by omega⟩),
    Dbl.sub_int y 1901 (abs_le.mpr ⟨by omega, by omega⟩),
    Dbl.sub_int y 1601 (abs_le.mpr ⟨by omega, by omega⟩),
    Dbl.mul_comm, Dbl.mul_int (y - 1970) 365 (by decide) (abs_le.mpr ⟨by omega, by omega⟩),
    Dbl.floor_div_int (y - 1969) 4 51 (by decide) (by decide)
      (abs_lt.mpr ⟨by omega, by omega⟩) (by decide),
    Dbl.floor_div_int (y - 1901) 100 47 (by decide) (by decide)
      (abs_lt.mpr ⟨by omega, by omega⟩) (by decide),
    Dbl.floor_div_int (y - 1601) 400 45 (by decide) (by decide)
      (abs_lt.mpr ⟨by omega, by omega⟩) (by decide),
    Dbl.add_int _ _ (abs_le.mpr ⟨by omega, by omega⟩),
    Dbl.sub_int _ _ (abs_le.mpr ⟨by omega, by omega⟩),
    Dbl.add_int _ _ (abs_le.mpr ⟨by omega, by omega⟩)]
  congr 2
  unfold DayFromYear
  ring

/-- Truncation toward zero of a quotient of integers. -/
theorem truncToZero_div (x y : Int) (hy : 0 < y) :
    truncToZero ((x : ℚ) / (y : ℚ)) = Int.tdiv x y := by
  have hyq : (0 : ℚ) < (y : ℚ) := by exact_mod_cast hy
  unfold truncToZero
  by_cases hx : 0 ≤ x
  · have hq : (0 : ℚ) ≤ (x : ℚ) / (y : ℚ) := div_nonneg (by exact_mod_cast hx) hyq.le
    rw [if_pos hq, floor_int_div x y hy, Int.tdiv_eq_ediv hx hy.le]
  · have hxq : (x : ℚ) < 0 := by
      have : x < 0 := by omega
      exact_mod_cast this
    have hq : ¬ (0 : ℚ) ≤ (x : ℚ) / (y : ℚ) := not_le.mpr (div_neg_of_neg_of_pos hxq hyq)
    rw [if_neg hq]
    have h0 : ((-x : Int) : ℚ) / (y : ℚ) = -((x : ℚ) / (y : ℚ)) := by
      push_cast
      ring
    have h1 : ⌈(x : ℚ) / (y : ℚ)⌉ = -⌊((-x : Int) : ℚ) / (y : ℚ)⌋ := by
      rw [h0, Int.floor_neg, neg_neg]
    rw [h1, floor_int_div (-x) y hy]
    have h2 : (-x).tdiv y = (-x) / y := Int.tdiv_eq_ediv (by omega) hy.le
    rw [← h2, Int.neg_tdiv, neg_neg]

/-- The function `::fmod` on integers, the divisor positive. -/
theorem Dbl.fmod_int (x y : Int) (hy : 0 < y) :
    Dbl.fmod (Dbl.fin (x : ℚ)) (Dbl.fin (y : ℚ))
      = if QV4.fmod x y = 0 then Dbl.zero (decide (x < 0)) else Dbl.fin ((QV4.fmod x y : Int) : ℚ) := by
  have hyq : ¬ (y : ℚ) = 0 := by
    have : y ≠ 0 := by omega
    exact_mod_cast this
  have hr : (x : ℚ) - (truncToZero ((x : ℚ) / (y : ℚ)) : ℚ) * (y : ℚ) = ((QV4.fmod x y : Int) : ℚ) := by
    rw [truncToZero_div x y hy]
    unfold QV4.fmod
    rw [Int.tmod_def]
    push_cast
    ring
  have hs : decide ((x : ℚ) < 0) = decide (x < 0) := by
    by_cases h : x < 0
    · have : (x : ℚ) < 0 := by exact_mod_cast h
      simp [h, this]
    · have : ¬ (x : ℚ) < 0 := by
        intro hc
        exact h (by exact_mod_cast hc)
      simp [h, this]
  unfold Dbl.fmod
  simp only [Dbl.isNaN, Dbl.isInf, Dbl.isZero, Dbl.toRat, Dbl.signBit, hyq, decide_False,
    Bool.or_self, Bool.false_eq_true, if_false, Bool.false_or, hr, hs]
  by_cases hx : x = 0
  · subst hx
    simp [QV4.fmod, Dbl.zero]
  · have hxq : ¬ (x : ℚ) = 0 := by exact_mod_cast hx
    simp only [hxq, decide_False, Bool.false_eq_true, if_false]
    by_cases hf : QV4.fmod x y = 0
    · simp [hf]
    · have : ¬ ((QV4.fmod x y : Int) : ℚ) = 0 := by exact_mod_cast hf
      simp [hf, this]

theorem Dbl.isZero_fmod_int (x y : Int) (hy : 0 < y) :
    (Dbl.fmod (Dbl.fin (x : ℚ)) (Dbl.fin (y : ℚ))).isZero = decide (QV4.fmod x y = 0) := by
  rw [Dbl.fmod_int x y hy]
  by_cases hf : QV4.fmod x y = 0
  · rw [if_pos hf]
    by_cases hx : x < 0 <;> simp [Dbl.zero, Dbl.isZero, hf, hx]
  · have : ¬ ((QV4.fmod x y : Int) : ℚ) = 0 := by exact_mod_cast hf
    rw [if_neg hf]
    simp [Dbl.isZero, hf, this]

/-- The binary64 `DaysInYear` on an integer year is the exact one. -/
theorem DaysInYear_dbl (y : Int) :
    Dbl.DaysInYear (Dbl.fin (y : ℚ)) = Dbl.fin ((DaysInYear y : Int) : ℚ) := by
  have e : Dbl.DaysInYear (Dbl.fin (y : ℚ))
      = if !(Dbl.fmod (Dbl.fin (y : ℚ)) (Dbl.fin ((4 : Int) : ℚ))).isZero then Dbl.fin 365
        else if !(Dbl.fmod (Dbl.fin (y : ℚ)) (Dbl.fin ((100 : Int) : ℚ))).isZero then Dbl.fin 366
        else if !(Dbl.fmod (Dbl.fin (y : ℚ)) (Dbl.fin ((400 : Int) : ℚ))).isZero then Dbl.fin 365
        else Dbl.fin 366 := by
    simp only [Dbl.DaysInYear, Int.cast_ofNat]
  rw [e, Dbl.isZero_fmod_int y 4 (by decide), Dbl.isZero_fmod_int y 100 (by decide),
    Dbl.isZero_fmod_int y 400 (by decide)]
  unfold DaysInYear
  by_cases h4 : fmod y 4 = 0 <;> by_cases h100 : fmod y 100 = 0 <;>
    by_cases h400 : fmod y 400 = 0 <;> simp [h4, h100, h400]

/-- A whole number of days, up to `10^11` of them, in milliseconds is a double. -/
theorem Dbl.mul_msPerDay (D : Int) (h : |D| ≤ 100000000000) :
    Dbl.mul (Dbl.fin (D : ℚ)) (Dbl.fin ((msPerDay : Int) : ℚ))
      = Dbl.fin ((D * msPerDay : Int) : ℚ) := by
  rw [abs_le] at h
  rw [Dbl.mul_exact (D : ℚ) ((msPerDay : Int) : ℚ) (D * 84375) 10 (by unfold msPerDay; norm_num)
    (by unfold msPerDay; push_cast; ring) (abs_le.mpr ⟨by omega, by omega⟩) (by decide)
    (by decide)]
  push_cast
  rfl

/-- The binary64 `TimeFromYear` on years of magnitude up to `2 * 10^8` is the exact one. -/
theorem TimeFromYear_dbl (y : Int) (h : |y| ≤ 200000000) :
    Dbl.TimeFromYear (Dbl.fin (y : ℚ)) = Dbl.fin ((TimeFromYear y : Int) : ℚ) := by
  rw [abs_le] at h
  unfold Dbl.TimeFromYear
  rw [DayFromYear_dbl y (abs_le.mpr ⟨by omega, by omega⟩), Dbl.mul_comm,
    Dbl.mul_msPerDay _ (abs_le.mpr ⟨by unfold DayFromYear; omega, by unfold DayFromYear; omega⟩)]
  unfold TimeFromYear
  congr 2
  ring

/-- The product `msPerDay * 365.2425` in binary64 is `31556952000`. -/
theorem meanYear_eq : Dbl.meanYear = Dbl.fin ((msPerMeanYear : Int) : ℚ) := by
  have h1 : Dbl.round (3652425 / 10000) = Dbl.fin (6425414011327611 / 2 ^ 44) := by
    have hx : roundHalfEven ((3652425 / 10000 : ℚ) / (2 : ℚ) ^ ((8 : Int) - 52))
        = 6425414011327611 := by
      rw [roundHalfEven_of_floor _ 6425414011327610 (by norm_num) (by norm_num)]
      norm_num
    rw [Dbl.round_pos _ 8 6425414011327611 (by norm_num) (by norm_num) (by norm_num) (by decide)
      hx (by norm_num) (by norm_num)]
    norm_num
  have h2 : Dbl.round ((86400000 : ℚ) * (6425414011327611 / 2 ^ 44))
      = Dbl.fin 31556952000 := by
    have hx : roundHalfEven (((86400000 : ℚ) * (6425414011327611 / 2 ^ 44))
        / (2 : ℚ) ^ ((34 : Int) - 52)) = 8272465625088000 := by
      rw [roundHalfEven_of_floor _ 8272465625088000 (by norm_num) (by norm_num)]
      norm_num
    rw [Dbl.round_pos _ 34 8272465625088000 (by norm_num) (by norm_num) (by norm_num)
      (by decide) hx (by norm_num) (by norm_num)]
    norm_num
  have h3 : Dbl.mul (Dbl.fin (86400000 : ℚ)) (Dbl.fin (6425414011327611 / 2 ^ 44))
      = Dbl.round ((86400000 : ℚ) * (6425414011327611 / 2 ^ 44)) :=
    Dbl.mul_fin _ _ (by norm_num)
  unfold Dbl.meanYear
  rw [h1]
  have e1 : ((msPerDay : Int) : ℚ) = 86400000 := by
    unfold msPerDay
    norm_num
  have e2 : ((msPerMeanYear : Int) : ℚ) = 31556952000 := by
    unfold msPerMeanYear
    norm_num
  rw [e1, e2, h3, h2]

/-- The code's `::floor(n / d)` on integers whose quotient is the fraction `a / b`. -/
theorem Dbl.floor_div_frac (n d a b : Int) (E : Nat) (hd : 0 < d) (hb : 0 < b)
    (hab : (n : ℚ) / (d : ℚ) = (a : ℚ) / (b : ℚ)) (hE : E ≤ 52)
    (hlt : |a| < 2 ^ E * b) (hbE : b < 2 ^ (54 - E)) :
    Dbl.floor (Dbl.div (Dbl.fin (n : ℚ)) (Dbl.fin (d : ℚ))) = Dbl.fin ((n / d : Int) : ℚ) := by
  have hdq : (0 : ℚ) < (d : ℚ) := by exact_mod_cast hd
  have hbq : (0 : ℚ) < (b : ℚ) := by exact_mod_cast hb
  have hd0 : ¬ (d : ℚ) = 0 := ne_of_gt hdq
  by_cases hn : n = 0
  · subst hn
    simp [Dbl.div, Dbl.isNaN, Dbl.isInf, Dbl.isZero, Dbl.signBit, Dbl.zero, Dbl.floor, hd0,
      not_lt.mpr hdq.le]
  · have hnq : ¬ (n : ℚ) = 0 := by exact_mod_cast hn
    rw [Dbl.div_fin _ _ hnq hd0,
      Dbl.floor_round ((n : ℚ) / (d : ℚ)) a b E hb hab (div_ne_zero hnq hd0) hE ?_ hbE,
      floor_int_div n d hd]
    rw [hab, abs_div, abs_of_pos hbq, div_lt_iff₀ hbq]
    have : ((|a| : Int) : ℚ) < (((2 : Int) ^ E * b : Int) : ℚ) := by exact_mod_cast hlt
    rw [Int.cast_abs] at this
    push_cast at this
    rw [zpow_natCast]
    exact this

theorem Dbl.toInt_int (k : Int) (h0 : -2147483648 ≤ k) (h1 : k ≤ 2147483647) :
    Dbl.toInt (Dbl.fin (k : ℚ)) = some k := by
  simp [Dbl.toInt, truncToZero_intCast, Dbl.checkInt, h0, h1]

theorem Dbl.checkInt_some (k : Int) (h0 : -2147483648 ≤ k) (h1 : k ≤ 2147483647) :
    Dbl.checkInt k = some k := by
  simp [Dbl.checkInt, h0, h1]

/-- The body of `YearFromTime`, the mean year given. -/
theorem Dbl.YearFromTime_def (t M : Dbl) (hM : Dbl.meanYear = M) :
    Dbl.YearFromTime t
      = match Dbl.toInt (Dbl.floor (Dbl.div t M)) with
        | none => none
        | some k =>
          match Dbl.checkInt (1970 + k) with
          | none => none
          | some y =>
            if (Dbl.TimeFromYear (Dbl.fin (y : ℚ))).gt t then
              (Dbl.checkInt (y - 1)).map (fun (r : Int) => Dbl.fin (r : ℚ))
            else if (Dbl.add (Dbl.TimeFromYear (Dbl.fin (y : ℚ)))
                (Dbl.mul (Dbl.fin ((msPerDay : Int) : ℚ)) (Dbl.DaysInYear (Dbl.fin (y : ℚ))))).le t then
              (Dbl.checkInt (y + 1)).map (fun (r : Int) => Dbl.fin (r : ℚ))
            else some (Dbl.fin (y : ℚ)) := by
  subst hM
  rfl

/-- The quotients of a time that is a multiple of half a day, up to `10^9` of them, floor
exactly. -/
theorem timeExact_halfDay (c : Int) (hc : |c| ≤ 1000000000) : Dbl.TimeExact (43200000 * c) := by
  have hc' := abs_le.mp hc
  refine ⟨abs_le.mpr ⟨by omega, by omega⟩, ?_, ?_⟩
  · refine Dbl.floor_div_frac (43200000 * c) msPerMeanYear (200 * c) 146097 36 (by decide)
      (by decide) ?_ (by decide) (abs_lt.mpr ⟨by omega, by omega⟩) (by decide)
    unfold msPerMeanYear
    push_cast
    field_simp
    ring
  · refine Dbl.floor_div_frac (43200000 * c) msPerDay c 2 52 (by decide) (by decide) ?_
      (by decide) (abs_lt.mpr ⟨by omega, by omega⟩) (by decide)
    unfold msPerDay
    push_cast
    field_simp
    ring

/-- The quotients of a timestamp of the storage range floor exactly. -/
theorem timeExact_stored (t : Int) (h0 : -MaxDateVal ≤ t) (h1 : t ≤ MaxDateVal) :
    Dbl.TimeExact t := by
  unfold MaxDateVal at h0 h1
  refine ⟨abs_le.mpr ⟨by omega, by omega⟩, ?_, ?_⟩
  · exact Dbl.floor_div_int t msPerMeanYear 19 (by decide) (by decide)
      (abs_lt.mpr ⟨by unfold msPerMeanYear; omega, by unfold msPerMeanYear; omega⟩) (by decide)
  · exact Dbl.floor_div_int t msPerDay 27 (by decide) (by decide)
      (abs_lt.mpr ⟨by unfold msPerDay; omega, by unfold msPerDay; omega⟩) (by decide)

/-- The binary64 `YearFromTime` is the exact one on a time whose quotients floor exactly. -/
theorem YearFromTime_exact (t : Int) (ht : Dbl.TimeExact t) :
    Dbl.YearFromTime (Dbl.fin (t : ℚ)) = some (Dbl.fin ((YearFromTime t : Int) : ℚ)) := by
  obtain ⟨hb, hq, _⟩ := ht
  have hb' := abs_le.mp hb
  have hk : -2000000 ≤ t / msPerMeanYear ∧ t / msPerMeanYear ≤ 2000000 := by
    unfold msPerMeanYear
    omega
  generalize hkk : t / msPerMeanYear = k at hk hq
  have hy : yearEstimate t = 1970 + k := by
    unfold yearEstimate
    rw [hkk]
  have hdiy := DaysInYear_cases (1970 + k)
  have hD : -1000000000 ≤ DayFromYear (1970 + k) ∧ DayFromYear (1970 + k) ≤ 1000000000 := by
    unfold DayFromYear
    omega
  have hmul : Dbl.mul (Dbl.fin ((msPerDay : Int) : ℚ)) (Dbl.fin ((DaysInYear (1970 + k) : Int) : ℚ))
      = Dbl.fin ((DaysInYear (1970 + k) * msPerDay : Int) : ℚ) := by
    rw [Dbl.mul_comm, Dbl.mul_msPerDay _ (abs_le.mpr ⟨by omega, by omega⟩)]
  have hadd : Dbl.add (Dbl.fin ((TimeFromYear (1970 + k) : Int) : ℚ))
      (Dbl.fin ((DaysInYear (1970 + k) * msPerDay : Int) : ℚ))
      = Dbl.fin ((TimeFromYear (1970 + k) + msPerDay * DaysInYear (1970 + k) : Int) : ℚ) := by
    rw [Dbl.add_exact _ _ ((DayFromYear (1970 + k) + DaysInYear (1970 + k)) * 84375) 10 ?_
      (abs_le.mpr ⟨by omega, by omega⟩) (by decide) (by decide)]
    · congr 1
      push_cast
      ring
    · unfold TimeFromYear msPerDay
      push_cast
      ring
  rw [Dbl.YearFromTime_def _ _ meanYear_eq, hq, Dbl.toInt_int k (by omega) (by omega)]
  simp only [Dbl.checkInt_some (1970 + k) (by omega) (by omega)]
  rw [TimeFromYear_dbl (1970 + k) (abs_le.mpr ⟨by omega, by omega⟩), DaysInYear_dbl, hmul,
    hadd, Dbl.gt_int, Dbl.le_int, Dbl.checkInt_some (1970 + k - 1) (by omega) (by omega),
    Dbl.checkInt_some (1970 + k + 1) (by omega) (by omega)]
  unfold YearFromTime
  simp only [hy, gt_iff_lt, decide_eq_true_eq, Option.map_some']
  split_ifs <;> rfl

/-- The binary64 `YearFromTime` on a multiple of half a day, up to `10^9` of them, is the
exact one. -/
theorem YearFromTime_dbl (c : Int) (hc : |c| ≤ 1000000000) :
    Dbl.YearFromTime (Dbl.fin ((43200000 * c : Int) : ℚ))
      = some (Dbl.fin ((YearFromTime (43200000 * c) : Int) : ℚ)) :=
  YearFromTime_exact _ (timeExact_halfDay c hc)

/-- The binary64 `Day` is the exact one on a time whose quotients floor exactly. -/
theorem Day_exact (t : Int) (ht : Dbl.TimeExact t) :
    Dbl.Day (Dbl.fin (t : ℚ)) = Dbl.fin ((Day t : Int) : ℚ) := by
  unfold Dbl.Day Day
  exact ht.2.2

/-- The binary64 `Day` on a multiple of half a day is the exact one. -/
theorem Day_dbl (c : Int) (hc : |c| ≤ 1000000000) :
    Dbl.Day (Dbl.fin ((43200000 * c : Int) : ℚ)) = Dbl.fin ((Day (43200000 * c) : Int) : ℚ) :=
  Day_exact _ (timeExact_halfDay c hc)

/-- The year of a time of magnitude up to `43200000 * 10^9` has magnitude below `2 * 10^6`. -/
theorem YearFromTime_small (t : Int) (ht : |t| ≤ 43200000000000000) :
    -2000000 ≤ YearFromTime t ∧ YearFromTime t ≤ 2000000 := by
  rw [abs_le] at ht
  have h := yearEstimate_near t
  unfold yearEstimate msPerMeanYear at h
  omega

theorem Dbl.InLeapYear_def (t : Dbl) :
    Dbl.InLeapYear t
      = match Dbl.YearFromTime t with
        | none => none
        | some y =>
          if !((Dbl.DaysInYear y).ne (Dbl.fin 365)) then some false
          else if (Dbl.DaysInYear y).ne (Dbl.fin 366) then none
          else some true := rfl

/-- The binary64 `InLeapYear` is the exact one on a time whose quotients floor exactly. -/
theorem InLeapYear_exact (t : Int) (ht : Dbl.TimeExact t) :
    Dbl.InLeapYear (Dbl.fin (t : ℚ)) = some (InLeapYear t) := by
  have e365 : Dbl.fin 365 = Dbl.fin ((365 : Int) : ℚ) := by norm_num
  have e366 : Dbl.fin 366 = Dbl.fin ((366 : Int) : ℚ) := by norm_num
  rw [Dbl.InLeapYear_def, YearFromTime_exact t ht]
  simp only [DaysInYear_dbl, e365, e366, Dbl.ne_int]
  unfold InLeapYear
  rcases DaysInYear_cases (YearFromTime t) with h | h <;> simp [h]

/-- The binary64 `InLeapYear` on a multiple of half a day is the exact one. -/
theorem InLeapYear_dbl (c : Int) (hc : |c| ≤ 1000000000) :
    Dbl.InLeapYear (Dbl.fin ((43200000 * c : Int) : ℚ)) = some (InLeapYear (43200000 * c)) :=
  InLeapYear_exact _ (timeExact_halfDay c hc)

theorem Dbl.DayWithinYear_def (t : Dbl) :
    Dbl.DayWithinYear t
      = match Dbl.YearFromTime t with
        | none => none
        | some y => some (Dbl.sub (Dbl.Day t) (Dbl.DayFromYear y)) := rfl

/-- The binary64 `DayWithinYear` is the exact one on a time whose quotients floor
exactly. -/
theorem DayWithinYear_exact (t : Int) (ht : Dbl.TimeExact t) :
    Dbl.DayWithinYear (Dbl.fin (t : ℚ)) = some (Dbl.fin ((DayWithinYear t : Int) : ℚ)) := by
  have hy := YearFromTime_small t ht.1
  have hb := DayWithinYear_bounds t
  have hdiy := DaysInYear_cases (YearFromTime t)
  rw [Dbl.DayWithinYear_def, YearFromTime_exact t ht]
  simp only
  rw [Day_exact t ht, DayFromYear_dbl _ (abs_le.mpr ⟨by omega, by omega⟩), Dbl.sub_int]
  · rfl
  · unfold DayWithinYear at hb
    exact abs_le.mpr ⟨by omega, by omega⟩

/-- The binary64 `DayWithinYear` on a multiple of half a day is the exact one. -/
theorem DayWithinYear_dbl (c : Int) (hc : |c| ≤ 1000000000) :
    Dbl.DayWithinYear (Dbl.fin ((43200000 * c : Int) : ℚ))
      = some (Dbl.fin ((DayWithinYear (43200000 * c) : Int) : ℚ)) :=
  DayWithinYear_exact _ (timeExact_halfDay c hc)

/-- One step of a chain of tests, in binary64 and over the integers. -/
theorem chain_step (b : Bool) (p : Prop) [Decidable p] (hb : b = decide p) (x : Dbl) (n : Int)
    (L : Option Dbl) (R : Option Int) (hx : x = Dbl.fin (n : ℚ)) (h : L = some (Dbl.ofNum R)) :
    (if b = true then some x else L) = some (Dbl.ofNum (if p then some n else R)) := by
  subst hb hx
  by_cases hp : p
  · simp [hp, Dbl.ofNum]
  · simp [hp, h]

/-- The chain of comparisons of `MonthFromTime` in binary64. -/
theorem month_chain_dbl (d l : Int) (hl : l = 0 ∨ l = 1) :
    (if (Dbl.fin (d : ℚ)).lt (Dbl.fin 31) then some (Dbl.fin 0)
      else if (Dbl.fin (d : ℚ)).lt (Dbl.add (Dbl.fin 59) (Dbl.fin (l : ℚ))) then some (Dbl.fin 1)
      else if (Dbl.fin (d : ℚ)).lt (Dbl.add (Dbl.fin 90) (Dbl.fin (l : ℚ))) then some (Dbl.fin 2)
      else if (Dbl.fin (d : ℚ)).lt (Dbl.add (Dbl.fin 120) (Dbl.fin (l : ℚ))) then some (Dbl.fin 3)
      else if (Dbl.fin (d : ℚ)).lt (Dbl.add (Dbl.fin 151) (Dbl.fin (l : ℚ))) then some (Dbl.fin 4)
      else if (Dbl.fin (d : ℚ)).lt (Dbl.add (Dbl.fin 181) (Dbl.fin (l : ℚ))) then some (Dbl.fin 5)
      else if (Dbl.fin (d : ℚ)).lt (Dbl.add (Dbl.fin 212) (Dbl.fin (l : ℚ))) then some (Dbl.fin 6)
      else if (Dbl.fin (d : ℚ)).lt (Dbl.add (Dbl.fin 243) (Dbl.fin (l : ℚ))) then some (Dbl.fin 7)
      else if (Dbl.fin (d : ℚ)).lt (Dbl.add (Dbl.fin 273) (Dbl.fin (l : ℚ))) then some (Dbl.fin 8)
      else if (Dbl.fin (d : ℚ)).lt (Dbl.add (Dbl.fin 304) (Dbl.fin (l : ℚ))) then some (Dbl.fin 9)
      else if (Dbl.fin (d : ℚ)).lt (Dbl.add (Dbl.fin 334) (Dbl.fin (l : ℚ))) then some (Dbl.fin 10)
      else if (Dbl.fin (d : ℚ)).lt (Dbl.add (Dbl.fin 365) (Dbl.fin (l : ℚ))) then some (Dbl.fin 11)
      else some Dbl.nan)
    = some (Dbl.ofNum
        (if d < 31 then some 0
          else if d < 59 + l then some 1
          else if d < 90 + l then some 2
          else if d < 120 + l then some 3
          else if d < 151 + l then some 4
          else if d < 181 + l then some 5
          else if d < 212 + l then some 6
          else if d < 243 + l then some 7
          else if d < 273 + l then some 8
          else if d < 304 + l then some 9
          else if d < 334 + l then some 10
          else if d < 365 + l then some 11
          else none)) := by
  have hadd : ∀ n : Int, 0 ≤ n → n ≤ 1000 →
      Dbl.add (Dbl.fin (n : ℚ)) (Dbl.fin (l : ℚ)) = Dbl.fin ((n + l : Int) : ℚ) := by
    intro n h0 h1
    exact Dbl.add_int n l (abs_le.mpr ⟨by omega, by omega⟩)
  refine chain_step _ (d < 31) ?_ _ 0 _ _ (by norm_num) ?_
  · have := Dbl.lt_int d 31
    simpa only [Int.cast_ofNat] using this
  refine chain_step _ (d < 59 + l) ?_ _ 1 _ _ (by norm_num) ?_
  · have h := hadd 59 (by decide) (by decide)
    simp only [Int.cast_ofNat] at h
    rw [h]
    exact Dbl.lt_int d (59 + l)
  refine chain_step _ (d < 90 + l) ?_ _ 2 _ _ (by norm_num) ?_
  · have h := hadd 90 (by decide) (by decide)
    simp only [Int.cast_ofNat] at h
    rw [h]
    exact Dbl.lt_int d (90 + l)
  refine chain_step _ (d < 120 + l) ?_ _ 3 _ _ (by norm_num) ?_
  · have h := hadd 120 (by decide) (by decide)
    simp only [Int.cast_ofNat] at h
    rw [h]
    exact Dbl.lt_int d (120 + l)
  refine chain_step _ (d < 151 + l) ?_ _ 4 _ _ (by norm_num) ?_
  · have h := hadd 151 (by decide) (by decide)
    simp only [Int.cast_ofNat] at h
    rw [h]
    exact Dbl.lt_int d (151 + l)
  refine chain_step _ (d < 181 + l) ?_ _ 5 _ _ (by norm_num) ?_
  · have h := hadd 181 (by decide) (by decide)
    simp only [Int.cast_ofNat] at h
    rw [h]
    exact Dbl.lt_int d (181 + l)
  refine chain_step _ (d < 212 + l) ?_ _ 6 _ _ (by norm_num) ?_
  · have h := hadd 212 (by decide) (by decide)
    simp only [Int.cast_ofNat] at h
    rw [h]
    exact Dbl.lt_int d (212 + l)
  refine chain_step _ (d < 243 + l) ?_ _ 7 _ _ (by norm_num) ?_
  · have h := hadd 243 (by decide) (by decide)
    simp only [Int.cast_ofNat] at h
    rw [h]
    exact Dbl.lt_int d (243 + l)
  refine chain_step _ (d < 273 + l) ?_ _ 8 _ _ (by norm_num) ?_
  · have h := hadd 273 (by decide) (by decide)
    simp only [Int.cast_ofNat] at h
    rw [h]
    exact Dbl.lt_int d (273 + l)
  refine chain_step _ (d < 304 + l) ?_ _ 9 _ _ (by norm_num) ?_
  · have h := hadd 304 (by decide) (by decide)
    simp only [Int.cast_ofNat] at h
    rw [h]
    exact Dbl.lt_int d (304 + l)
  refine chain_step _ (d < 334 + l) ?_ _ 10 _ _ (by norm_num) ?_
  · have h := hadd 334 (by decide) (by decide)
    simp only [Int.cast_ofNat] at h
    rw [h]
    exact Dbl.lt_int d (334 + l)
  refine chain_step _ (d < 365 + l) ?_ _ 11 _ _ (by norm_num) ?_
  · have h := hadd 365 (by decide) (by decide)
    simp only [Int.cast_ofNat] at h
    rw [h]
    exact Dbl.lt_int d (365 + l)
  rfl

theorem Dbl.MonthFromTime_def (t : Dbl) :
    Dbl.MonthFromTime t
      = match Dbl.DayWithinYear t, Dbl.InLeapYear t with
        | some d, some leap =>
          if d.lt (Dbl.fin 31) then some (Dbl.fin 0)
          else if d.lt (Dbl.add (Dbl.fin 59) (Dbl.fin (boolToNum leap : Int))) then some (Dbl.fin 1)
          else if d.lt (Dbl.add (Dbl.fin 90) (Dbl.fin (boolToNum leap : Int))) then some (Dbl.fin 2)
          else if d.lt (Dbl.add (Dbl.fin 120) (Dbl.fin (boolToNum leap : Int))) then some (Dbl.fin 3)
          else if d.lt (Dbl.add (Dbl.fin 151) (Dbl.fin (boolToNum leap : Int))) then some (Dbl.fin 4)
          else if d.lt (Dbl.add (Dbl.fin 181) (Dbl.fin (boolToNum leap : Int))) then some (Dbl.fin 5)
          else if d.lt (Dbl.add (Dbl.fin 212) (Dbl.fin (boolToNum leap : Int))) then some (Dbl.fin 6)
          else if d.lt (Dbl.add (Dbl.fin 243) (Dbl.fin (boolToNum leap : Int))) then some (Dbl.fin 7)
          else if d.lt (Dbl.add (Dbl.fin 273) (Dbl.fin (boolToNum leap : Int))) then some (Dbl.fin 8)
          else if d.lt (Dbl.add (Dbl.fin 304) (Dbl.fin (boolToNum leap : Int))) then some (Dbl.fin 9)
          else if d.lt (Dbl.add (Dbl.fin 334) (Dbl.fin (boolToNum leap : Int))) then some (Dbl.fin 10)
          else if d.lt (Dbl.add (Dbl.fin 365) (Dbl.fin (boolToNum leap : Int))) then some (Dbl.fin 11)
          else some Dbl.nan
        | _, _ => none := rfl

/-- The binary64 `MonthFromTime` is the exact one on a time whose quotients floor
exactly. -/
theorem MonthFromTime_exact (t : Int) (ht : Dbl.TimeExact t) :
    Dbl.MonthFromTime (Dbl.fin (t : ℚ)) = some (Dbl.ofNum (MonthFromTime t)) := by
  rw [Dbl.MonthFromTime_def, DayWithinYear_exact t ht, InLeapYear_exact t ht]
  simp only
  rw [month_chain_dbl _ _ (boolToNum_cases _)]
  rfl

/-- The binary64 `MonthFromTime` on a multiple of half a day is the exact one. -/
theorem MonthFromTime_dbl (c : Int) (hc : |c| ≤ 1000000000) :
    Dbl.MonthFromTime (Dbl.fin ((43200000 * c : Int) : ℚ))
      = some (Dbl.ofNum (MonthFromTime (43200000 * c))) :=
  MonthFromTime_exact _ (timeExact_halfDay c hc)

/-! ### Doubles that hold integers -/

theorem Dbl.isInt_fin (n : Int) : Dbl.IsInt (Dbl.fin (n : ℚ)) n := Or.inl rfl

/-- The integer part of a finite double holds the truncation of its value. -/
theorem toInteger_isInt (x : Dbl) (hx : x.isFinite = true) :
    Dbl.IsInt (toInteger x) (truncToZero x.toRat) := by
  rcases Dbl.finite_cases x hx with rfl | ⟨q, rfl⟩
  · right
    simp [toInteger, Dbl.toRat, truncToZero]
  · by_cases h : 0 ≤ q
    · left
      simp [toInteger, Dbl.toRat, truncToZero, h]
    · by_cases hc : ⌈q⌉ = 0
      · right
        simp [toInteger, Dbl.toRat, truncToZero, h, hc]
      · left
        simp [toInteger, Dbl.toRat, truncToZero, h, hc]

/-- The sum of two doubles that hold integers, of magnitude at most `2^53`. -/
theorem Dbl.add_isInt (a b : Dbl) (A B : Int) (ha : Dbl.IsInt a A) (hb : Dbl.IsInt b B)
    (h : |A + B| ≤ 2 ^ 53) : Dbl.IsInt (Dbl.add a b) (A + B) := by
  rcases ha with rfl | ⟨rfl, rfl⟩ <;> rcases hb with rfl | ⟨rfl, rfl⟩
  · left
    exact Dbl.add_int A B h
  · left
    by_cases hA : A = 0
    · subst hA
      simp [Dbl.add, Dbl.isNaN, Dbl.isInf, Dbl.isZero, Dbl.toRat, Dbl.signBit, Dbl.zero]
    · have hq : ¬ (A : ℚ) = 0 := by exact_mod_cast hA
      simp only [Dbl.add, Dbl.isNaN, Dbl.isInf, Dbl.toRat, Bool.or_self, Bool.and_self,
        Bool.false_eq_true, if_false, add_zero, hq]
      rw [Dbl.round_int A hA (by simpa using h)]
  · left
    by_cases hB : B = 0
    · subst hB
      simp [Dbl.add, Dbl.isNaN, Dbl.isInf, Dbl.isZero, Dbl.toRat, Dbl.signBit, Dbl.zero]
    · have hq : ¬ (B : ℚ) = 0 := by exact_mod_cast hB
      simp only [Dbl.add, Dbl.isNaN, Dbl.isInf, Dbl.toRat, Bool.or_self, Bool.and_self,
        Bool.false_eq_true, if_false, zero_add, hq]
      rw [Dbl.round_int B hB (by simpa using h)]
  · right
    simp [Dbl.add, Dbl.isNaN, Dbl.isInf, Dbl.isZero, Dbl.toRat, Dbl.signBit, Dbl.zero]

/-- A sum with a double that holds an integer, the sum not zero or the first term an
integer-valued double. -/
theorem Dbl.add_fin_isInt (A : Int) (b : Dbl) (B : Int) (hb : Dbl.IsInt b B)
    (h : |A + B| ≤ 2 ^ 53) : Dbl.add (Dbl.fin (A : ℚ)) b = Dbl.fin ((A + B : Int) : ℚ) := by
  rcases Dbl.add_isInt _ _ A B (Dbl.isInt_fin A) hb h with h1 | ⟨_, h1⟩
  · exact h1
  · exfalso
    rcases hb with rfl | ⟨rfl, rfl⟩
    · rw [Dbl.add_int A B h] at h1
      exact Dbl.noConfusion h1
    · by_cases hA : A = 0
      · subst hA
        simp [Dbl.add, Dbl.isNaN, Dbl.isInf, Dbl.isZero, Dbl.toRat, Dbl.signBit, Dbl.zero] at h1
      · have hq : ¬ (A : ℚ) = 0 := by exact_mod_cast hA
        simp only [Dbl.add, Dbl.isNaN, Dbl.isInf, Dbl.toRat, Bool.or_self, Bool.and_self,
          Bool.false_eq_true, if_false, add_zero, hq] at h1
        rw [Dbl.round_int A hA (by simpa using h)] at h1
        exact Dbl.noConfusion h1

/-- The difference of a double that holds an integer and an integer other than zero. -/
theorem Dbl.sub_isInt (a : Dbl) (A B : Int) (ha : Dbl.IsInt a A) (hB : B ≠ 0)
    (h : |A - B| ≤ 2 ^ 53) : Dbl.sub a (Dbl.fin (B : ℚ)) = Dbl.fin ((A - B : Int) : ℚ) := by
  rcases ha with rfl | ⟨rfl, rfl⟩
  · exact Dbl.sub_int A B h
  · unfold Dbl.sub
    rw [Dbl.neg_int B hB]
    have hq : ¬ ((-B : Int) : ℚ) = 0 := by
      have : -B ≠ 0 := by omega
      exact_mod_cast this
    simp only [Dbl.add, Dbl.isNaN, Dbl.isInf, Dbl.toRat, Bool.or_self, Bool.and_self,
      Bool.false_eq_true, if_false, zero_add, hq]
    rw [Dbl.round_int (-B) (by omega) (by simpa using h)]
    simp

/-- The code's `::floor(x / d)` on a double that holds an integer. -/
theorem Dbl.floor_div_isInt (x : Dbl) (n d : Int) (E : Nat) (hx : Dbl.IsInt x n) (hd : 0 < d)
    (hE : E ≤ 52) (hlt : |n| < 2 ^ E * d) (hdE : d < 2 ^ (54 - E)) :
    Dbl.IsInt (Dbl.floor (Dbl.div x (Dbl.fin (d : ℚ)))) (n / d) := by
  rcases hx with rfl | ⟨rfl, rfl⟩
  · left
    exact Dbl.floor_div_int n d E hd hE hlt hdE
  · right
    have hdq : ¬ (d : ℚ) = 0 := by
      have : d ≠ 0 := by omega
      exact_mod_cast this
    have hdn : ¬ (d : ℚ) < 0 := by
      have : (0 : ℚ) ≤ (d : ℚ) := by exact_mod_cast hd.le
      exact not_lt.mpr this
    simp [Dbl.div, Dbl.isNaN, Dbl.isInf, Dbl.isZero, Dbl.signBit, Dbl.zero, Dbl.floor, hdq, hdn]

/-- The function `::fmod` on a double that holds an integer, the divisor positive. -/
theorem Dbl.fmod_isInt (x : Dbl) (n d : Int) (hx : Dbl.IsInt x n) (hd : 0 < d) :
    Dbl.IsInt (Dbl.fmod x (Dbl.fin (d : ℚ))) (QV4.fmod n d) := by
  rcases hx with rfl | ⟨rfl, rfl⟩
  · rw [Dbl.fmod_int n d hd]
    by_cases hf : QV4.fmod n d = 0
    · rw [if_pos hf, hf]
      by_cases hn : n < 0
      · right
        simp [Dbl.zero, hn]
      · left
        simp [Dbl.zero, hn]
    · rw [if_neg hf]
      exact Or.inl rfl
  · right
    have hdq : ¬ (d : ℚ) = 0 := by
      have : d ≠ 0 := by omega
      exact_mod_cast this
    simp [Dbl.fmod, Dbl.isNaN, Dbl.isInf, Dbl.isZero, hdq, QV4.fmod]

theorem Dbl.lt_zero_isInt (x : Dbl) (n : Int) (hx : Dbl.IsInt x n) :
    x.lt (Dbl.fin 0) = decide (n < 0) := by
  rcases hx with rfl | ⟨rfl, rfl⟩
  · have := Dbl.lt_int n 0
    simpa only [Int.cast_zero] using this
  · simp [Dbl.lt, Dbl.gt]

theorem Dbl.ne_isInt (k : Int) (x : Dbl) (n : Int) (hx : Dbl.IsInt x n) :
    (Dbl.fin (k : ℚ)).ne x = decide (k ≠ n) := by
  rcases hx with rfl | ⟨rfl, rfl⟩
  · exact Dbl.ne_int k n
  · by_cases hk : k = 0
    · subst hk
      simp [Dbl.ne, Dbl.isNaN, Dbl.gt]
    · have h1 : (0 : ℚ) < (k : ℚ) ∨ (k : ℚ) < 0 := by
        rcases lt_or_gt_of_ne hk with h | h
        · right
          exact_mod_cast h
        · left
          exact_mod_cast h
      rcases h1 with h | h
      · simp [Dbl.ne, Dbl.isNaN, Dbl.gt, hk, h]
      · simp [Dbl.ne, Dbl.isNaN, Dbl.gt, hk, h]

theorem Dbl.toInt_isInt (x : Dbl) (n : Int) (hx : Dbl.IsInt x n) (h0 : -2147483648 ≤ n)
    (h1 : n ≤ 2147483647) : Dbl.toInt x = some n := by
  rcases hx with rfl | ⟨rfl, rfl⟩
  · exact Dbl.toInt_int n h0 h1
  · rfl

/-- The normalisation of the month in `MakeDay`, in binary64. -/
theorem month_normalise_dbl (mon : Dbl) (m : Int) (hm : Dbl.IsInt mon m) :
    Dbl.IsInt
      (if (Dbl.fmod mon (Dbl.fin 12)).lt (Dbl.fin 0) then Dbl.add (Dbl.fmod mon (Dbl.fin 12)) (Dbl.fin 12)
        else Dbl.fmod mon (Dbl.fin 12))
      (m % 12) := by
  have e12 : Dbl.fin 12 = Dbl.fin ((12 : Int) : ℚ) := by norm_num
  have hf := Dbl.fmod_isInt mon m 12 hm (by decide)
  have hn := month_normalise m
  rw [e12, Dbl.lt_zero_isInt _ _ hf]
  by_cases hneg : fmod m 12 < 0
  · rw [if_pos hneg] at hn
    simp only [hneg, decide_True, if_true]
    rw [← hn]
    have hb12 : -12 < fmod m 12 := by
      rw [fmod_def m 12 (by decide)] at hneg ⊢
      split_ifs at hneg ⊢ <;> omega
    exact Dbl.add_isInt _ _ _ 12 hf (Dbl.isInt_fin 12) (abs_le.mpr ⟨by omega, by omega⟩)
  · rw [if_neg hneg] at hn
    simp only [hneg, decide_False, Bool.false_eq_true, if_false]
    rw [← hn]
    exact hf

/-- One step of a chain of cases, in binary64 and over the integers. -/
theorem case_step (p : Prop) [Decidable p] (x : Dbl) (n : Int)
    (L : Option Dbl) (R : Option Int) (hx : x = Dbl.fin (n : ℚ)) (h : L = some (Dbl.ofNum R)) :
    (if p then some x else L) = some (Dbl.ofNum (if p then some n else R)) := by
  subst hx
  by_cases hp : p
  · simp [hp, Dbl.ofNum]
  · simp [hp, h]

/-- The cases of `DateFromTime` in binary64. -/
theorem date_chain_dbl (d l m : Int) (hd : |d| ≤ 1000000) (hl : l = 0 ∨ l = 1) :
    (if m = 0 then some (Dbl.add (Dbl.fin (d : ℚ)) (Dbl.fin 1))
      else if m = 1 then some (Dbl.sub (Dbl.fin (d : ℚ)) (Dbl.fin 30))
      else if m = 2 then some (Dbl.sub (Dbl.sub (Dbl.fin (d : ℚ)) (Dbl.fin 58)) (Dbl.fin (l : ℚ)))
      else if m = 3 then some (Dbl.sub (Dbl.sub (Dbl.fin (d : ℚ)) (Dbl.fin 89)) (Dbl.fin (l : ℚ)))
      else if m = 4 then some (Dbl.sub (Dbl.sub (Dbl.fin (d : ℚ)) (Dbl.fin 119)) (Dbl.fin (l : ℚ)))
      else if m = 5 then some (Dbl.sub (Dbl.sub (Dbl.fin (d : ℚ)) (Dbl.fin 150)) (Dbl.fin (l : ℚ)))
      else if m = 6 then some (Dbl.sub (Dbl.sub (Dbl.fin (d : ℚ)) (Dbl.fin 180)) (Dbl.fin (l : ℚ)))
      else if m = 7 then some (Dbl.sub (Dbl.sub (Dbl.fin (d : ℚ)) (Dbl.fin 211)) (Dbl.fin (l : ℚ)))
      else if m = 8 then some (Dbl.sub (Dbl.sub (Dbl.fin (d : ℚ)) (Dbl.fin 242)) (Dbl.fin (l : ℚ)))
      else if m = 9 then some (Dbl.sub (Dbl.sub (Dbl.fin (d : ℚ)) (Dbl.fin 272)) (Dbl.fin (l : ℚ)))
      else if m = 10 then some (Dbl.sub (Dbl.sub (Dbl.fin (d : ℚ)) (Dbl.fin 303)) (Dbl.fin (l : ℚ)))
      else if m = 11 then some (Dbl.sub (Dbl.sub (Dbl.fin (d : ℚ)) (Dbl.fin 333)) (Dbl.fin (l : ℚ)))
      else some Dbl.nan)
    = some (Dbl.ofNum
        (if m = 0 then some (d + 1)
          else if m = 1 then some (d - 30)
          else if m = 2 then some (d - 58 - l)
          else if m = 3 then some (d - 89 - l)
          else if m = 4 then some (d - 119 - l)
          else if m = 5 then some (d - 150 - l)
          else if m = 6 then some (d - 180 - l)
          else if m = 7 then some (d - 211 - l)
          else if m = 8 then some (d - 242 - l)
          else if m = 9 then some (d - 272 - l)
          else if m = 10 then some (d - 303 - l)
          else if m = 11 then some (d - 333 - l)
          else none)) := by
  rw [abs_le] at hd
  have hsub : ∀ n : Int, 0 < n → n ≤ 1000 →
      Dbl.sub (Dbl.sub (Dbl.fin (d : ℚ)) (Dbl.fin (n : ℚ))) (Dbl.fin (l : ℚ))
        = Dbl.fin ((d - n - l : Int) : ℚ) := by
    intro n h0 h1
    rw [Dbl.sub_int d n (abs_le.mpr ⟨by omega, by omega⟩),
      Dbl.sub_int (d - n) l (abs_le.mpr ⟨by omega, by omega⟩)]
  refine case_step _ _ (d + 1) _ _ ?_ ?_
  · have h := Dbl.add_int d 1 (abs_le.mpr ⟨by omega, by omega⟩)
    simpa only [Int.cast_one] using h
  refine case_step _ _ (d - 30) _ _ ?_ ?_
  · have h := Dbl.sub_int d 30 (abs_le.mpr ⟨by omega, by omega⟩)
    simpa only [Int.cast_ofNat] using h
  refine case_step _ _ (d - 58 - l) _ _ ?_ ?_
  · have h := hsub 58 (by decide) (by decide)
    simpa only [Int.cast_ofNat] using h
  refine case_step _ _ (d - 89 - l) _ _ ?_ ?_
  · have h := hsub 89 (by decide) (by decide)
    simpa only [Int.cast_ofNat] using h
  refine case_step _ _ (d - 119 - l) _ _ ?_ ?_
  · have h := hsub 119 (by decide) (by decide)
    simpa only [Int.cast_ofNat] using h
  refine case_step _ _ (d - 150 - l) _ _ ?_ ?_
  · have h := hsub 150 (by decide) (by decide)
    simpa only [Int.cast_ofNat] using h
  refine case_step _ _ (d - 180 - l) _ _ ?_ ?_
  · have h := hsub 180 (by decide) (by decide)
    simpa only [Int.cast_ofNat] using h
  refine case_step _ _ (d - 211 - l) _ _ ?_ ?_
  · have h := hsub 211 (by decide) (by decide)
    simpa only [Int.cast_ofNat] using h
  refine case_step _ _ (d - 242 - l) _ _ ?_ ?_
  · have h := hsub 242 (by decide) (by decide)
    simpa only [Int.cast_ofNat] using h
  refine case_step _ _ (d - 272 - l) _ _ ?_ ?_
  · have h := hsub 272 (by decide) (by decide)
    simpa only [Int.cast_ofNat] using h
  refine case_step _ _ (d - 303 - l) _ _ ?_ ?_
  · have h := hsub 303 (by decide) (by decide)
    simpa only [Int.cast_ofNat] using h
  refine case_step _ _ (d - 333 - l) _ _ ?_ ?_
  · have h := hsub 333 (by decide) (by decide)
    simpa only [Int.cast_ofNat] using h
  rfl

theorem Dbl.DateFromTime_def (t : Dbl) :
    Dbl.DateFromTime t
      = match Dbl.MonthFromTime t, Dbl.DayWithinYear t, Dbl.InLeapYear t with
        | some month, some d, some leap =>
          match Dbl.toInt (toInteger month) with
          | none => none
          | some m =>
            if m = 0 then some (Dbl.add d (Dbl.fin 1))
            else if m = 1 then some (Dbl.sub d (Dbl.fin 30))
            else if m = 2 then some (Dbl.sub (Dbl.sub d (Dbl.fin 58)) (Dbl.fin (boolToNum leap : Int)))
            else if m = 3 then some (Dbl.sub (Dbl.sub d (Dbl.fin 89)) (Dbl.fin (boolToNum leap : Int)))
            else if m = 4 then some (Dbl.sub (Dbl.sub d (Dbl.fin 119)) (Dbl.fin (boolToNum leap : Int)))
            else if m = 5 then some (Dbl.sub (Dbl.sub d (Dbl.fin 150)) (Dbl.fin (boolToNum leap : Int)))
            else if m = 6 then some (Dbl.sub (Dbl.sub d (Dbl.fin 180)) (Dbl.fin (boolToNum leap : Int)))
            else if m = 7 then some (Dbl.sub (Dbl.sub d (Dbl.fin 211)) (Dbl.fin (boolToNum leap : Int)))
            else if m = 8 then some (Dbl.sub (Dbl.sub d (Dbl.fin 242)) (Dbl.fin (boolToNum leap : Int)))
            else if m = 9 then some (Dbl.sub (Dbl.sub d (Dbl.fin 272)) (Dbl.fin (boolToNum leap : Int)))
            else if m = 10 then some (Dbl.sub (Dbl.sub d (Dbl.fin 303)) (Dbl.fin (boolToNum leap : Int)))
            else if m = 11 then some (Dbl.sub (Dbl.sub d (Dbl.fin 333)) (Dbl.fin (boolToNum leap : Int)))
            else some Dbl.nan
        | _, _, _ => none := rfl

/-- The binary64 `DateFromTime` is the exact one on a time whose quotients floor
exactly. -/
theorem DateFromTime_exact (t : Int) (ht : Dbl.TimeExact t) :
    Dbl.DateFromTime (Dbl.fin (t : ℚ)) = some (Dbl.ofNum (DateFromTime t)) := by
  obtain ⟨m, dt, hm, _, hm0, hm1, _, _, _⟩ := month_date_of_time t
  have hb := DayWithinYear_bounds t
  have hdiy := DaysInYear_cases (YearFromTime t)
  rw [Dbl.DateFromTime_def, MonthFromTime_exact t ht, DayWithinYear_exact t ht,
    InLeapYear_exact t ht, hm]
  have hof : Dbl.ofNum (some m) = Dbl.fin (m : ℚ) := rfl
  rw [hof]
  simp only
  rw [toInteger_intCast, Dbl.toInt_int m (by omega) (by omega)]
  simp only
  rw [date_chain_dbl _ _ m (abs_le.mpr ⟨by omega, by omega⟩) (boolToNum_cases _)]
  unfold DateFromTime
  simp only [hm, Option.getD_some]

/-- The binary64 `DateFromTime` on a multiple of half a day is the exact one. -/
theorem DateFromTime_dbl (c : Int) (hc : |c| ≤ 1000000000) :
    Dbl.DateFromTime (Dbl.fin ((43200000 * c : Int) : ℚ))
      = some (Dbl.ofNum (DateFromTime (43200000 * c))) :=
  DateFromTime_exact _ (timeExact_halfDay c hc)

/-- Year, leap year, day within the year, month and date of a timestamp of the storage
range, in binary64: the exact ones. -/
theorem fields_dbl_of_timestamp (t : Int) (h0 : -MaxDateVal ≤ t) (h1 : t ≤ MaxDateVal) :
    Dbl.YearFromTime (Dbl.fin (t : ℚ)) = some (Dbl.fin ((YearFromTime t : Int) : ℚ)) ∧
    Dbl.Day (Dbl.fin (t : ℚ)) = Dbl.fin ((Day t : Int) : ℚ) ∧
    Dbl.InLeapYear (Dbl.fin (t : ℚ)) = some (InLeapYear t) ∧
    Dbl.DayWithinYear (Dbl.fin (t : ℚ)) = some (Dbl.fin ((DayWithinYear t : Int) : ℚ)) ∧
    Dbl.MonthFromTime (Dbl.fin (t : ℚ)) = some (Dbl.ofNum (MonthFromTime t)) ∧
    Dbl.DateFromTime (Dbl.fin (t : ℚ)) = some (Dbl.ofNum (DateFromTime t)) := by
  have ht := timeExact_stored t h0 h1
  exact ⟨YearFromTime_exact t ht, Day_exact t ht, InLeapYear_exact t ht,
    DayWithinYear_exact t ht, MonthFromTime_exact t ht, DateFromTime_exact t ht⟩

theorem Dbl.DayFromMonth_def (month leap : Dbl) :
    Dbl.DayFromMonth month leap
      = match Dbl.toInt month with
        | none => none
        | some m =>
          if m = 0 then some (Dbl.fin 0)
          else if m = 1 then some (Dbl.fin 31)
          else if m = 2 then some (Dbl.add (Dbl.fin 59) leap)
          else if m = 3 then some (Dbl.add (Dbl.fin 90) leap)
          else if m = 4 then some (Dbl.add (Dbl.fin 120) leap)
          else if m = 5 then some (Dbl.add (Dbl.fin 151) leap)
          else if m = 6 then some (Dbl.add (Dbl.fin 181) leap)
          else if m = 7 then some (Dbl.add (Dbl.fin 212) leap)
          else if m = 8 then some (Dbl.add (Dbl.fin 243) leap)
          else if m = 9 then some (Dbl.add (Dbl.fin 273) leap)
          else if m = 10 then some (Dbl.add (Dbl.fin 304) leap)
          else if m = 11 then some (Dbl.add (Dbl.fin 334) leap)
          else some Dbl.nan := rfl

/-- The binary64 `DayFromMonth` on a month in `0..11` is the exact one. -/
theorem DayFromMonth_dbl (mon : Dbl) (M l : Int) (hm : Dbl.IsInt mon M) (hM0 : 0 ≤ M)
    (hM1 : M ≤ 11) (hl : l = 0 ∨ l = 1) :
    Dbl.DayFromMonth mon (Dbl.fin (l : ℚ)) = some (Dbl.ofNum (DayFromMonth M l)) := by
  have hadd : ∀ n : Int, 0 ≤ n → n ≤ 1000 →
      Dbl.add (Dbl.fin (n : ℚ)) (Dbl.fin (l : ℚ)) = Dbl.fin ((n + l : Int) : ℚ) := by
    intro n h0 h1
    exact Dbl.add_int n l (abs_le.mpr ⟨by omega, by omega⟩)
  rw [Dbl.DayFromMonth_def, Dbl.toInt_isInt mon M hm (by omega) (by omega)]
  simp only
  unfold DayFromMonth
  refine case_step _ _ 0 _ _ (by norm_num) ?_
  refine case_step _ _ 31 _ _ (by norm_num) ?_
  refine case_step _ _ (59 + l) _ _ ?_ ?_
  · have h := hadd 59 (by decide) (by decide)
    simpa only [Int.cast_ofNat] using h
  refine case_step _ _ (90 + l) _ _ ?_ ?_
  · have h := hadd 90 (by decide) (by decide)
    simpa only [Int.cast_ofNat] using h
  refine case_step _ _ (120 + l) _ _ ?_ ?_
  · have h := hadd 120 (by decide) (by decide)
    simpa only [Int.cast_ofNat] using h
  refine case_step _ _ (151 + l) _ _ ?_ ?_
  · have h := hadd 151 (by decide) (by decide)
    simpa only [Int.cast_ofNat] using h
  refine case_step _ _ (181 + l) _ _ ?_ ?_
  · have h := hadd 181 (by decide) (by decide)
    simpa only [Int.cast_ofNat] using h
  refine case_step _ _ (212 + l) _ _ ?_ ?_
  · have h := hadd 212 (by decide) (by decide)
    simpa only [Int.cast_ofNat] using h
  refine case_step _ _ (243 + l) _ _ ?_ ?_
  · have h := hadd 243 (by decide) (by decide)
    simpa only [Int.cast_ofNat] using h
  refine case_step _ _ (273 + l) _ _ ?_ ?_
  · have h := hadd 273 (by decide) (by decide)
    simpa only [Int.cast_ofNat] using h
  refine case_step _ _ (304 + l) _ _ ?_ ?_
  · have h := hadd 304 (by decide) (by decide)
    simpa only [Int.cast_ofNat] using h
  refine case_step _ _ (334 + l) _ _ ?_ ?_
  · have h := hadd 334 (by decide) (by decide)
    simpa only [Int.cast_ofNat] using h
  rfl

/-- The binary64 `DayFromYear` on a double that holds a year of magnitude up to
`2 * 10^13` is the exact one. -/
theorem DayFromYear_isInt (yr : Dbl) (y : Int) (hyr : Dbl.IsInt yr y)
    (h : |y| ≤ 20000000000000) :
    Dbl.DayFromYear yr = Dbl.fin ((DayFromYear y : Int) : ℚ) := by
  have e : Dbl.DayFromYear yr
      = Dbl.add (Dbl.sub (Dbl.add (Dbl.mul (Dbl.fin ((365 : Int) : ℚ))
            (Dbl.sub yr (Dbl.fin ((1970 : Int) : ℚ))))
          (Dbl.floor (Dbl.div (Dbl.sub yr (Dbl.fin ((1969 : Int) : ℚ)))
            (Dbl.fin ((4 : Int) : ℚ)))))
          (Dbl.floor (Dbl.div (Dbl.sub yr (Dbl.fin ((1901 : Int) : ℚ)))
            (Dbl.fin ((100 : Int) : ℚ)))))
          (Dbl.floor (Dbl.div (Dbl.sub yr (Dbl.fin ((1601 : Int) : ℚ)))
            (Dbl.fin ((400 : Int) : ℚ)))) := by
    simp only [Dbl.DayFromYear, Int.cast_ofNat]
  rw [abs_le] at h
  rw [e, Dbl.sub_isInt yr y 1970 hyr (by decide) (abs_le.mpr ⟨by omega, by omega⟩),
    Dbl.sub_isInt yr y 1969 hyr (by decide) (abs_le.mpr ⟨by omega, by omega⟩),
    Dbl.sub_isInt yr y 1901 hyr (by decide) (abs_le.mpr ⟨by omega, by omega⟩),
    Dbl.sub_isInt yr y 1601 hyr (by decide) (abs_le.mpr ⟨by omega, by omega⟩),
    Dbl.mul_comm, Dbl.mul_int (y - 1970) 365 (by decide) (abs_le.mpr ⟨by omega, by omega⟩),
    Dbl.floor_div_int (y - 1969) 4 51 (by decide) (by decide)
      (abs_lt.mpr ⟨by omega, by omega⟩) (by decide),
    Dbl.floor_div_int (y - 1901) 100 47 (by decide) (by decide)
      (abs_lt.mpr ⟨by omega, by omega⟩) (by decide),
    Dbl.floor_div_int (y - 1601) 400 45 (by decide) (by decide)
      (abs_lt.mpr ⟨by omega, by omega⟩) (by decide),
    Dbl.add_int _ _ (abs_le.mpr ⟨by omega, by omega⟩),
    Dbl.sub_int _ _ (abs_le.mpr ⟨by omega, by omega⟩),
    Dbl.add_int _ _ (abs_le.mpr ⟨by omega, by omega⟩)]
  congr 2
  unfold DayFromYear
  ring

/-- Half a day, `msPerDay / 2`. -/
theorem half_day_dbl :
    Dbl.div (Dbl.fin ((msPerDay : Int) : ℚ)) (Dbl.fin 2) = Dbl.fin ((43200000 : Int) : ℚ) := by
  have h : ((msPerDay : Int) : ℚ) / 2 = ((43200000 : Int) : ℚ) := by
    unfold msPerDay
    norm_num
  rw [Dbl.div_fin _ _ (by unfold msPerDay; norm_num) (by norm_num), h,
    Dbl.round_int 43200000 (by decide) (by decide)]

/-- The value of `MakeDay` in binary64 from the normalised year and month: for a
normalised year of magnitude up to 1,000,000 the verification of the first of the month
succeeds, and the result is the day number of that first plus `day - 1`. -/
theorem MakeDay_of_normalised (year month day yr mon : Dbl) (Y M d : Int)
    (hfy : year.isFinite = true) (hfm : month.isFinite = true) (hfd : day.isFinite = true)
    (hyr : Dbl.add (toInteger year) (Dbl.floor (Dbl.div (toInteger month) (Dbl.fin 12))) = yr)
    (hmon : (if (Dbl.fmod (toInteger month) (Dbl.fin 12)).lt (Dbl.fin 0)
        then Dbl.add (Dbl.fmod (toInteger month) (Dbl.fin 12)) (Dbl.fin 12)
        else Dbl.fmod (toInteger month) (Dbl.fin 12)) = mon)
    (hY : Dbl.IsInt yr Y) (hM : Dbl.IsInt mon M) (hD : Dbl.IsInt (toInteger day) d)
    (hYb : |Y| ≤ 1000000) (hM0 : 0 ≤ M) (hM1 : M ≤ 11) (hdb : |d| ≤ 2 ^ 52) :
    ∃ dm, DayFromMonth M (DaysInYear Y - 365) = some dm ∧ 0 ≤ dm ∧ dm < DaysInYear Y - 30 ∧
      Dbl.MakeDay year month day = some (Dbl.fin ((DayFromYear Y + dm + d - 1 : Int) : ℚ)) := by
  have hYb' := abs_le.mp hYb
  have hdb' := abs_le.mp hdb
  have hdiy := DaysInYear_cases Y
  obtain ⟨dm, hdm, hdm0, hdm1, hyear, hmonth, hdate⟩ :=
    fields_of_month_start Y M 43200000 hM0 hM1 (by decide) (by decide)
  have hleap : boolToNum (InLeapYear (43200000 * (2 * (DayFromYear Y + 60))))
      = DaysInYear Y - 365 := by
    have h := InLeapYear_of_yearDay Y 60 0 (by omega) (by omega) (by omega) (by decide)
    have e : (DayFromYear Y + 60) * msPerDay + 0 = 43200000 * (2 * (DayFromYear Y + 60)) := by
      unfold msPerDay
      ring
    rw [e] at h
    exact h
  have hDb : -400000000 ≤ DayFromYear Y ∧ DayFromYear Y ≤ 400000000 := by
    unfold DayFromYear
    omega
  have et : (DayFromYear Y + dm) * msPerDay + 43200000
      = 43200000 * (2 * (DayFromYear Y + dm) + 1) := by
    unfold msPerDay
    ring
  rw [et] at hyear hmonth hdate
  have hday : Day (43200000 * (2 * (DayFromYear Y + dm) + 1)) = DayFromYear Y + dm := by
    rw [← et]
    exact Day_of_parts _ 43200000 (by decide) (by decide)
  -- the steps of the computation
  have e60 : Dbl.fin 60 = Dbl.fin ((60 : Int) : ℚ) := by norm_num
  have e1 : Dbl.fin 1 = Dbl.fin ((1 : Int) : ℚ) := by norm_num
  have s1 := DayFromYear_isInt yr Y hY (abs_le.mpr ⟨by omega, by omega⟩)
  have s2 : Dbl.mul (Dbl.add (Dbl.fin ((DayFromYear Y : Int) : ℚ)) (Dbl.fin 60))
      (Dbl.fin ((msPerDay : Int) : ℚ))
      = Dbl.fin ((43200000 * (2 * (DayFromYear Y + 60)) : Int) : ℚ) := by
    rw [e60, Dbl.add_int _ _ (abs_le.mpr ⟨by omega, by omega⟩),
      Dbl.mul_msPerDay _ (abs_le.mpr ⟨by omega, by omega⟩)]
    congr 2
    unfold msPerDay
    ring
  have s3 := InLeapYear_dbl (2 * (DayFromYear Y + 60)) (abs_le.mpr ⟨by omega, by omega⟩)
  have s4 := DayFromMonth_dbl mon M (DaysInYear Y - 365) hM hM0 hM1 (by omega)
  rw [hdm] at s4
  have s5 : Dbl.add (Dbl.mul (Dbl.add (Dbl.fin ((DayFromYear Y : Int) : ℚ)) (Dbl.fin (dm : ℚ)))
      (Dbl.fin ((msPerDay : Int) : ℚ))) (Dbl.div (Dbl.fin ((msPerDay : Int) : ℚ)) (Dbl.fin 2))
      = Dbl.fin ((43200000 * (2 * (DayFromYear Y + dm) + 1) : Int) : ℚ) := by
    rw [Dbl.add_int _ _ (abs_le.mpr ⟨by omega, by omega⟩),
      Dbl.mul_msPerDay _ (abs_le.mpr ⟨by omega, by omega⟩), half_day_dbl,
      Dbl.add_exact _ _ ((2 * (DayFromYear Y + dm) + 1) * 84375) 9 ?_
        (abs_le.mpr ⟨by omega, by omega⟩) (by decide) (by decide)]
    · congr 1
      unfold msPerDay
      push_cast
      ring
    · unfold msPerDay
      push_cast
      ring
  have hcb : |2 * (DayFromYear Y + dm) + 1| ≤ 1000000000 := abs_le.mpr ⟨by omega, by omega⟩
  have s6 := Day_dbl _ hcb
  have s7 := YearFromTime_dbl _ hcb
  have s8 := MonthFromTime_dbl _ hcb
  have s9 := DateFromTime_dbl _ hcb
  rw [hday] at s6
  rw [hyear] at s7
  rw [hmonth] at s8
  rw [hdate] at s9
  have s10 : Dbl.sub (Dbl.add (Dbl.add (Dbl.fin ((DayFromYear Y : Int) : ℚ)) (Dbl.fin (dm : ℚ)))
      (toInteger day)) (Dbl.fin 1)
      = Dbl.fin ((DayFromYear Y + dm + d - 1 : Int) : ℚ) := by
    rw [Dbl.add_int _ _ (abs_le.mpr ⟨by omega, by omega⟩),
      Dbl.add_fin_isInt _ _ d hD (abs_le.mpr ⟨by omega, by omega⟩), e1,
      Dbl.sub_int _ _ (abs_le.mpr ⟨by omega, by omega⟩)]
  have n1 : (Dbl.fin ((DayFromYear Y + dm : Int) : ℚ)).ne
      (Dbl.add (Dbl.fin ((DayFromYear Y : Int) : ℚ)) (Dbl.fin (dm : ℚ))) = false := by
    rw [Dbl.add_int _ _ (abs_le.mpr ⟨by omega, by omega⟩), Dbl.ne_int]
    simp
  have n2 : (Dbl.fin (Y : ℚ)).ne yr = false := by
    rw [Dbl.ne_isInt Y yr Y hY]
    simp
  have n3 : (Dbl.fin (M : ℚ)).ne mon = false := by
    rw [Dbl.ne_isInt M mon M hM]
    simp
  have n4 : (Dbl.fin ((1 : Int) : ℚ)).ne (Dbl.fin 1) = false := by
    rw [e1, Dbl.ne_int]
    simp
  refine ⟨dm, hdm, hdm0, hdm1, ?_⟩
  unfold Dbl.MakeDay
  simp only [hfy, hfm, hfd, Bool.not_true, Bool.or_self, Bool.false_eq_true, if_false, hyr, hmon,
    s1, s2, s3, hleap, s4, Dbl.ofNum, s5, s6, n1, s7, n2, s8, n3, s9, n4, s10]

/-- The binary64 `MakeDay` is the exact one on finite arguments with the integer part of
the month of magnitude at most `2^53`, the normalised year of magnitude at most 1,000,000
and the integer part of the day of magnitude at most `2^52`. -/
theorem MakeDay_dbl (year month day : Dbl)
    (hfy : year.isFinite = true) (hfm : month.isFinite = true) (hfd : day.isFinite = true)
    (bm : |truncToZero month.toRat| ≤ 2 ^ 53)
    (bY : |truncToZero year.toRat + truncToZero month.toRat / 12| ≤ 1000000)
    (bd : |truncToZero day.toRat| ≤ 2 ^ 52) :
    Dbl.MakeDay year month day
      = some (Dbl.ofNum (MakeDay year.toNum month.toNum day.toNum)) := by
  have iy := toInteger_isInt year hfy
  have im := toInteger_isInt month hfm
  have id := toInteger_isInt day hfd
  have bm' := abs_le.mp bm
  have bY' := abs_le.mp bY
  have e12 : Dbl.fin 12 = Dbl.fin ((12 : Int) : ℚ) := by norm_num
  have ifl := Dbl.floor_div_isInt _ _ 12 50 im (by decide) (by decide)
    (abs_lt.mpr ⟨by omega, by omega⟩) (by decide)
  rw [← e12] at ifl
  have iyr := Dbl.add_isInt _ _ _ _ iy ifl (abs_le.mpr ⟨by omega, by omega⟩)
  have imon := month_normalise_dbl _ _ im
  obtain ⟨dm, hdm, _, _, hmk⟩ := MakeDay_of_normalised year month day _ _ _ _ _ hfy hfm hfd rfl rfl
    iyr imon id bY (by omega) (by omega) bd
  obtain ⟨dm', hdm', _, _, hmf⟩ := makeDayFinite_eq (truncToZero year.toRat)
    (truncToZero month.toRat) (truncToZero day.toRat)
  rw [hdm] at hdm'
  have edm : dm' = dm := (Option.some.inj hdm').symm
  subst edm
  rw [hmk]
  simp only [Dbl.toNum, hfy, hfm, hfd, if_true, MakeDay, hmf, Dbl.ofNum]

theorem Dbl.floor_int (n : Int) : Dbl.floor (Dbl.fin (n : ℚ)) = Dbl.fin (n : ℚ) := by
  simp [Dbl.floor]

/-- The quotient `(12 * 2^52 + 8) / 12.0` rounds up to `2^52 + 1`: the carry into the year
is one more than the floor of the exact quotient. -/
theorem month_carry_rounds :
    Dbl.floor (Dbl.div (Dbl.fin ((54043195528445960 : Int) : ℚ)) (Dbl.fin 12))
      = Dbl.fin ((4503599627370497 : Int) : ℚ) := by
  have hx : roundHalfEven (((54043195528445960 : Int) : ℚ) / 12 / (2 : ℚ) ^ ((52 : Int) - 52))
      = 4503599627370497 := by
    rw [roundHalfEven_of_floor _ 4503599627370496 (by norm_num) (by norm_num)]
    norm_num
  rw [Dbl.div_fin _ _ (by norm_num) (by norm_num),
    Dbl.round_pos _ 52 4503599627370497 (by norm_num) (by norm_num) (by norm_num) (by decide)
      hx (by norm_num) (by norm_num)]
  have e : ((4503599627370497 : Int) : ℚ) * (2 : ℚ) ^ ((52 : Int) - 52)
      = ((4503599627370497 : Int) : ℚ) := by norm_num
  rw [e, Dbl.floor_int]

/-- At `year = -2^52`, `month = 12 * 2^52 + 8` the binary64 `MakeDay` works on the year `1`,
not on the year `year + floor(month / 12) = 0`: the result is the day `-718919 + day`. -/
theorem MakeDay_rounded_carry (d : Int) (hd : |d| ≤ 2 ^ 52) :
    Dbl.MakeDay (Dbl.fin ((-4503599627370496 : Int) : ℚ))
      (Dbl.fin ((54043195528445960 : Int) : ℚ)) (Dbl.fin (d : ℚ))
      = some (Dbl.fin ((-718919 + d - 1 : Int) : ℚ)) := by
  have e12 : Dbl.fin 12 = Dbl.fin ((12 : Int) : ℚ) := by norm_num
  have hyr : Dbl.add (toInteger (Dbl.fin ((-4503599627370496 : Int) : ℚ)))
      (Dbl.floor (Dbl.div (toInteger (Dbl.fin ((54043195528445960 : Int) : ℚ))) (Dbl.fin 12)))
      = Dbl.fin ((1 : Int) : ℚ) := by
    rw [toInteger_intCast, toInteger_intCast, month_carry_rounds,
      Dbl.add_int _ _ (by decide)]
    rfl
  have hf : QV4.fmod 54043195528445960 12 = 8 := by decide
  have hmon : (if (Dbl.fmod (toInteger (Dbl.fin ((54043195528445960 : Int) : ℚ)))
        (Dbl.fin 12)).lt (Dbl.fin 0)
      then Dbl.add (Dbl.fmod (toInteger (Dbl.fin ((54043195528445960 : Int) : ℚ))) (Dbl.fin 12))
        (Dbl.fin 12)
      else Dbl.fmod (toInteger (Dbl.fin ((54043195528445960 : Int) : ℚ))) (Dbl.fin 12))
      = Dbl.fin ((8 : Int) : ℚ) := by
    have e0 : Dbl.fin 0 = Dbl.fin ((0 : Int) : ℚ) := by norm_num
    rw [toInteger_intCast, e12, Dbl.fmod_int _ 12 (by decide), hf, e0]
    simp only [if_neg (show ¬ (8 : Int) = 0 by decide), Dbl.lt_int]
    rfl
  obtain ⟨dm, hdm, _, _, hmk⟩ := MakeDay_of_normalised (Dbl.fin ((-4503599627370496 : Int) : ℚ))
    (Dbl.fin ((54043195528445960 : Int) : ℚ)) (Dbl.fin (d : ℚ)) _ _ 1 8 d rfl rfl rfl hyr hmon
    (Dbl.isInt_fin 1) (Dbl.isInt_fin 8) (by rw [toInteger_intCast]; exact Dbl.isInt_fin d)
    (by decide) (by decide) (by decide) hd
  have h243 : DayFromMonth 8 (DaysInYear 1 - 365) = some 243 := by decide
  rw [h243] at hdm
  have edm : dm = 243 := (Option.some.inj hdm).symm
  subst edm
  rw [hmk]
  have hD : DayFromYear 1 = -719162 := by decide
  rw [hD]
  congr 3

theorem Dbl.DayFromYear_def (y : Dbl) :
    Dbl.DayFromYear y
      = Dbl.add (Dbl.sub (Dbl.add (Dbl.mul (Dbl.fin ((365 : Int) : ℚ))
            (Dbl.sub y (Dbl.fin ((1970 : Int) : ℚ))))
          (Dbl.floor (Dbl.div (Dbl.sub y (Dbl.fin ((1969 : Int) : ℚ)))
            (Dbl.fin ((4 : Int) : ℚ)))))
          (Dbl.floor (Dbl.div (Dbl.sub y (Dbl.fin ((1901 : Int) : ℚ)))
            (Dbl.fin ((100 : Int) : ℚ)))))
          (Dbl.floor (Dbl.div (Dbl.sub y (Dbl.fin ((1601 : Int) : ℚ)))
            (Dbl.fin ((400 : Int) : ℚ)))) := by
  simp only [Dbl.DayFromYear, Int.cast_ofNat]

/-- An odd integer between `2^53` and `2^54` lies midway between two doubles and rounds
to the one with the even significand. -/
theorem Dbl.round_tie (f : Int) (h0 : 4503599627370496 ≤ f) (h1 : f < 9007199254740992) :
    Dbl.round ((2 * f + 1 : Int) : ℚ)
      = Dbl.fin (((if f % 2 = 0 then 2 * f else 2 * f + 2) : Int) : ℚ) := by
  have hfq0 : (4503599627370496 : ℚ) ≤ (f : ℚ) := by exact_mod_cast h0
  have hfq1 : (f : ℚ) + 1 ≤ 9007199254740992 := by
    have : f + 1 ≤ 9007199254740992 := by omega
    exact_mod_cast this
  have hx : roundHalfEven ((((2 * f + 1 : Int)) : ℚ) / (2 : ℚ) ^ ((53 : Int) - 52))
      = if f % 2 = 0 then f else f + 1 := by
    have hq : (((2 * f + 1 : Int)) : ℚ) / (2 : ℚ) ^ ((53 : Int) - 52) = (f : ℚ) + 1 / 2 := by
      push_cast
      norm_num
      ring
    rw [hq, roundHalfEven_of_floor _ f (by linarith) (by linarith)]
    norm_num
  have hR0 : 0 < (if f % 2 = 0 then f else f + 1) := by
    split_ifs <;> omega
  have hRq : (((if f % 2 = 0 then f else f + 1) : Int) : ℚ) ≤ (f : ℚ) + 1 := by
    split_ifs
    · linarith
    · push_cast
      linarith
  rw [Dbl.round_pos _ 53 _ (by push_cast; linarith) (by push_cast; norm_num; linarith)
    (by push_cast; norm_num; linarith) (by decide) hx hR0 ?_]
  · congr 1
    split_ifs <;> · push_cast; norm_num; ring
  · have h2 : (2 : ℚ) ^ ((53 : Int) - 52) = 2 := by norm_num
    rw [h2]
    have h3 : ((f : ℚ) + 1) * 2 < (2 : ℚ) ^ (1024 : Int) := by
      have : ((f : ℚ) + 1) * 2 < 18014398509481986 := by linarith
      refine lt_trans this ?_
      norm_num
    nlinarith

/-- The binary64 `DayFromYear` at the years `30000000000001` and `30000000000002`:
the product `365 * (y - 1970)` and the sums are above `2^53`, where odd integers are
not doubles. -/
theorem DayFromYear_at_3e13 :
    Dbl.DayFromYear (Dbl.fin ((30000000000001 : Int) : ℚ))
      = Dbl.fin ((10957274999280840 : Int) : ℚ) ∧
    Dbl.DayFromYear (Dbl.fin ((30000000000002 : Int) : ℚ))
      = Dbl.fin ((10957274999281204 : Int) : ℚ) := by
  constructor
  · rw [Dbl.DayFromYear_def, Dbl.sub_int _ _ (by decide), Dbl.sub_int _ _ (by decide),
      Dbl.sub_int _ _ (by decide), Dbl.sub_int _ _ (by decide),
      Dbl.floor_div_int _ 4 51 (by decide) (by decide) (by decide) (by decide),
      Dbl.floor_div_int _ 100 47 (by decide) (by decide) (by decide) (by decide),
      Dbl.floor_div_int _ 400 45 (by decide) (by decide) (by decide) (by decide)]
    have a1 : Dbl.mul (Dbl.fin ((365 : Int) : ℚ)) (Dbl.fin ((30000000000001 - 1970 : Int) : ℚ))
        = Dbl.fin ((10949999999281316 : Int) : ℚ) := by
      rw [Dbl.mul_fin _ _ (by norm_num)]
      have e : ((365 : Int) : ℚ) * ((30000000000001 - 1970 : Int) : ℚ)
          = ((2 * 5474999999640657 + 1 : Int) : ℚ) := by norm_num
      rw [e, Dbl.round_tie _ (by decide) (by decide)]
      rfl
    have a2 : Dbl.add (Dbl.fin ((10949999999281316 : Int) : ℚ))
        (Dbl.fin (((30000000000001 - 1969) / 4 : Int) : ℚ))
        = Dbl.fin ((10957499999280824 : Int) : ℚ) := by
      rw [Dbl.add_exact _ _ 5478749999640412 1 (by norm_num) (by decide) (by decide) (by decide)]
      norm_num
    have a3 : Dbl.sub (Dbl.fin ((10957499999280824 : Int) : ℚ))
        (Dbl.fin (((30000000000001 - 1901) / 100 : Int) : ℚ))
        = Dbl.fin ((10957199999280844 : Int) : ℚ) := by
      unfold Dbl.sub
      rw [Dbl.neg_int _ (by decide), Dbl.add_fin _ _ (by norm_num)]
      have e : ((10957499999280824 : Int) : ℚ) + ((-((30000000000001 - 1901) / 100) : Int) : ℚ)
          = ((2 * 5478599999640421 + 1 : Int) : ℚ) := by norm_num
      rw [e, Dbl.round_tie _ (by decide) (by decide)]
      rfl
    have a4 : Dbl.add (Dbl.fin ((10957199999280844 : Int) : ℚ))
        (Dbl.fin (((30000000000001 - 1601) / 400 : Int) : ℚ))
        = Dbl.fin ((10957274999280840 : Int) : ℚ) := by
      rw [Dbl.add_exact _ _ 5478637499640420 1 (by norm_num) (by decide) (by decide) (by decide)]
      norm_num
    rw [a1, a2, a3, a4]
  · rw [Dbl.DayFromYear_def, Dbl.sub_int _ _ (by decide), Dbl.sub_int _ _ (by decide),
      Dbl.sub_int _ _ (by decide), Dbl.sub_int _ _ (by decide),
      Dbl.floor_div_int _ 4 51 (by decide) (by decide) (by decide) (by decide),
      Dbl.floor_div_int _ 100 47 (by decide) (by decide) (by decide) (by decide),
      Dbl.floor_div_int _ 400 45 (by decide) (by decide) (by decide) (by decide)]
    have a1 : Dbl.mul (Dbl.fin ((365 : Int) : ℚ)) (Dbl.fin ((30000000000002 - 1970 : Int) : ℚ))
        = Dbl.fin ((10949999999281680 : Int) : ℚ) := by
      rw [Dbl.mul_exact _ _ 5474999999640840 1 (by norm_num) (by norm_num) (by decide)
        (by decide) (by decide)]
      norm_num
    have a2 : Dbl.add (Dbl.fin ((10949999999281680 : Int) : ℚ))
        (Dbl.fin (((30000000000002 - 1969) / 4 : Int) : ℚ))
        = Dbl.fin ((10957499999281188 : Int) : ℚ) := by
      rw [Dbl.add_exact _ _ 5478749999640594 1 (by norm_num) (by decide) (by decide) (by decide)]
      norm_num
    have a3 : Dbl.sub (Dbl.fin ((10957499999281188 : Int) : ℚ))
        (Dbl.fin (((30000000000002 - 1901) / 100 : Int) : ℚ))
        = Dbl.fin ((10957199999281208 : Int) : ℚ) := by
      unfold Dbl.sub
      rw [Dbl.neg_int _ (by decide), Dbl.add_fin _ _ (by norm_num)]
      have e : ((10957499999281188 : Int) : ℚ) + ((-((30000000000002 - 1901) / 100) : Int) : ℚ)
          = ((2 * 5478599999640603 + 1 : Int) : ℚ) := by norm_num
      rw [e, Dbl.round_tie _ (by decide) (by decide)]
      rfl
    have a4 : Dbl.add (Dbl.fin ((10957199999281208 : Int) : ℚ))
        (Dbl.fin (((30000000000002 - 1601) / 400 : Int) : ℚ))
        = Dbl.fin ((10957274999281204 : Int) : ℚ) := by
      rw [Dbl.add_exact _ _ 5478637499640602 1 (by norm_num) (by decide) (by decide) (by decide)]
      norm_num
    rw [a1, a2, a3, a4]

/-- The binary64 `MakeDay` on integers: the exact result as a double. -/
theorem MakeDay_dbl_int (year month day : Int)
    (hm0 : -9007199254740992 ≤ month) (hm1 : month ≤ 9007199254740992)
    (hlo : -1000000 ≤ year + month / 12) (hhi : year + month / 12 ≤ 1000000)
    (hd0 : -4503599627370496 ≤ day) (hd1 : day ≤ 4503599627370496) :
    Dbl.MakeDay (Dbl.fin (year : ℚ)) (Dbl.fin (month : ℚ)) (Dbl.fin (day : ℚ))
      = some (Dbl.ofNum (MakeDay (some year) (some month) (some day))) := by
  have h := MakeDay_dbl (Dbl.fin (year : ℚ)) (Dbl.fin (month : ℚ)) (Dbl.fin (day : ℚ)) rfl rfl rfl
    (by simp only [Dbl.toRat, truncToZero_intCast]; exact abs_le.mpr ⟨by omega, by omega⟩)
    (by simp only [Dbl.toRat, truncToZero_intCast]; exact abs_le.mpr ⟨by omega, by omega⟩)
    (by simp only [Dbl.toRat, truncToZero_intCast]; exact abs_le.mpr ⟨by omega, by omega⟩)
  rw [h, Dbl.toNum_int, Dbl.toNum_int, Dbl.toNum_int]

/-- Year, month and date in binary64 at the start of a day, up to `5 * 10^8` days from the
epoch: the exact ones. -/
theorem fields_dbl_of_day (d : Int) (h0 : -500000000 ≤ d) (h1 : d ≤ 500000000) :
    Dbl.YearFromTime (Dbl.fin ((d * msPerDay : Int) : ℚ))
      = some (Dbl.fin ((YearFromTime (d * msPerDay) : Int) : ℚ)) ∧
    Dbl.MonthFromTime (Dbl.fin ((d * msPerDay : Int) : ℚ))
      = some (Dbl.ofNum (MonthFromTime (d * msPerDay))) ∧
    Dbl.DateFromTime (Dbl.fin ((d * msPerDay : Int) : ℚ))
      = some (Dbl.ofNum (DateFromTime (d * msPerDay))) := by
  have e : d * msPerDay = 43200000 * (2 * d) := by
    unfold msPerDay
    ring
  have hc : |2 * d| ≤ 1000000000 := abs_le.mpr ⟨by omega, by omega⟩
  rw [e]
  exact ⟨YearFromTime_dbl _ hc, MonthFromTime_dbl _ hc, DateFromTime_dbl _ hc⟩

/-- Without a leap-year test of the normalised year `MakeDay` has no result. -/
theorem MakeDay_undefined (year month day yr : Dbl)
    (hfy : year.isFinite = true) (hfm : month.isFinite = true) (hfd : day.isFinite = true)
    (hyr : Dbl.add (toInteger year) (Dbl.floor (Dbl.div (toInteger month) (Dbl.fin 12))) = yr)
    (hleap : Dbl.InLeapYear (Dbl.mul (Dbl.add (Dbl.DayFromYear yr) (Dbl.fin 60))
      (Dbl.fin ((msPerDay : Int) : ℚ))) = none) :
    Dbl.MakeDay year month day = none := by
  unfold Dbl.MakeDay
  simp only [hfy, hfm, hfd, Bool.not_true, Bool.or_self, Bool.false_eq_true, if_false, hyr, hleap]

/-- At the year `2200000000` the year estimate of `YearFromTime` is `2199998030`, outside
the range of `int`: the conversion has no defined result, and neither has
`MakeDay(2200000000, 0, 1)`. -/
theorem MakeDay_year_2200000000 :
    Dbl.MakeDay (Dbl.fin ((2200000000 : Int) : ℚ)) (Dbl.fin ((0 : Int) : ℚ))
      (Dbl.fin ((1 : Int) : ℚ)) = none := by
  have e12 : Dbl.fin 12 = Dbl.fin ((12 : Int) : ℚ) := by norm_num
  have e60 : Dbl.fin 60 = Dbl.fin ((60 : Int) : ℚ) := by norm_num
  have hyr : Dbl.add (toInteger (Dbl.fin ((2200000000 : Int) : ℚ)))
      (Dbl.floor (Dbl.div (toInteger (Dbl.fin ((0 : Int) : ℚ))) (Dbl.fin 12)))
      = Dbl.fin ((2200000000 : Int) : ℚ) := by
    rw [toInteger_intCast, toInteger_intCast, e12,
      Dbl.floor_div_int 0 12 50 (by decide) (by decide) (by decide) (by decide),
      Dbl.add_int _ _ (by decide)]
    rfl
  have hD : DayFromYear 2200000000 = 803532780472 := by decide
  have ht : Dbl.mul (Dbl.add (Dbl.DayFromYear (Dbl.fin ((2200000000 : Int) : ℚ))) (Dbl.fin 60))
      (Dbl.fin ((msPerDay : Int) : ℚ)) = Dbl.fin 69425232237964804096 := by
    rw [DayFromYear_dbl _ (by decide), hD, e60, Dbl.add_int _ _ (by decide),
      Dbl.mul_fin _ _ (by unfold msPerDay; norm_num)]
    have hx : roundHalfEven ((((803532780472 + 60 : Int)) : ℚ) * ((msPerDay : Int) : ℚ)
        / (2 : ℚ) ^ ((65 : Int) - 52)) = 8474759794673438 := by
      rw [roundHalfEven_of_floor _ 8474759794673437 (by unfold msPerDay; norm_num)
        (by unfold msPerDay; norm_num)]
      unfold msPerDay
      norm_num
    rw [Dbl.round_pos _ 65 8474759794673438 (by unfold msPerDay; norm_num)
      (by unfold msPerDay; norm_num) (by unfold msPerDay; norm_num) (by decide) hx
      (by norm_num) (by norm_num)]
    norm_num
  have hq : Dbl.floor (Dbl.div (Dbl.fin 69425232237964804096)
      (Dbl.fin ((msPerMeanYear : Int) : ℚ))) = Dbl.fin ((2199998030 : Int) : ℚ) := by
    have hx : roundHalfEven ((69425232237964804096 : ℚ) / ((msPerMeanYear : Int) : ℚ)
        / (2 : ℚ) ^ ((31 : Int) - 52)) = 4613730268953490 := by
      rw [roundHalfEven_of_floor _ 4613730268953489 (by unfold msPerMeanYear; norm_num)
        (by unfold msPerMeanYear; norm_num)]
      unfold msPerMeanYear
      norm_num
    rw [Dbl.div_fin _ _ (by norm_num) (by unfold msPerMeanYear; norm_num),
      Dbl.round_pos _ 31 4613730268953490 (by unfold msPerMeanYear; norm_num)
        (by unfold msPerMeanYear; norm_num) (by unfold msPerMeanYear; norm_num) (by decide) hx
        (by norm_num) (by norm_num)]
    have hf : ⌊((4613730268953490 : Int) : ℚ) * (2 : ℚ) ^ ((31 : Int) - 52)⌋ = 2199998030 := by
      rw [Int.floor_eq_iff]
      norm_num
    simp only [Dbl.floor, hf]
  have hY : Dbl.YearFromTime (Dbl.fin 69425232237964804096) = none := by
    rw [Dbl.YearFromTime_def _ _ meanYear_eq, hq]
    have hi : Dbl.toInt (Dbl.fin ((2199998030 : Int) : ℚ)) = none := by
      show Dbl.checkInt (truncToZero ((2199998030 : Int) : ℚ)) = none
      rw [truncToZero_intCast]
      rfl
    rw [hi]
  refine MakeDay_undefined _ _ _ _ rfl rfl rfl hyr ?_
  rw [ht, Dbl.InLeapYear_def, hY]

/-! ## Calendar round trip, years and leap years -/

/-- C1: for every integer timestamp `t` with `|t| ≤ 8.64e15`,
`MakeDate(MakeDay(YearFromTime(t), MonthFromTime(t), DateFromTime(t)), TimeWithinDay(t))`
is `t` exactly. -/
theorem makeDate_roundtrip (t : Int) (_hlo : -MaxDateVal ≤ t) (_hhi : t ≤ MaxDateVal) :
    MakeDate (MakeDay (some (YearFromTime t)) (MonthFromTime t) (DateFromTime t))
      (some (TimeWithinDay t)) = some t :=
  MakeDate_fields t

theorem makeDate_roundtrip_witness :
    MakeDate (MakeDay (some (YearFromTime 1678000089123)) (MonthFromTime 1678000089123)
      (DateFromTime 1678000089123)) (some (TimeWithinDay 1678000089123))
      = some 1678000089123 :=
  makeDate_roundtrip 1678000089123 (by decide) (by decide)

/-- C2: for every integer timestamp `t` with `|t| ≤ 8.64e15` the first
estimate `1970 + floor(t / (86400000 * 365.2425))` (which fits an `int`) is
within one of the year, and `YearFromTime(t)` is the unique `y` with
`TimeFromYear(y) ≤ t < TimeFromYear(y + 1)`. -/
theorem YearFromTime_correct (t : Int) (hlo : -MaxDateVal ≤ t) (hhi : t ≤ MaxDateVal) :
    (TimeFromYear (YearFromTime t) ≤ t ∧ t < TimeFromYear (YearFromTime t + 1)) ∧
    (∀ y : Int, TimeFromYear y ≤ t ∧ t < TimeFromYear (y + 1) → y = YearFromTime t) ∧
    (yearEstimate t - YearFromTime t ≤ 1 ∧ YearFromTime t - yearEstimate t ≤ 1) ∧
    (-2147483648 ≤ yearEstimate t ∧ yearEstimate t ≤ 2147483647) := by
  have hb := YearFromTime_bounds t
  have hn := yearEstimate_near t
  refine ⟨hb, ?_, ⟨by omega, by omega⟩, ?_⟩
  · intro y hy
    exact year_unique hy.1 hy.2 hb.1 hb.2
  · unfold yearEstimate msPerMeanYear
    unfold MaxDateVal at hlo hhi
    omega

theorem YearFromTime_correct_witness :
    (TimeFromYear (YearFromTime (-1)) ≤ -1 ∧ -1 < TimeFromYear (YearFromTime (-1) + 1)) ∧
    (∀ y : Int, TimeFromYear y ≤ -1 ∧ -1 < TimeFromYear (y + 1) → y = YearFromTime (-1)) ∧
    (yearEstimate (-1) - YearFromTime (-1) ≤ 1 ∧ YearFromTime (-1) - yearEstimate (-1) ≤ 1) ∧
    (-2147483648 ≤ yearEstimate (-1) ∧ yearEstimate (-1) ≤ 2147483647) :=
  YearFromTime_correct (-1) (by decide) (by decide)

/-- C3: for all integers `year` and `month` with `month` of magnitude at most `2^53` and
the normalised year `year + floor(month / 12)` of magnitude at most 1,000,000, the
binary64 `MakeDay(year, month, 1)` is a day number `d`, not NaN, the one of the
`MakeDay` over the integers, and at the instant `t = d * 86400000` the year is
`year + floor(month / 12)`, the month is `month mod 12` (non-negative) and the date
is `1`, in binary64 and over the integers. -/
theorem MakeDay_first_of_month (year month : Int)
    (hm0 : -9007199254740992 ≤ month) (hm1 : month ≤ 9007199254740992)
    (hlo : -1000000 ≤ year + month / 12) (hhi : year + month / 12 ≤ 1000000) :
    ∃ d : Int,
      Dbl.MakeDay (Dbl.fin (year : ℚ)) (Dbl.fin (month : ℚ)) (Dbl.fin ((1 : Int) : ℚ))
        = some (Dbl.fin (d : ℚ)) ∧
      MakeDay (some year) (some month) (some 1) = some d ∧
      Dbl.YearFromTime (Dbl.fin ((d * msPerDay : Int) : ℚ))
        = some (Dbl.fin ((year + month / 12 : Int) : ℚ)) ∧
      Dbl.MonthFromTime (Dbl.fin ((d * msPerDay : Int) : ℚ))
        = some (Dbl.fin ((month % 12 : Int) : ℚ)) ∧
      Dbl.DateFromTime (Dbl.fin ((d * msPerDay : Int) : ℚ)) = some (Dbl.fin ((1 : Int) : ℚ)) ∧
      YearFromTime (d * msPerDay) = year + month / 12 ∧
      MonthFromTime (d * msPerDay) = some (month % 12) ∧
      DateFromTime (d * msPerDay) = some 1 := by
  obtain ⟨dm, hdm, hdm0, hdm1, hmk⟩ := makeDayFinite_eq year month 1
  obtain ⟨dm', hdm', _, _, hy, hmo, hda⟩ := fields_of_month_start (year + month / 12)
    (month % 12) 0 (by omega) (by omega) (by decide) (by decide)
  rw [hdm] at hdm'
  have e : dm' = dm := (Option.some.inj hdm').symm
  subst e
  have hdiy := DaysInYear_cases (year + month / 12)
  have hD : -400000000 ≤ DayFromYear (year + month / 12) ∧
      DayFromYear (year + month / 12) ≤ 400000000 := by
    unfold DayFromYear
    omega
  have hI : MakeDay (some year) (some month) (some 1)
      = some (DayFromYear (year + month / 12) + dm') := by
    simp only [MakeDay, hmk]
    congr 1
    omega
  have hf := fields_dbl_of_day (DayFromYear (year + month / 12) + dm') (by omega) (by omega)
  have hy' : YearFromTime ((DayFromYear (year + month / 12) + dm') * msPerDay)
      = year + month / 12 := by simpa using hy
  have hmo' : MonthFromTime ((DayFromYear (year + month / 12) + dm') * msPerDay)
      = some (month % 12) := by simpa using hmo
  have hda' : DateFromTime ((DayFromYear (year + month / 12) + dm') * msPerDay)
      = some 1 := by simpa using hda
  refine ⟨DayFromYear (year + month / 12) + dm', ?_, hI, ?_, ?_, ?_, hy', hmo', hda'⟩
  · rw [MakeDay_dbl_int year month 1 hm0 hm1 hlo hhi (by decide) (by decide), hI]
    rfl
  · rw [hf.1, hy']
  · rw [hf.2.1, hmo']
    rfl
  · rw [hf.2.2, hda']
    rfl

theorem MakeDay_first_of_month_witness :
    ∃ d : Int,
      Dbl.MakeDay (Dbl.fin ((2023 : Int) : ℚ)) (Dbl.fin ((14 : Int) : ℚ)) (Dbl.fin ((1 : Int) : ℚ))
        = some (Dbl.fin (d : ℚ)) ∧
      MakeDay (some 2023) (some 14) (some 1) = some d ∧
      Dbl.YearFromTime (Dbl.fin ((d * msPerDay : Int) : ℚ))
        = some (Dbl.fin ((2023 + 14 / 12 : Int) : ℚ)) ∧
      Dbl.MonthFromTime (Dbl.fin ((d * msPerDay : Int) : ℚ))
        = some (Dbl.fin ((14 % 12 : Int) : ℚ)) ∧
      Dbl.DateFromTime (Dbl.fin ((d * msPerDay : Int) : ℚ)) = some (Dbl.fin ((1 : Int) : ℚ)) ∧
      YearFromTime (d * msPerDay) = 2023 + 14 / 12 ∧
      MonthFromTime (d * msPerDay) = some (14 % 12) ∧
      DateFromTime (d * msPerDay) = some 1 :=
  MakeDay_first_of_month 2023 14 (by decide) (by decide) (by decide) (by decide)

/-- At `year = -2^52` and `month = 12 * 2^52 + 8`, both of them doubles, the normalised
year `year + floor(month / 12)` is `0`, yet the binary64 quotient `month / 12.0` rounds
up to `2^52 + 1`: `MakeDay(year, month, 1)` is the day `-718919`, the first of
September of the year `1`, and the year at that instant is `1`, not `0`. -/
theorem MakeDay_month_rounds :
    Dbl.round ((-4503599627370496 : Int) : ℚ) = Dbl.fin ((-4503599627370496 : Int) : ℚ) ∧
    Dbl.round ((54043195528445960 : Int) : ℚ) = Dbl.fin ((54043195528445960 : Int) : ℚ) ∧
    (-4503599627370496 : Int) + 54043195528445960 / 12 = 0 ∧
    Dbl.MakeDay (Dbl.fin ((-4503599627370496 : Int) : ℚ))
        (Dbl.fin ((54043195528445960 : Int) : ℚ)) (Dbl.fin ((1 : Int) : ℚ))
      = some (Dbl.fin ((-718919 : Int) : ℚ)) ∧
    Dbl.YearFromTime (Dbl.fin ((-718919 * msPerDay : Int) : ℚ))
      = some (Dbl.fin ((1 : Int) : ℚ)) ∧
    Dbl.YearFromTime (Dbl.fin ((-718919 * msPerDay : Int) : ℚ))
      ≠ some (Dbl.fin (((-4503599627370496 : Int) + 54043195528445960 / 12 : Int) : ℚ)) ∧
    YearFromTime (-718919 * msPerDay) = 1 ∧
    MakeDay (some (-4503599627370496)) (some 54043195528445960) (some 1)
      = some (-719284) := by
  have hy : YearFromTime (-718919 * msPerDay) = 1 := by decide
  have hY : Dbl.YearFromTime (Dbl.fin ((-718919 * msPerDay : Int) : ℚ))
      = some (Dbl.fin ((1 : Int) : ℚ)) := by
    rw [(fields_dbl_of_day (-718919) (by decide) (by decide)).1, hy]
  refine ⟨Dbl.round_int _ (by decide) (by decide), ?_, by decide, ?_, hY, ?_, hy, by decide⟩
  · have h := Dbl.round_shift 6755399441055745 3 (by decide) (by decide) (by decide) (by decide)
    have e : ((6755399441055745 : Int) : ℚ) * (2 : ℚ) ^ (3 : Int)
        = ((54043195528445960 : Int) : ℚ) := by norm_num
    rw [e] at h
    exact h
  · exact MakeDay_rounded_carry 1 (by decide)
  · rw [hY]
    intro hc
    have h1 := Dbl.fin.inj (Option.some.inj hc)
    have h2 : (-4503599627370496 : Int) + 54043195528445960 / 12 = 0 := by decide
    rw [h2] at h1
    norm_num at h1

/-- C4: for every integer year `y`, `DaysInYear(y)` is 366 exactly when `y` is
divisible by 400, or by 4 and not by 100, and 365 otherwise; `DaysInYear(2000) = 366`,
`DaysInYear(1900) = 365`, `DaysInYear(2024) = 366`, `DaysInYear(2023) = 365`. -/
theorem DaysInYear_gregorian (y : Int) :
    (DaysInYear y = if 400 ∣ y ∨ (4 ∣ y ∧ ¬ 100 ∣ y) then 366 else 365) ∧
    DaysInYear 2000 = 366 ∧ DaysInYear 1900 = 365 ∧
    DaysInYear 2024 = 366 ∧ DaysInYear 2023 = 365 := by
  refine ⟨?_, by decide, by decide, by decide, by decide⟩
  rw [DaysInYear_eq]
  simp only [Int.dvd_iff_emod_eq_zero, ne_eq]


/-! ## Storage round trip and TimeClip -/

/-- C7: for every integer timestamp `t` with `|t| ≤ MaxDateVal`,
`decode(encode(t)) = t`, where `encode(t) = (int64)t + MaxDateVal + Extra` and
`decode` reverses that arithmetic; and `decode(encode(NaN))` is NaN.  The
constants are such that the sum does not wrap and the sentinel lies outside
the encoded values. -/
theorem decode_encode_roundtrip (c : StorageConsts) (t : Int)
    (hw : (c.Extra : Int) + 2 * MaxDateVal < 2 ^ 64)
    (hs : c.InvalidDateVal < c.Extra ∨ (c.Extra : Int) + 2 * MaxDateVal < c.InvalidDateVal)
    (hlo : -MaxDateVal ≤ t) (hhi : t ≤ MaxDateVal) :
    ((encode c (Dbl.fin (t : ℚ)) : Nat) : Int) = t + MaxDateVal + c.Extra ∧
    decode c (encode c (Dbl.fin (t : ℚ))) = Dbl.fin (t : ℚ) ∧
    decode c (encode c Dbl.nan) = Dbl.nan := by
  have hq : |(t : ℚ)| ≤ (MaxDateVal : Int) := by
    rw [abs_le]
    constructor
    · have : ((-MaxDateVal : Int) : ℚ) ≤ (t : ℚ) := by exact_mod_cast hlo
      simpa using this
    · exact_mod_cast hhi
  obtain ⟨_, _, he⟩ := encode_fin c (t : ℚ) hq hw
  have hv : (Dbl.fin (t : ℚ)).toQint64 = t := by simp [Dbl.toQint64]
  rw [hv] at he
  refine ⟨he, ?_, ?_⟩
  · unfold decode
    have hne : encode c (Dbl.fin (t : ℚ)) ≠ c.InvalidDateVal := by
      intro h
      rw [h] at he
      unfold MaxDateVal at *
      omega
    rw [if_neg hne, he]
    congr 1
    push_cast
    ring
  · simp [encode, decode, Dbl.isNaN]

theorem decode_encode_roundtrip_witness :
    ((encode ⟨0, 1⟩ (Dbl.fin ((-8640000000000000 : Int) : ℚ)) : Nat) : Int)
      = -8640000000000000 + MaxDateVal + (1 : Nat) ∧
    decode ⟨0, 1⟩ (encode ⟨0, 1⟩ (Dbl.fin ((-8640000000000000 : Int) : ℚ)))
      = Dbl.fin ((-8640000000000000 : Int) : ℚ) ∧
    decode ⟨0, 1⟩ (encode ⟨0, 1⟩ Dbl.nan) = Dbl.nan :=
  decode_encode_roundtrip ⟨0, 1⟩ (-8640000000000000) (by decide) (by decide) (by decide)
    (by decide)

/-- C8: `encode` sends NaN, the infinities and every value of magnitude above
`MaxDateVal` to the one sentinel `InvalidDateVal`, and every value `x` with
`|x| ≤ MaxDateVal`, `-MaxDateVal` among them, to a value different from the
sentinel.  The constants are such that the sum does not wrap and the
sentinel lies outside the encoded values. -/
theorem encode_sentinel (c : StorageConsts)
    (hw : (c.Extra : Int) + 2 * MaxDateVal < 2 ^ 64)
    (hs : c.InvalidDateVal < c.Extra ∨ (c.Extra : Int) + 2 * MaxDateVal < c.InvalidDateVal) :
    encode c Dbl.nan = c.InvalidDateVal ∧
    encode c Dbl.posInf = c.InvalidDateVal ∧
    encode c Dbl.negInf = c.InvalidDateVal ∧
    (∀ q : ℚ, |q| > (MaxDateVal : Int) → encode c (Dbl.fin q) = c.InvalidDateVal) ∧
    (∀ q : ℚ, |q| ≤ (MaxDateVal : Int) → encode c (Dbl.fin q) ≠ c.InvalidDateVal) ∧
    encode c Dbl.negZero ≠ c.InvalidDateVal ∧
    encode c (Dbl.fin ((-MaxDateVal : Int) : ℚ)) ≠ c.InvalidDateVal := by
  have hfin : ∀ q : ℚ, |q| ≤ (MaxDateVal : Int) → encode c (Dbl.fin q) ≠ c.InvalidDateVal := by
    intro q hq h
    obtain ⟨h1, h2, he⟩ := encode_fin c q hq hw
    rw [h] at he
    unfold MaxDateVal at *
    omega
  refine ⟨by simp [encode, Dbl.isNaN], by simp [encode, Dbl.isNaN, Dbl.fabs, Dbl.gt],
    by simp [encode, Dbl.isNaN, Dbl.fabs, Dbl.gt], ?_, hfin, ?_, ?_⟩
  · intro q hq
    unfold encode
    rw [fabs_gt_fin]
    simp [hq]
  · have h0 := hfin 0 (by rw [MaxDateVal_cast]; norm_num)
    have e : encode c Dbl.negZero = encode c (Dbl.fin 0) := by
      simp [encode, Dbl.isNaN, Dbl.fabs, Dbl.gt, Dbl.toQint64]
    rw [e]
    exact h0
  · apply hfin
    rw [MaxDateVal_cast]
    unfold MaxDateVal
    norm_num

theorem encode_sentinel_witness :
    encode ⟨0, 1⟩ Dbl.nan = 0 ∧
    encode ⟨0, 1⟩ Dbl.posInf = 0 ∧
    encode ⟨0, 1⟩ Dbl.negInf = 0 ∧
    (∀ q : ℚ, |q| > (MaxDateVal : Int) → encode ⟨0, 1⟩ (Dbl.fin q) = 0) ∧
    (∀ q : ℚ, |q| ≤ (MaxDateVal : Int) → encode ⟨0, 1⟩ (Dbl.fin q) ≠ 0) ∧
    encode ⟨0, 1⟩ Dbl.negZero ≠ 0 ∧
    encode ⟨0, 1⟩ (Dbl.fin ((-MaxDateVal : Int) : ℚ)) ≠ 0 :=
  encode_sentinel ⟨0, 1⟩ (by decide) (by decide)

/-- C9: storing applies TimeClip: for every double `x` (fractional, negative,
out of range, infinite, NaN or a zero of either sign) `decode(encode(x))` is
`TimeClip(x)`, so a stored timestamp is NaN or an integer of magnitude at most
`MaxDateVal`.  The constants are such that the sum does not wrap and the
sentinel lies outside the encoded values. -/
theorem decode_encode_eq_TimeClip (c : StorageConsts)
    (hw : (c.Extra : Int) + 2 * MaxDateVal < 2 ^ 64)
    (hs : c.InvalidDateVal < c.Extra ∨ (c.Extra : Int) + 2 * MaxDateVal < c.InvalidDateVal) :
    (∀ x : Dbl, decode c (encode c x) = TimeClip x) ∧
    (∀ x : Dbl, decode c (encode c x) = Dbl.nan ∨
      ∃ n : Int, -MaxDateVal ≤ n ∧ n ≤ MaxDateVal ∧ decode c (encode c x) = Dbl.fin (n : ℚ)) := by
  have hfin : ∀ q : ℚ, |q| ≤ (MaxDateVal : Int) →
      decode c (encode c (Dbl.fin q)) = Dbl.fin (((Dbl.fin q).toQint64 : Int) : ℚ) ∧
      -MaxDateVal ≤ (Dbl.fin q).toQint64 ∧ (Dbl.fin q).toQint64 ≤ MaxDateVal := by
    intro q hq
    obtain ⟨h1, h2, he⟩ := encode_fin c q hq hw
    refine ⟨?_, h1, h2⟩
    unfold decode
    have hne : encode c (Dbl.fin q) ≠ c.InvalidDateVal := by
      intro h
      rw [h] at he
      unfold MaxDateVal at *
      omega
    rw [if_neg hne, he]
    congr 1
    push_cast
    ring
  have hbig : ∀ q : ℚ, ¬ |q| ≤ (MaxDateVal : Int) →
      decode c (encode c (Dbl.fin q)) = Dbl.nan ∧ TimeClip (Dbl.fin q) = Dbl.nan := by
    intro q hq
    have hq' : |q| > ((MaxDateVal : Int) : ℚ) := not_le.mp hq
    constructor
    · unfold encode decode
      rw [fabs_gt_fin]
      simp [hq']
    · unfold TimeClip
      rw [fabs_gt_fin]
      simp [hq']
  have hzero : encode c Dbl.negZero = encode c (Dbl.fin 0) := by
    simp [encode, Dbl.isNaN, Dbl.fabs, Dbl.gt, Dbl.toQint64]
  have h0 : |(0 : ℚ)| ≤ (MaxDateVal : Int) := by
    rw [MaxDateVal_cast]
    norm_num
  constructor
  · intro x
    cases x with
    | nan => simp [encode, decode, TimeClip, Dbl.isNaN, Dbl.isFinite]
    | posInf => simp [encode, decode, TimeClip, Dbl.isNaN, Dbl.isFinite, Dbl.fabs, Dbl.gt]
    | negInf => simp [encode, decode, TimeClip, Dbl.isNaN, Dbl.isFinite, Dbl.fabs, Dbl.gt]
    | negZero =>
      rw [hzero, (hfin 0 h0).1]
      simp [TimeClip, Dbl.isFinite, Dbl.fabs, Dbl.gt, toInteger, Dbl.addZero, Dbl.toQint64,
        MaxDateVal]
      norm_num
    | fin q =>
      by_cases hq : |q| ≤ (MaxDateVal : Int)
      · rw [(hfin q hq).1, TimeClip_fin q hq]
      · rw [(hbig q hq).1, (hbig q hq).2]
  · intro x
    cases x with
    | nan => left; simp [encode, decode, Dbl.isNaN]
    | posInf => left; simp [encode, decode, Dbl.isNaN, Dbl.fabs, Dbl.gt]
    | negInf => left; simp [encode, decode, Dbl.isNaN, Dbl.fabs, Dbl.gt]
    | negZero =>
      right
      rw [hzero]
      exact ⟨_, (hfin 0 h0).2.1, (hfin 0 h0).2.2, (hfin 0 h0).1⟩
    | fin q =>
      by_cases hq : |q| ≤ (MaxDateVal : Int)
      · right
        exact ⟨_, (hfin q hq).2.1, (hfin q hq).2.2, (hfin q hq).1⟩
      · left
        exact (hbig q hq).1

theorem decode_encode_eq_TimeClip_witness :
    (∀ x : Dbl, decode ⟨0, 1⟩ (encode ⟨0, 1⟩ x) = TimeClip x) ∧
    (∀ x : Dbl, decode ⟨0, 1⟩ (encode ⟨0, 1⟩ x) = Dbl.nan ∨
      ∃ n : Int, -MaxDateVal ≤ n ∧ n ≤ MaxDateVal ∧
        decode ⟨0, 1⟩ (encode ⟨0, 1⟩ x) = Dbl.fin (n : ℚ)) :=
  decode_encode_eq_TimeClip ⟨0, 1⟩ (by decide) (by decide)

/-- C10: `TimeClip(t)` is NaN when `t` is NaN, infinite or of magnitude above
`MaxDateVal`; for every other `t` it is `t` truncated toward zero to an
integer `n` (between `0` and `t`, less than one away from `t`), and the
result is never negative zero. -/
theorem TimeClip_spec :
    TimeClip Dbl.nan = Dbl.nan ∧ TimeClip Dbl.posInf = Dbl.nan ∧
    TimeClip Dbl.negInf = Dbl.nan ∧
    (∀ q : ℚ, |q| > (MaxDateVal : Int) → TimeClip (Dbl.fin q) = Dbl.nan) ∧
    (∀ q : ℚ, |q| ≤ (MaxDateVal : Int) → ∃ n : Int, TimeClip (Dbl.fin q) = Dbl.fin (n : ℚ) ∧
      (0 ≤ q → 0 ≤ n ∧ (n : ℚ) ≤ q ∧ q < n + 1) ∧
      (q ≤ 0 → n ≤ 0 ∧ q ≤ (n : ℚ) ∧ (n : ℚ) - 1 < q)) ∧
    TimeClip Dbl.negZero = Dbl.fin 0 ∧
    (∀ x : Dbl, TimeClip x ≠ Dbl.negZero) := by
  have hfin : ∀ q : ℚ, |q| ≤ (MaxDateVal : Int) → ∃ n : Int,
      TimeClip (Dbl.fin q) = Dbl.fin (n : ℚ) ∧
      (0 ≤ q → 0 ≤ n ∧ (n : ℚ) ≤ q ∧ q < n + 1) ∧
      (q ≤ 0 → n ≤ 0 ∧ q ≤ (n : ℚ) ∧ (n : ℚ) - 1 < q) := by
    intro q hq
    refine ⟨(Dbl.fin q).toQint64, TimeClip_fin q hq, ?_, ?_⟩
    · intro h
      simp only [Dbl.toQint64, h, if_true]
      exact ⟨Int.floor_nonneg.mpr h, Int.floor_le q, Int.lt_floor_add_one q⟩
    · intro h
      rcases eq_or_lt_of_le h with h0 | hneg
      · subst h0
        simp [Dbl.toQint64]
      · have hn : ¬ (0 ≤ q) := not_le.mpr hneg
        simp only [Dbl.toQint64, hn, if_false]
        refine ⟨Int.ceil_le.mpr (by exact_mod_cast h), Int.le_ceil q, ?_⟩
        have := Int.ceil_lt_add_one q
        linarith
  have hbig : ∀ q : ℚ, |q| > (MaxDateVal : Int) → TimeClip (Dbl.fin q) = Dbl.nan := by
    intro q hq
    unfold TimeClip
    rw [fabs_gt_fin]
    simp [hq]
  have hz : TimeClip Dbl.negZero = Dbl.fin 0 := by
    simp [TimeClip, Dbl.isFinite, Dbl.fabs, Dbl.gt, toInteger, Dbl.addZero, MaxDateVal]
  refine ⟨by simp [TimeClip, Dbl.isFinite], by simp [TimeClip, Dbl.isFinite],
    by simp [TimeClip, Dbl.isFinite], hbig, hfin, hz, ?_⟩
  intro x
  cases x with
  | nan => simp [TimeClip, Dbl.isFinite]
  | posInf => simp [TimeClip, Dbl.isFinite]
  | negInf => simp [TimeClip, Dbl.isFinite]
  | negZero => rw [hz]; simp
  | fin q =>
    by_cases hq : |q| ≤ (MaxDateVal : Int)
    · obtain ⟨n, hn, _⟩ := hfin q hq
      rw [hn]
      simp
    · rw [hbig q (not_le.mp hq)]
      simp


/-! ## The ISO string -/

/-- C5: for every valid integer timestamp `t` (`|t| ≤ 8.64e15`) and every
`localTZA`, the ISO formatter returns a string, parsing that string returns
`t`, and so the timestamp parsed from it formats to the identical string; in
particular for `"2023-03-05T07:08:09.123Z"`. -/
theorem parse_toISOString_roundtrip (host : Host) (localTZA t : Int)
    (hlo : -MaxDateVal ≤ t) (hhi : t ≤ MaxDateVal) :
    (∃ str : QString, method_toISOString (some t) = Except.ok str ∧
      ParseString host str localTZA = Dbl.fin (t : ℚ) ∧
      ∀ t' : Option Int, ParseString host str localTZA = Dbl.ofNum t' →
        method_toISOString t' = Except.ok str) ∧
    ParseString host (qstr "2023-03-05T07:08:09.123Z") localTZA
      = Dbl.fin ((1678000089123 : Int) : ℚ) ∧
    method_toISOString (some 1678000089123) = Except.ok (qstr "2023-03-05T07:08:09.123Z") := by
  obtain ⟨m, d, _, _, _, _, _, _, hiso⟩ := toISOString_eq t hlo hhi
  have hp := ParseString_isoFormat host localTZA t hlo hhi _ hiso
  refine ⟨⟨_, hiso, hp, ?_⟩, ?_, by rfl⟩
  · intro t' ht'
    rw [hp] at ht'
    cases t' with
    | none => simp [Dbl.ofNum] at ht'
    | some n =>
      simp only [Dbl.ofNum, Dbl.fin.injEq, Int.cast_inj] at ht'
      rw [← ht']
      exact hiso
  · exact ParseString_isoFormat host localTZA 1678000089123 (by decide) (by decide) _ (by rfl)

theorem parse_toISOString_roundtrip_witness :
    (∃ str : QString, method_toISOString (some (-62198755200001)) = Except.ok str ∧
      ParseString ⟨fun _ => 3600, fun _ => none⟩ str 3600000
        = Dbl.fin ((-62198755200001 : Int) : ℚ) ∧
      ∀ t' : Option Int, ParseString ⟨fun _ => 3600, fun _ => none⟩ str 3600000
          = Dbl.ofNum t' →
        method_toISOString t' = Except.ok str) ∧
    ParseString ⟨fun _ => 3600, fun _ => none⟩ (qstr "2023-03-05T07:08:09.123Z") 3600000
      = Dbl.fin ((1678000089123 : Int) : ℚ) ∧
    method_toISOString (some 1678000089123) = Except.ok (qstr "2023-03-05T07:08:09.123Z") :=
  parse_toISOString_roundtrip ⟨fun _ => 3600, fun _ => none⟩ 3600000 (-62198755200001)
    (by decide) (by decide)

/-- C6: for every valid integer timestamp `t`, `toISOString` yields the year
(4 zero-padded digits when `0 ≤ year ≤ 9999`, otherwise a sign and 6
zero-padded digits of `|year|`), `'-'`, the 2-digit month + 1, `'-'`, the
2-digit day, `'T'`, 2-digit hour, `':'`, 2-digit minute, `':'`, 2-digit second,
`'.'`, 3-digit millisecond and `'Z'`, of the UTC fields of `t`, every field
fitting its width; for `t = 1678000089123` it is `"2023-03-05T07:08:09.123Z"`. -/
theorem toISOString_format (t : Int) (hlo : -MaxDateVal ≤ t) (hhi : t ≤ MaxDateVal) :
    (∃ m d : Int, MonthFromTime t = some m ∧ DateFromTime t = some d ∧
      method_toISOString (some t) = Except.ok (isoFormat (YearFromTime t) m d
        (HourFromTime t) (MinFromTime t) (SecFromTime t) (msFromTime t)) ∧
      (YearFromTime t).natAbs < 1000000 ∧ 0 ≤ m ∧ m + 1 < 100 ∧ 0 ≤ d ∧ d < 100 ∧
      0 ≤ HourFromTime t ∧ HourFromTime t < 100 ∧ 0 ≤ MinFromTime t ∧ MinFromTime t < 100 ∧
      0 ≤ SecFromTime t ∧ SecFromTime t < 100 ∧ 0 ≤ msFromTime t ∧ msFromTime t < 1000) ∧
    method_toISOString (some 1678000089123) = Except.ok (qstr "2023-03-05T07:08:09.123Z") := by
  obtain ⟨m, d, hm, hd, hm0, hm1, hd0, hd1, h⟩ := toISOString_eq t hlo hhi
  have hy := YearFromTime_range t hlo hhi
  have hh := HourFromTime_eq t
  have hmi := MinFromTime_eq t
  have hs := SecFromTime_eq t
  have hms := msFromTime_eq t
  refine ⟨⟨m, d, hm, hd, h, ?_⟩, by rfl⟩
  omega

theorem toISOString_format_witness :
    (∃ m d : Int, MonthFromTime (-1) = some m ∧ DateFromTime (-1) = some d ∧
      method_toISOString (some (-1)) = Except.ok (isoFormat (YearFromTime (-1)) m d
        (HourFromTime (-1)) (MinFromTime (-1)) (SecFromTime (-1)) (msFromTime (-1))) ∧
      (YearFromTime (-1)).natAbs < 1000000 ∧ 0 ≤ m ∧ m + 1 < 100 ∧ 0 ≤ d ∧ d < 100 ∧
      0 ≤ HourFromTime (-1) ∧ HourFromTime (-1) < 100 ∧
      0 ≤ MinFromTime (-1) ∧ MinFromTime (-1) < 100 ∧
      0 ≤ SecFromTime (-1) ∧ SecFromTime (-1) < 100 ∧
      0 ≤ msFromTime (-1) ∧ msFromTime (-1) < 1000) ∧
    method_toISOString (some 1678000089123) = Except.ok (qstr "2023-03-05T07:08:09.123Z") :=
  toISOString_format (-1) (by decide) (by decide)


/-! ## Idempotence, modulo, week days, MakeDay's carry, range errors -/

/-- C11: for every `x`, `TimeClip(TimeClip(x)) = TimeClip(x)`, and `TimeClip(NaN)`
is NaN. -/
theorem TimeClip_idempotent (x : Dbl) :
    TimeClip (TimeClip x) = TimeClip x ∧ TimeClip Dbl.nan = Dbl.nan := by
  have hnan : TimeClip Dbl.nan = Dbl.nan := by simp [TimeClip, Dbl.isFinite]
  refine ⟨?_, hnan⟩
  cases x with
  | nan => rw [hnan, hnan]
  | posInf =>
    have h : TimeClip Dbl.posInf = Dbl.nan := by simp [TimeClip, Dbl.isFinite]
    rw [h, hnan]
  | negInf =>
    have h : TimeClip Dbl.negInf = Dbl.nan := by simp [TimeClip, Dbl.isFinite]
    rw [h, hnan]
  | negZero =>
    have h : TimeClip Dbl.negZero = Dbl.fin ((0 : Int) : ℚ) := by
      simp [TimeClip, Dbl.isFinite, Dbl.fabs, Dbl.gt, toInteger, Dbl.addZero, MaxDateVal]
    rw [h]
    exact TimeClip_int 0 (by decide) (by decide)
  | fin q =>
    by_cases hq : |q| ≤ (MaxDateVal : Int)
    · have hb := toQint64_bounds q hq
      rw [TimeClip_fin q hq]
      exact TimeClip_int _ hb.1 hb.2
    · rw [TimeClip_big q hq, hnan]

/-- C12: for every integer `t`, `TimeWithinDay(t)` is
`((t mod 86400000) + 86400000) mod 86400000`, with the sign-keeping `fmod` as
well as with the non-negative remainder, and lies in `[0, 86400000)`;
`TimeWithinDay(-1) = 86399999`. -/
theorem TimeWithinDay_spec (t : Int) :
    TimeWithinDay t = fmod (fmod t 86400000 + 86400000) 86400000 ∧
    TimeWithinDay t = (t % 86400000 + 86400000) % 86400000 ∧
    0 ≤ TimeWithinDay t ∧ TimeWithinDay t < 86400000 ∧
    TimeWithinDay (-1) = 86399999 := by
  have h := TimeWithinDay_eq t
  unfold msPerDay at h
  refine ⟨?_, by omega, by omega, by omega, by decide⟩
  rw [h, fmod_def t 86400000 (by decide), fmod_def _ 86400000 (by decide)]
  split_ifs <;> omega

/-- C13: for every integer `t`, `WeekDay(t)` is `((Day(t) + 4) mod 7 + 7) mod 7`,
with the sign-keeping `fmod` as well as with the non-negative remainder, and
lies in `0..6`; `WeekDay(0) = 4`. -/
theorem WeekDay_spec (t : Int) :
    WeekDay t = fmod (fmod (Day t + 4) 7 + 7) 7 ∧
    WeekDay t = ((Day t + 4) % 7 + 7) % 7 ∧
    0 ≤ WeekDay t ∧ WeekDay t ≤ 6 ∧
    WeekDay 0 = 4 := by
  have h := WeekDay_eq t
  have hd : Day t = t / 86400000 := rfl
  refine ⟨?_, by omega, by omega, by omega, by decide⟩
  rw [h, hd, fmod_def _ 7 (by decide), fmod_def _ 7 (by decide)]
  split_ifs <;> omega

/-- C15: `MakeDay` carries whole years out of the month: for all integers `year`,
`month`, `day` and `k` with `month` and `month + 12 * k` of magnitude at most `2^53`,
the normalised year `year + k + floor(month / 12)` of magnitude at most 1,000,000 and
`day` of magnitude at most `2^52`, the binary64 `MakeDay(year, month + 12 * k, day)` is
`MakeDay(year + k, month, day)`, a day number and not NaN, as over the integers; so
`MakeDay(y, 14, d) = MakeDay(y + 1, 2, d)`. -/
theorem MakeDay_month_carry (year month day k : Int)
    (hm0 : -9007199254740992 ≤ month) (hm1 : month ≤ 9007199254740992)
    (hk0 : -9007199254740992 ≤ month + 12 * k) (hk1 : month + 12 * k ≤ 9007199254740992)
    (hlo : -1000000 ≤ year + k + month / 12) (hhi : year + k + month / 12 ≤ 1000000)
    (hd0 : -4503599627370496 ≤ day) (hd1 : day ≤ 4503599627370496) :
    Dbl.MakeDay (Dbl.fin (year : ℚ)) (Dbl.fin ((month + 12 * k : Int) : ℚ)) (Dbl.fin (day : ℚ))
      = Dbl.MakeDay (Dbl.fin ((year + k : Int) : ℚ)) (Dbl.fin (month : ℚ)) (Dbl.fin (day : ℚ)) ∧
    (∃ n : Int,
      Dbl.MakeDay (Dbl.fin (year : ℚ)) (Dbl.fin ((month + 12 * k : Int) : ℚ))
        (Dbl.fin (day : ℚ)) = some (Dbl.fin (n : ℚ)) ∧
      MakeDay (some year) (some (month + 12 * k)) (some day) = some n) ∧
    MakeDay (some year) (some (month + 12 * k)) (some day)
      = MakeDay (some (year + k)) (some month) (some day) ∧
    (-1000000 ≤ year + 1 ∧ year + 1 ≤ 1000000 →
      Dbl.MakeDay (Dbl.fin (year : ℚ)) (Dbl.fin ((14 : Int) : ℚ)) (Dbl.fin (day : ℚ))
        = Dbl.MakeDay (Dbl.fin ((year + 1 : Int) : ℚ)) (Dbl.fin ((2 : Int) : ℚ))
            (Dbl.fin (day : ℚ)) ∧
      MakeDay (some year) (some 14) (some day)
        = MakeDay (some (year + 1)) (some 2) (some day)) := by
  have hc : MakeDay (some year) (some (month + 12 * k)) (some day)
      = MakeDay (some (year + k)) (some month) (some day) := makeDayFinite_carry year month day k
  have h14 : MakeDay (some year) (some 14) (some day)
      = MakeDay (some (year + 1)) (some 2) (some day) := by
    have := makeDayFinite_carry year 2 day 1
    simpa [MakeDay] using this
  have hL := MakeDay_dbl_int year (month + 12 * k) day hk0 hk1 (by omega) (by omega) hd0 hd1
  have hR := MakeDay_dbl_int (year + k) month day hm0 hm1 (by omega) (by omega) hd0 hd1
  obtain ⟨dm, _, _, _, hs⟩ := makeDayFinite_eq year (month + 12 * k) day
  refine ⟨by rw [hL, hR, hc], ⟨_, ?_, hs⟩, hc, ?_⟩
  · rw [hL]
    simp only [MakeDay, hs, Dbl.ofNum]
  · rintro ⟨h0, h1⟩
    refine ⟨?_, h14⟩
    rw [MakeDay_dbl_int year 14 day (by decide) (by decide) (by omega) (by omega) hd0 hd1,
      MakeDay_dbl_int (year + 1) 2 day (by decide) (by decide) (by omega) (by omega) hd0 hd1,
      h14]

theorem MakeDay_month_carry_witness :
    Dbl.MakeDay (Dbl.fin ((2023 : Int) : ℚ)) (Dbl.fin ((-3 + 12 * 2 : Int) : ℚ))
        (Dbl.fin ((15 : Int) : ℚ))
      = Dbl.MakeDay (Dbl.fin ((2023 + 2 : Int) : ℚ)) (Dbl.fin ((-3 : Int) : ℚ))
          (Dbl.fin ((15 : Int) : ℚ)) ∧
    (∃ n : Int,
      Dbl.MakeDay (Dbl.fin ((2023 : Int) : ℚ)) (Dbl.fin ((-3 + 12 * 2 : Int) : ℚ))
        (Dbl.fin ((15 : Int) : ℚ)) = some (Dbl.fin (n : ℚ)) ∧
      MakeDay (some 2023) (some (-3 + 12 * 2)) (some 15) = some n) ∧
    MakeDay (some 2023) (some (-3 + 12 * 2)) (some 15)
      = MakeDay (some (2023 + 2)) (some (-3)) (some 15) ∧
    (-1000000 ≤ (2023 : Int) + 1 ∧ (2023 : Int) + 1 ≤ 1000000 →
      Dbl.MakeDay (Dbl.fin ((2023 : Int) : ℚ)) (Dbl.fin ((14 : Int) : ℚ))
          (Dbl.fin ((15 : Int) : ℚ))
        = Dbl.MakeDay (Dbl.fin ((2023 + 1 : Int) : ℚ)) (Dbl.fin ((2 : Int) : ℚ))
            (Dbl.fin ((15 : Int) : ℚ)) ∧
      MakeDay (some 2023) (some 14) (some 15)
        = MakeDay (some (2023 + 1)) (some 2) (some 15)) :=
  MakeDay_month_carry 2023 (-3) 15 2 (by decide) (by decide) (by decide) (by decide)
    (by decide) (by decide) (by decide) (by decide)

/-- At `year = -2^52`, `month = 8`, `k = 2^52` and `day = 1`, all of them doubles as
is `month + 12 * k`, the binary64 `MakeDay(year, month + 12 * k, day)` is the day
`-718919` (the quotient `(month + 12 * k) / 12.0` rounds up, to the year `1`), while
`MakeDay(year + k, month, day)` is the day `-719284` of the year `0`. -/
theorem MakeDay_carry_rounds :
    Dbl.round (((8 + 12 * 4503599627370496 : Int)) : ℚ)
      = Dbl.fin (((8 + 12 * 4503599627370496 : Int)) : ℚ) ∧
    Dbl.MakeDay (Dbl.fin ((-4503599627370496 : Int) : ℚ))
        (Dbl.fin (((8 + 12 * 4503599627370496 : Int)) : ℚ)) (Dbl.fin ((1 : Int) : ℚ))
      = some (Dbl.fin ((-718919 : Int) : ℚ)) ∧
    Dbl.MakeDay (Dbl.fin (((-4503599627370496 + 4503599627370496 : Int)) : ℚ))
        (Dbl.fin ((8 : Int) : ℚ)) (Dbl.fin ((1 : Int) : ℚ))
      = some (Dbl.fin ((-719284 : Int) : ℚ)) ∧
    Dbl.MakeDay (Dbl.fin ((-4503599627370496 : Int) : ℚ))
        (Dbl.fin (((8 + 12 * 4503599627370496 : Int)) : ℚ)) (Dbl.fin ((1 : Int) : ℚ))
      ≠ Dbl.MakeDay (Dbl.fin (((-4503599627370496 + 4503599627370496 : Int)) : ℚ))
          (Dbl.fin ((8 : Int) : ℚ)) (Dbl.fin ((1 : Int) : ℚ)) := by
  have e : ((8 + 12 * 4503599627370496 : Int)) = 54043195528445960 := by decide
  have hL : Dbl.MakeDay (Dbl.fin ((-4503599627370496 : Int) : ℚ))
      (Dbl.fin (((8 + 12 * 4503599627370496 : Int)) : ℚ)) (Dbl.fin ((1 : Int) : ℚ))
      = some (Dbl.fin ((-718919 : Int) : ℚ)) := by
    rw [e]
    exact MakeDay_rounded_carry 1 (by decide)
  have hR : Dbl.MakeDay (Dbl.fin (((-4503599627370496 + 4503599627370496 : Int)) : ℚ))
      (Dbl.fin ((8 : Int) : ℚ)) (Dbl.fin ((1 : Int) : ℚ))
      = some (Dbl.fin ((-719284 : Int) : ℚ)) := by
    rw [MakeDay_dbl_int _ 8 1 (by decide) (by decide) (by decide) (by decide) (by decide)
      (by decide)]
    have h : MakeDay (some (-4503599627370496 + 4503599627370496)) (some 8) (some 1)
        = some (-719284) := by decide
    rw [h]
    rfl
  refine ⟨?_, hL, hR, ?_⟩
  · rw [e]
    have h := Dbl.round_shift 6755399441055745 3 (by decide) (by decide) (by decide) (by decide)
    have e2 : ((6755399441055745 : Int) : ℚ) * (2 : ℚ) ^ (3 : Int)
        = ((54043195528445960 : Int) : ℚ) := by norm_num
    rw [e2] at h
    exact h
  · rw [hL, hR]
    intro hc
    have h1 := Dbl.fin.inj (Option.some.inj hc)
    norm_num at h1

/-- C16: `toISOString` raises a range error if and only if the timestamp is
not finite (NaN) or `|YearFromTime(t)| ≥ 1000000`; in every other case it
returns a string. -/
theorem toISOString_rangeError (t : Option Int) :
    (method_toISOString t = Except.error JsError.rangeError ↔
      (t = none ∨ ∃ v, t = some v ∧ 1000000 ≤ (YearFromTime v).natAbs)) ∧
    ((∃ str, method_toISOString t = Except.ok str) ↔
      ¬ (t = none ∨ ∃ v, t = some v ∧ 1000000 ≤ (YearFromTime v).natAbs)) ∧
    method_toISOString (some (TimeFromYear 1000000)) = Except.error JsError.rangeError ∧
    method_toISOString (some (TimeFromYear (-1000000))) = Except.error JsError.rangeError := by
  refine ⟨?_, ?_, by rfl, by rfl⟩
  · cases t with
    | none => simp [method_toISOString]
    | some v =>
      unfold method_toISOString
      simp only
      by_cases hc : YearFromTime v < 0 ∨ YearFromTime v > 9999
      · by_cases hn : (YearFromTime v).natAbs ≥ 1000000
        · simp [hc, hn]
        · simp [hc, hn]
      · have hn : ¬ 1000000 ≤ (YearFromTime v).natAbs := by omega
        simp [hc, hn]
  · cases t with
    | none => simp [method_toISOString]
    | some v =>
      unfold method_toISOString
      simp only
      by_cases hc : YearFromTime v < 0 ∨ YearFromTime v > 9999
      · by_cases hn : (YearFromTime v).natAbs ≥ 1000000
        · simp [hc, hn]
        · simp [hc, hn]
      · have hn : ¬ 1000000 ≤ (YearFromTime v).natAbs := by omega
        simp [hc, hn]

/-- C14: `MakeTime(h, m, s, ms)` is NaN if and only if an argument is not
finite; on finite arguments whose integer parts have magnitude at most `2^31`
it is finite and its value is
`((trunc(h) * 60 + trunc(m)) * 60 + trunc(s)) * 1000 + trunc(ms)`, each argument
truncated toward zero on its own (on integers: the integer `MakeTime`). -/
theorem MakeTime_spec (h m s ms : Dbl) :
    (Dbl.MakeTime h m s ms = Dbl.nan ↔
      ¬ (h.isFinite = true ∧ m.isFinite = true ∧ s.isFinite = true ∧ ms.isFinite = true)) ∧
    ((h.isFinite = true ∧ m.isFinite = true ∧ s.isFinite = true ∧ ms.isFinite = true) ∧
      |truncToZero h.toRat| ≤ 2 ^ 31 ∧ |truncToZero m.toRat| ≤ 2 ^ 31 ∧
      |truncToZero s.toRat| ≤ 2 ^ 31 ∧ |truncToZero ms.toRat| ≤ 2 ^ 31 →
      (Dbl.MakeTime h m s ms).isFinite = true ∧
      (Dbl.MakeTime h m s ms).toRat =
        (((truncToZero h.toRat : ℚ) * 60 + truncToZero m.toRat) * 60 + truncToZero s.toRat)
          * 1000 + truncToZero ms.toRat) ∧
    (∀ a b c d : Int, |a| ≤ 2 ^ 31 ∧ |b| ≤ 2 ^ 31 ∧ |c| ≤ 2 ^ 31 ∧ |d| ≤ 2 ^ 31 →
      (Dbl.MakeTime (Dbl.fin a) (Dbl.fin b) (Dbl.fin c) (Dbl.fin d)).toRat
        = ((MakeTime a b c d : Int) : ℚ)) ∧
    (Dbl.MakeTime (Dbl.fin (3 / 2)) (Dbl.fin (-5 / 2)) (Dbl.fin 7) (Dbl.fin (-1 / 2))).toRat
      = 3487000 := by
  have e1 : truncToZero (3 / 2 : ℚ) = 1 := by
    unfold truncToZero
    rw [if_pos (by norm_num)]
    rw [Int.floor_eq_iff]
    norm_num
  have e2 : truncToZero (-5 / 2 : ℚ) = -2 := by
    unfold truncToZero
    rw [if_neg (by norm_num)]
    rw [Int.ceil_eq_iff]
    norm_num
  have e3 : truncToZero (7 : ℚ) = 7 := by
    have := truncToZero_intCast 7
    simpa using this
  have e4 : truncToZero (-1 / 2 : ℚ) = 0 := by
    unfold truncToZero
    rw [if_neg (by norm_num)]
    rw [Int.ceil_eq_iff]
    norm_num
  refine ⟨?_, ?_, ?_, ?_⟩
  · constructor
    · intro hnan hfin
      have hf := MakeTime_isNaN h m s ms hfin.1 hfin.2.1 hfin.2.2.1 hfin.2.2.2
      rw [hnan] at hf
      simp [Dbl.isNaN] at hf
    · intro hnot
      unfold Dbl.MakeTime
      by_cases h1 : h.isFinite = true
      · by_cases h2 : m.isFinite = true
        · by_cases h3 : s.isFinite = true
          · by_cases h4 : ms.isFinite = true
            · exact absurd ⟨h1, h2, h3, h4⟩ hnot
            · simp [h4]
          · simp [h3]
        · simp [h2]
      · simp [h1]
  · rintro ⟨hfin, bh, bm, bs, bms⟩
    exact MakeTime_finite h m s ms hfin.1 hfin.2.1 hfin.2.2.1 hfin.2.2.2 bh bm bs bms
  · rintro a b c d ⟨ba, bb, bc, bd⟩
    rw [(MakeTime_finite (Dbl.fin a) (Dbl.fin b) (Dbl.fin c) (Dbl.fin d) rfl rfl rfl rfl
      (by simpa only [Dbl.toRat, truncToZero_intCast] using ba)
      (by simpa only [Dbl.toRat, truncToZero_intCast] using bb)
      (by simpa only [Dbl.toRat, truncToZero_intCast] using bc)
      (by simpa only [Dbl.toRat, truncToZero_intCast] using bd)).2]
    simp only [Dbl.toRat, truncToZero_intCast]
    unfold MakeTime MinutesPerHour SecondsPerMinute msPerSecond
    push_cast
    ring
  · rw [(MakeTime_finite (Dbl.fin (3 / 2)) (Dbl.fin (-5 / 2)) (Dbl.fin 7) (Dbl.fin (-1 / 2))
      rfl rfl rfl rfl (by simp only [Dbl.toRat, e1]; decide) (by simp only [Dbl.toRat, e2]; decide)
      (by simp only [Dbl.toRat, e3]; decide) (by simp only [Dbl.toRat, e4]; decide)).2]
    simp only [Dbl.toRat, e1, e2, e3, e4]
    norm_num

/-- On the finite arguments `(2^1023, 0, 0, 0)` the product `2^1023 * 60` overflows and
`MakeTime` returns `+∞`, not a finite value; on `(2^50, 0, 0, 1)` the last sum rounds:
the result is `3600000 * 2^50`, and not `((2^50 * 60 + 0) * 60 + 0) * 1000 + 1`. -/
theorem MakeTime_overflows :
    (Dbl.fin (((2 : Int) ^ 1023 : Int) : ℚ)).isFinite = true ∧
    (Dbl.fin ((0 : Int) : ℚ)).isFinite = true ∧
    Dbl.MakeTime (Dbl.fin (((2 : Int) ^ 1023 : Int) : ℚ)) (Dbl.fin ((0 : Int) : ℚ))
      (Dbl.fin ((0 : Int) : ℚ)) (Dbl.fin ((0 : Int) : ℚ)) = Dbl.posInf ∧
    (Dbl.MakeTime (Dbl.fin (((2 : Int) ^ 1023 : Int) : ℚ)) (Dbl.fin ((0 : Int) : ℚ))
      (Dbl.fin ((0 : Int) : ℚ)) (Dbl.fin ((0 : Int) : ℚ))).isFinite = false ∧
    Dbl.MakeTime (Dbl.fin (((2 : Int) ^ 50 : Int) : ℚ)) (Dbl.fin ((0 : Int) : ℚ))
      (Dbl.fin ((0 : Int) : ℚ)) (Dbl.fin ((1 : Int) : ℚ))
        = Dbl.fin (((3600000 * 2 ^ 50 : Int)) : ℚ) ∧
    (Dbl.MakeTime (Dbl.fin (((2 : Int) ^ 50 : Int) : ℚ)) (Dbl.fin ((0 : Int) : ℚ))
      (Dbl.fin ((0 : Int) : ℚ)) (Dbl.fin ((1 : Int) : ℚ))).toRat
        ≠ (((truncToZero ((2 : Int) ^ 50 : Int) : ℚ) * 60 + truncToZero ((0 : Int) : ℚ)) * 60
            + truncToZero ((0 : Int) : ℚ)) * 1000 + truncToZero ((1 : Int) : ℚ) := by
  have hinf : Dbl.MakeTime (Dbl.fin (((2 : Int) ^ 1023 : Int) : ℚ)) (Dbl.fin ((0 : Int) : ℚ))
      (Dbl.fin ((0 : Int) : ℚ)) (Dbl.fin ((0 : Int) : ℚ)) = Dbl.posInf := by
    have hr : Dbl.round ((((2 : Int) ^ 1023 : Int) : ℚ) * 60) = Dbl.posInf := by
      rw [Dbl.round_of_binade _ 1028 (by norm_num) (by norm_num) (by norm_num) (by decide)]
      have hx : (((2 : Int) ^ 1023 : Int) : ℚ) * 60 / (2 : ℚ) ^ ((1028 : Int) - 52)
          = (((60 * 2 ^ 47 : Int)) : ℚ) := by norm_num
      rw [hx, roundHalfEven_int]
      norm_num [Dbl.infinity]
    have hm : Dbl.mul (Dbl.fin (((2 : Int) ^ 1023 : Int) : ℚ)) (Dbl.fin 60) = Dbl.posInf := by
      unfold Dbl.mul
      simp only [Dbl.isNaN, Dbl.isInf, Dbl.isZero, Dbl.toRat]
      rw [hr]
      norm_num
    unfold Dbl.MakeTime
    simp only [Dbl.isFinite, Bool.not_true, Bool.or_self, Bool.false_eq_true, if_false]
    rw [toInteger_int _ (by positivity), toInteger_int 0 (by decide), hm]
    rfl
  have hrnd : Dbl.MakeTime (Dbl.fin (((2 : Int) ^ 50 : Int) : ℚ)) (Dbl.fin ((0 : Int) : ℚ))
      (Dbl.fin ((0 : Int) : ℚ)) (Dbl.fin ((1 : Int) : ℚ))
        = Dbl.fin (((3600000 * 2 ^ 50 : Int)) : ℚ) := by
    have e60 : (Dbl.fin 60) = Dbl.fin ((60 : Int) : ℚ) := by norm_num
    have e1000 : (Dbl.fin 1000) = Dbl.fin ((1000 : Int) : ℚ) := by norm_num
    have hr : Dbl.round ((((3600000 * 2 ^ 50 : Int)) : ℚ) + ((1 : Int) : ℚ))
        = Dbl.fin (((3600000 * 2 ^ 50 : Int)) : ℚ) := by
      rw [Dbl.round_of_binade _ 71 (by norm_num) (by norm_num) (by norm_num) (by decide)]
      have hx : roundHalfEven (((((3600000 * 2 ^ 50 : Int)) : ℚ) + ((1 : Int) : ℚ))
          / (2 : ℚ) ^ ((71 : Int) - 52)) = 3600000 * 2 ^ 31 := by
        rw [roundHalfEven_of_floor _ (3600000 * 2 ^ 31) (by norm_num) (by norm_num)]
        norm_num
      rw [hx]
      norm_num
    have ha : Dbl.add (Dbl.fin (((3600000 * 2 ^ 50 : Int)) : ℚ)) (Dbl.fin ((1 : Int) : ℚ))
        = Dbl.fin (((3600000 * 2 ^ 50 : Int)) : ℚ) := by
      unfold Dbl.add
      simp only [Dbl.isNaN, Dbl.isInf, Dbl.isZero, Dbl.toRat]
      rw [hr]
      norm_num
    unfold Dbl.MakeTime
    simp only [Dbl.isFinite, Bool.not_true, Bool.or_self, Bool.false_eq_true, if_false]
    rw [toInteger_int _ (by positivity), toInteger_int 0 (by decide),
      toInteger_int 1 (by decide), e60, e1000,
      Dbl.mul_exact _ _ 60 50 (by norm_num) (by norm_num) (by decide) (by decide) (by decide),
      Dbl.add_exact _ _ 60 50 (by norm_num) (by decide) (by decide) (by decide),
      Dbl.mul_exact _ _ 3600 50 (by norm_num) (by norm_num) (by decide) (by decide) (by decide),
      Dbl.add_exact _ _ 3600 50 (by norm_num) (by decide) (by decide) (by decide),
      Dbl.mul_exact _ _ 3600000 50 (by norm_num) (by norm_num) (by decide) (by decide)
        (by decide)]
    have e : ((((((2 : Int) ^ 50 : Int) : ℚ) * ((60 : Int) : ℚ) + ((0 : Int) : ℚ))
        * ((60 : Int) : ℚ) + ((0 : Int) : ℚ)) * ((1000 : Int) : ℚ))
        = (((3600000 * 2 ^ 50 : Int)) : ℚ) := by norm_num
    rw [e, ha]
  refine ⟨rfl, rfl, hinf, ?_, hrnd, ?_⟩
  · rw [hinf]
    rfl
  · rw [hrnd]
    simp only [Dbl.toRat, truncToZero_intCast]
    norm_num

/-- C17: at `t = NaN`, `ToString` and `ToUTCString` return `"Invalid Date"`, while
`ToDateString`, `ToTimeString`, `ToLocaleString`, `ToLocaleDateString` and
`ToLocaleTimeString` return Qt's text of an invalid date or time, which is
the empty string and not `"Invalid Date"`. -/
theorem formatters_at_NaN (qt : QtText) (host : Host) (localTZA : Int) :
    ToString qt host none localTZA = qstr "Invalid Date" ∧
    ToUTCString qt none = qstr "Invalid Date" ∧
    ToDateString qt none = qt.dateToString ⟨none, TimeZoneKind.LocalTime⟩ ∧
    ToTimeString qt none = qt.timeToString ⟨none, TimeZoneKind.LocalTime⟩ ∧
    ToLocaleString qt none = qt.localeDateTime ⟨none, TimeZoneKind.LocalTime⟩ ∧
    ToLocaleDateString qt none = qt.localeDate ⟨none, TimeZoneKind.LocalTime⟩ ∧
    ToLocaleTimeString qt none = qt.localeTime ⟨none, TimeZoneKind.LocalTime⟩ ∧
    ToDateString qtInvalidEmpty none = [] ∧
    ToTimeString qtInvalidEmpty none = [] ∧
    ToLocaleString qtInvalidEmpty none = [] ∧
    ToLocaleDateString qtInvalidEmpty none = [] ∧
    ToLocaleTimeString qtInvalidEmpty none = [] ∧
    ToDateString qtInvalidEmpty none ≠ qstr "Invalid Date" := by
  refine ⟨rfl, rfl, rfl, rfl, rfl, rfl, rfl, rfl, rfl, rfl, rfl, rfl, ?_⟩
  decide


/-! ## The primary scan of the parser -/

/-- C18: for every string of the Date Time String Format (year of 4 digits or
a sign and 6 digits, optional `-MM`, optional `-DD`, optional `THH:mm` with
optional `:ss` and optional `.sss`, and after a time an optional `Z` or
`±HH:mm`) whose fields pass the range checks, the primary scan succeeds and
`ParseString` returns `TimeClip(v)`: with `d` the date-time of the fields
(month 01, day 01 and zero time when omitted), `v` is `d` minus the zone
offset when a zone is given, `UTC(d, localTZA)` for a time without zone, and `d`
for a date alone.  Every string of digits is a field of its length. -/
theorem ParseString_dateTimeString (host : Host) (localTZA : Int) (x : DateTimeString)
    (hx : x.inRange = true) :
    (primaryScan x.render).error = false ∧
    ParseString host x.render localTZA = TimeClip (Dbl.ofNum (x.value host localTZA)) ∧
    (∀ ds : QString, (∀ c ∈ ds, '0'.toNat ≤ c ∧ c ≤ '9'.toNat) →
      ∃ n, n < 10 ^ ds.length ∧ zeroPadded n ds.length = ds) :=
  ⟨(ParseString_render host localTZA x hx).1, (ParseString_render host localTZA x hx).2,
    zeroPadded_surjective⟩

theorem ParseString_dateTimeString_witness :
    (primaryScan (DateTimeString.render ⟨none, 2023, some (3, some 5),
      some ⟨7, 8, some (9, some 123), some (ZoneDesignator.offset false 1 30)⟩⟩)).error = false ∧
    ParseString ⟨fun _ => 3600, fun _ => none⟩ (DateTimeString.render ⟨none, 2023,
      some (3, some 5), some ⟨7, 8, some (9, some 123),
        some (ZoneDesignator.offset false 1 30)⟩⟩) 3600000
      = TimeClip (Dbl.ofNum (DateTimeString.value ⟨fun _ => 3600, fun _ => none⟩ 3600000
          ⟨none, 2023, some (3, some 5), some ⟨7, 8, some (9, some 123),
            some (ZoneDesignator.offset false 1 30)⟩⟩)) ∧
    (∀ ds : QString, (∀ c ∈ ds, '0'.toNat ≤ c ∧ c ≤ '9'.toNat) →
      ∃ n, n < 10 ^ ds.length ∧ zeroPadded n ds.length = ds) :=
  ParseString_dateTimeString ⟨fun _ => 3600, fun _ => none⟩ 3600000
    ⟨none, 2023, some (3, some 5), some ⟨7, 8, some (9, some 123),
      some (ZoneDesignator.offset false 1 30)⟩⟩ (by decide)

/-- C19: the primary scan accepts only strings of the format of its description,
in which the later components of each part are optional: every string `s` made
of digits and the delimiters `-`, `T`, `:`, `.`, `+`, `Z` with nothing after
a `Z`, on which the primary scan finishes without error, is as a whole of the
form `[±YYYYYY|YYYY][-MM[-DD]][THH[:mm[:ss[.sss]][Z|±HH[:mm]]]]` with these
field widths and delimiters. -/
theorem primaryScan_accepts_format (s : QString) (hs : PlainString s)
    (hacc : (primaryScan s).error = false) : ScanFormat s :=
  ScanFormat_of_accepted s hs hacc

theorem primaryScan_accepts_format_witness :
    PlainString (qstr "2023-03-05T07") ∧ (primaryScan (qstr "2023-03-05T07")).error = false ∧
    ScanFormat (qstr "2023-03-05T07") :=
  ⟨plainString_of_no_Z _ (by decide) (by decide), by decide,
    primaryScan_accepts_format (qstr "2023-03-05T07")
      (plainString_of_no_Z _ (by decide) (by decide)) (by decide)⟩

/-- The primary scan accepts `"2023-03-05T07"`, a time of hours alone, which is no
string of `[±YYYYYY|YYYY]-MM-DD[THH:mm[:ss[.sss]]][Z|±HH:mm]` with month and day
omissible: a string of that grammar with a `T` has a `:`. -/
theorem primaryScan_accepts_hour_alone :
    (primaryScan (qstr "2023-03-05T07")).error = false ∧
    (primaryScan (qstr "2023-03-05T07")).hour = 7 ∧
    (primaryScan (qstr "2023-03-05T07")).seenT = true ∧
    (∀ x : DateTimeString, x.render ≠ qstr "2023-03-05T07") := by
  refine ⟨by decide, by decide, by decide, ?_⟩
  intro x hx
  have hT : 'T'.toNat ∈ x.render := by
    rw [hx]
    decide
  have hc := render_colon_of_T x hT
  rw [hx] at hc
  revert hc
  decide

/-- C20: the primary scan accepts `"2023-00-00"` and hands month `-1` and day `0`
to `MakeDay`, outside `0..11` and `1..31`: the result is 30 November 2022. -/
theorem primaryScan_accepts_zero_month_day (host : Host) (localTZA : Int) :
    primaryScan (qstr "2023-00-00")
      = ⟨9, 0, 0, false, 1, 2023, -1, 0, 0, 0, 0, 0, 1, 0, false, false, false⟩ ∧
    (primaryScan (qstr "2023-00-00")).error = false ∧
    (primaryScan (qstr "2023-00-00")).month = -1 ∧
    (primaryScan (qstr "2023-00-00")).day = 0 ∧
    ParseString host (qstr "2023-00-00") localTZA = Dbl.fin ((1669766400000 : Int) : ℚ) ∧
    method_toISOString (some 1669766400000) = Except.ok (qstr "2022-11-30T00:00:00.000Z") := by
  have hscan : primaryScan (qstr "2023-00-00")
      = ⟨9, 0, 0, false, 1, 2023, -1, 0, 0, 0, 0, 0, 1, 0, false, false, false⟩ := by decide
  have hd : MakeDate (MakeDay (some (2023 * 1)) (some (-1)) (some 0)) (some (MakeTime 0 0 0 0))
      = some 1669766400000 := by decide
  refine ⟨hscan, by rw [hscan], by rw [hscan], by rw [hscan], ?_, by rfl⟩
  unfold ParseString
  simp only [hscan, hd, Bool.not_false, if_true, Bool.false_eq_true, if_false, Dbl.ofNum]
  exact TimeClip_int 1669766400000 (by decide) (by decide)


/-! ## The looseness of the parser -/

/-- C21: for every date `D` of the format whose fields pass the range checks, the
primary scan accepts `D + "T24:00:00Z"`, `D + "T00:00:00Z"`, `D + "T23:59:60Z"` and
`D + "T23:59:59Z"`, and, the results being in range (not NaN),
`ParseString(D + "T24:00:00Z") = ParseString(D + "T00:00:00Z") + 86400000` and
`ParseString(D + "T23:59:60Z") = ParseString(D + "T23:59:59Z") + 1000`. -/
theorem ParseString_looseness (host : Host) (localTZA : Int) (D : DateTimeString)
    (hD : D.time = none) (hr : D.inRange = true) :
    (primaryScan (D.render ++ qstr "T24:00:00Z")).error = false ∧
    (primaryScan (D.render ++ qstr "T00:00:00Z")).error = false ∧
    (primaryScan (D.render ++ qstr "T23:59:60Z")).error = false ∧
    (primaryScan (D.render ++ qstr "T23:59:59Z")).error = false ∧
    (ParseString host (D.render ++ qstr "T00:00:00Z") localTZA ≠ Dbl.nan →
      ParseString host (D.render ++ qstr "T24:00:00Z") localTZA ≠ Dbl.nan →
      ParseString host (D.render ++ qstr "T24:00:00Z") localTZA
        = Dbl.add (ParseString host (D.render ++ qstr "T00:00:00Z") localTZA)
            (Dbl.fin 86400000)) ∧
    (ParseString host (D.render ++ qstr "T23:59:59Z") localTZA ≠ Dbl.nan →
      ParseString host (D.render ++ qstr "T23:59:60Z") localTZA ≠ Dbl.nan →
      ParseString host (D.render ++ qstr "T23:59:60Z") localTZA
        = Dbl.add (ParseString host (D.render ++ qstr "T23:59:59Z") localTZA)
            (Dbl.fin 1000)) := by
  obtain ⟨e00, e24, e59, e60⟩ := loose_suffixes
  rw [e00, e24, e59, e60]
  refine ⟨(ParseString_date_Z host localTZA D hD hr _ (by decide) rfl).1,
    (ParseString_date_Z host localTZA D hD hr _ (by decide) rfl).1,
    (ParseString_date_Z host localTZA D hD hr _ (by decide) rfl).1,
    (ParseString_date_Z host localTZA D hD hr _ (by decide) rfl).1, ?_, ?_⟩
  · intro h0 h1
    have h := ParseString_shift host localTZA D hD hr _ _ (by decide) rfl (by decide) rfl
      86400000 (by decide) h0 h1
    rw [h]
    norm_num
  · intro h0 h1
    have h := ParseString_shift host localTZA D hD hr _ _ (by decide) rfl (by decide) rfl
      1000 (by decide) h0 h1
    rw [h]
    norm_num

theorem ParseString_looseness_witness :
    (primaryScan (DateTimeString.render ⟨none, 2023, some (3, some 5), none⟩
      ++ qstr "T24:00:00Z")).error = false ∧
    (primaryScan (DateTimeString.render ⟨none, 2023, some (3, some 5), none⟩
      ++ qstr "T00:00:00Z")).error = false ∧
    (primaryScan (DateTimeString.render ⟨none, 2023, some (3, some 5), none⟩
      ++ qstr "T23:59:60Z")).error = false ∧
    (primaryScan (DateTimeString.render ⟨none, 2023, some (3, some 5), none⟩
      ++ qstr "T23:59:59Z")).error = false ∧
    (ParseString ⟨fun _ => 0, fun _ => none⟩ (DateTimeString.render
        ⟨none, 2023, some (3, some 5), none⟩ ++ qstr "T00:00:00Z") 0 ≠ Dbl.nan →
      ParseString ⟨fun _ => 0, fun _ => none⟩ (DateTimeString.render
        ⟨none, 2023, some (3, some 5), none⟩ ++ qstr "T24:00:00Z") 0 ≠ Dbl.nan →
      ParseString ⟨fun _ => 0, fun _ => none⟩ (DateTimeString.render
        ⟨none, 2023, some (3, some 5), none⟩ ++ qstr "T24:00:00Z") 0
        = Dbl.add (ParseString ⟨fun _ => 0, fun _ => none⟩ (DateTimeString.render
            ⟨none, 2023, some (3, some 5), none⟩ ++ qstr "T00:00:00Z") 0)
            (Dbl.fin 86400000)) ∧
    (ParseString ⟨fun _ => 0, fun _ => none⟩ (DateTimeString.render
        ⟨none, 2023, some (3, some 5), none⟩ ++ qstr "T23:59:59Z") 0 ≠ Dbl.nan →
      ParseString ⟨fun _ => 0, fun _ => none⟩ (DateTimeString.render
        ⟨none, 2023, some (3, some 5), none⟩ ++ qstr "T23:59:60Z") 0 ≠ Dbl.nan →
      ParseString ⟨fun _ => 0, fun _ => none⟩ (DateTimeString.render
        ⟨none, 2023, some (3, some 5), none⟩ ++ qstr "T23:59:60Z") 0
        = Dbl.add (ParseString ⟨fun _ => 0, fun _ => none⟩ (DateTimeString.render
            ⟨none, 2023, some (3, some 5), none⟩ ++ qstr "T23:59:59Z") 0)
            (Dbl.fin 1000)) :=
  ParseString_looseness ⟨fun _ => 0, fun _ => none⟩ 0 ⟨none, 2023, some (3, some 5), none⟩
    rfl (by decide)

/-! ## Time zone adapter, field ranges and year table -/

/-- C27: `LocalTime` and `UTC` are not exact inverses: with the host offset function
`dstHost`, which has daylight-saving transitions at the instants `0` and
`10^10`, and the standard offset `0`, `UTC(LocalTime(t)) ≠ t` one second before
the end of daylight-saving time and `LocalTime(UTC(t)) ≠ t` at a local time
the clocks skip. -/
theorem LocalTime_UTC_not_inverse :
    ∃ (host : Host) (localTZA t : Int),
      (∃ a b : Int, host.getUtcOffset a ≠ host.getUtcOffset b) ∧
      (UTC host (LocalTime host t localTZA) localTZA ≠ t ∨
        LocalTime host (UTC host t localTZA) localTZA ≠ t) ∧
      UTC dstHost (LocalTime dstHost 9999999000 0) 0 = 10003599000 ∧
      LocalTime dstHost (UTC dstHost 1000 0) 0 = -3599000 := by
  refine ⟨dstHost, 0, 1000, ⟨-1, 0, by decide⟩, Or.inr (by decide), by decide, by decide⟩

/-- C28: for every integer timestamp `t` (those with `|t| ≤ 8.64e15` among them),
`MonthFromTime(t)` is a month in `0..11` and `DateFromTime(t)` a date from `1` to
the number of days of that month, at most `31` (neither function reaches its
NaN fall-through), `HourFromTime(t)` is in `0..23`, `MinFromTime(t)` and
`SecFromTime(t)` are in `0..59` and `msFromTime(t)` is in `0..999`. -/
theorem fields_in_range (t : Int) :
    (∃ m d : Int, MonthFromTime t = some m ∧ DateFromTime t = some d ∧
      0 ≤ m ∧ m ≤ 11 ∧ 1 ≤ d ∧ d ≤ DaysInMonth m (InLeapYear t) ∧
      DaysInMonth m (InLeapYear t) ≤ 31) ∧
    MonthFromTime t ≠ none ∧ DateFromTime t ≠ none ∧
    0 ≤ HourFromTime t ∧ HourFromTime t ≤ 23 ∧
    0 ≤ MinFromTime t ∧ MinFromTime t ≤ 59 ∧
    0 ≤ SecFromTime t ∧ SecFromTime t ≤ 59 ∧
    0 ≤ msFromTime t ∧ msFromTime t ≤ 999 := by
  obtain ⟨m, d, hm, hd, hr⟩ := month_date_in_month t
  have hH := HourFromTime_eq t
  have hM := MinFromTime_eq t
  have hS := SecFromTime_eq t
  have hms := msFromTime_eq t
  refine ⟨⟨m, d, hm, hd, hr⟩, by simp [hm], by simp [hd], ?_, ?_, ?_, ?_, ?_, ?_, ?_, ?_⟩ <;>
    omega

/-- C30: for every integer year `y` of magnitude at most `10^13` the binary64
`DayFromYear` is the exact day number and `DayFromYear(y + 1) - DayFromYear(y)` is
`DaysInYear(y)`, which is `366` exactly in the years of the leap-year rule
(divisible by `4` and not by `100`, or divisible by `400`) and `365` in the
others; `DayFromYear(1970) = 0`; and on these years `DayFromYear` is strictly
increasing. -/
theorem DayFromYear_increment :
    (∀ y : Int, -10000000000000 ≤ y ∧ y ≤ 10000000000000 →
      Dbl.DayFromYear (Dbl.fin (y : ℚ)) = Dbl.fin ((DayFromYear y : Int) : ℚ) ∧
      Dbl.sub (Dbl.DayFromYear (Dbl.fin ((y + 1 : Int) : ℚ))) (Dbl.DayFromYear (Dbl.fin (y : ℚ)))
        = Dbl.DaysInYear (Dbl.fin (y : ℚ)) ∧
      Dbl.DaysInYear (Dbl.fin (y : ℚ)) = Dbl.fin ((DaysInYear y : Int) : ℚ) ∧
      DayFromYear (y + 1) - DayFromYear y = DaysInYear y ∧
      DaysInYear y = if y % 400 = 0 ∨ (y % 4 = 0 ∧ y % 100 ≠ 0) then 366 else 365) ∧
    Dbl.DayFromYear (Dbl.fin ((1970 : Int) : ℚ)) = Dbl.fin ((0 : Int) : ℚ) ∧
    (∀ y z : Int, -10000000000000 ≤ y ∧ y < z ∧ z ≤ 10000000000000 →
      (Dbl.DayFromYear (Dbl.fin (y : ℚ))).lt (Dbl.DayFromYear (Dbl.fin (z : ℚ))) = true) := by
  refine ⟨?_, ?_, ?_⟩
  · rintro y ⟨h0, h1⟩
    have hd := DaysInYear_cases y
    have hs := DayFromYear_succ y
    refine ⟨DayFromYear_dbl y (abs_le.mpr ⟨by omega, by omega⟩), ?_, DaysInYear_dbl y,
      by omega, DaysInYear_eq y⟩
    rw [DayFromYear_dbl y (abs_le.mpr ⟨by omega, by omega⟩),
      DayFromYear_dbl (y + 1) (abs_le.mpr ⟨by omega, by omega⟩), DaysInYear_dbl,
      Dbl.sub_int _ _ (abs_le.mpr ⟨by omega, by omega⟩)]
    congr 2
    omega
  · rw [DayFromYear_dbl 1970 (by decide)]
    rfl
  · rintro y z ⟨h0, h1, h2⟩
    rw [DayFromYear_dbl y (abs_le.mpr ⟨by omega, by omega⟩),
      DayFromYear_dbl z (abs_le.mpr ⟨by omega, by omega⟩), Dbl.lt_int]
    simpa using DayFromYear_strictMono h1

/-- In binary64 `DayFromYear(30000000000002) - DayFromYear(30000000000001)` is `364`,
while `DaysInYear(30000000000001)` is `365`: the product `365 * (y - 1970)` is above
`2^53` there and the sums round. -/
theorem DayFromYear_rounds :
    Dbl.sub (Dbl.DayFromYear (Dbl.fin ((30000000000001 + 1 : Int) : ℚ)))
        (Dbl.DayFromYear (Dbl.fin ((30000000000001 : Int) : ℚ)))
      = Dbl.fin ((364 : Int) : ℚ) ∧
    Dbl.DaysInYear (Dbl.fin ((30000000000001 : Int) : ℚ)) = Dbl.fin ((365 : Int) : ℚ) ∧
    Dbl.sub (Dbl.DayFromYear (Dbl.fin ((30000000000001 + 1 : Int) : ℚ)))
        (Dbl.DayFromYear (Dbl.fin ((30000000000001 : Int) : ℚ)))
      ≠ Dbl.DaysInYear (Dbl.fin ((30000000000001 : Int) : ℚ)) ∧
    Dbl.DayFromYear (Dbl.fin ((30000000000001 : Int) : ℚ))
      = Dbl.fin ((10957274999280840 : Int) : ℚ) ∧
    Dbl.DayFromYear (Dbl.fin ((30000000000002 : Int) : ℚ))
      = Dbl.fin ((10957274999281204 : Int) : ℚ) ∧
    DayFromYear 30000000000001 = 10957274999280838 ∧
    DayFromYear 30000000000002 = 10957274999281203 := by
  have h := DayFromYear_at_3e13
  have e : ((30000000000001 + 1 : Int) : ℚ) = ((30000000000002 : Int) : ℚ) := by norm_num
  have hs : Dbl.sub (Dbl.DayFromYear (Dbl.fin ((30000000000001 + 1 : Int) : ℚ)))
      (Dbl.DayFromYear (Dbl.fin ((30000000000001 : Int) : ℚ)))
      = Dbl.fin ((364 : Int) : ℚ) := by
    rw [e, h.1, h.2, Dbl.sub_int _ _ (by decide)]
    rfl
  have hd : Dbl.DaysInYear (Dbl.fin ((30000000000001 : Int) : ℚ))
      = Dbl.fin ((365 : Int) : ℚ) := by
    rw [DaysInYear_dbl]
    rfl
  refine ⟨hs, hd, ?_, h.1, h.2, by decide, by decide⟩
  rw [hs, hd]
  intro hc
  have := Dbl.fin.inj hc
  norm_num at this

/-- C29: for a valid timestamp `t` with total offset `o = localTZA + DaylightSavingTA(t)`
milliseconds, `|o|` below `100` hours, `ToString` is the local date-time text,
`" GMT"` and a suffix that is empty if and only if `o = 0`, and otherwise `+`
(`o > 0`) or `-` (`o < 0`) followed by exactly two digits of
`floor(|o| / 3600000)` and exactly two digits of `floor(|o| / 60000) mod 60`. -/
theorem ToString_zone_suffix (qt : QtText) (host : Host) (t localTZA : Int)
    (ho : (localTZA + DaylightSavingTA host t localTZA).natAbs < 360000000) :
    ∃ suffix : QString,
      ToString qt host (some t) localTZA
        = qt.dateTimeToString ⟨some t, TimeZoneKind.LocalTime⟩ ++ qstr " GMT" ++ suffix ∧
      (suffix = [] ↔ localTZA + DaylightSavingTA host t localTZA = 0) ∧
      (localTZA + DaylightSavingTA host t localTZA ≠ 0 →
        suffix = (if localTZA + DaylightSavingTA host t localTZA > 0 then '+'.toNat
            else '-'.toNat) ::
          (zeroPadded ((localTZA + DaylightSavingTA host t localTZA).natAbs / 3600000) 2 ++
            zeroPadded ((localTZA + DaylightSavingTA host t localTZA).natAbs / 60000 % 60) 2) ∧
        suffix.length = 5 ∧
        (∀ c ∈ suffix.tail, '0'.toNat ≤ c ∧ c ≤ '9'.toNat)) := by
  refine ⟨_, ToString_eq qt host t localTZA ho, ?_, ?_⟩
  · by_cases hz : localTZA + DaylightSavingTA host t localTZA = 0
    · simp [hz]
    · simp [hz]
  · intro hz
    simp only [hz, if_false, List.tail_cons, true_and]
    constructor
    · rw [zeroPadded_two _ (by omega), zeroPadded_two _ (by omega)]
      rfl
    · intro c hc
      rcases List.mem_append.mp hc with h | h
      · exact zeroPadded_digits _ _ _ h
      · exact zeroPadded_digits _ _ _ h

theorem ToString_zone_suffix_witness :
    ∃ suffix : QString,
      ToString qtInvalidEmpty ⟨fun _ => 19800, fun _ => none⟩ (some 0) 19800000
        = qtInvalidEmpty.dateTimeToString ⟨some 0, TimeZoneKind.LocalTime⟩ ++ qstr " GMT"
          ++ suffix ∧
      (suffix = [] ↔
        19800000 + DaylightSavingTA ⟨fun _ => 19800, fun _ => none⟩ 0 19800000 = 0) ∧
      (19800000 + DaylightSavingTA ⟨fun _ => 19800, fun _ => none⟩ 0 19800000 ≠ 0 →
        suffix = (if 19800000 + DaylightSavingTA ⟨fun _ => 19800, fun _ => none⟩ 0 19800000 > 0
            then '+'.toNat else '-'.toNat) ::
          (zeroPadded ((19800000 + DaylightSavingTA ⟨fun _ => 19800, fun _ => none⟩ 0
              19800000).natAbs / 3600000) 2 ++
            zeroPadded ((19800000 + DaylightSavingTA ⟨fun _ => 19800, fun _ => none⟩ 0
              19800000).natAbs / 60000 % 60) 2) ∧
        suffix.length = 5 ∧
        (∀ c ∈ suffix.tail, '0'.toNat ≤ c ∧ c ≤ '9'.toNat)) :=
  ToString_zone_suffix qtInvalidEmpty ⟨fun _ => 19800, fun _ => none⟩ 0 19800000 (by decide)

/-! ## Setters and constructors -/

/-- C22: when the stored timestamp is NaN, `setFullYear(y, m, d)` with three finite
arguments, coerced without error, of which the integer part of `m` has magnitude at
most `2^53`, the normalised year `trunc(y) + floor(trunc(m) / 12)` magnitude at most
1,000,000 and the integer part of `d` magnitude at most `10^10`, works on the local
time `0`: the binary64 `MakeDay(y, m, d)` is a day number `k`, not NaN, the binary64
`MakeDate(k, 0)` is `n = k * 86400000` exactly, and the method stores and returns
`u = UTC(n, localTZA)` clipped to storage, which is `u` itself, not NaN, when
`|u| ≤ 8.64e15`, and NaN when `u` is out of that range;
`MakeDate(MakeDay(2024, 0, 1), 0)` is the midnight that starts 2024.  The constants
are such that the sum does not wrap and the sentinel lies outside the encoded
values. -/
theorem setFullYear_heals (c : StorageConsts)
    (hw : (c.Extra : Int) + 2 * MaxDateVal < 2 ^ 64)
    (hs : c.InvalidDateVal < c.Extra ∨ (c.Extra : Int) + 2 * MaxDateVal < c.InvalidDateVal)
    (host : Host) (self : DateObject) (v4 : ExecutionEngine) (y m d : Dbl)
    (hnan : self.date c = Dbl.nan) (hex : v4.hasException = false)
    (hy : y.isFinite = true) (hm : m.isFinite = true) (hd : d.isFinite = true)
    (bm0 : -9007199254740992 ≤ truncToZero m.toRat)
    (bm1 : truncToZero m.toRat ≤ 9007199254740992)
    (bY0 : -1000000 ≤ truncToZero y.toRat + truncToZero m.toRat / 12)
    (bY1 : truncToZero y.toRat + truncToZero m.toRat / 12 ≤ 1000000)
    (bd0 : -10000000000 ≤ truncToZero d.toRat) (bd1 : truncToZero d.toRat ≤ 10000000000) :
    ∃ k n : Int,
      Dbl.MakeDay y m d = some (Dbl.fin (k : ℚ)) ∧
      Dbl.add (Dbl.mul (Dbl.fin (k : ℚ)) (Dbl.fin ((msPerDay : Int) : ℚ)))
        (Dbl.fin ((0 : Int) : ℚ)) = Dbl.fin (n : ℚ) ∧
      MakeDate (MakeDay (some (truncToZero y.toRat)) (some (truncToZero m.toRat))
        (some (truncToZero d.toRat))) (some 0) = some n ∧
      method_setFullYear c host self [⟨y, false⟩, ⟨m, false⟩, ⟨d, false⟩] v4
        = ⟨some (TimeClip (Dbl.fin ((UTC host n v4.localTZA : Int) : ℚ))),
            ⟨encode c (Dbl.fin ((UTC host n v4.localTZA : Int) : ℚ))⟩,
            ⟨v4.localTZA, false, v4.coerced ++ [0] ++ [1] ++ [2]⟩⟩ ∧
      (-MaxDateVal ≤ UTC host n v4.localTZA ∧ UTC host n v4.localTZA ≤ MaxDateVal →
        TimeClip (Dbl.fin ((UTC host n v4.localTZA : Int) : ℚ))
          = Dbl.fin ((UTC host n v4.localTZA : Int) : ℚ)) ∧
      (¬ (-MaxDateVal ≤ UTC host n v4.localTZA ∧ UTC host n v4.localTZA ≤ MaxDateVal) →
        TimeClip (Dbl.fin ((UTC host n v4.localTZA : Int) : ℚ)) = Dbl.nan) ∧
      MakeDate (MakeDay (some 2024) (some 0) (some 1)) (some 0) = some 1704067200000 := by
  obtain ⟨dm, _, hdm0, hdm1, hmf⟩ := makeDayFinite_eq (truncToZero y.toRat)
    (truncToZero m.toRat) (truncToZero d.toRat)
  have hk : MakeDay (some (truncToZero y.toRat)) (some (truncToZero m.toRat))
      (some (truncToZero d.toRat))
      = some (DayFromYear (truncToZero y.toRat + truncToZero m.toRat / 12) + dm
          + truncToZero d.toRat - 1) := hmf
  have hdiy := DaysInYear_cases (truncToZero y.toRat + truncToZero m.toRat / 12)
  have hD : -400000000 ≤ DayFromYear (truncToZero y.toRat + truncToZero m.toRat / 12) ∧
      DayFromYear (truncToZero y.toRat + truncToZero m.toRat / 12) ≤ 400000000 := by
    unfold DayFromYear
    omega
  have hkb : -100000000000 ≤ DayFromYear (truncToZero y.toRat + truncToZero m.toRat / 12) + dm
        + truncToZero d.toRat - 1 ∧
      DayFromYear (truncToZero y.toRat + truncToZero m.toRat / 12) + dm
        + truncToZero d.toRat - 1 ≤ 100000000000 := by omega
  generalize DayFromYear (truncToZero y.toRat + truncToZero m.toRat / 12) + dm
    + truncToZero d.toRat - 1 = k at hk hkb
  refine ⟨k, k * msPerDay + 0, ?_, ?_, by rw [hk]; rfl, ?_, ?_, ?_, by decide⟩
  · rw [MakeDay_dbl y m d hy hm hd (abs_le.mpr ⟨by omega, by omega⟩)
      (abs_le.mpr ⟨by omega, by omega⟩) (abs_le.mpr ⟨by omega, by omega⟩),
      Dbl.toNum_finite y hy, Dbl.toNum_finite m hm, Dbl.toNum_finite d hd, hk]
    rfl
  · rw [Dbl.mul_msPerDay k (abs_le.mpr ⟨by omega, by omega⟩),
      Dbl.add_exact _ _ (k * 84375) 10 (by unfold msPerDay; push_cast; ring)
        (abs_le.mpr ⟨by omega, by omega⟩) (by decide) (by decide)]
    congr 1
    push_cast
    ring
  · rw [setFullYear_of_NaN c host self v4 y m d hnan hex, Dbl.toNum_finite y hy,
      Dbl.toNum_finite m hm, Dbl.toNum_finite d hd, hk, decode_encode_ofNum c hw hs]
    rfl
  · intro h
    rw [TimeClip_ofInt, if_pos h]
  · intro h
    rw [TimeClip_ofInt, if_neg h]

theorem setFullYear_heals_witness :
    ∃ k n : Int,
      Dbl.MakeDay (Dbl.fin ((2024 : Int) : ℚ)) (Dbl.fin ((0 : Int) : ℚ))
        (Dbl.fin ((1 : Int) : ℚ)) = some (Dbl.fin (k : ℚ)) ∧
      Dbl.add (Dbl.mul (Dbl.fin (k : ℚ)) (Dbl.fin ((msPerDay : Int) : ℚ)))
        (Dbl.fin ((0 : Int) : ℚ)) = Dbl.fin (n : ℚ) ∧
      MakeDate (MakeDay (some (truncToZero (Dbl.fin ((2024 : Int) : ℚ)).toRat))
        (some (truncToZero (Dbl.fin ((0 : Int) : ℚ)).toRat))
        (some (truncToZero (Dbl.fin ((1 : Int) : ℚ)).toRat))) (some 0) = some n ∧
      method_setFullYear ⟨0, 1⟩ ⟨fun _ => 3600, fun _ => none⟩ ⟨0⟩
          [⟨Dbl.fin ((2024 : Int) : ℚ), false⟩, ⟨Dbl.fin ((0 : Int) : ℚ), false⟩,
            ⟨Dbl.fin ((1 : Int) : ℚ), false⟩] ⟨3600000, false, []⟩
        = ⟨some (TimeClip (Dbl.fin ((UTC ⟨fun _ => 3600, fun _ => none⟩ n 3600000 : Int) : ℚ))),
            ⟨encode ⟨0, 1⟩ (Dbl.fin ((UTC ⟨fun _ => 3600, fun _ => none⟩ n 3600000 : Int) : ℚ))⟩,
            ⟨3600000, false, [] ++ [0] ++ [1] ++ [2]⟩⟩ ∧
      (-MaxDateVal ≤ UTC ⟨fun _ => 3600, fun _ => none⟩ n 3600000 ∧
          UTC ⟨fun _ => 3600, fun _ => none⟩ n 3600000 ≤ MaxDateVal →
        TimeClip (Dbl.fin ((UTC ⟨fun _ => 3600, fun _ => none⟩ n 3600000 : Int) : ℚ))
          = Dbl.fin ((UTC ⟨fun _ => 3600, fun _ => none⟩ n 3600000 : Int) : ℚ)) ∧
      (¬ (-MaxDateVal ≤ UTC ⟨fun _ => 3600, fun _ => none⟩ n 3600000 ∧
          UTC ⟨fun _ => 3600, fun _ => none⟩ n 3600000 ≤ MaxDateVal) →
        TimeClip (Dbl.fin ((UTC ⟨fun _ => 3600, fun _ => none⟩ n 3600000 : Int) : ℚ))
          = Dbl.nan) ∧
      MakeDate (MakeDay (some 2024) (some 0) (some 1)) (some 0) = some 1704067200000 :=
  setFullYear_heals ⟨0, 1⟩ (by decide) (by decide) ⟨fun _ => 3600, fun _ => none⟩ ⟨0⟩
    ⟨3600000, false, []⟩ (Dbl.fin ((2024 : Int) : ℚ)) (Dbl.fin ((0 : Int) : ℚ))
    (Dbl.fin ((1 : Int) : ℚ)) rfl rfl rfl rfl rfl
    (by simp only [Dbl.toRat, truncToZero_intCast]; decide)
    (by simp only [Dbl.toRat, truncToZero_intCast]; decide)
    (by simp only [Dbl.toRat, truncToZero_intCast]; decide)
    (by simp only [Dbl.toRat, truncToZero_intCast]; decide)
    (by simp only [Dbl.toRat, truncToZero_intCast]; decide)
    (by simp only [Dbl.toRat, truncToZero_intCast]; decide)

/-- From NaN, `setFullYear(300000, 0, 1)`, three finite arguments, stores the sentinel and
returns NaN: the year 300000 starts after the last representable instant.  And on the
finite arguments `(2200000000, 0, 1)` the binary64 `MakeDay` has no day number: the year
estimate of `YearFromTime` is outside the range of `int`. -/
theorem setFullYear_out_of_range :
    (Dbl.fin ((300000 : Int) : ℚ)).isFinite = true ∧
    (Dbl.fin ((0 : Int) : ℚ)).isFinite = true ∧
    (Dbl.fin ((1 : Int) : ℚ)).isFinite = true ∧
    DateObject.date ⟨0, 1⟩ ⟨0⟩ = Dbl.nan ∧
    method_setFullYear ⟨0, 1⟩ ⟨fun _ => 0, fun _ => none⟩ ⟨0⟩
        [⟨Dbl.fin ((300000 : Int) : ℚ), false⟩, ⟨Dbl.fin ((0 : Int) : ℚ), false⟩,
          ⟨Dbl.fin ((1 : Int) : ℚ), false⟩] ⟨0, false, []⟩
      = ⟨some Dbl.nan, ⟨0⟩, ⟨0, false, [0, 1, 2]⟩⟩ ∧
    MakeDate (MakeDay (some 300000) (some 0) (some 1)) (some 0) = some 9404918380800000 ∧
    (Dbl.fin ((2200000000 : Int) : ℚ)).isFinite = true ∧
    Dbl.MakeDay (Dbl.fin ((2200000000 : Int) : ℚ)) (Dbl.fin ((0 : Int) : ℚ))
      (Dbl.fin ((1 : Int) : ℚ)) = none := by
  have hd : MakeDate (MakeDay (some 300000) (some 0) (some 1)) (some 0)
      = some 9404918380800000 := by decide
  refine ⟨rfl, rfl, rfl, rfl, ?_, hd, rfl, MakeDay_year_2200000000⟩
  rw [setFullYear_of_NaN ⟨0, 1⟩ ⟨fun _ => 0, fun _ => none⟩ ⟨0⟩ ⟨0, false, []⟩ _ _ _ rfl rfl,
    Dbl.toNum_int, Dbl.toNum_int, Dbl.toNum_int, hd,
    decode_encode_ofNum _ (by decide) (by decide)]
  have hu : UTC ⟨fun _ => 0, fun _ => none⟩ 9404918380800000 0 = 9404918380800000 := by decide
  have he : encode ⟨0, 1⟩ (Dbl.fin ((9404918380800000 : Int) : ℚ)) = 0 := by
    unfold encode
    rw [fabs_gt_fin]
    simp [MaxDateVal]
    intro _ h
    exfalso
    norm_num at h
  simp only [Option.map_some', Dbl.ofNum, hu, TimeClip_ofInt, he]
  rfl

/-- C23: `setUTCFullYear` does not take a NaN timestamp as `0`: from NaN it stores
the sentinel and returns NaN whatever the arguments, `setUTCFullYear(2024, 0, 1)`
among them, where `MakeDate(MakeDay(2024, 0, 1), 0)` is `1704067200000`; the
local `setFullYear` on the same input stores that value. -/
theorem setUTCFullYear_does_not_heal (c : StorageConsts) (argv : List Value)
    (v4 : ExecutionEngine) :
    DateObject.date c ⟨c.InvalidDateVal⟩ = Dbl.nan ∧
    (method_setUTCFullYear c ⟨c.InvalidDateVal⟩ argv v4).self.storage = c.InvalidDateVal ∧
    (method_setUTCFullYear c ⟨c.InvalidDateVal⟩ argv v4).value = some Dbl.nan ∧
    method_setUTCFullYear ⟨0, 1⟩ ⟨0⟩
        [⟨Dbl.fin ((2024 : Int) : ℚ), false⟩, ⟨Dbl.fin ((0 : Int) : ℚ), false⟩,
          ⟨Dbl.fin ((1 : Int) : ℚ), false⟩] ⟨0, false, []⟩
      = ⟨some Dbl.nan, ⟨0⟩, ⟨0, false, [0, 1, 2]⟩⟩ ∧
    MakeDate (MakeDay (some 2024) (some 0) (some 1)) (some 0) = some 1704067200000 ∧
    method_setFullYear ⟨0, 1⟩ ⟨fun _ => 0, fun _ => none⟩ ⟨0⟩
        [⟨Dbl.fin ((2024 : Int) : ℚ), false⟩, ⟨Dbl.fin ((0 : Int) : ℚ), false⟩,
          ⟨Dbl.fin ((1 : Int) : ℚ), false⟩] ⟨0, false, []⟩
      = ⟨some (Dbl.fin ((1704067200000 : Int) : ℚ)),
          ⟨encode ⟨0, 1⟩ (Dbl.fin ((1704067200000 : Int) : ℚ))⟩, ⟨0, false, [0, 1, 2]⟩⟩ := by
  have hd : MakeDate (MakeDay (some 2024) (some 0) (some 1)) (some 0)
      = some 1704067200000 := by decide
  refine ⟨(encode_nan c).2, (setUTCFullYear_of_NaN c argv v4).1,
    (setUTCFullYear_of_NaN c argv v4).2, ?_, hd, ?_⟩
  · unfold method_setUTCFullYear
    simp [DateObject.date, DateObject.setDate, toNumber, Dbl.toNum_int, Dbl.toNum_nan,
      MakeDate_none, Dbl.ofNum, (encode_nan ⟨0, 1⟩).1, (encode_nan ⟨0, 1⟩).2,
      show decode ⟨0, 1⟩ 0 = Dbl.nan from rfl]
  · rw [setFullYear_of_NaN ⟨0, 1⟩ ⟨fun _ => 0, fun _ => none⟩ ⟨0⟩ ⟨0, false, []⟩ _ _ _ rfl rfl,
      Dbl.toNum_int, Dbl.toNum_int, Dbl.toNum_int, hd,
      decode_encode_ofNum _ (by decide) (by decide)]
    have hu : UTC ⟨fun _ => 0, fun _ => none⟩ 1704067200000 0 = 1704067200000 := by decide
    simp only [Option.map_some', Dbl.ofNum, hu, TimeClip_ofInt]
    rfl

/-- C24: the local setters of the canonical shape do not take a NaN time as `0`:
starting from NaN, `setMonth(m, d)`, the arguments coerced without error, stores
the sentinel and returns NaN; from a valid timestamp `t`, with `L = LocalTime(t)`,
it stores and returns `UTC(MakeDate(MakeDay(YearFromTime(L), m, d), TimeWithinDay(L)), localTZA)`
clipped to storage.  The constants are such that the sum does not wrap and
the sentinel lies outside the encoded values. -/
theorem setMonth_canonical (c : StorageConsts)
    (hw : (c.Extra : Int) + 2 * MaxDateVal < 2 ^ 64)
    (hs : c.InvalidDateVal < c.Extra ∨ (c.Extra : Int) + 2 * MaxDateVal < c.InvalidDateVal)
    (host : Host) (self : DateObject) (v4 : ExecutionEngine) (m d : Dbl)
    (hex : v4.hasException = false) :
    (self.date c = Dbl.nan →
      method_setMonth c host self [⟨m, false⟩, ⟨d, false⟩] v4
        = ⟨some Dbl.nan, ⟨c.InvalidDateVal⟩, ⟨v4.localTZA, false, v4.coerced ++ [0] ++ [1]⟩⟩) ∧
    (∀ t : Int, self.date c = Dbl.fin (t : ℚ) →
      method_setMonth c host self [⟨m, false⟩, ⟨d, false⟩] v4
        = ⟨some (TimeClip (Dbl.ofNum ((MakeDate
              (MakeDay (some (YearFromTime (LocalTime host t v4.localTZA))) m.toNum d.toNum)
              (some (TimeWithinDay (LocalTime host t v4.localTZA)))).map
                (fun u => UTC host u v4.localTZA)))),
            ⟨encode c (Dbl.ofNum ((MakeDate
              (MakeDay (some (YearFromTime (LocalTime host t v4.localTZA))) m.toNum d.toNum)
              (some (TimeWithinDay (LocalTime host t v4.localTZA)))).map
                (fun u => UTC host u v4.localTZA)))⟩,
            ⟨v4.localTZA, false, v4.coerced ++ [0] ++ [1]⟩⟩) := by
  refine ⟨fun hnan => setMonth_of_NaN c host self v4 m d hnan hex, ?_⟩
  intro t ht
  rw [setMonth_of_valid c host self v4 m d t ht hex, decode_encode_ofNum c hw hs]

theorem setMonth_canonical_witness :
    (DateObject.date ⟨0, 1⟩ ⟨0⟩ = Dbl.nan →
      method_setMonth ⟨0, 1⟩ ⟨fun _ => 0, fun _ => none⟩ ⟨0⟩
          [⟨Dbl.fin ((0 : Int) : ℚ), false⟩, ⟨Dbl.fin ((1 : Int) : ℚ), false⟩] ⟨0, false, []⟩
        = ⟨some Dbl.nan, ⟨0⟩, ⟨0, false, [] ++ [0] ++ [1]⟩⟩) ∧
    (∀ t : Int, DateObject.date ⟨0, 1⟩ ⟨0⟩ = Dbl.fin (t : ℚ) →
      method_setMonth ⟨0, 1⟩ ⟨fun _ => 0, fun _ => none⟩ ⟨0⟩
          [⟨Dbl.fin ((0 : Int) : ℚ), false⟩, ⟨Dbl.fin ((1 : Int) : ℚ), false⟩] ⟨0, false, []⟩
        = ⟨some (TimeClip (Dbl.ofNum ((MakeDate
              (MakeDay (some (YearFromTime (LocalTime ⟨fun _ => 0, fun _ => none⟩ t 0)))
                (Dbl.fin ((0 : Int) : ℚ)).toNum (Dbl.fin ((1 : Int) : ℚ)).toNum)
              (some (TimeWithinDay (LocalTime ⟨fun _ => 0, fun _ => none⟩ t 0)))).map
                (fun u => UTC ⟨fun _ => 0, fun _ => none⟩ u 0)))),
            ⟨encode ⟨0, 1⟩ (Dbl.ofNum ((MakeDate
              (MakeDay (some (YearFromTime (LocalTime ⟨fun _ => 0, fun _ => none⟩ t 0)))
                (Dbl.fin ((0 : Int) : ℚ)).toNum (Dbl.fin ((1 : Int) : ℚ)).toNum)
              (some (TimeWithinDay (LocalTime ⟨fun _ => 0, fun _ => none⟩ t 0)))).map
                (fun u => UTC ⟨fun _ => 0, fun _ => none⟩ u 0)))⟩,
            ⟨0, false, [] ++ [0] ++ [1]⟩⟩) :=
  setMonth_canonical ⟨0, 1⟩ (by decide) (by decide) ⟨fun _ => 0, fun _ => none⟩ ⟨0⟩
    ⟨0, false, []⟩ (Dbl.fin ((0 : Int) : ℚ)) (Dbl.fin ((1 : Int) : ℚ)) rfl

/-- From NaN, `setMonth(0, 1)` stores the sentinel and returns NaN, while
`UTC(MakeDate(MakeDay(YearFromTime(0), 0, 1), TimeWithinDay(0)), 0)` is the instant `0` of 1970. -/
theorem setMonth_keeps_NaN :
    DateObject.date ⟨0, 1⟩ ⟨0⟩ = Dbl.nan ∧
    method_setMonth ⟨0, 1⟩ ⟨fun _ => 0, fun _ => none⟩ ⟨0⟩
        [⟨Dbl.fin ((0 : Int) : ℚ), false⟩, ⟨Dbl.fin ((1 : Int) : ℚ), false⟩] ⟨0, false, []⟩
      = ⟨some Dbl.nan, ⟨0⟩, ⟨0, false, [0, 1]⟩⟩ ∧
    (MakeDate (MakeDay (some (YearFromTime 0)) (some 0) (some 1)) (some (TimeWithinDay 0))).map
        (fun u => UTC ⟨fun _ => 0, fun _ => none⟩ u 0) = some 0 ∧
    encode ⟨0, 1⟩ (Dbl.fin ((0 : Int) : ℚ)) ≠ 0 := by
  refine ⟨rfl, ?_, by decide, ?_⟩
  · rw [setMonth_of_NaN ⟨0, 1⟩ ⟨fun _ => 0, fun _ => none⟩ ⟨0⟩ ⟨0, false, []⟩ _ _ rfl rfl]
    rfl
  · have h := (encode_fin ⟨0, 1⟩ ((0 : Int) : ℚ) (by simp [MaxDateVal]) (by decide)).2.2
    intro h0
    rw [h0] at h
    simp [Dbl.toQint64, MaxDateVal] at h

/-- C25: when the coercion of the first argument raises, `setHours` returns at once,
with one argument coerced and the receiver unchanged, but `setUTCHours`, which
does not test `hasException`, goes on to coerce the second argument and
overwrites the stored timestamp: a Date holding `0` (storage
`8640000000000001` with `Extra = 1`) holds the sentinel afterwards. -/
theorem setUTCHours_ignores_exception (c : StorageConsts) (host : Host) (self : DateObject)
    (localTZA : Int) (trace : List Nat) (x : Dbl) :
    method_setHours c host self [⟨Dbl.nan, true⟩, ⟨x, false⟩] ⟨localTZA, false, trace⟩
      = ⟨none, self, ⟨localTZA, true, trace ++ [0]⟩⟩ ∧
    method_setUTCHours c self [⟨Dbl.nan, true⟩, ⟨x, false⟩] ⟨localTZA, false, trace⟩
      = ⟨some Dbl.nan, ⟨c.InvalidDateVal⟩, ⟨localTZA, true, trace ++ [0] ++ [1]⟩⟩ ∧
    encode ⟨0, 1⟩ (Dbl.fin ((0 : Int) : ℚ)) = 8640000000000001 ∧
    DateObject.date ⟨0, 1⟩ ⟨8640000000000001⟩ = Dbl.fin ((0 : Int) : ℚ) ∧
    (method_setUTCHours ⟨0, 1⟩ ⟨8640000000000001⟩
        [⟨Dbl.nan, true⟩, ⟨Dbl.fin ((30 : Int) : ℚ), false⟩] ⟨0, false, []⟩).self.storage = 0 ∧
    (method_setUTCHours ⟨0, 1⟩ ⟨8640000000000001⟩
        [⟨Dbl.nan, true⟩, ⟨Dbl.fin ((30 : Int) : ℚ), false⟩] ⟨0, false, []⟩).v4.coerced
      = [0, 1] := by
  have hU : ∀ (c : StorageConsts) (self : DateObject) (localTZA : Int) (trace : List Nat)
      (x : Dbl),
      method_setUTCHours c self [⟨Dbl.nan, true⟩, ⟨x, false⟩] ⟨localTZA, false, trace⟩
        = ⟨some Dbl.nan, ⟨c.InvalidDateVal⟩, ⟨localTZA, true, trace ++ [0] ++ [1]⟩⟩ := by
    intro c self localTZA trace x
    unfold method_setUTCHours
    simp [toNumber, Dbl.toNum_nan, MakeTimeNum_none, MakeDate_none, Dbl.ofNum,
      DateObject.setDate, DateObject.date, (encode_nan c).1, (encode_nan c).2]
  refine ⟨?_, hU c self localTZA trace x, ?_, ?_, ?_, ?_⟩
  · unfold method_setHours
    simp [toNumber]
  · have h := (encode_fin ⟨0, 1⟩ ((0 : Int) : ℚ) (by simp [MaxDateVal]) (by decide)).2.2
    simp [Dbl.toQint64, MaxDateVal] at h
    exact_mod_cast h
  · simp [DateObject.date, decode, MaxDateVal]
  · rw [hU]
  · rw [hU]
    rfl

/-- C26: for every integer year `y` with `0 ≤ y ≤ 99` and all other components,
`componentsToTimestamp(y, ...)` equals `componentsToTimestamp(1900 + y, ...)` and
`Date.UTC(y, ...)` equals `Date.UTC(1900 + y, ...)`; the year `5` gives the start
of 1905.  `setFullYear(y)` builds a local time in the year `y` itself, whatever
the stored timestamp: no `1900` is added. -/
theorem twoDigitYear (y : Int) (h0 : 0 ≤ y) (h1 : y ≤ 99) :
    (∀ (host : Host) (month day hours mins secs ms : Dbl) (localTZA : Int),
      componentsToTimestamp host (Dbl.fin (y : ℚ)) month day hours mins secs ms localTZA
        = componentsToTimestamp host (Dbl.fin ((1900 + y : Int) : ℚ)) month day hours mins secs
            ms localTZA) ∧
    (∀ (throws : Bool) (rest : List Value) (v4 : ExecutionEngine),
      method_UTC (⟨Dbl.fin (y : ℚ), throws⟩ :: rest) v4
        = method_UTC (⟨Dbl.fin ((1900 + y : Int) : ℚ), throws⟩ :: rest) v4) ∧
    (∀ (c : StorageConsts) (host : Host) (self : DateObject) (v4 : ExecutionEngine),
      v4.hasException = false →
      ∃ l : Int, YearFromTime l = y ∧
        method_setFullYear c host self [⟨Dbl.fin (y : ℚ), false⟩] v4
          = ⟨some (decode c (encode c (Dbl.fin ((UTC host l v4.localTZA : Int) : ℚ)))),
              ⟨encode c (Dbl.fin ((UTC host l v4.localTZA : Int) : ℚ))⟩,
              ⟨v4.localTZA, false, v4.coerced ++ [0]⟩⟩) ∧
    componentsToTimestamp ⟨fun _ => 0, fun _ => none⟩ (Dbl.fin ((5 : Int) : ℚ))
        (Dbl.fin ((0 : Int) : ℚ)) (Dbl.fin ((1 : Int) : ℚ)) (Dbl.fin ((0 : Int) : ℚ))
        (Dbl.fin ((0 : Int) : ℚ)) (Dbl.fin ((0 : Int) : ℚ)) (Dbl.fin ((0 : Int) : ℚ)) 0
      = some (-2051222400000) ∧
    method_UTC [⟨Dbl.fin ((5 : Int) : ℚ), false⟩, ⟨Dbl.fin ((0 : Int) : ℚ), false⟩]
        ⟨0, false, []⟩
      = (some (Dbl.fin ((-2051222400000 : Int) : ℚ)), ⟨0, false, [0, 1]⟩) ∧
    YearFromTime (-2051222400000) = 1905 := by
  have hd : MakeDate (MakeDay (some 1905) (some 0) (some 1)) (MakeTimeNum (some 0) (some 0)
      (some 0) (some 0)) = some (-2051222400000) := by decide
  refine ⟨fun host month day hours mins secs ms localTZA =>
      componentsToTimestamp_twoDigit host y h0 h1 month day hours mins secs ms localTZA,
    fun throws rest v4 => method_UTC_twoDigit y h0 h1 throws rest v4,
    fun c host self v4 hex => setFullYear_year c host self v4 y hex, ?_, ?_, by decide⟩
  · unfold componentsToTimestamp
    simp only [(components_year 5 (by decide) (by decide)).1, Dbl.toNum_int]
    have e : ((1900 + 5 : Int)) = 1905 := by decide
    rw [e, hd]
    decide
  · rw [method_UTC_two, (UTC_year 5 (by decide) (by decide)).1, Dbl.toNum_int, Dbl.toNum_int]
    have e : ((1900 + 5 : Int)) = 1905 := by decide
    rw [e, hd]
    simp only [Dbl.ofNum, TimeClip_ofInt]
    rfl

theorem twoDigitYear_witness :
    (∀ (host : Host) (month day hours mins secs ms : Dbl) (localTZA : Int),
      componentsToTimestamp host (Dbl.fin ((5 : Int) : ℚ)) month day hours mins secs ms localTZA
        = componentsToTimestamp host (Dbl.fin ((1900 + 5 : Int) : ℚ)) month day hours mins secs
            ms localTZA) ∧
    (∀ (throws : Bool) (rest : List Value) (v4 : ExecutionEngine),
      method_UTC (⟨Dbl.fin ((5 : Int) : ℚ), throws⟩ :: rest) v4
        = method_UTC (⟨Dbl.fin ((1900 + 5 : Int) : ℚ), throws⟩ :: rest) v4) ∧
    (∀ (c : StorageConsts) (host : Host) (self : DateObject) (v4 : ExecutionEngine),
      v4.hasException = false →
      ∃ l : Int, YearFromTime l = 5 ∧
        method_setFullYear c host self [⟨Dbl.fin ((5 : Int) : ℚ), false⟩] v4
          = ⟨some (decode c (encode c (Dbl.fin ((UTC host l v4.localTZA : Int) : ℚ)))),
              ⟨encode c (Dbl.fin ((UTC host l v4.localTZA : Int) : ℚ))⟩,
              ⟨v4.localTZA, false, v4.coerced ++ [0]⟩⟩) ∧
    componentsToTimestamp ⟨fun _ => 0, fun _ => none⟩ (Dbl.fin ((5 : Int) : ℚ))
        (Dbl.fin ((0 : Int) : ℚ)) (Dbl.fin ((1 : Int) : ℚ)) (Dbl.fin ((0 : Int) : ℚ))
        (Dbl.fin ((0 : Int) : ℚ)) (Dbl.fin ((0 : Int) : ℚ)) (Dbl.fin ((0 : Int) : ℚ)) 0
      = some (-2051222400000) ∧
    method_UTC [⟨Dbl.fin ((5 : Int) : ℚ), false⟩, ⟨Dbl.fin ((0 : Int) : ℚ), false⟩]
        ⟨0, false, []⟩
      = (some (Dbl.fin ((-2051222400000 : Int) : ℚ)), ⟨0, false, [0, 1]⟩) ∧
    YearFromTime (-2051222400000) = 1905 :=
  twoDigitYear 5 (by decide) (by decide)

/-- C37: the two paths treat the finite year `99.5` differently: `componentsToTimestamp`
tests the year itself, `99.5 <= 99` fails, and the year stays `99`
(`componentsToTimestamp(99.5, 0, 1, 0, 0, 0, 0)` is the start of the year 99), while
`Date.UTC` tests the integer part `99` and takes the year `1999`
(`Date.UTC(99.5, 0)` is `915148800000`); with the host at UTC the two differ. -/
theorem twoDigitYear_fraction :
    (Dbl.fin (199 / 2)).isFinite = true ∧
    componentsToTimestamp ⟨fun _ => 0, fun _ => none⟩ (Dbl.fin (199 / 2))
        (Dbl.fin ((0 : Int) : ℚ)) (Dbl.fin ((1 : Int) : ℚ)) (Dbl.fin ((0 : Int) : ℚ))
        (Dbl.fin ((0 : Int) : ℚ)) (Dbl.fin ((0 : Int) : ℚ)) (Dbl.fin ((0 : Int) : ℚ)) 0
      = some (-59042995200000) ∧
    method_UTC [⟨Dbl.fin (199 / 2), false⟩, ⟨Dbl.fin ((0 : Int) : ℚ), false⟩] ⟨0, false, []⟩
      = (some (Dbl.fin ((915148800000 : Int) : ℚ)), ⟨0, false, [0, 1]⟩) ∧
    UTC ⟨fun _ => 0, fun _ => none⟩ 915148800000 0 = 915148800000 ∧
    YearFromTime (-59042995200000) = 99 ∧ YearFromTime 915148800000 = 1999 := by
  obtain ⟨hfin, hnum, hint, hge, hle⟩ := year_99_5
  have hd99 : MakeDate (MakeDay (some 99) (some 0) (some 1)) (MakeTimeNum (some 0) (some 0)
      (some 0) (some 0)) = some (-59042995200000) := by decide
  have hd1999 : MakeDate (MakeDay (some 1999) (some 0) (some 1)) (MakeTimeNum (some 0) (some 0)
      (some 0) (some 0)) = some 915148800000 := by decide
  refine ⟨hfin, ?_, ?_, by decide, by decide, by decide⟩
  · unfold componentsToTimestamp
    simp only [hge, hle, Bool.and_false, Bool.false_eq_true, if_false, hnum, Dbl.toNum_int, hd99]
    decide
  · have e0 : (Dbl.fin 0) = Dbl.fin ((0 : Int) : ℚ) := by norm_num
    have e99 : (Dbl.fin 99) = Dbl.fin ((99 : Int) : ℚ) := by norm_num
    have e1900 : (Dbl.fin 1900) = Dbl.fin ((1900 : Int) : ℚ) := by norm_num
    have hyear : (if (!(Dbl.fin (199 / 2)).isNaN && (toInteger (Dbl.fin (199 / 2))).ge (Dbl.fin 0)
          && (toInteger (Dbl.fin (199 / 2))).le (Dbl.fin 99))
        then Dbl.add (Dbl.fin 1900) (toInteger (Dbl.fin (199 / 2))) else Dbl.fin (199 / 2))
        = Dbl.fin ((1999 : Int) : ℚ) := by
      rw [hint, e0, e99, e1900, Dbl.ge_int, Dbl.le_int, Dbl.add_int]
      · simp [Dbl.isNaN]
      · decide
    rw [method_UTC_two, hyear, Dbl.toNum_int, Dbl.toNum_int, hd1999]
    simp only [Dbl.ofNum, TimeClip_ofInt]
    rfl

/-- C39: for every valid integer timestamp `t` and integer `h` with `0 ≤ h ≤ 23`,
`setUTCHours(h)` builds `u = MakeDate(Day(t), MakeTime(h, MinFromTime(t), SecFromTime(t), msFromTime(t)))`
with `HourFromTime(u) = h` and the day, minute, second and millisecond of `t`; when
`t < 8.64e15` or `h = 0` it stores `u` and returns the stored `u`, and at
`t = 8.64e15` with `h > 0`, where `u` is beyond the range, it stores the sentinel
and returns NaN.  The constants are such that the sum does not wrap and the
sentinel lies outside the encoded values. -/
theorem setUTCHours_frame (c : StorageConsts)
    (hw : (c.Extra : Int) + 2 * MaxDateVal < 2 ^ 64)
    (hs : c.InvalidDateVal < c.Extra ∨ (c.Extra : Int) + 2 * MaxDateVal < c.InvalidDateVal)
    (self : DateObject) (localTZA : Int) (ex : Bool) (trace : List Nat) (t h : Int)
    (ht : self.date c = Dbl.fin (t : ℚ)) (hlo : -MaxDateVal ≤ t) (hhi : t ≤ MaxDateVal)
    (h0 : 0 ≤ h) (h1 : h ≤ 23) :
    ∃ u : Int,
      u = Day t * msPerDay + MakeTime h (MinFromTime t) (SecFromTime t) (msFromTime t) ∧
      method_setUTCHours c self [⟨Dbl.fin (h : ℚ), false⟩] ⟨localTZA, ex, trace⟩
        = ⟨some (TimeClip (Dbl.fin (u : ℚ))), ⟨encode c (Dbl.fin (u : ℚ))⟩,
            ⟨localTZA, ex, trace ++ [0]⟩⟩ ∧
      HourFromTime u = h ∧ Day u = Day t ∧ MinFromTime u = MinFromTime t ∧
      SecFromTime u = SecFromTime t ∧ msFromTime u = msFromTime t ∧
      (t < MaxDateVal ∨ h = 0 →
        TimeClip (Dbl.fin (u : ℚ)) = Dbl.fin (u : ℚ) ∧
        DateObject.date c ⟨encode c (Dbl.fin (u : ℚ))⟩ = Dbl.fin (u : ℚ)) ∧
      (t = MaxDateVal ∧ 0 < h →
        TimeClip (Dbl.fin (u : ℚ)) = Dbl.nan ∧
        encode c (Dbl.fin (u : ℚ)) = c.InvalidDateVal) := by
  obtain ⟨f1, f2, f3, f4, f5, f6, f7⟩ := hour_replaced t h hlo hhi h0 h1
  refine ⟨_, rfl, ?_, f1, f2, f3, f4, f5, ?_, ?_⟩
  · rw [setUTCHours_one c self localTZA ex trace _ t ht, Dbl.toNum_int,
      decode_encode_ofNum c hw hs]
    rfl
  · intro hc
    have hin := f7.mpr hc
    have hclip := TimeClip_ofInt
      (Day t * msPerDay + MakeTime h (MinFromTime t) (SecFromTime t) (msFromTime t))
    rw [if_pos ⟨f6, hin⟩] at hclip
    refine ⟨hclip, ?_⟩
    have hd := decode_encode_ofNum c hw hs
      (some (Day t * msPerDay + MakeTime h (MinFromTime t) (SecFromTime t) (msFromTime t)))
    simp only [Dbl.ofNum] at hd
    rw [hclip] at hd
    exact hd
  · intro hc
    have hout : ¬ (-MaxDateVal ≤ Day t * msPerDay
          + MakeTime h (MinFromTime t) (SecFromTime t) (msFromTime t) ∧
        Day t * msPerDay + MakeTime h (MinFromTime t) (SecFromTime t) (msFromTime t)
          ≤ MaxDateVal) := by
      intro hin
      have := f7.mp hin.2
      omega
    refine ⟨?_, encode_out_of_range c _ hout⟩
    rw [TimeClip_ofInt, if_neg hout]

theorem setUTCHours_frame_witness :
    ∃ u : Int,
      u = Day 1000 * msPerDay + MakeTime 5 (MinFromTime 1000) (SecFromTime 1000)
        (msFromTime 1000) ∧
      method_setUTCHours ⟨0, 1⟩ ⟨8640000000001001⟩ [⟨Dbl.fin ((5 : Int) : ℚ), false⟩]
          ⟨0, false, []⟩
        = ⟨some (TimeClip (Dbl.fin (u : ℚ))), ⟨encode ⟨0, 1⟩ (Dbl.fin (u : ℚ))⟩,
            ⟨0, false, [] ++ [0]⟩⟩ ∧
      HourFromTime u = 5 ∧ Day u = Day 1000 ∧ MinFromTime u = MinFromTime 1000 ∧
      SecFromTime u = SecFromTime 1000 ∧ msFromTime u = msFromTime 1000 ∧
      (1000 < MaxDateVal ∨ (5 : Int) = 0 →
        TimeClip (Dbl.fin (u : ℚ)) = Dbl.fin (u : ℚ) ∧
        DateObject.date ⟨0, 1⟩ ⟨encode ⟨0, 1⟩ (Dbl.fin (u : ℚ))⟩ = Dbl.fin (u : ℚ)) ∧
      (1000 = MaxDateVal ∧ (0 : Int) < 5 →
        TimeClip (Dbl.fin (u : ℚ)) = Dbl.nan ∧
        encode ⟨0, 1⟩ (Dbl.fin (u : ℚ)) = 0) :=
  setUTCHours_frame ⟨0, 1⟩ (by decide) (by decide) ⟨8640000000001001⟩ 0 false [] 1000 5
    (by simp [DateObject.date, decode, MaxDateVal]) (by decide) (by decide) (by decide)
    (by decide)

/-- At the last representable instant `8.64e15`, `setUTCHours(1)` stores the sentinel and
returns NaN: one hour later is beyond the range. -/
theorem setUTCHours_at_the_end :
    DateObject.date ⟨0, 1⟩ ⟨17280000000000001⟩ = Dbl.fin ((8640000000000000 : Int) : ℚ) ∧
    method_setUTCHours ⟨0, 1⟩ ⟨17280000000000001⟩ [⟨Dbl.fin ((1 : Int) : ℚ), false⟩]
        ⟨0, false, []⟩
      = ⟨some Dbl.nan, ⟨0⟩, ⟨0, false, [0]⟩⟩ ∧
    Day 8640000000000000 * msPerDay
      + MakeTime 1 (MinFromTime 8640000000000000) (SecFromTime 8640000000000000)
          (msFromTime 8640000000000000) = 8640000003600000 := by
  have hdate : DateObject.date ⟨0, 1⟩ ⟨17280000000000001⟩
      = Dbl.fin ((8640000000000000 : Int) : ℚ) := by
    simp [DateObject.date, decode, MaxDateVal]
  have hu : MakeDate (some (Day 8640000000000000))
      (MakeTimeNum (some 1) (some (MinFromTime 8640000000000000))
        (some (SecFromTime 8640000000000000)) (some (msFromTime 8640000000000000)))
      = some 8640000003600000 := by decide
  refine ⟨hdate, ?_, by decide⟩
  rw [setUTCHours_one ⟨0, 1⟩ ⟨17280000000000001⟩ 0 false [] _ 8640000000000000 hdate,
    Dbl.toNum_int, hu]
  have he : encode ⟨0, 1⟩ (Dbl.fin ((8640000003600000 : Int) : ℚ)) = 0 :=
    encode_out_of_range ⟨0, 1⟩ 8640000003600000 (by decide)
  simp only [Dbl.ofNum, he]
  rfl

/-! ## Time fields and the time zone adapter, continued -/

/-- C31: for every integer `t`, negative ones included,
`MakeDate(Day(t), MakeTime(HourFromTime(t), MinFromTime(t), SecFromTime(t), msFromTime(t))) = t`;
`TimeWithinDay(t)` is `MakeTime` of the four extracted time fields and
`t = Day(t) * 86400000 + TimeWithinDay(t)`.  One millisecond before the epoch is day
`-1` at `23:59:59.999`. -/
theorem time_fields_recompose (t : Int) :
    MakeDate (some (Day t))
      (some (MakeTime (HourFromTime t) (MinFromTime t) (SecFromTime t) (msFromTime t)))
      = some t ∧
    TimeWithinDay t = MakeTime (HourFromTime t) (MinFromTime t) (SecFromTime t) (msFromTime t) ∧
    t = Day t * 86400000 + TimeWithinDay t ∧
    Day (-1) = -1 ∧ HourFromTime (-1) = 23 ∧ MinFromTime (-1) = 59 ∧ SecFromTime (-1) = 59 ∧
    msFromTime (-1) = 999 := by
  have h1 := MakeTime_fields t
  have h2 := TimeWithinDay_eq t
  have h3 : t = Day t * 86400000 + TimeWithinDay t := by
    rw [h2]
    unfold Day msPerDay
    omega
  refine ⟨?_, h1.symm, h3, by decide, by decide, by decide, by decide, by decide⟩
  rw [h1]
  unfold MakeDate
  simp only [Option.some.injEq]
  unfold msPerDay
  omega

/-- C32: `LocalTime` does not depend on the standard offset: for every timestamp `t` and
any two values `a`, `b` of `localTZA`, `LocalTime(t, a) = LocalTime(t, b) = t + getUtcOffset(t) * 1000`;
so every local getter, and `ToString` with the offset it computes, give the
same result for `a` and for `b`. -/
theorem LocalTime_independent (host : Host) (t a b : Int) :
    LocalTime host t a = LocalTime host t b ∧
    LocalTime host t a = t + host.getUtcOffset t * 1000 ∧
    a + DaylightSavingTA host t a = b + DaylightSavingTA host t b ∧
    (∀ (qt : QtText) (u : Option Int), ToString qt host u a = ToString qt host u b) ∧
    (∀ u : Option Int,
      method_getYear host u a = method_getYear host u b ∧
      method_getFullYear host u a = method_getFullYear host u b ∧
      method_getMonth host u a = method_getMonth host u b ∧
      method_getDate host u a = method_getDate host u b ∧
      method_getDay host u a = method_getDay host u b ∧
      method_getHours host u a = method_getHours host u b ∧
      method_getMinutes host u a = method_getMinutes host u b ∧
      method_getSeconds host u a = method_getSeconds host u b ∧
      method_getMilliseconds host u a = method_getMilliseconds host u b ∧
      method_getTimezoneOffset host u a = method_getTimezoneOffset host u b) := by
  refine ⟨by rw [LocalTime_eq, LocalTime_eq], LocalTime_eq host t a,
    by rw [tzoffset_eq, tzoffset_eq], fun qt u => ToString_localTZA qt host u a b, ?_⟩
  intro u
  simp only [method_getYear, method_getFullYear, method_getMonth, method_getDate, method_getDay,
    method_getHours, method_getMinutes, method_getSeconds, method_getMilliseconds,
    method_getTimezoneOffset, LocalTime_eq, and_self]

/-- C33: if the host offset is the same at every instant, then for every timestamp `t`
and every `localTZA`, `UTC(LocalTime(t, localTZA), localTZA) = t` and
`LocalTime(UTC(t, localTZA), localTZA) = t`. -/
theorem LocalTime_UTC_inverse (host : Host)
    (hconst : ∀ x y : Int, host.getUtcOffset x = host.getUtcOffset y) (t localTZA : Int) :
    UTC host (LocalTime host t localTZA) localTZA = t ∧
    LocalTime host (UTC host t localTZA) localTZA = t := by
  rw [LocalTime_eq, UTC_eq, UTC_eq, LocalTime_eq]
  constructor
  · rw [hconst (t + host.getUtcOffset t * 1000 - localTZA) t]
    ring
  · rw [hconst (t - host.getUtcOffset (t - localTZA) * 1000) (t - localTZA)]
    ring

theorem LocalTime_UTC_inverse_witness :
    UTC ⟨fun _ => 19800, fun _ => none⟩ (LocalTime ⟨fun _ => 19800, fun _ => none⟩ 1000 3600000)
      3600000 = 1000 ∧
    LocalTime ⟨fun _ => 19800, fun _ => none⟩ (UTC ⟨fun _ => 19800, fun _ => none⟩ 1000 3600000)
      3600000 = 1000 :=
  LocalTime_UTC_inverse ⟨fun _ => 19800, fun _ => none⟩ (fun _ _ => rfl) 1000 3600000

/-- C34: for every timestamp `t` with `|t| ≤ 8.64e15`, `-271821 ≤ YearFromTime(t) ≤ 275760`; the
year estimate of `YearFromTime` fits a 32-bit `int`, and `toISOString` returns a
string: the range error for `|year| ≥ 1000000` is not raised. -/
theorem YearFromTime_in_range (t : Int) (hlo : -MaxDateVal ≤ t) (hhi : t ≤ MaxDateVal) :
    -271821 ≤ YearFromTime t ∧ YearFromTime t ≤ 275760 ∧
    -2 ^ 31 ≤ yearEstimate t ∧ yearEstimate t < 2 ^ 31 ∧
    (YearFromTime t).natAbs < 1000000 ∧
    (∃ str, method_toISOString (some t) = Except.ok str) ∧
    method_toISOString (some t) ≠ Except.error JsError.rangeError := by
  have hy := YearFromTime_range t hlo hhi
  have he := yearEstimate_near t
  obtain ⟨m, d, -, -, -, -, -, -, hs⟩ := toISOString_eq t hlo hhi
  refine ⟨hy.1, hy.2, by omega, by omega, by omega, ⟨_, hs⟩, ?_⟩
  rw [hs]
  intro h
  cases h

theorem YearFromTime_in_range_witness :
    -271821 ≤ YearFromTime 8640000000000000 ∧ YearFromTime 8640000000000000 ≤ 275760 ∧
    -2 ^ 31 ≤ yearEstimate 8640000000000000 ∧ yearEstimate 8640000000000000 < 2 ^ 31 ∧
    (YearFromTime 8640000000000000).natAbs < 1000000 ∧
    (∃ str, method_toISOString (some 8640000000000000) = Except.ok str) ∧
    method_toISOString (some 8640000000000000) ≠ Except.error JsError.rangeError :=
  YearFromTime_in_range 8640000000000000 (by decide) (by decide)

/-! ## The scan of the parser, continued -/

/-- C38: the scan stops at the zone designator `Z`: if the primary scan accepts a string
`s` that ends with `Z`, then for every string `x` of further characters it
accepts `s` followed by `x`, with the same variables, and `ParseString` returns
the same timestamp as for `s`. -/
theorem scan_stops_at_Z (host : Host) (localTZA : Int) (s x : QString)
    (hZ : ∃ p, s = p ++ ['Z'.toNat]) (hacc : (primaryScan s).error = false) :
    (primaryScan (s ++ x)).error = false ∧
    primaryScan (s ++ x) = primaryScan s ∧
    ParseString host (s ++ x) localTZA = ParseString host s localTZA := by
  obtain ⟨p, rfl⟩ := hZ
  have h := primaryScan_after_Z p x
  refine ⟨by rw [h]; exact hacc, h, ?_⟩
  unfold ParseString
  simp only [h, hacc, Bool.not_false, if_true]

theorem scan_stops_at_Z_witness :
    (primaryScan (qstr "2023-03-05T07:08Z" ++ qstr " and more")).error = false ∧
    primaryScan (qstr "2023-03-05T07:08Z" ++ qstr " and more")
      = primaryScan (qstr "2023-03-05T07:08Z") ∧
    ParseString ⟨fun _ => 0, fun _ => none⟩ (qstr "2023-03-05T07:08Z" ++ qstr " and more") 0
      = ParseString ⟨fun _ => 0, fun _ => none⟩ (qstr "2023-03-05T07:08Z") 0 :=
  scan_stops_at_Z ⟨fun _ => 0, fun _ => none⟩ 0 (qstr "2023-03-05T07:08Z") (qstr " and more")
    ⟨qstr "2023-03-05T07:08", by decide⟩ (by decide)

/-- C35: on `"2023-01-01T00:00+01x"` the assertion `Q_ASSERT(offset == 0 && !seenZ)` of
`case TimezoneHour` fails: the `x` after the zone hour leaves the scan in the
`TimezoneHour` field with `offset = 60` and `seenZ` set, and the terminating null
runs the switch there again.  Without the `x` every assertion holds. -/
theorem scan_assertion_fails :
    primaryScanAsserts (qstr "2023-01-01T00:00+01x") = false ∧
    scanLoop ScanState.initial (qstr "2023-01-01T00:00+01x")
      = ⟨7, 0, 0, false, 1, 2023, 0, 1, 0, 0, 0, 0, 1, 60, true, true, false⟩ ∧
    assertionsHold ⟨7, 0, 0, false, 1, 2023, 0, 1, 0, 0, 0, 0, 1, 60, true, true, false⟩ 0
      = false ∧
    primaryScanAsserts (qstr "2023-01-01T00:00+01") = true := by
  refine ⟨by decide, by decide, by decide, by decide⟩

/-- C36: on `"9999999999"` the pending number is `9999999999` after the tenth digit,
above the largest 32-bit `int`, and no width has been checked yet: the scan is
still in the `Year` field without error. -/
theorem scan_accumulator_overflows :
    (scanLoop ScanState.initial (qstr "9999999999")).current = 9999999999 ∧
    (scanLoop ScanState.initial (qstr "9999999999")).currentSize = 10 ∧
    (scanLoop ScanState.initial (qstr "9999999999")).format = Format.Year ∧
    (scanLoop ScanState.initial (qstr "9999999999")).error = false ∧
    (2 : Int) ^ 31 - 1 < (scanLoop ScanState.initial (qstr "9999999999")).current ∧
    (2 : Int) ^ 31 - 1 < (scanLoop ScanState.initial (qstr "999999999")).current * 10 := by
  refine ⟨by decide, by decide, by decide, by decide, by decide, by decide⟩

end QV4
